import Mathlib

/-!
# Mode 6 control-plane responder of ntpd (`ntpd/ntp_control.c`)

A shallow embedding of the response-building and dispatching code of
`ntp_control.c`: the static response packet `rpkt`, the write cursor
`datapt`, the per-request `res_*` variables and the statistics counters are
the fields of one state record that every routine takes and returns.
Datagrams handed to `sendpkt` are appended to the `sent` field, oldest first.

Conventions.
* A byte is a natural number below 256; buffers are lists of bytes.
* Pointers into `rpkt.data` (`datapt`) and into the request data area
  (`reqpt`, `reqend`) are offsets from the start of the respective array.
* Header fields are kept as host values; `htons`/`ntohs` are the reduction
  modulo `2^16` of the value stored.
* The statistics counters (`u_long`) and `res_offset` (`int`) are unbounded
  naturals: they only ever grow by small steps from zero.
-/

namespace NtpControl

/-! ## Constants -/

/-- Modelled from the spec: `CTL_HEADER_LEN`, the offset of `data` in
`struct ntp_control` (ntp_control.h is not among the sources); the spec gives
the fixed header as 12 bytes. -/
def CTL_HEADER_LEN : Nat := 12

/-- Modelled from the spec: `CTL_MAX_DATA_LEN`, the largest data area of one
datagram (468 octets). -/
def CTL_MAX_DATA_LEN : Nat := 468

/-- Modelled from the spec: the Response flag, the top bit of the packed
`r_m_e_op` byte (three flag bits Response, More, Error, then a 5-bit opcode). -/
def CTL_RESPONSE : Nat := 0x80

/-- Modelled from the spec: the More flag of `r_m_e_op`. -/
def CTL_MORE : Nat := 0x40

/-- Modelled from the spec: the Error flag of `r_m_e_op`. -/
def CTL_ERROR : Nat := 0x20

/-- Modelled from the spec: the mask of the 5-bit opcode of `r_m_e_op`. -/
def CTL_OP_MASK : Nat := 0x1f

/-- Modelled from the spec: the mode value of control messages. -/
def MODE_CONTROL : Nat := 6

/-- The longest text line `ctl_putdata` lets grow before it wraps. -/
def MAXDATALINELEN : Nat := 72

/-- Modelled from the spec: error codes of section 6.4. -/
def CERR_UNSPEC : Nat := 0
/-- Modelled from the spec: error code BADFMT. -/
def CERR_BADFMT : Nat := 1
/-- Modelled from the spec: error code PERMISSION. -/
def CERR_PERMISSION : Nat := 2
/-- Modelled from the spec: error code BADOP. -/
def CERR_BADOP : Nat := 3
/-- Modelled from the spec: error code BADASSOC. -/
def CERR_BADASSOC : Nat := 4
/-- Modelled from the spec: error code UNKNOWNVAR. -/
def CERR_UNKNOWNVAR : Nat := 5
/-- Modelled from the spec: error code BADVALUE. -/
def CERR_BADVALUE : Nat := 6

/-- Modelled from the spec: opcode values of the table in section 4.7. -/
def CTL_OP_UNSPEC : Nat := 0
/-- Modelled from the spec: opcode READSTAT. -/
def CTL_OP_READSTAT : Nat := 1
/-- Modelled from the spec: opcode READVAR. -/
def CTL_OP_READVAR : Nat := 2
/-- Modelled from the spec: opcode WRITEVAR. -/
def CTL_OP_WRITEVAR : Nat := 3
/-- Modelled from the spec: opcode READCLOCK. -/
def CTL_OP_READCLOCK : Nat := 4
/-- Modelled from the spec: opcode WRITECLOCK. -/
def CTL_OP_WRITECLOCK : Nat := 5
/-- Modelled from the spec: opcode CONFIGURE. -/
def CTL_OP_CONFIGURE : Nat := 6
/-- Modelled from the spec: opcode READ_MRU. -/
def CTL_OP_READ_MRU : Nat := 10
/-- Modelled from the spec: opcode READ_ORDLIST_A. -/
def CTL_OP_READ_ORDLIST_A : Nat := 12
/-- Modelled from the spec: opcode REQ_NONCE. -/
def CTL_OP_REQ_NONCE : Nat := 13

/-- The sentinel code ending `control_codes`. -/
def NO_REQUEST : Int := -1
/-- Flag word of an opcode that needs no authentication. -/
def NOAUTH : Nat := 0
/-- Flag word of an opcode that needs authentication. -/
def AUTH : Nat := 1

/-- Modelled from the spec: `PKT_VERSION`, the 3-bit version field between the
2-bit leap field and the 3-bit mode field of `li_vn_mode`. -/
def PKT_VERSION (li_vn_mode : Nat) : Nat := (li_vn_mode >>> 3) &&& 0x7

/-- Modelled from the spec: `PKT_LI_VN_MODE`, packing leap, version and mode
into one byte. -/
def PKT_LI_VN_MODE (li vn md : Nat) : Nat :=
  ((li <<< 6) &&& 0xc0) ||| ((vn <<< 3) &&& 0x38) ||| (md &&& 0x7)

/-! ## Data model -/

/-- The response packet `struct ntp_control` (`rpkt`): the seven header fields
and the data buffer, which also receives the MAC. -/
structure ntp_control where
  li_vn_mode : Nat
  r_m_e_op : Nat
  sequence : Nat
  status : Nat
  associd : Nat
  offset : Nat
  count : Nat
  data : List Nat
deriving DecidableEq, Repr

/-- One datagram as handed to `sendpkt`: the header fields of `rpkt` at that
moment, the length passed, and the bytes of `rpkt.data` that fall inside that
length (data area, padding and MAC). -/
structure Datagram where
  li_vn_mode : Nat
  r_m_e_op : Nat
  sequence : Nat
  status : Nat
  associd : Nat
  offset : Nat
  count : Nat
  len : Nat
  data : List Nat
deriving DecidableEq, Repr

/-- A socket address `sockaddr_u` (ntp_net.h is not among the sources): the
address family, the address bytes and the port. `ZERO` of a `sockaddr_u` is
the default value, whose family 0 is `AF_UNSPEC`. -/
structure sockaddr_u where
  family : Nat := 0
  addr : List Nat := []
  port : Nat := 0
deriving DecidableEq, Repr

/-- The receive buffer: the datagram length and the bytes of `recv_pkt`, the
source address `recv_srcadr` and the receive timestamp `recv_time` (an `l_fp`:
a 64-bit value, seconds in the upper 32 bits). -/
structure recvbuf where
  recv_length : Nat
  recv_pkt : List Nat
  recv_srcadr : sockaddr_u := {}
  recv_time : Nat := 0
deriving DecidableEq, Repr

/-- An entry `mon_entry` of the MRU list, with the fields that
`ntp_control.c` reads: remote address, last and first seen (`l_fp`), packet
count (`int`), mode and version, restrict flags (`u_short`) and a handle of the
local endpoint `lcladr`. -/
structure mon_entry where
  rmtadr : sockaddr_u := {}
  last : Nat := 0
  first : Nat := 0
  count : Int := 0
  vn_mode : Nat := 0
  flags : Nat := 0
  lcladr : Nat := 0
deriving DecidableEq, Repr

/-- A local endpoint `endpt`, with the fields that `send_ifstats_entry`
reads. -/
structure endpt where
  ifnum : Nat := 0
  sin : sockaddr_u := {}
  bcast : sockaddr_u := {}
  flags : Nat := 0
  ignore_packets : Bool := false
  name : List Nat := []
  last_ttl : Int := 0
  num_mcast : Int := 0
  received : Int := 0
  sent : Int := 0
  notsent : Int := 0
  peercnt : Nat := 0
  starttime : Nat := 0
deriving DecidableEq, Repr

/-- An entry `restrict_u` of a restrict list: the IPv4 address and mask (host
order words) or the IPv6 address and mask (16 bytes each), the hit count and
the two flag words. -/
structure restrict_u where
  addr4 : Nat := 0
  mask4 : Nat := 0
  addr6 : List Nat := []
  mask6 : List Nat := []
  count : Nat := 0
  mflags : Nat := 0
  flags : Nat := 0
deriving DecidableEq, Repr

/-- What `config_remotely` leaves in `remote_config`: the number of errors,
the message buffer `err_msg` and the length `err_pos` of the text in it. -/
structure config_outcome where
  no_errors : Int := 0
  err_msg : List Nat := []
  err_pos : Nat := 0
deriving DecidableEq, Repr

/-- Collaborators and platform constants that `ntp_control.c` uses but does
not define. -/
structure Env where
  /-- The current protocol version `NTP_VERSION`. -/
  NTP_VERSION : Nat
  /-- The oldest accepted version `NTP_OLDVERSION`. -/
  NTP_OLDVERSION : Nat
  /-- The shortest MAC `MIN_MAC_LEN`. -/
  MIN_MAC_LEN : Nat
  /-- The longest MAC `MAX_MAC_LEN`. -/
  MAX_MAC_LEN : Nat
  /-- The system leap indicator `sys_leap`. -/
  sys_leap : Nat
  /-- The key store: `authistrusted(keyid)`. -/
  authistrusted : Nat → Bool
  /-- The key store: `authdecrypt(keyid, pkt, length, maclen)` on the bytes
  of the received packet. -/
  authdecrypt : Nat → List Nat → Nat → Nat → Bool
  /-- The key store: the digest `authencrypt` computes for a key id over the
  message bytes. -/
  compute_mac : Nat → List Nat → List Nat
  /-- The system status word `ctlsysstatus()` as a function of
  `ctl_sys_num_events`; its other inputs do not change during a request. -/
  ctlsysstatus : Nat → Nat
  /-- The peer store: `findpeerbyassoc(associd)`, a handle of the peer. -/
  findpeerbyassoc : Nat → Option Nat
  /-- The status word `ctlpeerstatus(peer)`. -/
  ctlpeerstatus : Nat → Nat
  /-- The text tokens `ctl_putpeer(id, peer)` hands to `ctl_putdata`. -/
  ctl_putpeer : Nat → Nat → List (List Nat)
  /-- The text tokens `ctl_putsys(varid)` hands to `ctl_putdata`, formatted
  from the system state. -/
  ctl_putsys : Nat → List (List Nat)
  /-- The clock `current_time`. -/
  current_time : Nat
  /-- Whether `NLOG(NLOG_SYSEVENT)` lets system events be logged. -/
  nlog_sysevent : Bool
  /-- The leap bits `LEAP_NOTINSYNC` of ntp.h. -/
  LEAP_NOTINSYNC : Nat
  /-- Whether the C library's `strtol` sets `errno` (to EINVAL) when it finds
  no digit to convert; the C standard leaves this open. -/
  strtol_einval : Bool
  /-- The restrict bit `RES_NOMODIFY` of ntp.h. -/
  RES_NOMODIFY : Nat
  /-- The restrict bit `RES_NOMRULIST` of ntp.h. -/
  RES_NOMRULIST : Nat
  /-- The size `sizeof(remote_config.buffer)`. -/
  remote_config_buffer_size : Nat
  /-- The configuration collaborator `config_remotely`, as a function of the
  bytes of `remote_config.buffer`. -/
  config_remotely : List Nat → config_outcome
  /-- The lifetime `NONCE_TIMEOUT` of a nonce, in seconds. -/
  NONCE_TIMEOUT : Nat
  /-- The largest `limit` of an MRU request without `frags`, `MRU_ROW_LIMIT`. -/
  MRU_ROW_LIMIT : Nat
  /-- The largest `frags` of an MRU request, `MRU_FRAGS_LIMIT`. -/
  MRU_FRAGS_LIMIT : Nat
  /-- The clock `get_systime`, an `l_fp`. -/
  systime : Nat
  /-- The 32 bits `d.extract` of the MD5 digest that `derive_nonce` computes
  over the salt, the two timestamp words, the address and port of the client
  and the salt again. -/
  nonce_digest : List Nat → Nat → Nat → sockaddr_u → Nat
  /-- The random source: the value of the `k`-th call of `ntp_random()`,
  counted from 0, a 32-bit draw. -/
  ntp_random : Nat → Nat
  /-- The MRU list `mon_mru_list`, newest entry first. An entry is referred to
  by its position in this list. -/
  mon_mru_list : List mon_entry
  /-- The hash `MON_HASH` of an address. -/
  MON_HASH : sockaddr_u → Nat
  /-- The hash table `mon_hash`: the chain of a bucket, as positions in
  `mon_mru_list`, in the order of the `hash_next` links. -/
  mon_hash : Nat → List Nat
  /-- The number `mru_entries` of entries in the MRU list. -/
  mru_entries : Nat
  /-- The text `sockporttoa` prints for an address and port. -/
  sockporttoa : sockaddr_u → List Nat
  /-- The text `socktoa` prints for an address. -/
  socktoa : sockaddr_u → List Nat
  /-- The conversion `decodenetnum` of a text to an address; `none` when it
  fails. -/
  decodenetnum : List Nat → Option sockaddr_u
  /-- The endpoint `getinterface(&laddr, 0)` finds for an address, as a
  handle; `none` for NULL. -/
  getinterface : sockaddr_u → Option Nat
  /-- The endpoint list `ep_list`, in the order of the `elink` links. -/
  ep_list : List endpt
  /-- The number `sys_ifnum` of endpoint numbers handed out. -/
  sys_ifnum : Nat
  /-- The restrict list `restrictlist4`, in the order of the `link` links. -/
  restrictlist4 : List restrict_u
  /-- The restrict list `restrictlist6`. -/
  restrictlist6 : List restrict_u
  /-- The text `res_match_flags` prints for the match flags of a restriction. -/
  res_match_flags : Nat → List Nat
  /-- The text `res_access_flags` prints for the access flags. -/
  res_access_flags : Nat → List Nat
  /-- The peer list `peer_list`, as handles of the peers in the order of the
  `p_link` links. -/
  peer_list : List Nat
  /-- The association id `peer->associd` of a peer. -/
  peer_associd : Nat → Nat

/-- The flag word of a variable descriptor. The bit values are defined in
ntp_control.h, which is not among the sources; the code only ever tests and
copies the flags, so each one is kept as a boolean. -/
structure var_flags where
  can_read : Bool := false
  can_write : Bool := false
  deflt : Bool := false
  padding : Bool := false
  eov : Bool := false
deriving DecidableEq, Repr

/-- Flag word `RO`: readable only. -/
def RO : var_flags := { can_read := true }
/-- Flag word `RW`: readable and writable. -/
def RW : var_flags := { can_read := true, can_write := true }
/-- Flag word `PADDING`. -/
def PADDING : var_flags := { padding := true }
/-- Flag word `EOV`: the end-of-vector sentinel. -/
def EOV : var_flags := { eov := true }

/-- A variable descriptor `struct ctl_var`; `text` is the C string without
its terminating NUL, `none` for a NULL pointer. -/
structure ctl_var where
  code : Nat
  flags : var_flags
  text : Option (List Nat)
deriving DecidableEq, Repr

/-- The file-scope state of `ntp_control.c`. -/
structure CtlState where
  rpkt : ntp_control
  res_version : Nat := 0
  res_opcode : Nat := 0
  res_associd : Nat := 0
  res_frags : Nat := 0
  res_offset : Nat := 0
  /-- The write cursor, as `datapt - rpkt.data`. -/
  datapt : Nat := 0
  datalinelen : Nat := 0
  datasent : Bool := false
  datanotbinflag : Bool := false
  res_authenticate : Bool := false
  res_authokay : Bool := false
  res_keyid : Nat := 0
  ctl_auth_keyid : Nat := 0
  /-- The request data area `pkt->data` that `reqpt` and `reqend` point into. -/
  reqdata : List Nat := []
  reqpt : Nat := 0
  reqend : Nat := 0
  ctl_sys_num_events : Nat := 0
  ext_sys_var : Option (List ctl_var) := none
  numctlreq : Nat := 0
  numctlbadpkts : Nat := 0
  numctlresponses : Nat := 0
  numctlfrags : Nat := 0
  numctlerrors : Nat := 0
  numctltooshort : Nat := 0
  numctlinputresp : Nat := 0
  numctlinputfrag : Nat := 0
  numctlinputerr : Nat := 0
  numctlbadoffset : Nat := 0
  numctlbadversion : Nat := 0
  numctldatatooshort : Nat := 0
  numctlbadop : Nat := 0
  /-- The static `quiet_until` of `ctl_getitem`. -/
  quiet_until : Nat := 0
  /-- Number of warnings passed to `msyslog`. -/
  syslog_warnings : Nat := 0
  /-- The peers whose `num_events` a handler has reset to 0. -/
  cleared_peers : List Nat := []
  /-- Set when an `NTP_INSIST` fails and the daemon aborts. -/
  aborted : Bool := false
  /-- The static `salt` of `derive_nonce`, four 32-bit words. -/
  salt : List Nat := [0, 0, 0, 0]
  /-- The static `last_salt_update` of `derive_nonce`. -/
  last_salt_update : Nat := 0
  /-- The number of calls of `ntp_random()` made so far. -/
  random_calls : Nat := 0
  /-- The static `countdown` of `read_mru_list`. -/
  countdown : Nat := 0
  /-- The counter `sys_restricted`. -/
  sys_restricted : Nat := 0
  /-- The bytes of `remote_config.buffer` written so far. -/
  remote_config_buffer : List Nat := []
  /-- Ghost field, never read by the code: the contents of
  `remote_config.buffer` at each call of `config_remotely`, oldest first. -/
  config_runs : List (List Nat) := []
  /-- Set when the salt loop of `derive_nonce` is given up before it ends. -/
  stuck : Bool := false
  /-- Ghost field, never read by the code: the largest value `datapt` has
  taken since the state was created. -/
  datapt_hi : Nat := 0
  /-- The datagrams passed to `sendpkt` so far, oldest first. -/
  sent : List Datagram := []
deriving DecidableEq, Repr

/-! ## Buffer primitives -/

/-- The bytes of an ASCII string. -/
def str (t : String) : List Nat := t.toList.map Char.toNat

/-- Byte `i` of a buffer (0 beyond its end), reduced to a byte. -/
def byteAt (b : List Nat) (i : Nat) : Nat := (b.getD i 0) % 256

/-- The big-endian 16-bit value at offset `i`. -/
def be16 (b : List Nat) (i : Nat) : Nat := byteAt b i * 256 + byteAt b (i + 1)

/-- The big-endian 32-bit value at offset `i`. -/
def be32 (b : List Nat) (i : Nat) : Nat := be16 b i * 65536 + be16 b (i + 2)

/-- The four bytes of a 32-bit value in network order (`htonl`). -/
def htonl_bytes (v : Nat) : List Nat :=
  [(v / 16777216) % 256, (v / 65536) % 256, (v / 256) % 256, v % 256]

/-- The call `memcpy(buf + at, src, |src|)`. -/
def memcpy (buf : List Nat) (pos : Nat) (src : List Nat) : List Nat :=
  buf.take pos ++ src ++ buf.drop (pos + src.length)

/-- The call `memset(buf + from, 0, sizeof buf - from)`. -/
def memset_tail (buf : List Nat) (pos : Nat) : List Nat :=
  buf.take pos ++ List.replicate (buf.length - pos) 0

/-- The loop `while (n & mask) n++`, run for at most `fuel` steps. -/
def pad_loop (mask : Nat) : Nat → Nat → Nat
  | 0, n => n
  | fuel + 1, n => if n &&& mask ≠ 0 then pad_loop mask fuel (n + 1) else n

/-- The 12 header bytes of the response packet as they go on the wire. -/
def header_bytes (p : ntp_control) : List Nat :=
  [p.li_vn_mode % 256, p.r_m_e_op % 256,
   (p.sequence / 256) % 256, p.sequence % 256,
   (p.status / 256) % 256, p.status % 256,
   (p.associd / 256) % 256, p.associd % 256,
   (p.offset / 256) % 256, p.offset % 256,
   (p.count / 256) % 256, p.count % 256]

/-! ## Sending -/

/-- The call `sendpkt(rmt_addr, lcl_inter, &rpkt, len)`: record the first
`len` bytes of `rpkt`. -/
def sendpkt (s : CtlState) (len : Nat) : CtlState :=
  { s with sent := s.sent ++ [{
      li_vn_mode := s.rpkt.li_vn_mode, r_m_e_op := s.rpkt.r_m_e_op,
      sequence := s.rpkt.sequence, status := s.rpkt.status,
      associd := s.rpkt.associd, offset := s.rpkt.offset,
      count := s.rpkt.count, len := len,
      data := s.rpkt.data.take (len - CTL_HEADER_LEN) }] }

/-- Modelled from the spec: `authencrypt(keyid, &rpkt, length)`, which is not
among the sources. The collaborator `compute_mac(key_id, message_bytes)`
gives the digest over the first `length` bytes of the packet; it is stored
after the 4-byte key id slot at `length`, and the MAC length returned is the
key id plus the digest. -/
def authencrypt (env : Env) (keyid : Nat) (p : ntp_control) (length : Nat) :
    ntp_control × Nat :=
  let msg := header_bytes p ++ p.data.take (length - CTL_HEADER_LEN)
  let digest := env.compute_mac keyid msg
  ({ p with data := memcpy p.data (length - CTL_HEADER_LEN + 4) digest },
   4 + digest.length)

/-- Move the write cursor, keeping the ghost high-water mark. -/
def set_datapt (s : CtlState) (p : Nat) : CtlState :=
  { s with datapt := p, datapt_hi := max s.datapt_hi p }

/-- The statement `*datapt++ = c`. -/
def put_byte (s : CtlState) (c : Nat) : CtlState :=
  set_datapt { s with rpkt := { s.rpkt with data := memcpy s.rpkt.data s.datapt [c] } }
    (s.datapt + 1)

/-- The routine `ctl_error`: send an error response for the current request. -/
def ctl_error (env : Env) (errcode : Nat) (s : CtlState) : CtlState :=
  let s1 := { s with
    numctlerrors := s.numctlerrors + 1,
    rpkt := { s.rpkt with
      r_m_e_op := CTL_RESPONSE ||| CTL_ERROR ||| (s.res_opcode &&& CTL_OP_MASK),
      status := ((errcode <<< 8) % 65536) &&& 0xff00,
      count := 0 } }
  if s1.res_authenticate then
    let r := authencrypt env s1.res_keyid s1.rpkt CTL_HEADER_LEN
    sendpkt { s1 with rpkt := r.1 } (CTL_HEADER_LEN + r.2)
  else
    sendpkt s1 CTL_HEADER_LEN

/-- The "big hack" that opens `ctl_flushpkt`: on the last flush of a text
response, output a trailing CR LF if `dlen + 2 < CTL_MAX_DATA_LEN`. -/
def flush_crlf (more : Nat) (s : CtlState) : CtlState :=
  if more = 0 ∧ s.datanotbinflag = true ∧ s.datapt + 2 < CTL_MAX_DATA_LEN
  then put_byte (put_byte s 13) 10 else s

/-- The routine `ctl_flushpkt`: write out the current packet and prepare
another. `more` is `CTL_MORE` or 0. -/
def ctl_flushpkt (env : Env) (more : Nat) (s : CtlState) : CtlState :=
  -- dlen = datapt - rpkt.data, after the trailing CR LF hack
  let s1 := flush_crlf more s
  let dlen := s1.datapt
  let sendlen0 := dlen + CTL_HEADER_LEN
  -- memset(rpkt.data + sendlen, '\0', sizeof(rpkt.data) - sendlen)
  let buf := memset_tail s1.rpkt.data sendlen0
  -- pad to a multiple of 32 bits
  let sendlen := pad_loop 0x3 4 sendlen0
  let p : ntp_control := { s1.rpkt with
    data := buf,
    r_m_e_op := CTL_RESPONSE ||| more ||| (s1.res_opcode &&& CTL_OP_MASK),
    count := dlen % 65536,
    offset := s1.res_offset % 65536 }
  let s2 := { s1 with rpkt := p }
  let s3 :=
    if s2.res_authenticate then
      let totlen := pad_loop 7 8 sendlen
      -- memcpy(datapt, &keyid, sizeof(keyid))
      let p1 := { p with data := memcpy p.data s2.datapt (htonl_bytes s2.res_keyid) }
      let r := authencrypt env s2.res_keyid p1 totlen
      sendpkt { s2 with rpkt := r.1 } (totlen + r.2)
    else
      sendpkt s2 sendlen
  let s4 := if more ≠ 0 then { s3 with numctlfrags := s3.numctlfrags + 1 }
            else { s3 with numctlresponses := s3.numctlresponses + 1 }
  { s4 with res_frags := s4.res_frags + 1, res_offset := s4.res_offset + dlen, datapt := 0 }

/-- The value `(unsigned int)(dataend - datapt)`. -/
def room_u32 (datapt : Nat) : Nat :=
  (CTL_MAX_DATA_LEN + 2 ^ 32 - datapt % 2 ^ 32) % 2 ^ 32

/-- The body of the `while` loop of `ctl_putdata`: copy as much of the pending
bytes `dp` as the packet has room for, then flush it with the More bit.
Returns the bytes still pending. -/
def ctl_putdata_body (env : Env) (dp : List Nat) (s : CtlState) : List Nat × CtlState :=
  let currentlen := min dp.length (room_u32 s.datapt)
  let s1 := set_datapt
    { s with
      rpkt := { s.rpkt with data := memcpy s.rpkt.data s.datapt (dp.take currentlen) },
      datalinelen := s.datalinelen + currentlen }
    (s.datapt + currentlen)
  (dp.drop currentlen, ctl_flushpkt env CTL_MORE s1)

/-- The `while` loop of `ctl_putdata`, run for at most `fuel` iterations: as
long as the pending bytes `dp` and the overhead do not fit, run the body. -/
def ctl_putdata_loop (env : Env) (overhead : Nat) :
    Nat → List Nat → CtlState → List Nat × CtlState
  | 0, dp, s => (dp, s)
  | fuel + 1, dp, s =>
    if (dp.length + overhead) % 2 ^ 32 + s.datapt > CTL_MAX_DATA_LEN then
      ctl_putdata_loop env overhead fuel (ctl_putdata_body env dp s).1
        (ctl_putdata_body env dp s).2
    else (dp, s)

/-- The separator `ctl_putdata` writes before a text token once data has been
sent: a comma, then CR LF if the token would overrun the line, else a space. -/
def ctl_putdata_sep (dlen : Nat) (s : CtlState) : CtlState :=
  if s.datasent then
    let s1 := { put_byte s 44 with datalinelen := s.datalinelen + 1 }
    if (dlen + s1.datalinelen + 1) % 2 ^ 32 ≥ MAXDATALINELEN then
      { put_byte (put_byte s1 13) 10 with datalinelen := 0 }
    else
      { put_byte s1 32 with datalinelen := s1.datalinelen + 1 }
  else s

/-- The routine `ctl_putdata`: write `dp` into the packet, fragmenting and
starting another if this one is full; `bin` is true for binary data. The
loop gets `2 * |dp| + 2` iterations, which it never uses up
(`ctl_putdata_loop_done`). -/
def ctl_putdata (env : Env) (dp : List Nat) (bin : Bool) (s : CtlState) : CtlState :=
  let overhead := if bin then 0 else 3
  let s1 := if bin then s else ctl_putdata_sep dp.length { s with datanotbinflag := true }
  let r := ctl_putdata_loop env overhead (2 * dp.length + 2) dp s1
  let s2 := r.2
  let s3 := set_datapt
    { s2 with
      rpkt := { s2.rpkt with data := memcpy s2.rpkt.data s2.datapt r.1 },
      datalinelen := s2.datalinelen + r.1.length }
    (s2.datapt + r.1.length)
  { s3 with datasent := true }

/-! ## Variable tables -/

/-- The highest system variable code, `CS_MAXCODE` (`CS_TICK`). -/
def CS_MAXCODE : Nat := 98

/-- The highest peer variable code, `CP_MAXCODE` (`CP_CANDIDATE`). -/
def CP_MAXCODE : Nat := 50

/-- The table `sys_var`: the system variables, indexed by code. -/
def sys_var : List ctl_var :=
  [ ctl_var.mk 0 PADDING (some (str "")),
    ctl_var.mk 1 RW (some (str "leap")),
    ctl_var.mk 2 RO (some (str "stratum")),
    ctl_var.mk 3 RO (some (str "precision")),
    ctl_var.mk 4 RO (some (str "rootdelay")),
    ctl_var.mk 5 RO (some (str "rootdisp")),
    ctl_var.mk 6 RO (some (str "refid")),
    ctl_var.mk 7 RO (some (str "reftime")),
    ctl_var.mk 8 RO (some (str "tc")),
    ctl_var.mk 9 RO (some (str "peer")),
    ctl_var.mk 10 RO (some (str "offset")),
    ctl_var.mk 11 RO (some (str "frequency")),
    ctl_var.mk 12 RO (some (str "sys_jitter")),
    ctl_var.mk 13 RO (some (str "clk_jitter")),
    ctl_var.mk 14 RO (some (str "clock")),
    ctl_var.mk 15 RO (some (str "processor")),
    ctl_var.mk 16 RO (some (str "system")),
    ctl_var.mk 17 RO (some (str "version")),
    ctl_var.mk 18 RO (some (str "clk_wander")),
    ctl_var.mk 19 RO (some (str "sys_var_list")),
    ctl_var.mk 20 RO (some (str "tai")),
    ctl_var.mk 21 RO (some (str "leapsec")),
    ctl_var.mk 22 RO (some (str "expire")),
    ctl_var.mk 23 RO (some (str "mintc")),
    ctl_var.mk 24 RO (some (str "mru_enabled")),
    ctl_var.mk 25 RO (some (str "mru_depth")),
    ctl_var.mk 26 RO (some (str "mru_deepest")),
    ctl_var.mk 27 RO (some (str "mru_mindepth")),
    ctl_var.mk 28 RO (some (str "mru_maxage")),
    ctl_var.mk 29 RO (some (str "mru_minage")),
    ctl_var.mk 30 RO (some (str "mru_maxdepth")),
    ctl_var.mk 31 RO (some (str "mru_mem")),
    ctl_var.mk 32 RO (some (str "mru_maxmem")),
    ctl_var.mk 33 RO (some (str "ss_uptime")),
    ctl_var.mk 34 RO (some (str "ss_reset")),
    ctl_var.mk 35 RO (some (str "ss_received")),
    ctl_var.mk 36 RO (some (str "ss_thisver")),
    ctl_var.mk 37 RO (some (str "ss_oldver")),
    ctl_var.mk 38 RO (some (str "ss_badformat")),
    ctl_var.mk 39 RO (some (str "ss_badauth")),
    ctl_var.mk 40 RO (some (str "ss_declined")),
    ctl_var.mk 41 RO (some (str "ss_restricted")),
    ctl_var.mk 42 RO (some (str "ss_limited")),
    ctl_var.mk 43 RO (some (str "ss_kodsent")),
    ctl_var.mk 44 RO (some (str "ss_processed")),
    ctl_var.mk 45 RO (some (str "peeradr")),
    ctl_var.mk 46 RO (some (str "peermode")),
    ctl_var.mk 47 RO (some (str "authdelay")),
    ctl_var.mk 48 RO (some (str "authkeys")),
    ctl_var.mk 49 RO (some (str "authfreek")),
    ctl_var.mk 50 RO (some (str "authklookups")),
    ctl_var.mk 51 RO (some (str "authknotfound")),
    ctl_var.mk 52 RO (some (str "authkuncached")),
    ctl_var.mk 53 RO (some (str "authkexpired")),
    ctl_var.mk 54 RO (some (str "authencrypts")),
    ctl_var.mk 55 RO (some (str "authdecrypts")),
    ctl_var.mk 56 RO (some (str "authreset")),
    ctl_var.mk 57 RO (some (str "koffset")),
    ctl_var.mk 58 RO (some (str "kfreq")),
    ctl_var.mk 59 RO (some (str "kmaxerr")),
    ctl_var.mk 60 RO (some (str "kesterr")),
    ctl_var.mk 61 RO (some (str "kstflags")),
    ctl_var.mk 62 RO (some (str "ktimeconst")),
    ctl_var.mk 63 RO (some (str "kprecis")),
    ctl_var.mk 64 RO (some (str "kfreqtol")),
    ctl_var.mk 65 RO (some (str "kppsfreq")),
    ctl_var.mk 66 RO (some (str "kppsstab")),
    ctl_var.mk 67 RO (some (str "kppsjitter")),
    ctl_var.mk 68 RO (some (str "kppscalibdur")),
    ctl_var.mk 69 RO (some (str "kppscalibs")),
    ctl_var.mk 70 RO (some (str "kppscaliberrs")),
    ctl_var.mk 71 RO (some (str "kppsjitexc")),
    ctl_var.mk 72 RO (some (str "kppsstbexc")),
    ctl_var.mk 73 RO (some (str "iostats_reset")),
    ctl_var.mk 74 RO (some (str "total_rbuf")),
    ctl_var.mk 75 RO (some (str "free_rbuf")),
    ctl_var.mk 76 RO (some (str "used_rbuf")),
    ctl_var.mk 77 RO (some (str "rbuf_lowater")),
    ctl_var.mk 78 RO (some (str "io_dropped")),
    ctl_var.mk 79 RO (some (str "io_ignored")),
    ctl_var.mk 80 RO (some (str "io_received")),
    ctl_var.mk 81 RO (some (str "io_sent")),
    ctl_var.mk 82 RO (some (str "io_sendfailed")),
    ctl_var.mk 83 RO (some (str "io_wakeups")),
    ctl_var.mk 84 RO (some (str "io_goodwakeups")),
    ctl_var.mk 85 RO (some (str "timerstats_reset")),
    ctl_var.mk 86 RO (some (str "timer_overruns")),
    ctl_var.mk 87 RO (some (str "timer_xmts")),
    ctl_var.mk 88 RO (some (str "fuzz")),
    ctl_var.mk 89 RO (some (str "clk_wander_threshold")),
    ctl_var.mk 90 RO (some (str "mru_exists")),
    ctl_var.mk 91 RO (some (str "mru_new")),
    ctl_var.mk 92 RO (some (str "mru_recycleold")),
    ctl_var.mk 93 RO (some (str "mru_recyclefull")),
    ctl_var.mk 94 RO (some (str "mru_none")),
    ctl_var.mk 95 RO (some (str "mru_oldest_age")),
    ctl_var.mk 96 RO (some (str "leapsmearinterval")),
    ctl_var.mk 97 RO (some (str "leapsmearoffset")),
    ctl_var.mk 98 RO (some (str "tick")),
    ctl_var.mk 0 EOV (some (str "")) ]

/-- The table `def_sys_var`: the system variables printed by default, by
code, without the terminating 0. -/
def def_sys_var : List Nat :=
  [17, 15, 16, 1, 2, 3, 4, 5, 6, 7, 14, 9, 8, 23, 10, 11, 12, 13, 18, 20, 21, 22]

/-- The table `peer_var`: the peer variables, indexed by code. -/
def peer_var : List ctl_var :=
  [ ctl_var.mk 0 PADDING (some (str "")),
    ctl_var.mk 1 RO (some (str "config")),
    ctl_var.mk 2 RO (some (str "authenable")),
    ctl_var.mk 3 RO (some (str "authentic")),
    ctl_var.mk 4 RO (some (str "srcadr")),
    ctl_var.mk 5 RO (some (str "srcport")),
    ctl_var.mk 6 RO (some (str "dstadr")),
    ctl_var.mk 7 RO (some (str "dstport")),
    ctl_var.mk 8 RO (some (str "leap")),
    ctl_var.mk 9 RO (some (str "hmode")),
    ctl_var.mk 10 RO (some (str "stratum")),
    ctl_var.mk 11 RO (some (str "ppoll")),
    ctl_var.mk 12 RO (some (str "hpoll")),
    ctl_var.mk 13 RO (some (str "precision")),
    ctl_var.mk 14 RO (some (str "rootdelay")),
    ctl_var.mk 15 RO (some (str "rootdisp")),
    ctl_var.mk 16 RO (some (str "refid")),
    ctl_var.mk 17 RO (some (str "reftime")),
    ctl_var.mk 18 RO (some (str "org")),
    ctl_var.mk 19 RO (some (str "rec")),
    ctl_var.mk 20 RO (some (str "xmt")),
    ctl_var.mk 21 RO (some (str "reach")),
    ctl_var.mk 22 RO (some (str "unreach")),
    ctl_var.mk 23 RO (some (str "timer")),
    ctl_var.mk 24 RO (some (str "delay")),
    ctl_var.mk 25 RO (some (str "offset")),
    ctl_var.mk 26 RO (some (str "jitter")),
    ctl_var.mk 27 RO (some (str "dispersion")),
    ctl_var.mk 28 RO (some (str "keyid")),
    ctl_var.mk 29 RO (some (str "filtdelay")),
    ctl_var.mk 30 RO (some (str "filtoffset")),
    ctl_var.mk 31 RO (some (str "pmode")),
    ctl_var.mk 32 RO (some (str "received")),
    ctl_var.mk 33 RO (some (str "sent")),
    ctl_var.mk 34 RO (some (str "filtdisp")),
    ctl_var.mk 35 RO (some (str "flash")),
    ctl_var.mk 36 RO (some (str "ttl")),
    ctl_var.mk 37 RO (some (str "peer_var_list")),
    ctl_var.mk 38 RO (some (str "in")),
    ctl_var.mk 39 RO (some (str "out")),
    ctl_var.mk 40 RO (some (str "headway")),
    ctl_var.mk 41 RO (some (str "bias")),
    ctl_var.mk 42 RO (some (str "srchost")),
    ctl_var.mk 43 RO (some (str "timerec")),
    ctl_var.mk 44 RO (some (str "timereach")),
    ctl_var.mk 45 RO (some (str "badauth")),
    ctl_var.mk 46 RO (some (str "bogusorg")),
    ctl_var.mk 47 RO (some (str "oldpkt")),
    ctl_var.mk 48 RO (some (str "seldisp")),
    ctl_var.mk 49 RO (some (str "selbroken")),
    ctl_var.mk 50 RO (some (str "candidate")),
    ctl_var.mk 0 EOV (some (str "")) ]

/-- The table `def_peer_var`: the peer variables printed by default, by code,
without the terminating 0. -/
def def_peer_var : List Nat :=
  [4, 5, 42, 6, 7, 39, 38, 8, 10, 13, 14, 15, 16, 17, 19, 21, 22, 9, 31, 12, 11, 40, 35, 28, 36, 25, 24, 27, 26, 20, 41, 29, 30, 34]

/-- The routine `count_var`: the number of entries before the `EOV` one (all
of them if the sentinel is missing), as a `u_short`. -/
def count_var : Option (List ctl_var) → Nat
  | none => 0
  | some k => (k.takeWhile (fun v => !v.flags.eov)).length % 65536

/-! ## The request parser -/

/-- The static sentinel `eol` of `ctl_getitem`. -/
def eol : ctl_var := { code := 0, flags := EOV, text := none }

/-- The C library `isspace` in the C locale. -/
def isspace (c : Nat) : Bool := c = 32 || (9 ≤ c && c ≤ 13)

/-- The loops `while (cp < reqend && p(*cp)) cp++` of `ctl_getitem`, run for
at most `fuel` steps. -/
def skip_while (p : Nat → Bool) (data : List Nat) (reqend : Nat) : Nat → Nat → Nat
  | 0, cp => cp
  | fuel + 1, cp =>
    if cp < reqend ∧ p (byteAt data cp) = true then skip_while p data reqend fuel (cp + 1)
    else cp

/-- The tag comparison of `ctl_getitem`: advance `cp` and `pch` together
while the tag character is neither NUL nor `=` and equals the request
character. Returns the request offset and the tag offset reached. -/
def match_tag (data text : List Nat) (reqend : Nat) : Nat → Nat → Nat → Nat × Nat
  | 0, cp, i => (cp, i)
  | fuel + 1, cp, i =>
    if text.getD i 0 ≠ 0 ∧ text.getD i 0 ≠ 61 ∧ cp < reqend ∧ byteAt data cp = text.getD i 0
    then match_tag data text reqend fuel (cp + 1) (i + 1)
    else (cp, i)

/-- The value copy of `ctl_getitem`: copy request bytes up to a comma or the
end into `buf`; `none` as soon as 128 bytes (`sizeof(buf)`) have been
copied. Returns the request offset reached and the bytes copied. -/
def copy_value (data : List Nat) (reqend : Nat) : Nat → Nat → List Nat → Option (Nat × List Nat)
  | 0, cp, acc => some (cp, acc)
  | fuel + 1, cp, acc =>
    if cp < reqend ∧ byteAt data cp ≠ 44 then
      if (acc ++ [byteAt data cp]).length ≥ 128 then none
      else copy_value data reqend fuel (cp + 1) (acc ++ [byteAt data cp])
    else some (cp, acc)

/-- The value left in `buf` as a C string: trailing white space is
overwritten with NULs, and the string ends at the first NUL. -/
def trim_value (acc : List Nat) : List Nat :=
  ((acc.reverse.dropWhile isspace).reverse).takeWhile (fun c => c != 0)

/-- The result of `ctl_getitem`: the descriptor returned (`none` for NULL),
the value stored through `data` if any, and the new state. -/
structure getitem_result where
  v : Option ctl_var
  data : Option (List Nat)
  st : CtlState

/-- The `for` loop of `ctl_getitem` over the variable table. A NULL `text` is
read as the empty string. A table without `EOV` entry ends the search like
the sentinel does. -/
def ctl_getitem_scan (env : Env) : List ctl_var → CtlState → getitem_result
  | [], s => { v := some eol, data := none, st := s }
  | v :: rest, s =>
    if v.flags.eov then { v := some v, data := none, st := s }
    else
      let text := v.text.getD []
      if v.flags.padding = false ∧ byteAt s.reqdata s.reqpt = text.getD 0 0 then
        let m := match_tag s.reqdata text s.reqend (text.length + 1) s.reqpt 0
        if text.getD m.2 0 = 0 ∨ text.getD m.2 0 = 61 then
          let cp := skip_while isspace s.reqdata s.reqend (s.reqend - m.1) m.1
          if cp = s.reqend ∨ byteAt s.reqdata cp = 44 then
            { v := some v, data := some [],
              st := { s with reqpt := if cp < s.reqend then cp + 1 else cp } }
          else if byteAt s.reqdata cp = 61 then
            let cp1 := skip_while isspace s.reqdata s.reqend (s.reqend - (cp + 1)) (cp + 1)
            match copy_value s.reqdata s.reqend (s.reqend - cp1) cp1 [] with
            | none =>
              let s1 := ctl_error env CERR_BADFMT s
              let s2 := { s1 with numctlbadpkts := s1.numctlbadpkts + 1 }
              let s3 := if env.nlog_sysevent ∧ s2.quiet_until ≤ env.current_time then
                  { s2 with quiet_until := env.current_time + 300,
                            syslog_warnings := s2.syslog_warnings + 1 }
                else s2
              { v := none, data := none, st := s3 }
            | some r =>
              { v := some v, data := some (trim_value r.2),
                st := { s with reqpt := if r.1 < s.reqend then r.1 + 1 else r.1 } }
          else ctl_getitem_scan env rest s
        else ctl_getitem_scan env rest s
      else ctl_getitem_scan env rest s

/-- The routine `ctl_getitem`: get the next data item from the incoming
packet. -/
def ctl_getitem (env : Env) (var_list : Option (List ctl_var)) (s : CtlState) :
    getitem_result :=
  -- delete leading commas and white space
  let reqpt := skip_while (fun c => c = 44 || isspace c) s.reqdata s.reqend
    (s.reqend - s.reqpt) s.reqpt
  let s := { s with reqpt := reqpt }
  if reqpt ≥ s.reqend then { v := none, data := none, st := s }
  else
    match var_list with
    | none => { v := some eol, data := none, st := s }
    | some l => ctl_getitem_scan env l s

/-! ## Read handlers -/

/-- The calls `ctl_putdata(tok, strlen(tok), false)` for a list of tokens. -/
def put_tokens (env : Env) (toks : List (List Nat)) (s : CtlState) : CtlState :=
  toks.foldl (fun t tok => ctl_putdata env tok false t) s

/-- The routine `ctl_putsys`: output a system variable. -/
def ctl_putsys (env : Env) (varid : Nat) (s : CtlState) : CtlState :=
  put_tokens env (env.ctl_putsys varid) s

/-- The routine `ctl_putpeer`: output a peer variable. -/
def ctl_putpeer (env : Env) (id : Nat) (peer : Nat) (s : CtlState) : CtlState :=
  put_tokens env (env.ctl_putpeer id peer) s

/-- The item loop of `read_sysvars`, run for at most `fuel` items. The first
component is `none` when the handler returns from inside the loop (after an
error response, or aborted by a failing `NTP_INSIST`); otherwise it holds the
`wants` array and `gotvar` at the end of the items. -/
def read_sysvars_items (env : Env) (wants_count : Nat) :
    Nat → List Bool → Bool → CtlState → Option (List Bool × Bool) × CtlState
  | 0, wants, gotvar, s => (some (wants, gotvar), s)
  | fuel + 1, wants, gotvar, s =>
    let r := ctl_getitem env (some sys_var) s
    match r.v with
    | none => (some (wants, gotvar), r.st)
    | some v =>
      if v.flags.eov = false then
        if v.code < wants_count then
          read_sysvars_items env wants_count fuel (wants.set v.code true) true r.st
        else (none, { r.st with aborted := true })
      else
        let r2 := ctl_getitem env r.st.ext_sys_var r.st
        match r2.v with
        | none => (none, ctl_error env CERR_BADVALUE r2.st)
        | some v2 =>
          if v2.flags.eov then (none, ctl_error env CERR_UNKNOWNVAR r2.st)
          else if v2.code + CS_MAXCODE + 1 < wants_count then
            read_sysvars_items env wants_count fuel
              (wants.set (v2.code + CS_MAXCODE + 1) true) true r2.st
          else (none, { r2.st with aborted := true })

/-- The routine `read_sysvars`: half of the `read_variables` implementation.
Every item consumes at least one request byte, so `reqend + 1` items are
enough fuel. -/
def read_sysvars (env : Env) (s : CtlState) : CtlState :=
  let s := { s with rpkt := { s.rpkt with
    status := env.ctlsysstatus s.ctl_sys_num_events % 65536 } }
  let s := if s.res_authokay then { s with ctl_sys_num_events := 0 } else s
  let wants_count := CS_MAXCODE + 1 + count_var s.ext_sys_var
  let r := read_sysvars_items env wants_count (s.reqend + 1)
    (List.replicate wants_count false) false s
  match r.1 with
  | none => r.2
  | some (wants, gotvar) =>
    let s1 :=
      if gotvar then
        let t1 := (List.range' 1 CS_MAXCODE).foldl
          (fun t n => if wants.getD n false then ctl_putsys env n t else t) r.2
        (List.range (wants_count - (CS_MAXCODE + 1))).foldl
          (fun t n =>
            if wants.getD (n + CS_MAXCODE + 1) false then
              ctl_putdata env (((t.ext_sys_var.getD []).getD n eol).text.getD []) false t
            else t) t1
      else
        let t1 := def_sys_var.foldl (fun t cs => ctl_putsys env cs t) r.2
        ((t1.ext_sys_var.getD []).takeWhile (fun kv => !kv.flags.eov)).foldl
          (fun t kv => if kv.flags.deflt then ctl_putdata env (kv.text.getD []) false t else t) t1
    ctl_flushpkt env 0 s1

/-- The item loop of `read_peervars`, run for at most `fuel` items; the first
component is `none` when the handler returns from inside the loop. -/
def read_peervars_items (env : Env) :
    Nat → List Bool → Bool → CtlState → Option (List Bool × Bool) × CtlState
  | 0, wants, gotvar, s => (some (wants, gotvar), s)
  | fuel + 1, wants, gotvar, s =>
    let r := ctl_getitem env (some peer_var) s
    match r.v with
    | none => (some (wants, gotvar), r.st)
    | some v =>
      if v.flags.eov then (none, ctl_error env CERR_UNKNOWNVAR r.st)
      else if v.code < CP_MAXCODE + 1 then
        read_peervars_items env fuel (wants.set v.code true) true r.st
      else (none, { r.st with aborted := true })

/-- The routine `read_peervars`: half of the `read_variables` implementation. -/
def read_peervars (env : Env) (s : CtlState) : CtlState :=
  match env.findpeerbyassoc s.res_associd with
  | none => ctl_error env CERR_BADASSOC s
  | some peer =>
    let s := { s with rpkt := { s.rpkt with status := env.ctlpeerstatus peer % 65536 } }
    let s := if s.res_authokay then { s with cleared_peers := peer :: s.cleared_peers } else s
    let r := read_peervars_items env (s.reqend + 1) (List.replicate (CP_MAXCODE + 1) false)
      false s
    match r.1 with
    | none => r.2
    | some (wants, gotvar) =>
      let s1 :=
        if gotvar then
          (List.range' 1 CP_MAXCODE).foldl
            (fun t i => if wants.getD i false then ctl_putpeer env i peer t else t) r.2
        else
          def_peer_var.foldl (fun t cp => ctl_putpeer env cp peer t) r.2
      ctl_flushpkt env 0 s1

/-- The handler `read_variables`: return the variables the caller asks for. -/
def read_variables (env : Env) (_rbufp : recvbuf) (_restrict_mask : Int) (s : CtlState) :
    CtlState :=
  if s.res_associd ≠ 0 then read_peervars env s else read_sysvars env s

/-! ## Variable lists and write handlers -/

/-- The routine `add_var`: append an entry with the next code, the text
buffer (here already filled with `text`) and the flags `dflt`, followed by a
fresh `EOV` entry. -/
def add_var (kv : Option (List ctl_var)) (text : List Nat) (dflt : var_flags) : List ctl_var :=
  let c := count_var kv
  (kv.getD []).take c
    ++ [{ code := c, flags := dflt, text := some text }, { code := 0, flags := EOV, text := none }]

/-- The comparison loop `while (*t != '=' && *s == *t) { s++; t++; }` of
`set_var`, from index `i`. The loop has no test for the end of the strings:
when both end together without a `=` it reads on past the terminators, which
is `none` here. Otherwise the index reached. -/
def set_var_cmp (s t : List Nat) : Nat → Nat → Option Nat
  | 0, _ => none
  | fuel + 1, i =>
    if t.getD i 0 ≠ 61 ∧ s.getD i 0 = t.getD i 0 then
      if s.getD i 0 = 0 then none else set_var_cmp s t fuel (i + 1)
    else some i

/-- What the entry walk of `set_var` comes to. -/
inductive set_var_result where
  /-- An entry took the new text; the list after the change. -/
  | stored (k : List ctl_var)
  /-- The walk reached the `EOV` entry. -/
  | not_found
  /-- A comparison read past the end of its strings. -/
  | undefined_read

/-- The entry walk of `set_var`: the first entry without text, or whose name
(the text up to `=`) is that of `data`, takes `data` and the flags `dflt`. -/
def set_var_walk (data : List Nat) (dflt : var_flags) : List ctl_var → set_var_result
  | [] => .not_found
  | k :: rest =>
    if k.flags.eov then .not_found
    else
      match k.text with
      | none => .stored ({ k with text := some data, flags := dflt } :: rest)
      | some t =>
        match set_var_cmp data t (data.length + 1) 0 with
        | none => .undefined_read
        | some i =>
          if data.getD i 0 = t.getD i 0 ∧ (t.getD i 0 = 61 ∨ t.getD i 0 = 0) then
            .stored ({ k with text := some data, flags := dflt } :: rest)
          else
            match set_var_walk data dflt rest with
            | .stored r => .stored (k :: r)
            | .not_found => .not_found
            | .undefined_read => .undefined_read

/-- The routine `set_sys_var`, that is `set_var(&ext_sys_var, data, size, def)`
for a C string `data` with `size = strlen(data) + 1`, as every caller passes
it. A comparison that reads past its strings aborts the run. -/
def set_sys_var (data : List Nat) (dflt : var_flags) (s : CtlState) : CtlState :=
  match set_var_walk data dflt (s.ext_sys_var.getD []) with
  | .stored k => { s with ext_sys_var := some k }
  | .not_found => { s with ext_sys_var := some (add_var s.ext_sys_var data dflt) }
  | .undefined_read => { s with aborted := true }

/-- The C library `strtol(nptr, NULL, 10)` for a 64-bit `long`: skip white
space, take an optional sign and the longest run of decimal digits that
follows, and stop there. Returns the value and whether `errno` was set: to
ERANGE when the value is out of range (the result is then clamped), and to
EINVAL when there is no digit at all, if the library does that (`einval`). -/
def strtol (einval : Bool) (nptr : List Nat) : Int × Bool :=
  let s := nptr.dropWhile isspace
  let neg : Bool := s.head? = some 45
  let s := if s.head? = some 45 ∨ s.head? = some 43 then s.tail else s
  let digits := s.takeWhile (fun c => 48 ≤ c && c ≤ 57)
  if digits = [] then (0, einval)
  else
    let n : Nat := digits.foldl (fun a c => 10 * a + (c - 48)) 0
    let v : Int := if neg then -(n : Int) else (n : Int)
    if v > 2 ^ 63 - 1 then (2 ^ 63 - 1, true)
    else if v < -(2 ^ 63) then (-(2 ^ 63), true)
    else (v, false)

/-- The test `(val & ~LEAP_NOTINSYNC) != 0` of `write_variables` on a 64-bit
`long` in two's complement. -/
def outside_leap_bits (env : Env) (val : Int) : Bool :=
  (val % 2 ^ 64).toNat &&& (2 ^ 64 - 1 - env.LEAP_NOTINSYNC % 2 ^ 64) != 0

/-- How one pass through the body of an item loop ends. -/
inductive loop_step where
  /-- The handler returned from inside the loop, after an error response. -/
  | returned (s : CtlState)
  /-- The loop condition failed or the body ran into `break`. -/
  | finished (s : CtlState)
  /-- The body ran to its end; the loop goes on. -/
  | continues (s : CtlState)

/-- The `while` loop of `write_variables`, one pass: the loop condition
`(v = ctl_getitem(sys_var, &valuep)) != 0` and the body. -/
def write_variables_body (env : Env) (s : CtlState) : loop_step :=
  let r := ctl_getitem env (some sys_var) s
  match r.v with
  | none => .finished r.st
  | some v =>
    if v.flags.eov then
      let r2 := ctl_getitem env r.st.ext_sys_var r.st
      match r2.v with
      | none => .finished r2.st
      | some v2 =>
        if v2.flags.eov then .returned (ctl_error env CERR_UNKNOWNVAR r2.st)
        else if v2.flags.can_write = false then .returned (ctl_error env CERR_PERMISSION r2.st)
        else
          let valuep := r2.data.getD []
          let vareqv := (v2.text.getD []).takeWhile (fun c => c != 0 && c != 61)
            ++ [61] ++ valuep
          .continues (set_sys_var vareqv v2.flags r2.st)
    else if v.flags.can_write = false then .returned (ctl_error env CERR_PERMISSION r.st)
    else
      let valuep := r.data.getD []
      if valuep = [] ∨ (strtol env.strtol_einval valuep).2 = true then
        .returned (ctl_error env CERR_BADFMT r.st)
      else if outside_leap_bits env (strtol env.strtol_einval valuep).1 = true then
        .returned (ctl_error env CERR_BADVALUE r.st)
      else
        -- really
        .returned (ctl_error env CERR_UNSPEC r.st)

/-- The item loop of `write_variables`, run for at most `fuel` items. The
first component tells whether the handler returned from inside the loop. -/
def write_variables_items (env : Env) : Nat → CtlState → Bool × CtlState
  | 0, s => (false, s)
  | fuel + 1, s =>
    match write_variables_body env s with
    | .returned t => (true, t)
    | .finished t => (false, t)
    | .continues t => write_variables_items env fuel t

/-- The handler `write_variables`: write into variables; only leap bit
writing is allowed this way. Every item consumes at least one request byte,
so `reqend + 1` items are enough fuel. -/
def write_variables (env : Env) (_rbufp : recvbuf) (_restrict_mask : Int) (s : CtlState) :
    CtlState :=
  -- if he's trying to write into a peer tell him no way
  if s.res_associd ≠ 0 then ctl_error env CERR_PERMISSION s
  else
    let s := { s with rpkt := { s.rpkt with
      status := env.ctlsysstatus s.ctl_sys_num_events % 65536 } }
    let r := write_variables_items env (s.reqend + 1) s
    if r.1 then r.2 else ctl_flushpkt env 0 r.2

/-- The handler `write_clockstatus`: not supported. -/
def write_clockstatus (env : Env) (_rbufp : recvbuf) (_restrict_mask : Int) (s : CtlState) :
    CtlState :=
  ctl_error env CERR_PERMISSION s

/-! ## The dispatcher -/

/-- One row of `control_codes` (`struct ctl_proc`); the handler is `none` for
the NULL pointer of the sentinel row. -/
structure ctl_proc where
  control_code : Int
  flags : Nat
  handler : Option (Env → recvbuf → Int → CtlState → CtlState)

/-- The ten request handlers that `control_codes` points to. -/
structure Handlers where
  control_unspec : Env → recvbuf → Int → CtlState → CtlState
  read_status : Env → recvbuf → Int → CtlState → CtlState
  read_variables : Env → recvbuf → Int → CtlState → CtlState
  write_variables : Env → recvbuf → Int → CtlState → CtlState
  read_clockstatus : Env → recvbuf → Int → CtlState → CtlState
  write_clockstatus : Env → recvbuf → Int → CtlState → CtlState
  configure : Env → recvbuf → Int → CtlState → CtlState
  read_mru_list : Env → recvbuf → Int → CtlState → CtlState
  read_ordlist : Env → recvbuf → Int → CtlState → CtlState
  req_nonce : Env → recvbuf → Int → CtlState → CtlState

/-- The table `control_codes`. -/
def control_codes (h : Handlers) : List ctl_proc :=
  [ { control_code := CTL_OP_UNSPEC, flags := NOAUTH, handler := some h.control_unspec },
    { control_code := CTL_OP_READSTAT, flags := NOAUTH, handler := some h.read_status },
    { control_code := CTL_OP_READVAR, flags := NOAUTH, handler := some h.read_variables },
    { control_code := CTL_OP_WRITEVAR, flags := AUTH, handler := some h.write_variables },
    { control_code := CTL_OP_READCLOCK, flags := NOAUTH, handler := some h.read_clockstatus },
    { control_code := CTL_OP_WRITECLOCK, flags := NOAUTH, handler := some h.write_clockstatus },
    { control_code := CTL_OP_CONFIGURE, flags := AUTH, handler := some h.configure },
    { control_code := CTL_OP_READ_MRU, flags := NOAUTH, handler := some h.read_mru_list },
    { control_code := CTL_OP_READ_ORDLIST_A, flags := AUTH, handler := some h.read_ordlist },
    { control_code := CTL_OP_REQ_NONCE, flags := NOAUTH, handler := some h.req_nonce },
    { control_code := NO_REQUEST, flags := 0, handler := none } ]

/-- The opcode search of `process_control`: walk the table up to the
`NO_REQUEST` row; a matching row either fails the authentication policy
(PERMISSION) or runs its handler; without a match the request is a BADOP. -/
def dispatch (env : Env) (rbufp : recvbuf) (restrict_mask : Int) :
    List ctl_proc → CtlState → CtlState
  | [], s => ctl_error env CERR_BADOP { s with numctlbadop := s.numctlbadop + 1 }
  | cc :: rest, s =>
    if cc.control_code = NO_REQUEST then
      ctl_error env CERR_BADOP { s with numctlbadop := s.numctlbadop + 1 }
    else if cc.control_code = (s.res_opcode : Int) then
      if cc.flags = AUTH ∧ (s.res_authokay = false ∨ s.res_keyid ≠ s.ctl_auth_keyid) then
        ctl_error env CERR_PERMISSION s
      else
        match cc.handler with
        | some f => f env rbufp restrict_mask s
        | none => s
    else dispatch env rbufp restrict_mask rest s

/-- The routine `process_control`: process an incoming control message. -/
def process_control (env : Env) (h : Handlers) (rbufp : recvbuf) (restrict_mask : Int)
    (s : CtlState) : CtlState :=
  let s := { s with numctlreq := s.numctlreq + 1 }
  let pkt := rbufp.recv_pkt
  let pkt_r_m_e_op := byteAt pkt 1
  let pkt_offset := be16 pkt 8
  if rbufp.recv_length < CTL_HEADER_LEN
      ∨ (CTL_RESPONSE ||| CTL_MORE ||| CTL_ERROR) &&& pkt_r_m_e_op ≠ 0
      ∨ pkt_offset ≠ 0 then
    let s := if rbufp.recv_length < CTL_HEADER_LEN
             then { s with numctltooshort := s.numctltooshort + 1 } else s
    let s := if CTL_RESPONSE &&& pkt_r_m_e_op ≠ 0
             then { s with numctlinputresp := s.numctlinputresp + 1 } else s
    let s := if CTL_MORE &&& pkt_r_m_e_op ≠ 0
             then { s with numctlinputfrag := s.numctlinputfrag + 1 } else s
    let s := if CTL_ERROR &&& pkt_r_m_e_op ≠ 0
             then { s with numctlinputerr := s.numctlinputerr + 1 } else s
    let s := if pkt_offset ≠ 0
             then { s with numctlbadoffset := s.numctlbadoffset + 1 } else s
    s
  else
    let res_version := PKT_VERSION (byteAt pkt 0)
    let s := { s with res_version := res_version }
    if res_version > env.NTP_VERSION ∨ res_version < env.NTP_OLDVERSION then
      { s with numctlbadversion := s.numctlbadversion + 1 }
    else
      -- pull enough data from the packet to make intelligent responses
      let req_count := be16 pkt 10
      let s := set_datapt { s with
        rpkt := { s.rpkt with
          li_vn_mode := PKT_LI_VN_MODE env.sys_leap res_version MODE_CONTROL,
          sequence := be16 pkt 2,
          associd := be16 pkt 6,
          status := 0 },
        res_opcode := pkt_r_m_e_op,
        res_frags := 1,
        res_offset := 0,
        res_associd := be16 pkt 6,
        res_authenticate := false,
        res_keyid := 0,
        res_authokay := false,
        datanotbinflag := false,
        datalinelen := 0,
        datasent := false } 0
      let req_data := rbufp.recv_length - CTL_HEADER_LEN
      if req_data < req_count ∨ rbufp.recv_length &&& 0x3 ≠ 0 then
        let s := ctl_error env CERR_BADFMT s
        { s with numctldatatooshort := s.numctldatatooshort + 1 }
      else
        -- round up proper len to a 8 octet boundary
        let properlen := ((req_count + CTL_HEADER_LEN + 7) / 8) * 8
        -- maclen is a size_t
        let maclen := (rbufp.recv_length + 2 ^ 64 - properlen) % 2 ^ 64
        let s :=
          if rbufp.recv_length &&& 3 = 0 ∧ maclen ≥ env.MIN_MAC_LEN ∧ maclen ≤ env.MAX_MAC_LEN then
            let res_keyid := be32 pkt properlen
            let s := { s with res_authenticate := true, res_keyid := res_keyid }
            if env.authistrusted res_keyid = false then s
            else if env.authdecrypt res_keyid pkt (rbufp.recv_length - maclen) maclen then
              { s with res_authokay := true }
            else { s with res_keyid := 0 }
          else s
        -- set up translate pointers
        let s := { s with reqdata := pkt.drop CTL_HEADER_LEN, reqpt := 0, reqend := req_count }
        dispatch env rbufp restrict_mask (control_codes h) s

/-- The offset `properlen` of `process_control`: the end of header and data,
rounded up to an 8 octet boundary. -/
def request_properlen (rbufp : recvbuf) : Nat :=
  ((be16 rbufp.recv_pkt 10 + CTL_HEADER_LEN + 7) / 8) * 8

/-- The length `maclen` of `process_control`, a `size_t`. -/
def request_maclen (rbufp : recvbuf) : Nat :=
  (rbufp.recv_length + 2 ^ 64 - request_properlen rbufp) % 2 ^ 64

/-- The state in which `process_control` searches `control_codes` for the
opcode of a request that passed the framing checks: the response header and
the `res_` variables set up, the MAC looked for and checked, the translate
pointers on the request data. -/
def request_state (env : Env) (rbufp : recvbuf) (s : CtlState) : CtlState :=
  let s := { s with numctlreq := s.numctlreq + 1 }
  let pkt := rbufp.recv_pkt
  let res_version := PKT_VERSION (byteAt pkt 0)
  let s := { s with res_version := res_version }
  let s := set_datapt { s with
    rpkt := { s.rpkt with
      li_vn_mode := PKT_LI_VN_MODE env.sys_leap res_version MODE_CONTROL,
      sequence := be16 pkt 2,
      associd := be16 pkt 6,
      status := 0 },
    res_opcode := byteAt pkt 1,
    res_frags := 1,
    res_offset := 0,
    res_associd := be16 pkt 6,
    res_authenticate := false,
    res_keyid := 0,
    res_authokay := false,
    datanotbinflag := false,
    datalinelen := 0,
    datasent := false } 0
  let properlen := request_properlen rbufp
  let maclen := request_maclen rbufp
  let s :=
    if rbufp.recv_length &&& 3 = 0 ∧ maclen ≥ env.MIN_MAC_LEN ∧ maclen ≤ env.MAX_MAC_LEN then
      let res_keyid := be32 pkt properlen
      let s := { s with res_authenticate := true, res_keyid := res_keyid }
      if env.authistrusted res_keyid = false then s
      else if env.authdecrypt res_keyid pkt (rbufp.recv_length - maclen) maclen then
        { s with res_authokay := true }
      else { s with res_keyid := 0 }
    else s
  { s with reqdata := pkt.drop CTL_HEADER_LEN, reqpt := 0, reqend := be16 pkt 10 }

/-! ## Predicates used to state the claims -/

/-- The request carries a MAC, as `process_control` tests it: the length is
a multiple of four and `maclen` lies between `MIN_MAC_LEN` and
`MAX_MAC_LEN`. -/
def request_carries_mac (env : Env) (rbufp : recvbuf) : Prop :=
  rbufp.recv_length &&& 3 = 0 ∧ request_maclen rbufp ≥ env.MIN_MAC_LEN
    ∧ request_maclen rbufp ≤ env.MAX_MAC_LEN

instance (env : Env) (rbufp : recvbuf) : Decidable (request_carries_mac env rbufp) := by
  unfold request_carries_mac
  infer_instance

/-- The key id of a request: the 32-bit word at `properlen`. -/
def request_keyid (rbufp : recvbuf) : Nat := be32 rbufp.recv_pkt (request_properlen rbufp)

/-- The request authenticated OK: it carries a MAC, its key is trusted and
`authdecrypt` accepts the digest. -/
def authenticated_ok (env : Env) (rbufp : recvbuf) : Prop :=
  request_carries_mac env rbufp
    ∧ env.authistrusted (request_keyid rbufp) = true
    ∧ env.authdecrypt (request_keyid rbufp) rbufp.recv_pkt
        (rbufp.recv_length - request_maclen rbufp) (request_maclen rbufp) = true

instance (env : Env) (rbufp : recvbuf) : Decidable (authenticated_ok env rbufp) := by
  unfold authenticated_ok
  infer_instance

/-- The MAC offset as the specification words it in one place: the end of
header and data rounded up to a multiple of 4. -/
def spec_mac_offset (rbufp : recvbuf) : Nat :=
  ((be16 rbufp.recv_pkt 10 + CTL_HEADER_LEN + 3) / 4) * 4

/-- A request carries a MAC, as the specification words it in that place: the
bytes after the 4-byte-rounded end number between `MIN_MAC_LEN` and
`MAX_MAC_LEN`. -/
def spec_carries_mac (env : Env) (rbufp : recvbuf) : Prop :=
  env.MIN_MAC_LEN ≤ rbufp.recv_length - spec_mac_offset rbufp
  ∧ rbufp.recv_length - spec_mac_offset rbufp ≤ env.MAX_MAC_LEN

instance (env : Env) (rbufp : recvbuf) : Decidable (spec_carries_mac env rbufp) := by
  unfold spec_carries_mac
  infer_instance

/-- The request bytes from offset `p` up to `reqend`, as the parser reads
them. -/
def request_bytes (data : List Nat) (reqend p : Nat) : List Nat :=
  (List.range' p (reqend - p)).map (byteAt data)

/-- The name of a variable: its text up to `=` or the end of the string. -/
def ctl_var.name (v : ctl_var) : List Nat :=
  (v.text.getD []).takeWhile (fun c => c != 0 && c != 61)

/-- The offset of the next item: the cursor moved over leading commas and
white space. -/
def item_start (s : CtlState) : Nat :=
  s.reqpt + ((request_bytes s.reqdata s.reqend s.reqpt).takeWhile
    (fun c => c = 44 || isspace c)).length

/-- The bytes `item` begin with an item for the variable `v`: the name of
`v` byte for byte, then white space if any, then the end of the input, a
comma or an equals sign. -/
def names (v : ctl_var) (item : List Nat) : Prop :=
  item.take v.name.length = v.name
  ∧ ((item.drop v.name.length).dropWhile isspace = []
    ∨ ((item.drop v.name.length).dropWhile isspace).head? = some 44
    ∨ ((item.drop v.name.length).dropWhile isspace).head? = some 61)

instance (v : ctl_var) (item : List Nat) : Decidable (names v item) := by
  unfold names
  infer_instance

/-- A value with its trailing white space removed. -/
def strip_trailing (val : List Nat) : List Nat := (val.reverse.dropWhile isspace).reverse

/-- The number of steps the tag comparison of `ctl_getitem` makes on a tag
`text` against the request bytes. -/
def tag_run : List Nat → List Nat → Nat
  | c :: t, r :: R => if c ≠ 0 ∧ c ≠ 61 ∧ r = c then tag_run t R + 1 else 0
  | _, _ => 0

/-- What trying one table entry against the item at the cursor comes to. -/
inductive item_outcome where
  /-- The entry does not match; the search goes on. -/
  | no_match
  /-- The name stands alone: the new cursor. -/
  | bare (cp : Nat)
  /-- The name has a value: the new cursor and the bytes copied into `buf`. -/
  | valued (cp : Nat) (val : List Nat)
  /-- The value filled `buf`. -/
  | too_long
deriving DecidableEq, Repr

/-- The body of the `for` loop of `ctl_getitem` for one entry `v`, on the
request data `D` with end `E` and cursor `p`. -/
def entry_outcome (D : List Nat) (E p : Nat) (v : ctl_var) : item_outcome :=
  let text := v.text.getD []
  if v.flags.padding = false ∧ byteAt D p = text.getD 0 0 then
    let m := match_tag D text E (text.length + 1) p 0
    if text.getD m.2 0 = 0 ∨ text.getD m.2 0 = 61 then
      let cp := skip_while isspace D E (E - m.1) m.1
      if cp = E ∨ byteAt D cp = 44 then .bare (if cp < E then cp + 1 else cp)
      else if byteAt D cp = 61 then
        let cp1 := skip_while isspace D E (E - (cp + 1)) (cp + 1)
        match copy_value D E (E - cp1) cp1 [] with
        | none => .too_long
        | some r => .valued (if r.1 < E then r.1 + 1 else r.1) r.2
      else .no_match
    else .no_match
  else .no_match

/-- The return of `ctl_getitem` for an entry `v` that matched with `o`. -/
def item_return (env : Env) (v : ctl_var) (s : CtlState) : item_outcome → getitem_result
  | .no_match => { v := some eol, data := none, st := s }
  | .bare cp => { v := some v, data := some [], st := { s with reqpt := cp } }
  | .valued cp val => { v := some v, data := some (trim_value val), st := { s with reqpt := cp } }
  | .too_long =>
    let s1 := ctl_error env CERR_BADFMT s
    let s2 := { s1 with numctlbadpkts := s1.numctlbadpkts + 1 }
    let s3 := if env.nlog_sysevent ∧ s2.quiet_until ≤ env.current_time then
        { s2 with quiet_until := env.current_time + 300,
                  syslog_warnings := s2.syslog_warnings + 1 }
      else s2
    { v := none, data := none, st := s3 }

/-- The 12 header bytes of a sent datagram. -/
def Datagram.header_bytes (d : Datagram) : List Nat :=
  [d.li_vn_mode % 256, d.r_m_e_op % 256,
   (d.sequence / 256) % 256, d.sequence % 256,
   (d.status / 256) % 256, d.status % 256,
   (d.associd / 256) % 256, d.associd % 256,
   (d.offset / 256) % 256, d.offset % 256,
   (d.count / 256) % 256, d.count % 256]

/-- A datagram that passes the header checks of `process_control`: long
enough for the header, no Response, More or Error bit, offset zero, version
in range. -/
def passes_header_checks (env : Env) (rbufp : recvbuf) : Prop :=
  CTL_HEADER_LEN ≤ rbufp.recv_length
  ∧ (CTL_RESPONSE ||| CTL_MORE ||| CTL_ERROR) &&& byteAt rbufp.recv_pkt 1 = 0
  ∧ be16 rbufp.recv_pkt 8 = 0
  ∧ env.NTP_OLDVERSION ≤ PKT_VERSION (byteAt rbufp.recv_pkt 0)
  ∧ PKT_VERSION (byteAt rbufp.recv_pkt 0) ≤ env.NTP_VERSION

instance (env : Env) (rbufp : recvbuf) : Decidable (passes_header_checks env rbufp) := by
  unfold passes_header_checks
  infer_instance

/-- A well-framed request: it passes the header checks, its declared data
count fits in the datagram, and its length is a multiple of four. -/
def well_framed (env : Env) (rbufp : recvbuf) : Prop :=
  passes_header_checks env rbufp
  ∧ be16 rbufp.recv_pkt 10 ≤ rbufp.recv_length - CTL_HEADER_LEN
  ∧ rbufp.recv_length % 4 = 0

instance (env : Env) (rbufp : recvbuf) : Decidable (well_framed env rbufp) := by
  unfold well_framed
  infer_instance

/-- The data area of a datagram: the first `count` bytes after the header. -/
def Datagram.data_area (d : Datagram) : List Nat := d.data.take d.count

/-- The bytes written so far into the packet under construction. -/
def pending (s : CtlState) : List Nat := s.rpkt.data.take s.datapt

/-- Everything written so far: the data areas of the datagrams sent, in
order, then the bytes pending in the packet under construction. -/
def stream (s : CtlState) : List Nat := (s.sent.map Datagram.data_area).flatten ++ pending s

/-- The `ctl_putdata` calls of a handler, in order; each call is the data and
its `bin` flag. -/
def put_calls (env : Env) (calls : List (List Nat × Bool)) (s : CtlState) : CtlState :=
  calls.foldl (fun t c => ctl_putdata env c.1 c.2 t) s

/-- A response body: the `ctl_putdata` calls followed by `ctl_flushpkt(0)`. -/
def respond (env : Env) (calls : List (List Nat × Bool)) (s : CtlState) : CtlState :=
  ctl_flushpkt env 0 (put_calls env calls s)

/-- The datagrams sent between state `s` and the later state `t`. -/
def new_frags (s t : CtlState) : List Datagram := t.sent.drop s.sent.length

/-- The offset fields of a run of fragments chain up: each is the running
total (mod 2^16) of the counts before it, from `a` to the final total `c`. -/
def offsets_chain : Nat → List Datagram → Nat → Prop
  | a, [], c => c % 65536 = a % 65536
  | a, f :: fr, c => f.offset = a % 65536 ∧ offsets_chain (a + f.count) fr c

/-- Between the start of a response (`s0`) and a later state (`s`) only
More-fragments of this response were sent, with chained offsets. -/
def frag_inv (s0 s : CtlState) : Prop :=
  ∃ fr, s.sent = s0.sent ++ fr
    ∧ offsets_chain s0.res_offset fr s.res_offset
    ∧ (∀ f ∈ fr, f.r_m_e_op = CTL_RESPONSE ||| CTL_MORE ||| (s0.res_opcode &&& CTL_OP_MASK)
        ∧ f.sequence = s0.rpkt.sequence)
    ∧ s.res_opcode = s0.res_opcode ∧ s.rpkt.sequence = s0.rpkt.sequence

/-- The separator bytes `ctl_putdata` writes before a text token of `n`
bytes in state `s`. -/
def separator (n : Nat) (s : CtlState) : List Nat :=
  if s.datasent = true then
    if (n + (s.datalinelen + 1) + 1) % 2 ^ 32 ≥ MAXDATALINELEN then [44, 13, 10] else [44, 32]
  else []

/-! ## Concrete inputs for the examples -/

/-- An environment with the constants of the NTP headers (versions 1 to 4,
MACs of 4 to 24 bytes), a key store that trusts and accepts every key, a
16-byte digest, and system variables that all print as `v=0`; no peers, no
MRU entries, no endpoints and no restrictions, a random source and a clock
that give 0. -/
def std_env : Env where
  NTP_VERSION := 4
  NTP_OLDVERSION := 1
  MIN_MAC_LEN := 4
  MAX_MAC_LEN := 24
  sys_leap := 0
  authistrusted := fun _ => true
  authdecrypt := fun _ _ _ _ => true
  compute_mac := fun _ _ => List.replicate 16 0xAA
  ctlsysstatus := fun _ => 0
  findpeerbyassoc := fun _ => none
  ctlpeerstatus := fun _ => 0
  ctl_putpeer := fun _ _ => [str "p=0"]
  ctl_putsys := fun _ => [str "v=0"]
  current_time := 0
  nlog_sysevent := true
  LEAP_NOTINSYNC := 3
  strtol_einval := false
  RES_NOMODIFY := 0x80
  RES_NOMRULIST := 0x2000
  remote_config_buffer_size := 1024
  config_remotely := fun _ => {}
  NONCE_TIMEOUT := 16
  MRU_ROW_LIMIT := 256
  MRU_FRAGS_LIMIT := 128
  systime := 0
  nonce_digest := fun _ _ _ _ => 0
  ntp_random := fun _ => 0
  mon_mru_list := []
  MON_HASH := fun _ => 0
  mon_hash := fun _ => []
  mru_entries := 0
  sockporttoa := fun _ => []
  socktoa := fun _ => []
  decodenetnum := fun _ => none
  getinterface := fun _ => none
  ep_list := []
  sys_ifnum := 0
  restrictlist4 := []
  restrictlist6 := []
  res_match_flags := fun _ => []
  res_access_flags := fun _ => []
  peer_list := []
  peer_associd := fun _ => 0

/-- The state at program start: everything zero, the data buffer of `rpkt`
504 bytes long (480 plus a longest MAC). -/
def init_state : CtlState :=
  { rpkt := { li_vn_mode := 0, r_m_e_op := 0, sequence := 0, status := 0, associd := 0,
              offset := 0, count := 0, data := List.replicate 504 0 } }

/-- A handler table whose handlers leave the state alone, for examples in
which the dispatcher reaches no handler. -/
def idle_handlers : Handlers where
  control_unspec := fun _ _ _ s => s
  read_status := fun _ _ _ s => s
  read_variables := fun _ _ _ s => s
  write_variables := fun _ _ _ s => s
  read_clockstatus := fun _ _ _ s => s
  write_clockstatus := fun _ _ _ s => s
  configure := fun _ _ _ s => s
  read_mru_list := fun _ _ _ s => s
  read_ordlist := fun _ _ _ s => s
  req_nonce := fun _ _ _ s => s

/-- A 4-byte datagram: too short for a control header. -/
def short_request : recvbuf := { recv_length := 4, recv_pkt := [0x1e, 2, 0, 7] }

/-- A header-only READVAR request (version 3, sequence 7) whose count field
claims 4 data bytes that the 12-byte datagram does not carry. -/
def overcount_request : recvbuf :=
  { recv_length := 12, recv_pkt := [0x1e, 2, 0, 7, 0, 0, 0, 0, 0, 0, 0, 4] }

/-- The first scenario of the spec: `li_vn_mode = 0x1C`, opcode `0x1F`,
count 0. -/
def badop_request : recvbuf :=
  { recv_length := 12, recv_pkt := [0x1c, 0x1f, 0, 7, 0, 0, 0, 0, 0, 0, 0, 0] }

/-- The `ctl_putdata` calls of a READSTAT listing of 16614 peers: 142 binary
blocks of 468 bytes (117 peers each). -/
def long_binary_calls : List (List Nat × Bool) :=
  List.replicate 142 (List.replicate 468 0, true)

/-- Two short text tokens. -/
def two_token_calls : List (List Nat × Bool) := [(str "leap=0", false), (str "stratum=2", false)]

/-- A 460-byte text token followed by the 10-byte token `0123456789`. -/
def split_calls : List (List Nat × Bool) :=
  [(List.replicate 460 97, false), (str "0123456789", false)]

/-- One text token of 469 bytes. -/
def long_token_calls : List (List Nat × Bool) := [(List.replicate 469 65, false)]


/-- The state after a first text token of 460 bytes. -/
def after_460 : CtlState := put_calls std_env [(List.replicate 460 97, false)] init_state

/-- The state after the first text token `leap=0` of a response. -/
def after_leap : CtlState := ctl_putdata std_env (str "leap=0") false init_state

/-- A handler table with the READVAR handler of this file; the other
handlers, which the examples do not reach, leave the state alone. -/
def readvar_handlers : Handlers := { idle_handlers with read_variables := read_variables }

/-- A READVAR request for the system (association 0), version 3, sequence 7,
whose data area is `leap=` followed by 128 bytes `x`: 133 data bytes, padded
to a 148-byte datagram. -/
def overlong_request : recvbuf :=
  { recv_length := 148,
    recv_pkt := [0x1e, 2, 0, 7, 0, 0, 0, 0, 0, 0, 0, 133] ++ str "leap="
      ++ List.replicate 128 120 ++ [0, 0, 0] }

/-- An unauthenticated WRITEVAR request `leap=1` (version 3, sequence 7):
6 data bytes, padded to a 20-byte datagram. -/
def writevar_plain_request : recvbuf :=
  { recv_length := 20,
    recv_pkt := [0x1e, 3, 0, 7, 0, 0, 0, 0, 0, 0, 0, 6] ++ str "leap=1" ++ [0, 0] }

/-- A WRITECLOCK request without data, followed by a MAC of key id 1 and a
16-byte digest at offset 16. -/
def writeclock_auth_request : recvbuf :=
  { recv_length := 36,
    recv_pkt := [0x1e, 5, 0, 7, 0, 0, 0, 0, 0, 0, 0, 0] ++ [0, 0, 0, 0] ++ [0, 0, 0, 1]
      ++ List.replicate 16 0xAA }

/-- A handler table with the write handlers of this file and the READVAR
handler; the other handlers leave the state alone. -/
def write_handlers : Handlers :=
  { idle_handlers with
    read_variables := read_variables,
    write_variables := write_variables,
    write_clockstatus := write_clockstatus }

/-- A 16-byte request with opcode `0x1F` and count 0: four bytes follow the
header. -/
def four_trailing_request : recvbuf :=
  { recv_length := 16, recv_pkt := [0x1e, 0x1f, 0, 7, 0, 0, 0, 0, 0, 0, 0, 0, 0, 0, 0, 9] }

/-- A 36-byte request with opcode `0x1F` and count 0: the word at offset 12 is
9, the word at offset 16 is 1. -/
def two_words_request : recvbuf :=
  { recv_length := 36,
    recv_pkt := [0x1e, 0x1f, 0, 7, 0, 0, 0, 0, 0, 0, 0, 0] ++ [0, 0, 0, 9] ++ [0, 0, 0, 1]
      ++ List.replicate 16 0xAA }

/-- The state in which the READVAR handler finds the over-long request. -/
def overlong_state : CtlState := request_state std_env overlong_request init_state

/-- A READVAR request for the system whose data area is `foo`. -/
def foo_request : recvbuf :=
  { recv_length := 16, recv_pkt := [0x1e, 2, 0, 7, 0, 0, 0, 0, 0, 0, 0, 3] ++ str "foo" ++ [0] }

/-- A READVAR request for the system whose data area is `, leap = 1 ,tc`. -/
def spaced_request : recvbuf :=
  { recv_length := 28,
    recv_pkt := [0x1e, 2, 0, 7, 0, 0, 0, 0, 0, 0, 0, 14] ++ str ", leap = 1 ,tc" ++ [0, 0] }

/-- The descriptor of `leap` in `sys_var`. -/
def leap_var : ctl_var := ctl_var.mk 1 RW (some (str "leap"))

/-- A READVAR request for the system whose data area is `leap=` followed by
127 bytes `x`: 132 data bytes in a 144-byte datagram. -/
def longest_value_request : recvbuf :=
  { recv_length := 144,
    recv_pkt := [0x1e, 2, 0, 7, 0, 0, 0, 0, 0, 0, 0, 132] ++ str "leap="
      ++ List.replicate 127 120 }

/-- The state in which the READVAR handler finds that request. -/
def longest_value_state : CtlState := request_state std_env longest_value_request init_state

/-- The state in which the READVAR handler finds the request `, leap = 1 ,tc`. -/
def spaced_state : CtlState := request_state std_env spaced_request init_state

/-- The state in which the READVAR handler finds the request `foo`. -/
def foo_state : CtlState := request_state std_env foo_request init_state

/-- An environment like `std_env` in which `ctl_putsys` prints `leap=0` for
the variable `leap`. -/
def leap_env : Env :=
  { std_env with ctl_putsys := fun n => if n = 1 then [str "leap=0"] else [str "v=0"] }

/-- An authenticated WRITEVAR request (version 3, sequence 7, key id 1, a
16-byte digest) with the data area `data`: the data are padded to the next
8-octet boundary, where the MAC follows. -/
def auth_writevar (data : List Nat) : recvbuf :=
  { recv_length := (data.length + 19) / 8 * 8 + 20,
    recv_pkt := [0x1e, 3, 0, 7, 0, 0, 0, 0, 0, 0, 0, data.length] ++ data
      ++ List.replicate ((data.length + 19) / 8 * 8 - 12 - data.length) 0
      ++ [0, 0, 0, 1] ++ List.replicate 16 0xAA }

/-- A state whose control key is 1 and whose extension list holds the
writable `foo=1` and the read-only `bar=2`. -/
def auth_state : CtlState :=
  { init_state with
    ctl_auth_keyid := 1,
    ext_sys_var := some [ctl_var.mk 0 RW (some (str "foo=1")),
      ctl_var.mk 1 RO (some (str "bar=2")), ctl_var.mk 0 EOV none] }

/-- The state in which the WRITEVAR handler finds the authenticated request
`foo=5,leap=4`. -/
def mixed_write_state : CtlState :=
  request_state std_env (auth_writevar (str "foo=5,leap=4")) auth_state

/-- The state in which the WRITEVAR handler finds the authenticated request
`leap=1`. -/
def leap1_write_state : CtlState :=
  request_state std_env (auth_writevar (str "leap=1")) auth_state

/-- A READVAR request for the system whose data area is `leap,foo`. -/
def leap_foo_request : recvbuf :=
  { recv_length := 20,
    recv_pkt := [0x1e, 2, 0, 8, 0, 0, 0, 0, 0, 0, 0, 8] ++ str "leap,foo" }

/-- What a client reads in a datagram: the header fields and the data
area. -/
def Datagram.view (d : Datagram) : List Nat × List Nat := (d.header_bytes, d.data_area)

/-! ## Two runs that agree -/

/-- Two states hold the same variables and the same response under
construction: they agree on the fields that the read handlers read (the
response header fields that are kept from fragment to fragment, the request,
the write cursor and the bytes written so far, the extension list, the event
counter), and in both the cursor lies inside the buffer. They may differ in
the counters, in the datagrams sent so far, and in what the packet buffer
holds beyond the cursor. -/
structure same_store (a b : CtlState) : Prop where
  li_vn_mode : a.rpkt.li_vn_mode = b.rpkt.li_vn_mode
  sequence : a.rpkt.sequence = b.rpkt.sequence
  status : a.rpkt.status = b.rpkt.status
  associd : a.rpkt.associd = b.rpkt.associd
  offset : a.rpkt.offset = b.rpkt.offset
  res_opcode : a.res_opcode = b.res_opcode
  res_associd : a.res_associd = b.res_associd
  res_offset : a.res_offset = b.res_offset
  datapt : a.datapt = b.datapt
  datalinelen : a.datalinelen = b.datalinelen
  datasent : a.datasent = b.datasent
  datanotbinflag : a.datanotbinflag = b.datanotbinflag
  res_authenticate : a.res_authenticate = b.res_authenticate
  res_authokay : a.res_authokay = b.res_authokay
  res_keyid : a.res_keyid = b.res_keyid
  reqdata : a.reqdata = b.reqdata
  reqpt : a.reqpt = b.reqpt
  reqend : a.reqend = b.reqend
  ctl_sys_num_events : a.ctl_sys_num_events = b.ctl_sys_num_events
  ext_sys_var : a.ext_sys_var = b.ext_sys_var
  quiet_until : a.quiet_until = b.quiet_until
  pending : a.rpkt.data.take a.datapt = b.rpkt.data.take b.datapt
  room_left : a.datapt ≤ a.rpkt.data.length
  room_right : b.datapt ≤ b.rpkt.data.length

/-- Since the lists `A` and `B` of datagrams, the two states have sent
datagrams with the same header fields and data areas. -/
def same_new (A B : List Datagram) (a b : CtlState) : Prop :=
  ∃ X Y, a.sent = A ++ X ∧ b.sent = B ++ Y ∧ X.map Datagram.view = Y.map Datagram.view

/-- The two runs agree: the states hold the same variables and response
under construction, and since `A` and `B` they have sent the same. -/
def agree (A B : List Datagram) (a b : CtlState) : Prop :=
  same_store a b ∧ same_new A B a b

/-! ## Formatting and the tagged output routines -/

/-- The decimal digits of `n` as ASCII, most significant first, for a value
of at most `fuel` digits. -/
def dec_digits : Nat → Nat → List Nat
  | 0, _ => []
  | fuel + 1, n => if n < 10 then [48 + n] else dec_digits fuel (n / 10) ++ [48 + n % 10]

/-- The ASCII code of a hexadecimal digit, lower case. -/
def hex_digit (d : Nat) : Nat := if d < 10 then 48 + d else 87 + d

/-- The hexadecimal digits of `n` as ASCII, most significant first, for a
value of at most `fuel` digits. -/
def hex_digits : Nat → Nat → List Nat
  | 0, _ => []
  | fuel + 1, n =>
    if n < 16 then [hex_digit n] else hex_digits fuel (n / 16) ++ [hex_digit (n % 16)]

/-- The C library conversion `%lu` of an `unsigned long` (64 bits). -/
def fmt_lu (n : Nat) : List Nat := dec_digits 20 (n % 2 ^ 64)

/-- The C library conversion `%ld` of a `long`. -/
def fmt_ld (i : Int) : List Nat :=
  if i < 0 then 45 :: dec_digits 20 i.natAbs else dec_digits 20 i.toNat

/-- The C library conversion `%lx` of an `unsigned long` (64 bits). -/
def fmt_lx (n : Nat) : List Nat := hex_digits 16 (n % 2 ^ 64)

/-- The C library conversion `%08x` of an `unsigned int` (32 bits): eight
hexadecimal digits. -/
def fmt_08x (n : Nat) : List Nat :=
  (List.range 8).map (fun i => hex_digit ((n % 2 ^ 32) / 16 ^ (7 - i) % 16))

/-- The value of a 32-bit word read as an `int` in two's complement. -/
def to_int32 (n : Nat) : Int :=
  if n % 2 ^ 32 < 2 ^ 31 then ((n % 2 ^ 32 : Nat) : Int) else ((n % 2 ^ 32 : Nat) : Int) - 2 ^ 32

/-- The 64 bits of a `long` or of an `int` widened to `u_long`. -/
def to_u64 (i : Int) : Nat := (i % 2 ^ 64).toNat

/-- Modelled from the spec: the upper 32 bits `lfpuint` of an `l_fp`, a 64-bit
fixed-point timestamp with 32 bits of seconds and 32 bits of fraction (the
header ntp_fp.h is not among the sources). -/
def lfpuint (ts : Nat) : Nat := (ts / 2 ^ 32) % 2 ^ 32

/-- Modelled from the spec: the lower 32 bits `lfpfrac` of an `l_fp`. -/
def lfpfrac (ts : Nat) : Nat := ts % 2 ^ 32

/-- Modelled from the spec: the `l_fp` made of two 32-bit words, `lfpinit`. -/
def lfpinit (i f : Nat) : Nat := (i % 2 ^ 32) * 2 ^ 32 + f % 2 ^ 32

/-- The call `snprintf(tag, sizeof(tag), "name.%d", k)` into `char tag[32]`:
the name, a dot and the decimal index, cut to 31 bytes. -/
def tag_d (name : List Nat) (k : Int) : List Nat := (name ++ [46] ++ fmt_ld k).take 31

/-- The call `snprintf(tag, sizeof(tag), "name.%u", k)` into `char tag[32]`. -/
def tag_u (name : List Nat) (k : Nat) : List Nat :=
  (name ++ [46] ++ dec_digits 10 (k % 2 ^ 32)).take 31

/-- The common body of `ctl_putuint`, `ctl_puthex`, `ctl_putint` and
`ctl_putts`: the tag and `=` are copied into `char buffer[200]`, the
`NTP_INSIST` checks that the cursor is inside the buffer, `snprintf` prints
the value into the room left, and the text goes to `ctl_putdata`. -/
def ctl_put_tagged (env : Env) (tag value : List Nat) (s : CtlState) : CtlState :=
  if tag.length + 1 < 200 then
    ctl_putdata env (tag ++ [61] ++ value.take (200 - (tag.length + 1) - 1)) false s
  else { s with aborted := true }

/-- The routine `ctl_putuint`: write a tagged unsigned integer. -/
def ctl_putuint (env : Env) (tag : List Nat) (uval : Nat) (s : CtlState) : CtlState :=
  ctl_put_tagged env tag (fmt_lu uval) s

/-- The routine `ctl_puthex`: write a tagged unsigned integer, in hex. -/
def ctl_puthex (env : Env) (tag : List Nat) (uval : Nat) (s : CtlState) : CtlState :=
  ctl_put_tagged env tag ([48, 120] ++ fmt_lx uval) s

/-- The routine `ctl_putint`: write a tagged signed integer. -/
def ctl_putint (env : Env) (tag : List Nat) (ival : Int) (s : CtlState) : CtlState :=
  ctl_put_tagged env tag (fmt_ld ival) s

/-- The routine `ctl_putts`: write a tagged timestamp, in hex. -/
def ctl_putts (env : Env) (tag : List Nat) (ts : Nat) (s : CtlState) : CtlState :=
  ctl_put_tagged env tag ([48, 120] ++ fmt_08x (lfpuint ts) ++ [46] ++ fmt_08x (lfpfrac ts)) s

/-- The routine `ctl_putunqstr`: write `tag=data`, or the bare tag when the
data are empty; `data` is a C string and `len` its length, as every caller
passes it. The tag is copied into `char buffer[512]` unchecked. -/
def ctl_putunqstr (env : Env) (tag data : List Nat) (s : CtlState) : CtlState :=
  if data.length > 0 then
    if tag.length + 1 + data.length ≤ 512 then ctl_putdata env (tag ++ [61] ++ data) false s
    else { s with aborted := true }
  else ctl_putdata env tag false s

/-- The routine `ctl_putstr`: write `tag="data"`; `data` is a C string and
`len` its length. With empty data nothing is printed after the tag, and the
`strlen(buffer)` that follows reads the uninitialised rest of the buffer up to
its first NUL: those bytes are not modelled, the bare tag is written. -/
def ctl_putstr (env : Env) (tag data : List Nat) (s : CtlState) : CtlState :=
  if tag.length ≥ 512 then s
  else if data.length > 0 then
    ctl_putdata env (tag ++ ([61, 34] ++ data ++ [34]).take (512 - tag.length - 1)) false s
  else ctl_putdata env tag false s

/-! ## Randomized list entries -/

/-- Modelled from the spec: the call `ntp_random()`, a 32-bit draw of the
random source, which is not among the sources; `env.ntp_random k` is the draw
number `k`. -/
def ntp_random (env : Env) (s : CtlState) : Nat × CtlState :=
  (env.ntp_random s.random_calls % 2 ^ 32, { s with random_calls := s.random_calls + 1 })

/-- The routine `send_random_tag_value`: send a three character tag made from
`noise`, a `.`, the index, a `=` and what is left of `noise`. `noise` is an
`int`: the draw read in two's complement, `%` truncates towards zero and `>>`
keeps the sign. -/
def send_random_tag_value (env : Env) (indx : Int) (s : CtlState) : CtlState :=
  let r := ntp_random env s
  let noise := to_int32 r.1
  let b0 := ((97 : Int) + noise.tmod 26) % 256
  let noise := noise >>> 5
  let b1 := ((97 : Int) + noise.tmod 26) % 256
  let noise := noise >>> 5
  let b2 := ((97 : Int) + noise.tmod 26) % 256
  let noise := noise >>> 5
  let buf := [b0.toNat, b1.toNat, b2.toNat, 46] ++ (fmt_ld indx).take 27
  ctl_putuint env buf (to_u64 noise) r.2

/-- The loop `while (sent[which]) which = (which + 1) % COUNTOF(sent)`, given
up (`none`) after `fuel` steps. -/
def next_unsent (sent : List Bool) : Nat → Nat → Option Nat
  | 0, which => if sent.getD which false = true then none else some which
  | fuel + 1, which =>
    if sent.getD which false = true then next_unsent sent fuel ((which + 1) % sent.length)
    else some which

/-- The `switch (which)` of `send_mru_entry`: print field `which` of the MRU
entry `mon` with index `count`. -/
def mru_field (env : Env) (mon : mon_entry) (count : Int) (which : Nat) (s : CtlState) :
    CtlState :=
  match which with
  | 0 => ctl_putunqstr env (tag_d (str "addr") count) (env.sockporttoa mon.rmtadr) s
  | 1 => ctl_putts env (tag_d (str "last") count) mon.last s
  | 2 => ctl_putts env (tag_d (str "first") count) mon.first s
  | 3 => ctl_putint env (tag_d (str "ct") count) mon.count s
  | 4 => ctl_putuint env (tag_d (str "mv") count) mon.vn_mode s
  | 5 => ctl_puthex env (tag_d (str "rs") count) mon.flags s
  | _ => s

/-- The `while (remaining > 0)` loop of `send_mru_entry`. -/
def send_mru_entry_loop (env : Env) (mon : mon_entry) (count : Int) :
    Nat → List Bool → Nat → CtlState → CtlState
  | 0, _, _, s => s
  | remaining + 1, sent, noise, s =>
    match next_unsent sent sent.length ((noise &&& 7) % sent.length) with
    | none => { s with stuck := true }
    | some which =>
      send_mru_entry_loop env mon count remaining (sent.set which true) (noise >>> 3)
        (mru_field env mon count which s)

/-- The routine `send_mru_entry`: send the six fields of an MRU list entry,
in an order drawn at random. -/
def send_mru_entry (env : Env) (mon : mon_entry) (count : Int) (s : CtlState) : CtlState :=
  let r := ntp_random env s
  send_mru_entry_loop env mon count 6 (List.replicate 6 false) r.1 r.2

/-- The `while (remaining > 0)` loop that `send_ifstats_entry` (12 fields, 4
bits of noise a round) and `send_restrict_entry` (4 fields, 2 bits a round)
share: draw fresh noise when fewer than `bits` bits are left, take `which`
from the low bits, move on to the next field not yet sent, print it. -/
def send_fields_loop (env : Env) (bits : Nat) (field : Nat → CtlState → CtlState) :
    Nat → List Bool → Nat → Int → CtlState → CtlState
  | 0, _, _, _, s => s
  | remaining + 1, sent, noise, noisebits, s =>
    let r := if noisebits < bits then ntp_random env s else (noise, s)
    let noisebits := if noisebits < bits then 31 else noisebits
    match next_unsent sent sent.length ((r.1 &&& (2 ^ bits - 1)) % sent.length) with
    | none => { r.2 with stuck := true }
    | some which =>
      send_fields_loop env bits field remaining (sent.set which true) (r.1 >>> bits)
        (noisebits - bits) (field which r.2)

/-- Modelled from the spec: the endpoint flag `INT_BCASTOPEN` of ntp.h, which
is not among the sources; its bit is taken as `0x040`. -/
def INT_BCASTOPEN : Nat := 0x040

/-- The `switch (which)` of `send_ifstats_entry`. -/
def ifstats_field (env : Env) (la : endpt) (ifnum : Nat) (which : Nat) (s : CtlState) :
    CtlState :=
  match which with
  | 0 => ctl_putunqstr env (tag_u (str "addr") ifnum) (env.sockporttoa la.sin) s
  | 1 => ctl_putunqstr env (tag_u (str "bcast") ifnum)
      (if INT_BCASTOPEN &&& la.flags ≠ 0 then env.sockporttoa la.bcast else []) s
  | 2 => ctl_putint env (tag_u (str "en") ifnum) (if la.ignore_packets then 0 else 1) s
  | 3 => ctl_putstr env (tag_u (str "name") ifnum) la.name s
  | 4 => ctl_puthex env (tag_u (str "flags") ifnum) (la.flags % 2 ^ 32) s
  | 5 => ctl_putint env (tag_u (str "tl") ifnum) la.last_ttl s
  | 6 => ctl_putint env (tag_u (str "mc") ifnum) la.num_mcast s
  | 7 => ctl_putint env (tag_u (str "rx") ifnum) la.received s
  | 8 => ctl_putint env (tag_u (str "tx") ifnum) la.sent s
  | 9 => ctl_putint env (tag_u (str "txerr") ifnum) la.notsent s
  | 10 => ctl_putuint env (tag_u (str "pc") ifnum) la.peercnt s
  | 11 => ctl_putuint env (tag_u (str "up") ifnum)
      ((env.current_time + 2 ^ 64 - la.starttime % 2 ^ 64) % 2 ^ 64) s
  | _ => s

/-- The routine `send_ifstats_entry`: send the 12 fields of an endpoint in an
order drawn at random, then a random tag. -/
def send_ifstats_entry (env : Env) (la : endpt) (ifnum : Nat) (s : CtlState) : CtlState :=
  send_random_tag_value env (to_int32 ifnum)
    (send_fields_loop env 4 (ifstats_field env la ifnum) 12 (List.replicate 12 false) 0 0 s)

/-- The routine `read_ifstats`, the loop over `ifidx` from `ifidx` on for
`n` more numbers: send the entry of the first endpoint of `ep_list` with that
number, if there is one. -/
def read_ifstats_loop (env : Env) : Nat → Nat → CtlState → CtlState
  | 0, _, s => s
  | n + 1, ifidx, s =>
    match env.ep_list.find? (fun la => ifidx = la.ifnum) with
    | none => read_ifstats_loop env n (ifidx + 1) s
    | some la => read_ifstats_loop env n (ifidx + 1) (send_ifstats_entry env la ifidx s)

/-- The routine `read_ifstats`: send statistics for each local address. -/
def read_ifstats (env : Env) (s : CtlState) : CtlState :=
  ctl_flushpkt env 0 (read_ifstats_loop env env.sys_ifnum 0 s)

/-- The address family `AF_INET` (a platform constant; the value of Linux). -/
def AF_INET : Nat := 2

/-- The address family `AF_INET6` (a platform constant; the value of Linux). -/
def AF_INET6 : Nat := 10

/-- The routine `sockaddrs_from_restrict_u`: the address and the mask of a
restriction as socket addresses. -/
def sockaddrs_from_restrict_u (pres : restrict_u) (ipv6 : Bool) : sockaddr_u × sockaddr_u :=
  if ipv6 = false then
    ({ family := AF_INET, addr := htonl_bytes pres.addr4 },
     { family := AF_INET, addr := htonl_bytes pres.mask4 })
  else
    ({ family := AF_INET6, addr := pres.addr6 }, { family := AF_INET6, addr := pres.mask6 })

/-- The `switch (which)` of `send_restrict_entry`. -/
def restrict_field (env : Env) (pres : restrict_u) (ipv6 : Bool) (idx : Nat) (which : Nat)
    (s : CtlState) : CtlState :=
  match which with
  | 0 => ctl_putunqstr env (tag_u (str "addr") idx)
      (env.socktoa (sockaddrs_from_restrict_u pres ipv6).1) s
  | 1 => ctl_putunqstr env (tag_u (str "mask") idx)
      (env.socktoa (sockaddrs_from_restrict_u pres ipv6).2) s
  | 2 => ctl_putuint env (tag_u (str "hits") idx) pres.count s
  | 3 => ctl_putunqstr env (tag_u (str "flags") idx)
      (if env.res_match_flags pres.mflags = [] then env.res_access_flags pres.flags
       else env.res_match_flags pres.mflags ++ [32] ++ env.res_access_flags pres.flags) s
  | _ => s

/-- The routine `send_restrict_entry`: send the 4 fields of a restriction in
an order drawn at random, then a random tag. -/
def send_restrict_entry (env : Env) (pres : restrict_u) (ipv6 : Bool) (idx : Nat)
    (s : CtlState) : CtlState :=
  send_random_tag_value env (to_int32 idx)
    (send_fields_loop env 2 (restrict_field env pres ipv6 idx) 4 (List.replicate 4 false) 0 0 s)

/-- The routine `send_restrict_list`: send the entries of a list, counting
the index `*pidx` up. Returns the index reached. -/
def send_restrict_list (env : Env) (ipv6 : Bool) : List restrict_u → Nat → CtlState →
    Nat × CtlState
  | [], idx, s => (idx, s)
  | pres :: rest, idx, s =>
    send_restrict_list env ipv6 rest ((idx + 1) % 2 ^ 32) (send_restrict_entry env pres ipv6 idx s)

/-- The routine `read_addr_restrictions`: the IPv4 and IPv6 access control
lists. -/
def read_addr_restrictions (env : Env) (s : CtlState) : CtlState :=
  let r4 := send_restrict_list env false env.restrictlist4 0 s
  let r6 := send_restrict_list env true env.restrictlist6 r4.1 r4.2
  ctl_flushpkt env 0 r6.2

/-- The handler `read_ordlist`: `CTL_OP_READ_ORDLIST_A` for ifstats and
reslist. The count and the data are read from the received packet. -/
def read_ordlist (env : Env) (rbufp : recvbuf) (_restrict_mask : Int) (s : CtlState) :
    CtlState :=
  let qdata_octets := be16 rbufp.recv_pkt 10
  let data := fun n => (List.range n).map (fun i => byteAt rbufp.recv_pkt (CTL_HEADER_LEN + i))
  if qdata_octets = 0 ∨ (qdata_octets = 7 ∧ data 7 = str "ifstats") then read_ifstats env s
  else if qdata_octets = 17 ∧ data 17 = str "addr_restrictions" then
    read_addr_restrictions env s
  else ctl_error env CERR_UNKNOWNVAR s

/-- The peer loop of `read_status`: collect the association id and the status
of each peer, both in network byte order, in `a_st`, and hand the array to
`ctl_putdata` when it is full (`n + 1 >= COUNTOF(a_st)`, the array holding
`CTL_MAX_DATA_LEN / 2` words). Returns the bytes left in `a_st`. -/
def read_status_loop (env : Env) : List Nat → List Nat → CtlState → List Nat × CtlState
  | [], a_st, s => (a_st, s)
  | peer :: rest, a_st, s =>
    let a_st := a_st ++ [env.peer_associd peer / 256 % 256, env.peer_associd peer % 256]
      ++ [env.ctlpeerstatus peer / 256 % 256, env.ctlpeerstatus peer % 256]
    if a_st.length / 2 + 1 ≥ CTL_MAX_DATA_LEN / 2 then
      read_status_loop env rest [] (ctl_putdata env a_st true s)
    else read_status_loop env rest a_st s

/-- The handler `read_status`: return either a list of association ids with
their status, or a particular peer's status and variables. -/
def read_status (env : Env) (_rbufp : recvbuf) (_restrict_mask : Int) (s : CtlState) :
    CtlState :=
  if s.res_associd ≠ 0 then
    match env.findpeerbyassoc s.res_associd with
    | none => ctl_error env CERR_BADASSOC s
    | some peer =>
      let s := { s with rpkt := { s.rpkt with status := env.ctlpeerstatus peer % 65536 } }
      let s := if s.res_authokay then { s with cleared_peers := peer :: s.cleared_peers } else s
      ctl_flushpkt env 0 (def_peer_var.foldl (fun t cp => ctl_putpeer env cp peer t) s)
  else
    let s := { s with rpkt := { s.rpkt with
      status := env.ctlsysstatus s.ctl_sys_num_events % 65536 } }
    let r := read_status_loop env env.peer_list [] s
    let s := if r.1 ≠ [] then ctl_putdata env r.1 true r.2 else r.2
    ctl_flushpkt env 0 s

/-! ## Reading numbers -/

/-- The value of an ASCII digit in a base up to 36, if it is one. -/
def digit_value (base c : Nat) : Option Nat :=
  if 48 ≤ c ∧ c ≤ 57 ∧ c - 48 < base then some (c - 48)
  else if 97 ≤ c ∧ c ≤ 122 ∧ c - 87 < base then some (c - 87)
  else if 65 ≤ c ∧ c ≤ 90 ∧ c - 55 < base then some (c - 55)
  else none

/-- What a numeric conversion of `sscanf` found. -/
structure scanned where
  /-- A minus sign came first. -/
  neg : Bool
  /-- The value of the digits. -/
  value : Nat
  /-- The input left. -/
  rest : List Nat
deriving DecidableEq, Repr

/-- A numeric conversion of the C library `sscanf` (`%u`, `%d`, `%x` and
their variants with a field width): skip white space, then within the width
take a sign if there is one, for base 16 a `0x` that a digit follows, and
the longest run of digits; `none` when there is no digit. -/
def scan_number (base : Nat) (width : Option Nat) (input : List Nat) : Option scanned :=
  let s0 := input.dropWhile isspace
  let w0 := width.getD s0.length
  let sign : Bool := decide (0 < w0 ∧ (s0.head? = some 45 ∨ s0.head? = some 43))
  let s1 := if sign then s0.tail else s0
  let w1 := if sign then w0 - 1 else w0
  let pre : Bool := decide (base = 16 ∧ 3 ≤ w1 ∧ s1.head? = some 48
    ∧ (s1.getD 1 0 = 120 ∨ s1.getD 1 0 = 88) ∧ (digit_value 16 (s1.getD 2 0)).isSome = true)
  let s2 := if pre then s1.drop 2 else s1
  let w2 := if pre then w1 - 2 else w1
  let ds := (s2.take w2).takeWhile (fun c => (digit_value base c).isSome)
  if ds = [] then none
  else some { neg := decide (s0.head? = some 45),
              value := ds.foldl (fun a c => base * a + (digit_value base c).getD 0) 0,
              rest := s2.drop ds.length }

/-- The value an unsigned conversion stores into a variable of `bits` bits:
the value is clamped to `ULONG_MAX`, negated if signed so, and cut to size. -/
def stored_unsigned (bits : Nat) (r : scanned) : Nat :=
  let v := min r.value (2 ^ 64 - 1)
  (if r.neg then (2 ^ 64 - v) % 2 ^ 64 else v) % 2 ^ bits

/-- The value `%d` stores into an `int`: clamped to the range of `long`, then
cut to 32 bits. -/
def stored_int (r : scanned) : Int :=
  let v : Int := if r.neg then -(min r.value (2 ^ 63) : Nat) else (min r.value (2 ^ 63 - 1) : Nat)
  to_int32 (v % 2 ^ 32).toNat

/-- The call `sscanf(val, "0x%08x.%08x", &ui, &uf)` when it returns 2: the two
words. -/
def scan_timestamp (val : List Nat) : Option (Nat × Nat) :=
  if val.take 2 = [48, 120] then
    match scan_number 16 (some 8) (val.drop 2) with
    | none => none
    | some r1 =>
      if r1.rest.head? = some 46 then
        match scan_number 16 (some 8) r1.rest.tail with
        | none => none
        | some r2 => some (stored_unsigned 32 r1, stored_unsigned 32 r2)
      else none
  else none

/-! ## Nonces -/

/-- The salt loop of `derive_nonce`: as long as `salt[0]` is zero or the salt
is an hour old, draw four new words. With `fuel` rounds at most; `none` when
they do not suffice. `current_time - last_salt_update` is a `u_long`. -/
def salt_loop (env : Env) : Nat → CtlState → Option CtlState
  | fuel, s =>
    if s.salt.getD 0 0 = 0
        ∨ (env.current_time + 2 ^ 64 - s.last_salt_update % 2 ^ 64) % 2 ^ 64 ≥ 3600 then
      match fuel with
      | 0 => none
      | fuel + 1 =>
        let r0 := ntp_random env s
        let r1 := ntp_random env r0.2
        let r2 := ntp_random env r1.2
        let r3 := ntp_random env r2.2
        salt_loop env fuel { r3.2 with salt := [r0.1, r1.1, r2.1, r3.1],
                                       last_salt_update := env.current_time }
    else some s

/-- The routine `derive_nonce`: the client-address-specific nonce value of a
timestamp. -/
def derive_nonce (env : Env) (fuel : Nat) (addr : sockaddr_u) (ts_i ts_f : Nat)
    (s : CtlState) : Option (Nat × CtlState) :=
  match salt_loop env fuel s with
  | none => none
  | some s1 => some (env.nonce_digest s1.salt ts_i ts_f addr % 2 ^ 32, s1)

/-- The routine `generate_nonce`: the nonce string of a request, printed
into a buffer of `nonce_octets` bytes. -/
def generate_nonce (env : Env) (fuel : Nat) (rbufp : recvbuf) (nonce_octets : Nat)
    (s : CtlState) : Option (List Nat × CtlState) :=
  match derive_nonce env fuel rbufp.recv_srcadr (lfpuint rbufp.recv_time)
      (lfpfrac rbufp.recv_time) s with
  | none => none
  | some r =>
    some ((fmt_08x (lfpuint rbufp.recv_time) ++ fmt_08x (lfpfrac rbufp.recv_time)
        ++ fmt_08x r.1).take (nonce_octets - 1), r.2)

/-- The routine `validate_nonce`: true if the local calculation of the nonce
matches the value of the client and the timestamp is recent enough. -/
def validate_nonce (env : Env) (fuel : Nat) (pnonce : List Nat) (rbufp : recvbuf)
    (s : CtlState) : Option (Bool × CtlState) :=
  match scan_number 16 (some 8) pnonce with
  | none => some (false, s)
  | some r1 =>
    match scan_number 16 (some 8) r1.rest with
    | none => some (false, s)
    | some r2 =>
      match scan_number 16 (some 8) r2.rest with
      | none => some (false, s)
      | some r3 =>
        let ts := lfpinit (stored_unsigned 32 r1) (stored_unsigned 32 r2)
        match derive_nonce env fuel rbufp.recv_srcadr (lfpuint ts) (lfpfrac ts) s with
        | none => none
        | some d =>
          let now_delta := (env.systime % 2 ^ 64 + 2 ^ 64 - ts) % 2 ^ 64
          some (decide (stored_unsigned 32 r3 = d.1 ∧ lfpuint now_delta < env.NONCE_TIMEOUT), d.2)

/-- The number of rounds the handlers give the salt loop of `derive_nonce`
before they count as stuck. -/
def SALT_ROUNDS : Nat := 2 ^ 32

/-- The handler `req_nonce`: `CTL_OP_REQ_NONCE`, the prerequisite of
mrulist. -/
def req_nonce (env : Env) (rbufp : recvbuf) (_restrict_mask : Int) (s : CtlState) : CtlState :=
  match generate_nonce env SALT_ROUNDS rbufp 64 s with
  | none => { s with stuck := true }
  | some r => ctl_flushpkt env 0 (ctl_putunqstr env (str "nonce") r.1 r.2)

/-! ## CONFIGURE -/

/-- A C string: the bytes of a buffer before its first NUL. -/
def cstring (buf : List Nat) : List Nat := buf.takeWhile (fun c => c != 0)

/-- The handler `configure`: runtime reconfiguration from the text of the
request. The log lines are not modelled (the newline that is taken out for
the log is put back before the collaborator runs). The messages printed into
`remote_config.err_msg` are taken to fit. -/
def configure (env : Env) (_rbufp : recvbuf) (restrict_mask : Int) (s : CtlState) : CtlState :=
  if s.res_associd ≠ 0 then ctl_error env CERR_BADVALUE s
  else if env.RES_NOMODIFY &&& (restrict_mask % 2 ^ 32).toNat ≠ 0 then
    let t := ctl_flushpkt env 0 (ctl_putdata env
      (str "runtime configuration prohibited by restrict ... nomodify") false s)
    { t with sys_restricted := t.sys_restricted + 1 }
  else
    -- data_count = reqend - reqpt, a size_t
    let data_count := (s.reqend + 2 ^ 64 - s.reqpt) % 2 ^ 64
    if data_count > (env.remote_config_buffer_size + 2 ^ 64 - 2) % 2 ^ 64 then
      ctl_flushpkt env 0 (ctl_putdata env
        (str "runtime configuration failed: request too long") false s)
    else
      let data := (List.range data_count).map (fun i => byteAt s.reqdata (s.reqpt + i))
      let buffer := memcpy s.remote_config_buffer 0 data
      let nl : Bool := decide (data_count > 0 ∧ byteAt buffer (data_count - 1) ≠ 10)
      let buffer := if nl then memcpy buffer data_count [10] else buffer
      let data_count := if nl then data_count + 1 else data_count
      let buffer := memcpy buffer data_count [0]
      let r := env.config_remotely buffer
      let s1 := { s with remote_config_buffer := buffer,
                         config_runs := s.config_runs ++ [buffer] }
      let err_msg := if r.no_errors = 0 then memcpy r.err_msg 0 (str "Config Succeeded" ++ [0])
                     else r.err_msg
      let err_pos := if r.no_errors = 0 then r.err_pos + 16 else r.err_pos
      ctl_flushpkt env 0 (ctl_putdata env
        ((List.range err_pos).map (fun i => byteAt err_msg i)) false s1)

/-! ## READ_MRU -/

/-- The routine `set_var` on a list that is a local variable, for a C string
`data` with `size = strlen(data) + 1`: replace the entry of the same name or
append one. -/
def set_var (kv : Option (List ctl_var)) (data : List Nat) (dflt : var_flags) :
    Option (List ctl_var) :=
  match set_var_walk data dflt (kv.getD []) with
  | .stored k => some k
  | .not_found => some (add_var kv data dflt)
  | .undefined_read => kv

/-- The names of the input parameters of `read_mru_list` in the order of the
`set_var` calls: the nine fixed names, then `last.i` and `addr.i` for `i`
from 0 to 15. -/
def mru_parm_names : List (List Nat) :=
  [str "nonce", str "frags", str "limit", str "mincount", str "resall", str "resany",
   str "maxlstint", str "laddr", str "recent"]
  ++ (List.range 16).flatMap (fun i =>
      [str "last." ++ fmt_ld (i : Int), str "addr." ++ fmt_ld (i : Int)])

/-- The list `in_parms` that `read_mru_list` fills with all possible input
parameters, flags 0. -/
def mru_in_parms : Option (List ctl_var) :=
  mru_parm_names.foldl (fun kv name => set_var kv name {}) none

/-- The local variables of `read_mru_list` that hold the decoded input. -/
structure mru_parms where
  pnonce : Option (List Nat) := none
  frags : Nat := 0
  limit : Nat := 0
  mincount : Int := 0
  resall : Nat := 0
  resany : Nat := 0
  maxlstint : Nat := 0
  lcladr : Option Nat := none
  recent : Nat := 0
  priors : Nat := 0
  last : List Nat := List.replicate 16 0
  addr : List sockaddr_u := List.replicate 16 {}
deriving DecidableEq, Repr

/-- The index `si` that `sscanf(v->text, "name.%d", &si)` reads from a
parameter name, when that returns 1 and `(size_t)si < 16`. -/
def scan_index (name text : List Nat) : Option Nat :=
  if text.take (name.length + 1) = name ++ [46] then
    match scan_number 10 none (text.drop (name.length + 1)) with
    | none => none
    | some r => if 0 ≤ stored_int r ∧ stored_int r < 16 then some (stored_int r).toNat else none
  else none

/-- The body of the parameter loop of `read_mru_list` for the parameter `v`
with value `val`: the variables after it, or `none` where the code jumps to
`blooper`. -/
def mru_item (env : Env) (v : ctl_var) (val : List Nat) (p : mru_parms) : Option mru_parms :=
  let text := cstring (v.text.getD [])
  if text = str "nonce" then some { p with pnonce := if val ≠ [] then some val else none }
  else if text = str "frags" then
    (scan_number 10 none val).map (fun r => { p with frags := stored_unsigned 16 r })
  else if text = str "limit" then
    (scan_number 10 none val).map (fun r => { p with limit := stored_unsigned 32 r })
  else if text = str "mincount" then
    (scan_number 10 none val).map
      (fun r => { p with mincount := if stored_int r < 0 then 0 else stored_int r })
  else if text = str "resall" then
    if val.take 2 = [48, 120] then
      (scan_number 16 none (val.drop 2)).map (fun r => { p with resall := stored_unsigned 16 r })
    else none
  else if text = str "resany" then
    if val.take 2 = [48, 120] then
      (scan_number 16 none (val.drop 2)).map (fun r => { p with resany := stored_unsigned 16 r })
    else none
  else if text = str "maxlstint" then
    (scan_number 10 none val).map (fun r => { p with maxlstint := stored_unsigned 32 r })
  else if text = str "laddr" then
    (env.decodenetnum val).map (fun laddr => { p with lcladr := env.getinterface laddr })
  else if text = str "recent" then
    (scan_number 10 none val).map (fun r => { p with recent := stored_unsigned 32 r })
  else
    match scan_index (str "last") text with
    | some si =>
      (scan_timestamp val).map (fun t =>
        { p with last := p.last.set si (lfpinit t.1 t.2),
                 priors := if (p.addr.getD si {}).family ≠ 0 ∧ si = p.priors
                   then p.priors + 1 else p.priors })
    | none =>
      match scan_index (str "addr") text with
      | some si =>
        (env.decodenetnum val).map (fun a =>
          { p with addr := p.addr.set si a,
                   priors := if lfpuint (p.last.getD si 0) ≠ 0 ∧ lfpfrac (p.last.getD si 0) ≠ 0
                       ∧ si = p.priors
                     then p.priors + 1 else p.priors })
      | none => some p

/-- The parameter loop of `read_mru_list`, for at most `fuel` items: it ends
when `ctl_getitem` returns NULL or the `EOV` entry, and after a bad value
(`blooper`), which drops the nonce. -/
def mru_parse (env : Env) : Nat → mru_parms → CtlState → mru_parms × CtlState
  | 0, p, s => (p, s)
  | fuel + 1, p, s =>
    let r := ctl_getitem env mru_in_parms s
    match r.v with
    | none => (p, r.st)
    | some v =>
      if v.flags.eov then (p, r.st)
      else
        match mru_item env v (r.data.getD []) p with
        | none => ({ p with pnonce := none }, r.st)
        | some p2 => mru_parse env fuel p2 r.st

/-- The MRU entry at a position of `mon_mru_list`. -/
def mon_at (env : Env) (m : Nat) : mon_entry := env.mon_mru_list.getD m {}

/-- The hash chain search of `read_mru_list` for an address: the first entry
of the chain of its bucket whose address and port are equal. -/
def mru_lookup (env : Env) (a : sockaddr_u) : Option Nat :=
  (env.mon_hash (env.MON_HASH a)).find? (fun m => decide ((mon_at env m).rmtadr = a))

/-- The starting point search of `read_mru_list`: for `i` from 0 below
`priors`, look `addr[i]` up and stop at the first entry found whose `last`
equals `last[i]`. -/
def mru_find_start (env : Env) (p : mru_parms) : Option Nat :=
  (List.range p.priors).findSome? (fun i =>
    match mru_lookup env (p.addr.getD i {}) with
    | none => none
    | some m => if (mon_at env m).last = p.last.getD i 0 then some m else none)

/-- The value `UINT_MAX`. -/
def UINT_MAX : Nat := 2 ^ 32 - 1

/-- What the entry loop of `read_mru_list` returns. -/
structure mru_walked where
  /-- The pointer `mon` at the end: 0 for NULL, position + 1 otherwise. -/
  mon : Nat
  count : Nat
  /-- The pointer `prior_mon`: the position of the entry, `none` for NULL. -/
  prior_mon : Option Nat
  /-- Ghost result: the positions of the entries sent, in order. -/
  emitted : List Nat
  st : CtlState

/-- The end of the body of the entry loop of `read_mru_list`: send the
entry, and after the first one a random tag. -/
def mru_emit (env : Env) (mon : mon_entry) (count : Nat) (s : CtlState) : CtlState :=
  let s1 := send_mru_entry env mon (to_int32 count) s
  if count = 0 then send_random_tag_value env 0 s1 else s1

/-- The five filters of the entry loop of `read_mru_list` that come before
`recent`: whether the entry `mon` is left out because of `mincount`, `resall`,
`resany`, `maxlstint` or `laddr`. -/
def mru_filtered (p : mru_parms) (now : Nat) (mon : mon_entry) : Bool :=
  decide (mon.count < p.mincount)
  || decide (p.resall ≠ 0 ∧ p.resall ≠ (p.resall &&& mon.flags))
  || decide (p.resany ≠ 0 ∧ p.resany &&& mon.flags = 0)
  || decide (p.maxlstint > 0
      ∧ (lfpuint now + 2 ^ 32 - lfpuint mon.last) % 2 ^ 32 > p.maxlstint)
  || decide (p.lcladr ≠ none ∧ some mon.lcladr ≠ p.lcladr)

/-- The entry loop of `read_mru_list`, from the entry at position `mon - 1`
towards the head of the list (position 0): send up to `limit` entries in up
to `frags` datagrams, leaving out the entries that a filter rejects. -/
def mru_walk (env : Env) (p : mru_parms) (frags limit now : Nat) :
    Nat → Nat → Option Nat → List Nat → CtlState → mru_walked
  | 0, count, prior_mon, emitted, s =>
    { mon := 0, count := count, prior_mon := prior_mon, emitted := emitted, st := s }
  | m + 1, count, prior_mon, emitted, s =>
    if s.res_frags < frags ∧ count < limit then
      if mru_filtered p now (mon_at env m) = true then
        mru_walk env p frags limit now m count prior_mon emitted s
      else if p.recent ≠ 0 then
        -- recent != 0 && countdown-- > recent
        if s.countdown > p.recent then
          mru_walk env p frags limit now m count prior_mon emitted
            { s with countdown := (s.countdown + 2 ^ 32 - 1) % 2 ^ 32 }
        else
          mru_walk env p frags limit now m ((count + 1) % 2 ^ 32) (some m) (emitted ++ [m])
            (mru_emit env (mon_at env m) count
              { s with countdown := (s.countdown + 2 ^ 32 - 1) % 2 ^ 32 })
      else
        mru_walk env p frags limit now m ((count + 1) % 2 ^ 32) (some m) (emitted ++ [m])
          (mru_emit env (mon_at env m) count s)
    else { mon := m + 1, count := count, prior_mon := prior_mon, emitted := emitted, st := s }

/-- The end of `read_mru_list` after the entry loop: if the batch completes
the MRU list, say so with `now=`, and confirm the last entry returned. -/
def mru_finish (env : Env) (now : Nat) (w : mru_walked) : CtlState :=
  let s :=
    if w.mon = 0 then
      let s1 := if w.count > 1
        then send_random_tag_value env (to_int32 (w.count - 1)) w.st else w.st
      let s2 := ctl_putts env (str "now") now s1
      match w.prior_mon with
      | none => s2
      | some m => ctl_putts env (str "last.newest") (mon_at env m).last s2
    else w.st
  ctl_flushpkt env 0 s

/-- The part of `read_mru_list` that sends the entries: the new nonce, the
entry loop from `mon` (0 for NULL, position + 1 otherwise), and the end. -/
def mru_send (env : Env) (rbufp : recvbuf) (p : mru_parms) (frags limit : Nat) (mon : Nat)
    (s : CtlState) : CtlState :=
  let now := env.systime % 2 ^ 64
  match generate_nonce env SALT_ROUNDS rbufp 128 s with
  | none => { s with stuck := true }
  | some r =>
    mru_finish env now
      (mru_walk env p frags limit now mon 0 none [] (ctl_putunqstr env (str "nonce") r.1 r.2))

/-- The part of `read_mru_list` that finds the starting point, if one was
provided, and sends the entries from there, with `frags` and `limit` as they
are after the defaults. -/
def mru_start (env : Env) (rbufp : recvbuf) (p : mru_parms) (frags limit : Nat)
    (s : CtlState) : CtlState :=
  if p.priors ≠ 0 then
    match mru_find_start env p with
    | none => ctl_error env CERR_UNKNOWNVAR s
    | some m =>
      let s1 := ctl_putts env (str "last.older") (mon_at env m).last s
      let s2 := ctl_putunqstr env (str "addr.older") (env.sockporttoa (mon_at env m).rmtadr) s1
      -- PREV_DLIST of position m is m - 1, NULL at the head
      mru_send env rbufp p frags limit (if limit > 1 then m else m + 1) s2
  else
    -- start with the oldest
    mru_send env rbufp p frags limit env.mon_mru_list.length
      { s with countdown := env.mru_entries % 2 ^ 32 }

/-- The part of `read_mru_list` that follows the validation of the nonce:
check `frags` and `limit`, and if either is not given, use the max. -/
def mru_respond (env : Env) (rbufp : recvbuf) (p : mru_parms) (s : CtlState) : CtlState :=
  if (p.frags = 0 ∧ ¬ (0 < p.limit ∧ p.limit ≤ env.MRU_ROW_LIMIT))
      ∨ p.frags > env.MRU_FRAGS_LIMIT then
    ctl_error env CERR_BADVALUE s
  else
    mru_start env rbufp p
      (if ¬ (p.frags ≠ 0 ∧ p.limit = 0) ∧ p.limit ≠ 0 ∧ p.frags = 0
        then env.MRU_FRAGS_LIMIT % 2 ^ 16 else p.frags)
      (if p.frags ≠ 0 ∧ p.limit = 0 then UINT_MAX else p.limit) s

/-- The handler `read_mru_list`: supports the mrulist command of ntpq. -/
def read_mru_list (env : Env) (rbufp : recvbuf) (restrict_mask : Int) (s : CtlState) :
    CtlState :=
  if env.RES_NOMRULIST &&& (restrict_mask % 2 ^ 32).toNat ≠ 0 then
    let t := ctl_error env CERR_PERMISSION s
    { t with sys_restricted := t.sys_restricted + 1 }
  else
    let r := mru_parse env (s.reqend + 1) {} s
    -- return no responses until the nonce is validated
    match r.1.pnonce with
    | none => r.2
    | some pnonce =>
      match validate_nonce env SALT_ROUNDS pnonce rbufp r.2 with
      | none => { r.2 with stuck := true }
      | some v => if v.1 = false then v.2 else mru_respond env rbufp r.1 v.2

/-! ## Predicates used to state the claims on the list handlers -/

/-- The data area of a request: the `count` bytes that follow the header. -/
def request_data_area (rbufp : recvbuf) : List Nat :=
  request_bytes (rbufp.recv_pkt.drop CTL_HEADER_LEN) (be16 rbufp.recv_pkt 10) 0

/-- The entries of the restrict listing in order: those of the IPv4 list,
then those of the IPv6 list, each with its `ipv6` flag. -/
def restrict_entries (env : Env) : List (restrict_u × Bool) :=
  env.restrictlist4.map (fun r => (r, false)) ++ env.restrictlist6.map (fun r => (r, true))

/-- The fields of the state that the output routines leave alone. -/
def same_globals (a b : CtlState) : Prop :=
  a.salt = b.salt ∧ a.last_salt_update = b.last_salt_update ∧ a.random_calls = b.random_calls
  ∧ a.countdown = b.countdown ∧ a.sys_restricted = b.sys_restricted
  ∧ a.remote_config_buffer = b.remote_config_buffer ∧ a.config_runs = b.config_runs
  ∧ a.stuck = b.stuck ∧ a.aborted = b.aborted ∧ a.ext_sys_var = b.ext_sys_var
  ∧ a.reqdata = b.reqdata ∧ a.reqpt = b.reqpt ∧ a.reqend = b.reqend
  ∧ a.res_associd = b.res_associd ∧ a.res_opcode = b.res_opcode
  ∧ a.res_authokay = b.res_authokay ∧ a.ctl_auth_keyid = b.ctl_auth_keyid

/-- The newline `configure` appends to the request data: one if the data are
not empty and do not end in a newline. -/
def config_newline (data : List Nat) : List Nat :=
  if data ≠ [] ∧ data.getLast? ≠ some 10 then [10] else []

/-! ## Concrete inputs for the list handlers -/

/-- A handler table with all the handlers of this file but READCLOCK, which
leaves the state alone. -/
def all_handlers : Handlers :=
  { idle_handlers with
    read_status := read_status
    read_variables := read_variables
    write_variables := write_variables
    write_clockstatus := write_clockstatus
    configure := configure
    read_mru_list := read_mru_list
    read_ordlist := read_ordlist
    req_nonce := req_nonce }

/-- A request without MAC (version 3, sequence 7, association id 0) with
the opcode `op` and the data area `data`, padded to a multiple of four bytes. -/
def plain_request (op : Nat) (data : List Nat) : recvbuf :=
  { recv_length := 12 + (data.length + 3) / 4 * 4,
    recv_pkt := [0x1e, op, 0, 7, 0, 0, 0, 0, 0, 0, data.length / 256, data.length % 256]
      ++ data ++ List.replicate ((data.length + 3) / 4 * 4 - data.length) 0 }

/-- An authenticated request (version 3, sequence 7, association id 0, key
id 1, a 16-byte digest) with the opcode `op` and the data area `data`: the
data are padded to the next 8-octet boundary, where the MAC follows. -/
def auth_request (op : Nat) (data : List Nat) : recvbuf :=
  { recv_length := (data.length + 19) / 8 * 8 + 20,
    recv_pkt := [0x1e, op, 0, 7, 0, 0, 0, 0, 0, 0, data.length / 256, data.length % 256] ++ data
      ++ List.replicate ((data.length + 19) / 8 * 8 - 12 - data.length) 0
      ++ [0, 0, 0, 1] ++ List.replicate 16 0xAA }

/-- An environment like `std_env` whose random source gives 1, 2, 3, ... and
whose nonce digest is the first salt word. -/
def salt_env : Env :=
  { std_env with
    ntp_random := (fun k => k + 1)
    nonce_digest := (fun salt _ _ _ => salt.getD 0 0) }

/-- A text response is being built since state `s0`: only More-fragments of
this response were sent, the cursor leaves room for the trailing bytes, and
the packet buffer is as long as the data area. -/
def building (s0 s : CtlState) : Prop :=
  frag_inv s0 s ∧ s.datapt + 3 ≤ CTL_MAX_DATA_LEN ∧ CTL_MAX_DATA_LEN ≤ s.rpkt.data.length

/-- The state `t` holds the same response under construction as `s`. -/
def same_output (t s : CtlState) : Prop :=
  t.sent = s.sent ∧ t.res_offset = s.res_offset ∧ t.res_opcode = s.res_opcode
  ∧ t.rpkt = s.rpkt ∧ t.datapt = s.datapt ∧ t.datasent = s.datasent
  ∧ t.datalinelen = s.datalinelen ∧ t.datanotbinflag = s.datanotbinflag
  ∧ t.res_frags = s.res_frags ∧ t.countdown = s.countdown

/-- Since state `s0` only datagrams without the Error bit were sent: the
fragments of a data response. -/
def data_only (s0 t : CtlState) : Prop :=
  ∃ fr, t.sent = s0.sent ++ fr ∧ ∀ d ∈ fr, d.r_m_e_op &&& CTL_ERROR = 0

/-- The starting point `i` of a request matches the MRU entry at position
`m`: the hash chain search for `addr[i]` finds that entry, and its `last` is
`last[i]`. -/
def anchor_matches (env : Env) (p : mru_parms) (i m : Nat) : Prop :=
  mru_lookup env (p.addr.getD i {}) = some m ∧ (mon_at env m).last = p.last.getD i 0

instance (env : Env) (p : mru_parms) (i m : Nat) : Decidable (anchor_matches env p i m) := by
  unfold anchor_matches
  infer_instance

/-- The text `0x%08x.%08x` that `ctl_putts` prints for a timestamp. -/
def ts_text (ts : Nat) : List Nat :=
  [48, 120] ++ fmt_08x (lfpuint ts) ++ [46] ++ fmt_08x (lfpfrac ts)

/-- The bytes of the pairs (association id, status) of a list of peers, each
value as a big-endian 16-bit word, in list order. -/
def assoc_status_pairs (env : Env) (peers : List Nat) : List Nat :=
  (peers.map (fun peer =>
    [env.peer_associd peer / 256 % 256, env.peer_associd peer % 256,
     env.ctlpeerstatus peer / 256 % 256, env.ctlpeerstatus peer % 256])).flatten

/-- Three MRU entries, the most recent first: 10.0.0.3, 10.0.0.2 and
10.0.0.1, last seen at 3, 2 and 1 seconds. -/
def mon3 : List mon_entry :=
  [ { rmtadr := { family := 2, addr := [10, 0, 0, 3], port := 123 }
      last := 3 * 2 ^ 32 + 5
      first := 1
      count := 7 },
    { rmtadr := { family := 2, addr := [10, 0, 0, 2], port := 123 }
      last := 2 * 2 ^ 32 + 5
      first := 1
      count := 7 },
    { rmtadr := { family := 2, addr := [10, 0, 0, 1], port := 123 }
      last := 1 * 2 ^ 32 + 5
      first := 1
      count := 7 } ]

/-- An environment like `std_env` with the MRU list `mon3` in one hash chain,
a random source that gives 1, 2, 3, ..., a nonce digest that is always
`0x1234`, addresses written as one digit `d` for `10.0.0.d` port 123, and two
peers with the association ids 1 and 2 and the status `0x4142`. -/
def mru_env : Env :=
  { std_env with
    ntp_random := (fun k => k + 1)
    nonce_digest := (fun _ _ _ _ => 0x1234)
    mon_mru_list := mon3
    mon_hash := (fun _ => [0, 1, 2])
    decodenetnum := (fun t =>
      some { family := 2, addr := [10, 0, 0, (t.getD 0 0) - 48], port := 123 })
    sockporttoa := (fun a => str "10.0.0." ++ fmt_lu (a.addr.getD 3 0) ++ str ":123")
    mru_entries := 3
    peer_list := [0, 1]
    peer_associd := (fun p => p + 1)
    ctlpeerstatus := (fun _ => 0x4142) }

/-- The state in which a handler finds the request `rbufp` sent to a daemon
in its initial state, once the salt of the nonces was drawn. -/
def salted_state (env : Env) (rbufp : recvbuf) : CtlState :=
  { request_state env rbufp init_state with salt := [1, 2, 3, 4], random_calls := 4 }

/-- A READ_MRU request with a valid nonce for `mru_env` and `frags=4`. -/
def mru_frags_request : recvbuf :=
  plain_request 10 (str "nonce=000000000000000000001234, frags=4")

/-- A READ_MRU request with a valid nonce for `mru_env`, `limit=2` and the
starting point 10.0.0.1, last seen at `0x00000001.00000005`. -/
def mru_anchor_request : recvbuf :=
  plain_request 10
    (str "nonce=000000000000000000001234, limit=2, last.0=0x00000001.00000005, addr.0=1")

/-- The state in which `read_mru_list` finds the request `rbufp` sent to a
daemon with `mru_env` in its initial state. -/
def mru_request_state (rbufp : recvbuf) : CtlState := request_state mru_env rbufp init_state

/-- The parameters `read_mru_list` reads from the request `rbufp`. -/
def mru_request_parms (rbufp : recvbuf) : mru_parms :=
  (mru_parse mru_env ((mru_request_state rbufp).reqend + 1) {} (mru_request_state rbufp)).1

/-- The state of `read_mru_list` for the request `rbufp` after the parameter
loop and the validation of the nonce, which draws the salt. -/
def mru_checked_state (rbufp : recvbuf) : CtlState :=
  { (mru_parse mru_env ((mru_request_state rbufp).reqend + 1) {} (mru_request_state rbufp)).2 with
    salt := [1, 2, 3, 4], random_calls := 4 }

/-- The entry loop of `read_mru_list` for `mru_frags_request`, from the oldest
entry of `mon3`. -/
def mru_frags_walk : mru_walked :=
  mru_walk mru_env {} 4 UINT_MAX (mru_env.systime % 2 ^ 64) 3 0 none []
    (ctl_putunqstr mru_env (str "nonce") (str "000000000000000000001234")
      { mru_request_state mru_frags_request with salt := [1, 2, 3, 4], random_calls := 4 })

/-- A READSTAT request for association id 0. -/
def readstat_request : recvbuf := plain_request 1 []

/-- An authenticated CONFIGURE request whose data are `server foo`. -/
def config_request : recvbuf := auth_request 6 (str "server foo")

/-- An authenticated CONFIGURE request whose data are `a`, NUL, `b`. -/
def config_nul_request : recvbuf := auth_request 6 [97, 0, 98]

/-- A request received at 100 s from the default address. -/
def nonce_request : recvbuf := { recv_length := 0, recv_pkt := [], recv_time := 100 * 2 ^ 32 }

/-- A state whose salt is 5, 6, 7, 8, drawn at time 0. -/
def salt5_state : CtlState := { init_state with salt := [5, 6, 7, 8] }

/-- A READ_ORDLIST request whose data area is `addr_restrictions`. -/
def ordlist_request : recvbuf := plain_request 11 (str "addr_restrictions")

/-- An environment like `std_env` with one IPv4 and one IPv6 restriction. -/
def restrict_env : Env :=
  { std_env with
    restrictlist4 := [{ addr4 := 0x0a000000, mask4 := 0xff000000 }]
    restrictlist6 := [{}] }

/-! ## Requests for the error offset and the MRU starting points -/

/-- An environment like `std_env` with 120 peers, the association ids 1 to 120
and the status `0x4142`: READSTAT for association id 0 takes two fragments. -/
def peers_env : Env :=
  { std_env with
    peer_list := List.range 120
    peer_associd := (fun p => p + 1)
    ctlpeerstatus := (fun _ => 0x4142) }

/-- A READ_MRU request that gives `addr.0` and then `last.0`, a timestamp
whose fraction is zero. -/
def addr_last_request : recvbuf :=
  plain_request 10 (str "addr.0=1, last.0=0x00000001.00000000")

/-- A READ_MRU request with the same values, `last.0` before `addr.0`. -/
def last_addr_request : recvbuf :=
  plain_request 10 (str "last.0=0x00000001.00000000, addr.0=1")

/-! ## Comparing `l_fp` values (tests/libntp/lfpfunc.c) -/

/-- The statement `x -= y` on `uint32_t`. -/
def sub32 (x y : Nat) : Nat := (x % 2 ^ 32 + 2 ^ 32 - y % 2 ^ 32) % 2 ^ 32

/-- The reference comparison `cmp_work`: a full subtract of `b` from `a` in
three 32-bit limbs, least significant first, with the borrow `cy`; the result
is -1 if the top limb of the difference is not zero, else whether the two
lower limbs are not both zero. The state of the loop is the array `a` and
`cy`. -/
def cmp_work (a b : List Nat) : Int :=
  let r := (List.range 3).foldl
    (fun (st : List Nat × Nat) idx =>
      -- tmp = a[idx]; cy = (a[idx] -= cy) > tmp;
      let tmp := st.1.getD idx 0
      let a1 := sub32 tmp st.2
      let cy := if a1 > tmp then 1 else 0
      -- tmp = a[idx]; cy |= (a[idx] -= b[idx]) > tmp;
      let a2 := sub32 a1 (b.getD idx 0)
      (st.1.set idx a2, cy ||| (if a2 > a1 then 1 else 0)))
    (a, 0)
  if r.1.getD 2 0 ≠ 0 then -1
  else if r.1.getD 0 0 ≠ 0 ∨ r.1.getD 1 0 ≠ 0 then 1 else 0

/-- Modelled from the spec: `lfpsint`, the upper 32 bits of an `l_fp` read as
a signed integer (the header ntp_fp.h is not among the sources). -/
def lfpsint (ts : Nat) : Int := to_int32 (lfpuint ts)

/-- The reference `l_fp_scmp`: the operands sign extended to three limbs,
then `cmp_work`. -/
def l_fp_scmp (first second : Nat) : Int :=
  cmp_work [lfpfrac first, lfpuint first, sub32 0 (if lfpsint first < 0 then 1 else 0)]
    [lfpfrac second, lfpuint second, sub32 0 (if lfpsint second < 0 then 1 else 0)]

/-- The reference `l_fp_ucmp`: the operands zero extended to three limbs,
then `cmp_work`. -/
def l_fp_ucmp (first second : Nat) : Int :=
  cmp_work [lfpfrac first, lfpuint first, 0] [lfpfrac second, lfpuint second, 0]

/-- An `l_fp` read as a signed 64-bit value in two's complement. -/
def lfp_signed (a : Nat) : Int :=
  if a % 2 ^ 64 < 2 ^ 63 then ((a % 2 ^ 64 : Nat) : Int) else ((a % 2 ^ 64 : Nat) : Int) - 2 ^ 64

/-- Modelled from the spec: the relational macro `L_ISGT(a, b)` of ntp_fp.h,
which is not among the sources: `a > b` as signed 64-bit fixed point values. -/
def L_ISGT (a b : Nat) : Bool := decide (lfp_signed a > lfp_signed b)

/-- Modelled from the spec: the relational macro `L_ISGTU(a, b)` of ntp_fp.h,
which is not among the sources: `a > b` as unsigned 64-bit values. -/
def L_ISGTU (a b : Nat) : Bool := decide (a % 2 ^ 64 > b % 2 ^ 64)

/-! ## `ctl_putarray` -/

/-- Modelled from the spec: the number of elements `NTP_SHIFT` of the arrays
of the peer filter, 8 (ntp.h is not among the sources; `ctl_putarray` is
documented to write an eight element array). -/
def NTP_SHIFT : Nat := 8

/-- How the `do ... while` loop of `ctl_putarray` ends. -/
inductive putarray_result where
  /-- The loop is left with this text in `buffer`. -/
  | done (buffer : List Nat)
  /-- The `NTP_INSIST` on the room in `buffer` fails. -/
  | insist_failed
  /-- The loop is still running when the rounds are used up. -/
  | no_end
deriving DecidableEq, Repr

/-- The `do ... while (i != start)` loop of `ctl_putarray`, for at most `fuel`
rounds: step `i` down, from 0 to `NTP_SHIFT - 1`, and print element `i` after
a space into the room left in `char buffer[200]`. `val i` is the text that
`%.2f` gives for `arr[i] * 1e3`; the C library and the floating point
arithmetic are not modelled. -/
def ctl_putarray_loop (val : Nat → List Nat) (start : Nat) :
    Nat → Nat → List Nat → putarray_result
  | 0, _, _ => .no_end
  | fuel + 1, i, buffer =>
    let i := if i = 0 then NTP_SHIFT else i
    let i := i - 1
    if buffer.length < 200 then
      let buffer := buffer ++ ([32] ++ val i).take (200 - buffer.length - 1)
      if i ≠ start then ctl_putarray_loop val start fuel i buffer else .done buffer
    else .insist_failed

/-- The number of rounds after which `ctl_putarray` counts as stuck in its
loop. -/
def PUTARRAY_ROUNDS : Nat := 2 ^ 32

/-- The routine `ctl_putarray`: write a tagged eight element double array
into the response. -/
def ctl_putarray (env : Env) (tag : List Nat) (val : Nat → List Nat) (start : Nat)
    (s : CtlState) : CtlState :=
  match ctl_putarray_loop val start PUTARRAY_ROUNDS start (tag ++ [61]) with
  | .done buffer => ctl_putdata env buffer false s
  | .insist_failed => { s with aborted := true }
  | .no_end => { s with stuck := true }

/-- The indices `ctl_putarray` prints for `start`, in order: `start - 1` down
to 0, then 7 down to `start`. -/
def putarray_order (start : Nat) : List Nat :=
  (List.range NTP_SHIFT).map (fun m => (start + NTP_SHIFT - 1 - m) % NTP_SHIFT)

/-- An array whose element `i` prints as the digit `i`. -/
def digit_array (i : Nat) : List Nat := [48 + i]

/-! ## Lines of a text response -/

/-- One step of the scan of a byte stream for its lines: the lengths of the
lines completed so far, the length of the line being read, and whether its
last byte is a CR. A LF after a CR completes the line, whose length does not
count the CR LF. -/
def scan_byte (st : List Nat × Nat × Bool) (c : Nat) : List Nat × Nat × Bool :=
  if st.2.2 = true ∧ c = 10 then (st.1 ++ [st.2.1 - 1], 0, false)
  else (st.1, st.2.1 + 1, decide (c = 13))

/-- The lengths of the lines of a byte stream, lines being delimited by
CR LF: the completed lines in order, then what follows the last CR LF. -/
def line_lengths (bytes : List Nat) : List Nat :=
  (bytes.foldl scan_byte ([], 0, false)).1 ++ [(bytes.foldl scan_byte ([], 0, false)).2.1]

/-- The lines completed in `out` are at most 72 bytes long, and the line being
read is at most `L` bytes long. -/
def line_inv (out : List Nat) (L : Nat) : Prop :=
  (∀ n ∈ (out.foldl scan_byte ([], 0, false)).1, n ≤ 72)
  ∧ (out.foldl scan_byte ([], 0, false)).2.1 ≤ L

/-! ## Variable tables: `set_var` and `get_ext_sys_var` -/

/-- The `for` loop of `get_ext_sys_var` over the entries up to the `EOV` one:
the value of the first entry whose text begins with the `c = strlen(tag)`
bytes of `tag` followed by `=` (the text after it) or by the end of the string
(the empty string); `none` is the NULL pointer. A table without `EOV` entry
ends the search like the sentinel does. -/
def get_ext_scan (tag : List Nat) : List ctl_var → Option (List Nat)
  | [] => none
  | v :: rest =>
    if v.flags.eov then none
    else
      match v.text with
      | none => get_ext_scan tag rest
      | some t =>
        -- !memcmp(tag, v->text, c)
        if t.take tag.length = tag then
          if t.getD tag.length 0 = 61 then some (t.drop (tag.length + 1))
          else if t.getD tag.length 0 = 0 then some []
          else get_ext_scan tag rest
        else get_ext_scan tag rest

/-- The routine `get_ext_sys_var`: the value of a user-defined variable, or
NULL (the inner `none`) if the variable has not been set. The loop reads
`ext_sys_var->flags` without a test for NULL: the outer `none` is the run on a
table that is still NULL. -/
def get_ext_sys_var (tag : List Nat) (s : CtlState) : Option (Option (List Nat)) :=
  match s.ext_sys_var with
  | none => none
  | some k => some (get_ext_scan tag k)

/-- The entries of a variable table: those before the `EOV` entry. -/
def table_entries (kv : Option (List ctl_var)) : List ctl_var :=
  (kv.getD []).takeWhile (fun v => !v.flags.eov)

/-- The text of the entry begins with `name` and `=`: the entry holds a value
for `name`. -/
def begins (name : List Nat) (e : ctl_var) : Bool :=
  match e.text with
  | none => false
  | some t => t.take name.length = name ∧ t.getD name.length 0 = 61

/-- The text of the entry is `name` alone, without `=`. -/
def bare (name : List Nat) (e : ctl_var) : Bool :=
  match e.text with
  | none => false
  | some t => t.take name.length = name ∧ t.getD name.length 0 = 0

/-- The invariant of a variable table: it is NULL, or the walk over its
entries stops at an entry of the list, which is then flagged `EOV`, and the
code of entry `i` is `i`. -/
def coded (kv : Option (List ctl_var)) : Prop :=
  match kv with
  | none => True
  | some k =>
    (table_entries (some k)).length < k.length
    ∧ ∀ i, i < (table_entries (some k)).length →
        ((table_entries (some k)).getD i eol).code = i

/-- The tables built only by `add_var` and `set_var` from the NULL table, each
call on a table with at most `USHRT_MAX` entries, as `count_var` insists. -/
inductive built : Option (List ctl_var) → Prop where
  /-- The table that is still NULL. -/
  | null : built none
  /-- A call of `add_var`; the text is what the caller writes to the buffer
  returned. -/
  | add (kv : Option (List ctl_var)) (text : List Nat) (dflt : var_flags) :
      built kv → (table_entries kv).length ≤ 65535 → built (some (add_var kv text dflt))
  /-- A call of `set_var`. -/
  | set (kv : Option (List ctl_var)) (data : List Nat) (dflt : var_flags) :
      built kv → (table_entries kv).length ≤ 65535 → built (set_var kv data dflt)

/-- The table that `set_var` of the bare name `foo` leaves from the empty
table. -/
def bare_foo_table : Option (List ctl_var) := set_var none (str "foo") RW

/-- A state whose table of extension variables holds `foo=1` and `bar=2`. -/
def two_vars_state : CtlState :=
  { init_state with
    ext_sys_var := set_var (set_var none (str "foo=1") RW) (str "bar=2") RW }

/-- A state whose table of extension variables holds the bare name `foo`. -/
def bare_foo_state : CtlState := { init_state with ext_sys_var := bare_foo_table }

/-- The state `two_vars_state` with the request data `bar`. -/
def bar_request_state : CtlState :=
  { two_vars_state with reqdata := str "bar", reqpt := 0, reqend := 3 }

/-! ## READVAR for a peer: the set of names -/

/-- The state `s` with another request in place: the request data `D`, the
cursor `p` and the end `e`. -/
def with_request (s : CtlState) (D : List Nat) (p e : Nat) : CtlState :=
  { s with reqdata := D, reqpt := p, reqend := e }

/-- The first statements of `read_peervars` for the peer found: the status
word of the peer goes to the header and, for an authenticated request, the
events of the peer are cleared. -/
def read_peervars_start (env : Env) (peer : Nat) (s : CtlState) : CtlState :=
  let s := { s with rpkt := { s.rpkt with status := env.ctlpeerstatus peer % 65536 } }
  if s.res_authokay then { s with cleared_peers := peer :: s.cleared_peers } else s

/-- The codes of the items of the request, as the loop of `read_peervars`
meets them with `ctl_getitem(peer_var, &valuep)`, for at most `fuel` items:
`none` when an item is no peer variable (the `EOV` entry is returned) or when
`ctl_getitem` returns NULL before the end of the data, which it does on a
value too long for its buffer. -/
def peer_item_codes (env : Env) : Nat → CtlState → Option (List Nat)
  | 0, _ => some []
  | fuel + 1, s =>
    if item_start s ≥ s.reqend then some []
    else
      match (ctl_getitem env (some peer_var) s).v with
      | none => none
      | some v =>
        if v.flags.eov then none
        else (peer_item_codes env fuel (ctl_getitem env (some peer_var) s).st).map (v.code :: ·)

/-- The peer variables `read_peervars` puts out for the item codes `cs`: the
default list when there is no item, else the codes asked for in ascending
order, each once. -/
def peer_codes_out (cs : List Nat) : List Nat :=
  if cs = [] then def_peer_var else (List.range' 1 CP_MAXCODE).filter (fun i => i ∈ cs)

/-- An environment with a peer for every association id, whose variable `id`
prints as `p` and the two decimal digits of `id`. -/
def peer_env : Env :=
  { std_env with
    findpeerbyassoc := (fun _ => some 0)
    ctl_putpeer := (fun id _ => [[112, 48 + id / 10, 48 + id % 10]]) }

/-- The state at the call of `read_variables` for a READVAR request with
association id 1 and the data `data`. -/
def peer_request_state (data : List Nat) : CtlState :=
  { init_state with
    res_associd := 1, res_opcode := 2, reqdata := data, reqpt := 0, reqend := data.length }

/-- The item `srcadr` with a value of 128 bytes. -/
def long_srcadr : List Nat := str "srcadr=" ++ List.replicate 128 120

/-- A READVAR datagram for association id 1 without data; the handlers read
the request from the state. -/
def peer_request : recvbuf :=
  { recv_length := 12, recv_pkt := [0x1e, 2, 0, 7, 0, 0, 0, 1, 0, 0, 0, 0] }

/-! ## Theorems -/

set_option maxRecDepth 1000000

/-! ### Bit and byte facts -/

theorem byteAt_lt (b : List Nat) (i : Nat) : byteAt b i < 256 := by
  unfold byteAt; omega

theorem flags_any (r : Nat) (hr : r < 256) :
    ((CTL_RESPONSE ||| CTL_MORE ||| CTL_ERROR) &&& r ≠ 0) ↔
      (CTL_RESPONSE &&& r ≠ 0 ∨ CTL_MORE &&& r ≠ 0 ∨ CTL_ERROR &&& r ≠ 0) := by
  revert r
  decide

theorem flags_clear_op (r : Nat) (hr : r < 256)
    (h : (CTL_RESPONSE ||| CTL_MORE ||| CTL_ERROR) &&& r = 0) :
    r &&& CTL_OP_MASK = r ∧ r < 32 := by
  revert r
  decide

theorem and3_eq_mod4 (n : Nat) : n &&& 3 = n % 4 := Nat.and_pow_two_sub_one_eq_mod n 2

theorem error_op_bits (r : Nat) (hr : r < 32) :
    (CTL_RESPONSE ||| CTL_ERROR ||| (r &&& CTL_OP_MASK)) &&& CTL_RESPONSE = CTL_RESPONSE
    ∧ (CTL_RESPONSE ||| CTL_ERROR ||| (r &&& CTL_OP_MASK)) &&& CTL_ERROR = CTL_ERROR
    ∧ (CTL_RESPONSE ||| CTL_ERROR ||| (r &&& CTL_OP_MASK)) &&& CTL_MORE = 0
    ∧ (CTL_RESPONSE ||| CTL_ERROR ||| (r &&& CTL_OP_MASK)) &&& CTL_OP_MASK = r := by
  revert r
  decide

/-! ### `ctl_error` -/

theorem ctl_error_sent (env : Env) (e : Nat) (s : CtlState) :
    ∃ d, (ctl_error env e s).sent = s.sent ++ [d]
      ∧ d.r_m_e_op = CTL_RESPONSE ||| CTL_ERROR ||| (s.res_opcode &&& CTL_OP_MASK)
      ∧ d.status = ((e <<< 8) % 65536) &&& 0xff00
      ∧ d.count = 0
      ∧ d.sequence = s.rpkt.sequence ∧ d.associd = s.rpkt.associd
      ∧ d.offset = s.rpkt.offset ∧ d.li_vn_mode = s.rpkt.li_vn_mode
      ∧ d.len = CTL_HEADER_LEN +
          (if s.res_authenticate then 4 + (env.compute_mac s.res_keyid d.header_bytes).length
           else 0)
      ∧ (s.res_authenticate = false → d.data = []) := by
  unfold ctl_error
  by_cases ha : s.res_authenticate = true
  · simp [ha, sendpkt, authencrypt, header_bytes, Datagram.header_bytes]
  · simp [ha, sendpkt, Datagram.header_bytes]

theorem ctl_error_frame (env : Env) (e : Nat) (s : CtlState) :
    (ctl_error env e s).numctlbadop = s.numctlbadop
    ∧ (ctl_error env e s).numctldatatooshort = s.numctldatatooshort
    ∧ (ctl_error env e s).res_authenticate = s.res_authenticate
    ∧ (ctl_error env e s).res_keyid = s.res_keyid := by
  unfold ctl_error
  by_cases ha : s.res_authenticate = true <;> simp [ha, sendpkt]

/-! ### `process_control`: framing -/

/-- Claim C1. A datagram shorter than 12 bytes, or with the Response, More or
Error bit set, or with a nonzero offset field, or with a version outside
`[NTP_OLDVERSION, NTP_VERSION]`, makes `process_control` send nothing: the
list of sent datagrams is unchanged. -/
theorem process_control_drops_malformed (env : Env) (h : Handlers) (rbufp : recvbuf)
    (restrict_mask : Int) (s : CtlState)
    (hbad : rbufp.recv_length < 12
      ∨ CTL_RESPONSE &&& byteAt rbufp.recv_pkt 1 ≠ 0
      ∨ CTL_MORE &&& byteAt rbufp.recv_pkt 1 ≠ 0
      ∨ CTL_ERROR &&& byteAt rbufp.recv_pkt 1 ≠ 0
      ∨ be16 rbufp.recv_pkt 8 ≠ 0
      ∨ PKT_VERSION (byteAt rbufp.recv_pkt 0) < env.NTP_OLDVERSION
      ∨ PKT_VERSION (byteAt rbufp.recv_pkt 0) > env.NTP_VERSION) :
    (process_control env h rbufp restrict_mask s).sent = s.sent := by
  unfold process_control
  by_cases h1 : rbufp.recv_length < CTL_HEADER_LEN
      ∨ (CTL_RESPONSE ||| CTL_MORE ||| CTL_ERROR) &&& byteAt rbufp.recv_pkt 1 ≠ 0
      ∨ be16 rbufp.recv_pkt 8 ≠ 0
  · simp only [h1, if_true]
    split_ifs <;> rfl
  · simp only [h1, if_false]
    have hv : PKT_VERSION (byteAt rbufp.recv_pkt 0) > env.NTP_VERSION
        ∨ PKT_VERSION (byteAt rbufp.recv_pkt 0) < env.NTP_OLDVERSION := by
      rw [flags_any _ (byteAt_lt _ _)] at h1
      simp only [CTL_HEADER_LEN] at h1
      tauto
    simp only [hv, if_true]

/-- Witness of C1 on a 4-byte datagram. -/
theorem process_control_drops_malformed_witness :
    short_request.recv_length < 12
    ∧ (process_control std_env idle_handlers short_request 0 init_state).sent = init_state.sent :=
  ⟨by decide,
   process_control_drops_malformed std_env idle_handlers short_request 0 init_state
     (Or.inl (by decide))⟩

/-- Past the header checks with a count that does not fit (or a length that
is not a multiple of four), `process_control` is the BADFMT `ctl_error` on a
state that has sent nothing new and does not authenticate. -/
theorem process_control_badfmt_state (env : Env) (h : Handlers) (rbufp : recvbuf)
    (restrict_mask : Int) (s : CtlState)
    (hhdr : passes_header_checks env rbufp)
    (hcnt : rbufp.recv_length - CTL_HEADER_LEN < be16 rbufp.recv_pkt 10
      ∨ rbufp.recv_length % 4 ≠ 0) :
    ∃ mid, process_control env h rbufp restrict_mask s
        = { ctl_error env CERR_BADFMT mid with
            numctldatatooshort := (ctl_error env CERR_BADFMT mid).numctldatatooshort + 1 }
      ∧ mid.sent = s.sent ∧ mid.rpkt.sequence = be16 rbufp.recv_pkt 2
      ∧ mid.res_opcode = byteAt rbufp.recv_pkt 1
      ∧ mid.res_authenticate = false
      ∧ mid.numctldatatooshort = s.numctldatatooshort := by
  obtain ⟨hlen, hfl, hoff, hv1, hv2⟩ := hhdr
  have hc1 : ¬ (rbufp.recv_length < CTL_HEADER_LEN
      ∨ (CTL_RESPONSE ||| CTL_MORE ||| CTL_ERROR) &&& byteAt rbufp.recv_pkt 1 ≠ 0
      ∨ be16 rbufp.recv_pkt 8 ≠ 0) := by
    simp only [hfl, hoff]; omega
  have hc2 : ¬ (PKT_VERSION (byteAt rbufp.recv_pkt 0) > env.NTP_VERSION
      ∨ PKT_VERSION (byteAt rbufp.recv_pkt 0) < env.NTP_OLDVERSION) := by omega
  have hc3 : rbufp.recv_length - CTL_HEADER_LEN < be16 rbufp.recv_pkt 10
      ∨ rbufp.recv_length &&& 0x3 ≠ 0 := by
    rw [and3_eq_mod4]; exact hcnt
  unfold process_control
  simp only [hc1, hc2, hc3, if_false, if_true]
  exact ⟨_, rfl, by simp [set_datapt], by simp [set_datapt], by simp [set_datapt],
    by simp [set_datapt], by simp [set_datapt]⟩

/-- Counterexample to claim C2 as stated: a 12-byte READVAR request whose
count field says 4 passes the header checks, its count exceeds the 0 data
bytes present, and `process_control` answers it with one datagram, the BADFMT
error response. -/
theorem process_control_count_overflow_replies :
    passes_header_checks std_env overcount_request
    ∧ overcount_request.recv_length - CTL_HEADER_LEN < be16 overcount_request.recv_pkt 10
    ∧ init_state.sent = []
    ∧ (process_control std_env idle_handlers overcount_request 0 init_state).sent
        = [{ li_vn_mode := 0x1e, r_m_e_op := 0xa2, sequence := 7, status := 0x100, associd := 0,
             offset := 0, count := 0, len := 12, data := [] }] := by
  decide

/-- Claim C2, amended. A datagram that passes the header checks but declares
more data than it carries is answered with exactly one datagram: the BADFMT
error response (Response and Error bits, the request's opcode and sequence
number, status high byte 1, count 0, the bare 12-byte header), and
`numctldatatooshort` grows by one. -/
theorem process_control_count_overflow (env : Env) (h : Handlers) (rbufp : recvbuf)
    (restrict_mask : Int) (s : CtlState)
    (hhdr : passes_header_checks env rbufp)
    (hcnt : rbufp.recv_length - CTL_HEADER_LEN < be16 rbufp.recv_pkt 10) :
    ∃ d, (process_control env h rbufp restrict_mask s).sent = s.sent ++ [d]
      ∧ d.r_m_e_op &&& CTL_RESPONSE = CTL_RESPONSE
      ∧ d.r_m_e_op &&& CTL_ERROR = CTL_ERROR
      ∧ d.r_m_e_op &&& CTL_MORE = 0
      ∧ d.r_m_e_op &&& CTL_OP_MASK = byteAt rbufp.recv_pkt 1 &&& CTL_OP_MASK
      ∧ d.sequence = be16 rbufp.recv_pkt 2
      ∧ d.status / 256 = CERR_BADFMT
      ∧ d.count = 0
      ∧ d.len = CTL_HEADER_LEN
      ∧ d.data = []
      ∧ (process_control env h rbufp restrict_mask s).numctldatatooshort
          = s.numctldatatooshort + 1 := by
  obtain ⟨mid, hpc, hsent, hseq, hopc, hauth, hcntr⟩ :=
    process_control_badfmt_state env h rbufp restrict_mask s hhdr (Or.inl hcnt)
  obtain ⟨hopm, hop32⟩ := flags_clear_op _ (byteAt_lt _ _) hhdr.2.1
  obtain ⟨d, hd, h1, h2, h3, h4, -, -, -, h8, h9⟩ := ctl_error_sent env CERR_BADFMT mid
  obtain ⟨-, f2, -, -⟩ := ctl_error_frame env CERR_BADFMT mid
  obtain ⟨b1, b2, b3, b4⟩ := error_op_bits _ hop32
  rw [hpc]
  rw [hopc] at h1
  rw [hauth] at h8
  refine ⟨d, by simp only [hd, hsent], by rw [h1]; exact b1, by rw [h1]; exact b2,
    by rw [h1]; exact b3, by rw [h1, b4, hopm], by rw [h4, hseq], by rw [h2]; decide, h3,
    by simpa using h8, h9 hauth, by simp only [f2, hcntr]⟩

/-- Witness of the amended C2 on the over-counting request. -/
theorem process_control_count_overflow_witness :
    ∃ d, (process_control std_env idle_handlers overcount_request 0 init_state).sent
        = init_state.sent ++ [d]
      ∧ d.r_m_e_op &&& CTL_RESPONSE = CTL_RESPONSE
      ∧ d.r_m_e_op &&& CTL_ERROR = CTL_ERROR
      ∧ d.r_m_e_op &&& CTL_MORE = 0
      ∧ d.r_m_e_op &&& CTL_OP_MASK = byteAt overcount_request.recv_pkt 1 &&& CTL_OP_MASK
      ∧ d.sequence = be16 overcount_request.recv_pkt 2
      ∧ d.status / 256 = CERR_BADFMT
      ∧ d.count = 0
      ∧ d.len = CTL_HEADER_LEN
      ∧ d.data = []
      ∧ (process_control std_env idle_handlers overcount_request 0 init_state).numctldatatooshort
          = init_state.numctldatatooshort + 1 :=
  process_control_count_overflow std_env idle_handlers overcount_request 0 init_state
    (by decide) (by decide)

/-! ### `process_control`: unknown opcode -/

theorem dispatch_nomatch (env : Env) (h : Handlers) (rbufp : recvbuf) (m : Int) (s : CtlState)
    (hop : s.res_opcode ∉ [0, 1, 2, 3, 4, 5, 6, 10, 12, 13]) :
    dispatch env rbufp m (control_codes h) s
      = ctl_error env CERR_BADOP { s with numctlbadop := s.numctlbadop + 1 } := by
  simp only [List.mem_cons, List.mem_singleton, List.not_mem_nil, or_false, not_or] at hop
  obtain ⟨h0, h1, h2, h3, h4, h5, h6, h10, h12, h13⟩ := hop
  have e0 : ¬ ((0 : Int) = s.res_opcode) := by omega
  have e1 : ¬ ((1 : Int) = s.res_opcode) := by omega
  have e2 : ¬ ((2 : Int) = s.res_opcode) := by omega
  have e3 : ¬ ((3 : Int) = s.res_opcode) := by omega
  have e4 : ¬ ((4 : Int) = s.res_opcode) := by omega
  have e5 : ¬ ((5 : Int) = s.res_opcode) := by omega
  have e6 : ¬ ((6 : Int) = s.res_opcode) := by omega
  have e10 : ¬ ((10 : Int) = s.res_opcode) := by omega
  have e12 : ¬ ((12 : Int) = s.res_opcode) := by omega
  have e13 : ¬ ((13 : Int) = s.res_opcode) := by omega
  simp [control_codes, dispatch, NO_REQUEST, CTL_OP_UNSPEC, CTL_OP_READSTAT, CTL_OP_READVAR,
    CTL_OP_WRITEVAR, CTL_OP_READCLOCK, CTL_OP_WRITECLOCK, CTL_OP_CONFIGURE, CTL_OP_READ_MRU,
    CTL_OP_READ_ORDLIST_A, CTL_OP_REQ_NONCE, e0, e1, e2, e3, e4, e5, e6, e10, e12, e13]

theorem process_control_badop_state (env : Env) (h : Handlers) (rbufp : recvbuf)
    (restrict_mask : Int) (s : CtlState)
    (hwf : well_framed env rbufp)
    (hop : byteAt rbufp.recv_pkt 1 &&& CTL_OP_MASK ∉ [0, 1, 2, 3, 4, 5, 6, 10, 12, 13]) :
    ∃ mid, process_control env h rbufp restrict_mask s = ctl_error env CERR_BADOP mid
      ∧ mid.sent = s.sent ∧ mid.rpkt.sequence = be16 rbufp.recv_pkt 2
      ∧ mid.res_opcode = byteAt rbufp.recv_pkt 1
      ∧ mid.numctlbadop = s.numctlbadop + 1 := by
  obtain ⟨⟨hlen, hfl, hoff, hv1, hv2⟩, hcnt, hmul⟩ := hwf
  obtain ⟨hopm, hop32⟩ := flags_clear_op _ (byteAt_lt _ _) hfl
  rw [hopm] at hop
  have hc1 : ¬ (rbufp.recv_length < CTL_HEADER_LEN
      ∨ (CTL_RESPONSE ||| CTL_MORE ||| CTL_ERROR) &&& byteAt rbufp.recv_pkt 1 ≠ 0
      ∨ be16 rbufp.recv_pkt 8 ≠ 0) := by
    simp only [hfl, hoff]; omega
  have hc2 : ¬ (PKT_VERSION (byteAt rbufp.recv_pkt 0) > env.NTP_VERSION
      ∨ PKT_VERSION (byteAt rbufp.recv_pkt 0) < env.NTP_OLDVERSION) := by omega
  have hc3 : ¬ (rbufp.recv_length - CTL_HEADER_LEN < be16 rbufp.recv_pkt 10
      ∨ rbufp.recv_length &&& 0x3 ≠ 0) := by
    rw [and3_eq_mod4]; omega
  unfold process_control
  simp only [hc1, hc2, hc3, if_false]
  split_ifs <;>
  · rw [dispatch_nomatch _ _ _ _ _ (by simpa [set_datapt] using hop)]
    exact ⟨_, rfl, by simp [set_datapt], by simp [set_datapt], by simp [set_datapt],
      by simp [set_datapt]⟩

/-- Claim C10. A well-framed request whose opcode is none of 0, 1, 2, 3, 4, 5,
6, 10, 12, 13 is answered with exactly one datagram: Response and Error bits
set (More clear), the request's opcode and sequence number, status high byte
3 (BADOP), count 0, and no data: the datagram is the 12-byte header, followed
by the key id slot and digest only if the request carried a MAC; and
`numctlbadop` grows by one. -/
theorem process_control_unknown_opcode (env : Env) (h : Handlers) (rbufp : recvbuf)
    (restrict_mask : Int) (s : CtlState)
    (hwf : well_framed env rbufp)
    (hop : byteAt rbufp.recv_pkt 1 &&& CTL_OP_MASK ∉ [0, 1, 2, 3, 4, 5, 6, 10, 12, 13]) :
    ∃ d, (process_control env h rbufp restrict_mask s).sent = s.sent ++ [d]
      ∧ d.r_m_e_op &&& CTL_RESPONSE = CTL_RESPONSE
      ∧ d.r_m_e_op &&& CTL_ERROR = CTL_ERROR
      ∧ d.r_m_e_op &&& CTL_MORE = 0
      ∧ d.r_m_e_op &&& CTL_OP_MASK = byteAt rbufp.recv_pkt 1 &&& CTL_OP_MASK
      ∧ d.sequence = be16 rbufp.recv_pkt 2
      ∧ d.status / 256 = CERR_BADOP
      ∧ d.count = 0
      ∧ d.len = CTL_HEADER_LEN +
          (if (process_control env h rbufp restrict_mask s).res_authenticate
           then 4 + (env.compute_mac (process_control env h rbufp restrict_mask s).res_keyid
                      d.header_bytes).length
           else 0)
      ∧ ((process_control env h rbufp restrict_mask s).res_authenticate = false → d.data = [])
      ∧ (process_control env h rbufp restrict_mask s).numctlbadop = s.numctlbadop + 1 := by
  obtain ⟨mid, hpc, hsent, hseq, hopc, hbad⟩ :=
    process_control_badop_state env h rbufp restrict_mask s hwf hop
  obtain ⟨hopm, hop32⟩ := flags_clear_op _ (byteAt_lt _ _) hwf.1.2.1
  obtain ⟨d, hd, h1, h2, h3, h4, -, -, -, h8, h9⟩ := ctl_error_sent env CERR_BADOP mid
  obtain ⟨f1, -, f2, f3⟩ := ctl_error_frame env CERR_BADOP mid
  obtain ⟨b1, b2, b3, b4⟩ := error_op_bits _ hop32
  rw [hpc, f1, f2, f3]
  rw [hopc] at h1
  refine ⟨d, by rw [hd, hsent], by rw [h1]; exact b1, by rw [h1]; exact b2, by rw [h1]; exact b3,
    by rw [h1, b4, hopm], by rw [h4, hseq], by rw [h2]; decide, h3, h8, h9, hbad⟩

/-- Witness of C10 on the first scenario of the spec (opcode `0x1F`). -/
theorem process_control_unknown_opcode_witness :
    well_framed std_env badop_request
    ∧ ∃ d, (process_control std_env idle_handlers badop_request 0 init_state).sent
        = init_state.sent ++ [d]
      ∧ d.r_m_e_op &&& CTL_RESPONSE = CTL_RESPONSE
      ∧ d.r_m_e_op &&& CTL_ERROR = CTL_ERROR
      ∧ d.r_m_e_op &&& CTL_MORE = 0
      ∧ d.r_m_e_op &&& CTL_OP_MASK = byteAt badop_request.recv_pkt 1 &&& CTL_OP_MASK
      ∧ d.sequence = be16 badop_request.recv_pkt 2
      ∧ d.status / 256 = CERR_BADOP
      ∧ d.count = 0
      ∧ d.len = CTL_HEADER_LEN +
          (if (process_control std_env idle_handlers badop_request 0 init_state).res_authenticate
           then 4 + (std_env.compute_mac
                      (process_control std_env idle_handlers badop_request 0 init_state).res_keyid
                      d.header_bytes).length
           else 0)
      ∧ ((process_control std_env idle_handlers badop_request 0 init_state).res_authenticate = false
          → d.data = [])
      ∧ (process_control std_env idle_handlers badop_request 0 init_state).numctlbadop
          = init_state.numctlbadop + 1 :=
  ⟨by decide,
   process_control_unknown_opcode std_env idle_handlers badop_request 0 init_state
     (by decide) (by decide)⟩

/-! ### The fragment writer -/

theorem and7_eq_mod8 (n : Nat) : n &&& 7 = n % 8 := Nat.and_pow_two_sub_one_eq_mod n 3

theorem pad_loop4 (n : Nat) : pad_loop 0x3 4 n = (n + 3) / 4 * 4 := by
  simp only [pad_loop, and3_eq_mod4]
  split_ifs <;> omega

theorem pad_loop8 (n : Nat) : pad_loop 7 8 n = (n + 7) / 8 * 8 := by
  simp only [pad_loop, and7_eq_mod8]
  split_ifs <;> omega

theorem memcpy_length_ge (buf : List Nat) (pos : Nat) (src : List Nat) :
    buf.length ≤ (memcpy buf pos src).length := by
  simp only [memcpy, List.length_append, List.length_take, List.length_drop]
  omega

theorem memset_tail_length (buf : List Nat) (pos : Nat) :
    (memset_tail buf pos).length = buf.length := by
  simp only [memset_tail, List.length_append, List.length_take, List.length_replicate]
  omega

theorem take_memcpy_before (buf : List Nat) (pos k : Nat) (src : List Nat)
    (hk : k ≤ pos) (hb : k ≤ buf.length) : (memcpy buf pos src).take k = buf.take k := by
  unfold memcpy
  rw [List.append_assoc, List.take_append_of_le_length (by rw [List.length_take]; omega),
    List.take_take, Nat.min_eq_left hk]

theorem take_memcpy_end (buf : List Nat) (pos : Nat) (src : List Nat)
    (hb : pos ≤ buf.length) :
    (memcpy buf pos src).take (pos + src.length) = buf.take pos ++ src := by
  unfold memcpy
  apply List.take_left'
  rw [List.length_append, List.length_take]
  omega

theorem take_memset_tail (buf : List Nat) (pos k : Nat) (hk : k ≤ pos) :
    (memset_tail buf pos).take k = buf.take k := by
  unfold memset_tail
  by_cases hb : pos ≤ buf.length
  · rw [List.take_append_of_le_length (by rw [List.length_take]; omega), List.take_take,
      Nat.min_eq_left hk]
  · have : buf.length - pos = 0 := by omega
    rw [this, List.replicate_zero, List.append_nil, List.take_take, Nat.min_eq_left hk]

/-- What `flush_crlf` leaves alone. -/
theorem flush_crlf_frame (more : Nat) (s : CtlState) :
    (flush_crlf more s).sent = s.sent
    ∧ (flush_crlf more s).res_offset = s.res_offset
    ∧ (flush_crlf more s).res_opcode = s.res_opcode
    ∧ (flush_crlf more s).rpkt.sequence = s.rpkt.sequence
    ∧ (flush_crlf more s).datanotbinflag = s.datanotbinflag
    ∧ (flush_crlf more s).datasent = s.datasent
    ∧ (flush_crlf more s).datalinelen = s.datalinelen
    ∧ (flush_crlf more s).res_authenticate = s.res_authenticate
    ∧ (flush_crlf more s).res_keyid = s.res_keyid
    ∧ s.rpkt.data.length ≤ (flush_crlf more s).rpkt.data.length
    ∧ s.datapt ≤ (flush_crlf more s).datapt
    ∧ (flush_crlf more s).datapt_hi ≤ max s.datapt_hi (flush_crlf more s).datapt := by
  unfold flush_crlf
  split_ifs
  · have h1 := memcpy_length_ge s.rpkt.data s.datapt [13]
    have h2 := memcpy_length_ge (memcpy s.rpkt.data s.datapt [13]) (s.datapt + 1) [10]
    simp only [put_byte, set_datapt, true_and]
    refine ⟨by omega, by omega, by omega⟩
  · simp

theorem flush_take_auth (buf kid dg : List Nat) (p T L : Nat) (hb : p ≤ buf.length)
    (hT : p + CTL_HEADER_LEN ≤ T) (hL : T - CTL_HEADER_LEN ≤ L) :
    ((memcpy (memcpy (memset_tail buf (p + CTL_HEADER_LEN)) p kid)
        (T - CTL_HEADER_LEN + 4) dg).take L).take p = buf.take p := by
  have h1 : p ≤ (memset_tail buf (p + CTL_HEADER_LEN)).length := by
    rw [memset_tail_length]; exact hb
  have h2 := memcpy_length_ge (memset_tail buf (p + CTL_HEADER_LEN)) p kid
  rw [List.take_take, Nat.min_eq_left (by omega),
    take_memcpy_before _ _ _ _ (by omega) (by omega),
    take_memcpy_before _ _ _ _ (Nat.le_refl p) h1, take_memset_tail _ _ _ (by omega)]

theorem flush_take_plain (buf : List Nat) (p L : Nat) (hL : p ≤ L) :
    ((memset_tail buf (p + CTL_HEADER_LEN)).take L).take p = buf.take p := by
  rw [List.take_take, Nat.min_eq_left hL, take_memset_tail _ _ _ (by omega)]

theorem flush_len_auth (buf kid dg : List Nat) (p q r : Nat) :
    buf.length ≤ (memcpy (memcpy (memset_tail buf q) p kid) r dg).length := by
  have h1 := memset_tail_length buf q
  have h2 := memcpy_length_ge (memset_tail buf q) p kid
  have h3 := memcpy_length_ge (memcpy (memset_tail buf q) p kid) r dg
  omega

/-- The header of the datagram `ctl_flushpkt` sends and the state it leaves,
in terms of the state after the CR LF step. -/
theorem ctl_flushpkt_spec (env : Env) (more : Nat) (s : CtlState) :
    ∃ d, (ctl_flushpkt env more s).sent = (flush_crlf more s).sent ++ [d]
      ∧ d.r_m_e_op = CTL_RESPONSE ||| more ||| ((flush_crlf more s).res_opcode &&& CTL_OP_MASK)
      ∧ d.sequence = (flush_crlf more s).rpkt.sequence
      ∧ d.count = (flush_crlf more s).datapt % 65536
      ∧ d.offset = (flush_crlf more s).res_offset % 65536
      ∧ ((flush_crlf more s).datapt ≤ (flush_crlf more s).rpkt.data.length →
          d.data.take (flush_crlf more s).datapt
            = (flush_crlf more s).rpkt.data.take (flush_crlf more s).datapt)
      ∧ (ctl_flushpkt env more s).res_offset
          = (flush_crlf more s).res_offset + (flush_crlf more s).datapt
      ∧ (ctl_flushpkt env more s).datapt = 0
      ∧ (ctl_flushpkt env more s).res_opcode = (flush_crlf more s).res_opcode
      ∧ (ctl_flushpkt env more s).rpkt.sequence = (flush_crlf more s).rpkt.sequence
      ∧ (ctl_flushpkt env more s).datanotbinflag = (flush_crlf more s).datanotbinflag
      ∧ (ctl_flushpkt env more s).datasent = (flush_crlf more s).datasent
      ∧ (ctl_flushpkt env more s).datalinelen = (flush_crlf more s).datalinelen
      ∧ (ctl_flushpkt env more s).res_authenticate = (flush_crlf more s).res_authenticate
      ∧ (ctl_flushpkt env more s).res_keyid = (flush_crlf more s).res_keyid
      ∧ (ctl_flushpkt env more s).datapt_hi = (flush_crlf more s).datapt_hi
      ∧ (flush_crlf more s).rpkt.data.length ≤ (ctl_flushpkt env more s).rpkt.data.length := by
  unfold ctl_flushpkt
  generalize flush_crlf more s = s1
  have hp4 : s1.datapt + CTL_HEADER_LEN ≤ pad_loop 0x3 4 (s1.datapt + CTL_HEADER_LEN) := by
    rw [pad_loop4]; omega
  have hp8 : pad_loop 0x3 4 (s1.datapt + CTL_HEADER_LEN)
      ≤ pad_loop 7 8 (pad_loop 0x3 4 (s1.datapt + CTL_HEADER_LEN)) := by
    rw [pad_loop8]; omega
  by_cases ha : s1.res_authenticate = true <;> by_cases hm : more = 0
  · simp only [ha, hm, sendpkt, authencrypt, if_true, ne_eq, not_true_eq_false, if_false]
    refine ⟨_, rfl, ?_⟩
    simp only [true_and, and_true]
    exact ⟨fun hb => flush_take_auth _ _ _ _ _ _ hb (by omega) (by omega), flush_len_auth _ _ _ _ _ _⟩
  · simp only [ha, hm, sendpkt, authencrypt, if_true, ne_eq, not_false_eq_true]
    refine ⟨_, rfl, ?_⟩
    simp only [true_and, and_true]
    exact ⟨fun hb => flush_take_auth _ _ _ _ _ _ hb (by omega) (by omega), flush_len_auth _ _ _ _ _ _⟩
  · have ha2 : s1.res_authenticate = false := by simpa using ha
    simp only [ha2, hm, sendpkt, ne_eq, not_true_eq_false, Bool.false_eq_true, if_false]
    refine ⟨_, rfl, ?_⟩
    simp only [true_and, and_true]
    exact ⟨fun _ => flush_take_plain _ _ _ (by omega), by rw [memset_tail_length]⟩
  · have ha2 : s1.res_authenticate = false := by simpa using ha
    simp only [ha2, hm, sendpkt, ne_eq, not_false_eq_true, Bool.false_eq_true, if_false, if_true]
    refine ⟨_, rfl, ?_⟩
    simp only [true_and, and_true]
    exact ⟨fun _ => flush_take_plain _ _ _ (by omega), by rw [memset_tail_length]⟩

theorem flush_crlf_more (more : Nat) (s : CtlState) (hm : more ≠ 0) : flush_crlf more s = s := by
  unfold flush_crlf
  rw [if_neg (fun h => hm h.1)]

theorem ctl_more_ne_zero : CTL_MORE ≠ 0 := by decide

theorem offsets_chain_append (a c c' : Nat) (fr : List Datagram) (f : Datagram)
    (h : offsets_chain a fr c) (hf : f.offset = c % 65536)
    (hc : c' % 65536 = (c + f.count) % 65536) : offsets_chain a (fr ++ [f]) c' := by
  induction fr generalizing a with
  | nil =>
    simp only [offsets_chain] at h
    simp only [List.nil_append, offsets_chain]
    constructor <;> omega
  | cons g fr ih =>
    simp only [offsets_chain] at h
    simp only [List.cons_append, offsets_chain]
    exact ⟨h.1, ih _ h.2⟩

theorem offsets_chain_get (a c : Nat) (fr : List Datagram) (h : offsets_chain a fr c) :
    ∀ i (hi : i < fr.length),
      (fr.get ⟨i, hi⟩).offset = (a + ((fr.take i).map Datagram.count).sum) % 65536 := by
  induction fr generalizing a with
  | nil => intro i hi; simp at hi
  | cons g fr ih =>
    intro i hi
    simp only [offsets_chain] at h
    cases i with
    | zero => simp [h.1]
    | succ j =>
      have := ih _ h.2 j (by simpa using hi)
      simp only [List.get_eq_getElem, List.getElem_cons_succ, List.take_succ_cons, List.map_cons,
        List.sum_cons] at this ⊢
      rw [this, Nat.add_assoc]

theorem frag_inv_refl (s : CtlState) : frag_inv s s :=
  ⟨[], by simp, by simp [offsets_chain], by simp, rfl, rfl⟩

theorem frag_inv_congr (s0 s t : CtlState) (h : frag_inv s0 s) (h1 : t.sent = s.sent)
    (h2 : t.res_offset = s.res_offset) (h3 : t.res_opcode = s.res_opcode)
    (h4 : t.rpkt.sequence = s.rpkt.sequence) : frag_inv s0 t := by
  obtain ⟨fr, a, b, c, d, e⟩ := h
  exact ⟨fr, by rw [h1, a], by rw [h2]; exact b, c, by rw [h3, d], by rw [h4, e]⟩

theorem flush_more_frag_inv (env : Env) (s0 s : CtlState) (h : frag_inv s0 s) :
    frag_inv s0 (ctl_flushpkt env CTL_MORE s) := by
  obtain ⟨fr, a, b, c, d, e⟩ := h
  obtain ⟨f, hs, hop, hseq, hcnt, hoff, -, hro, -, hopc, hsq, -⟩ := ctl_flushpkt_spec env CTL_MORE s
  rw [flush_crlf_more _ _ ctl_more_ne_zero] at hs hop hseq hcnt hoff hro hopc hsq
  refine ⟨fr ++ [f], by rw [hs, a, List.append_assoc], ?_, ?_, by rw [hopc, d], by rw [hsq, e]⟩
  · exact offsets_chain_append _ _ _ _ _ b hoff (by rw [hro, hcnt]; omega)
  · intro g hg
    rcases List.mem_append.1 hg with hg | hg
    · exact c g hg
    · rw [List.mem_singleton] at hg
      subst hg
      exact ⟨by rw [hop, d], by rw [hseq, e]⟩

theorem body_frag_inv (env : Env) (s0 s : CtlState) (dp : List Nat) (h : frag_inv s0 s) :
    frag_inv s0 (ctl_putdata_body env dp s).2 := by
  unfold ctl_putdata_body
  exact flush_more_frag_inv env s0 _ (frag_inv_congr s0 s _ h rfl rfl rfl rfl)

theorem loop_frag_inv (env : Env) (s0 : CtlState) (ov : Nat) :
    ∀ (fuel : Nat) (dp : List Nat) (s : CtlState), frag_inv s0 s →
      frag_inv s0 (ctl_putdata_loop env ov fuel dp s).2 := by
  intro fuel
  induction fuel with
  | zero => intro dp s h; exact h
  | succ n ih =>
    intro dp s h
    unfold ctl_putdata_loop
    split_ifs
    · exact ih _ _ (body_frag_inv env s0 s dp h)
    · exact h

theorem sep_view (dlen : Nat) (s : CtlState) :
    (ctl_putdata_sep dlen s).sent = s.sent
    ∧ (ctl_putdata_sep dlen s).res_offset = s.res_offset
    ∧ (ctl_putdata_sep dlen s).res_opcode = s.res_opcode
    ∧ (ctl_putdata_sep dlen s).rpkt.sequence = s.rpkt.sequence := by
  unfold ctl_putdata_sep
  simp only [put_byte, set_datapt]
  split_ifs <;> simp

theorem ctl_putdata_frag_inv (env : Env) (s0 s : CtlState) (dp : List Nat) (bin : Bool)
    (h : frag_inv s0 s) : frag_inv s0 (ctl_putdata env dp bin s) := by
  unfold ctl_putdata
  refine frag_inv_congr s0 _ _ (loop_frag_inv env s0 _ _ dp _ ?_) rfl rfl rfl rfl
  cases bin
  · obtain ⟨a, b, c, d⟩ := sep_view dp.length { s with datanotbinflag := true }
    exact frag_inv_congr s0 s _ h a b c d
  · exact h

theorem put_calls_frag_inv (env : Env) (s0 : CtlState) (calls : List (List Nat × Bool)) :
    ∀ s, frag_inv s0 s → frag_inv s0 (put_calls env calls s) := by
  induction calls with
  | nil => intro s h; exact h
  | cons c cs ih =>
    intro s h
    exact ih _ (ctl_putdata_frag_inv env s0 s c.1 c.2 h)

theorem more_op_bits (y : Nat) (hy : y < 32) :
    (CTL_RESPONSE ||| CTL_MORE ||| y) &&& CTL_MORE = CTL_MORE
    ∧ (CTL_RESPONSE ||| CTL_MORE ||| y) &&& CTL_RESPONSE = CTL_RESPONSE
    ∧ (CTL_RESPONSE ||| CTL_MORE ||| y) &&& CTL_OP_MASK = y
    ∧ (CTL_RESPONSE ||| 0 ||| y) &&& CTL_MORE = 0
    ∧ (CTL_RESPONSE ||| 0 ||| y) &&& CTL_RESPONSE = CTL_RESPONSE
    ∧ (CTL_RESPONSE ||| 0 ||| y) &&& CTL_OP_MASK = y := by
  revert y
  decide

theorem op_mask_lt (x : Nat) : x &&& CTL_OP_MASK < 32 := by
  have := @Nat.and_le_right x CTL_OP_MASK
  simp only [CTL_OP_MASK] at this ⊢
  omega

/-- Counterexample to claim C4 as stated: 142 binary blocks of 468 bytes give
142 fragments; the 141 fragments before the last carry 65988 bytes in all, but
the offset field of the last is 452, since the field holds 16 bits. -/
theorem respond_offset_wraps :
    init_state.res_offset = 0
    ∧ (respond std_env long_binary_calls init_state).sent.length = 142
    ∧ (((respond std_env long_binary_calls init_state).sent.take 141).map Datagram.count).sum
        = 65988
    ∧ ((respond std_env long_binary_calls init_state).sent.map Datagram.offset).getLast?
        = some 452 := by
  decide

/-- Claim C4, amended. For every sequence of `ctl_putdata` calls followed by
`ctl_flushpkt(0)` in a request (`res_offset` starts at 0), the fragments sent
are `fr ++ [last]`; the offset field of the i-th is the sum of the counts of
those before it, modulo 2^16; the More bit is set on all of `fr` and clear on
`last`; every fragment has the Response bit, the request's opcode and its
sequence number. -/
theorem respond_fragments (env : Env) (calls : List (List Nat × Bool)) (s : CtlState)
    (h0 : s.res_offset = 0) :
    ∃ fr last, (respond env calls s).sent = s.sent ++ (fr ++ [last])
      ∧ (∀ i (hi : i < (fr ++ [last]).length),
          ((fr ++ [last]).get ⟨i, hi⟩).offset
            = ((((fr ++ [last]).take i).map Datagram.count).sum) % 65536)
      ∧ (∀ f ∈ fr, f.r_m_e_op &&& CTL_MORE = CTL_MORE)
      ∧ last.r_m_e_op &&& CTL_MORE = 0
      ∧ (∀ f ∈ fr ++ [last], f.r_m_e_op &&& CTL_RESPONSE = CTL_RESPONSE
          ∧ f.r_m_e_op &&& CTL_OP_MASK = s.res_opcode &&& CTL_OP_MASK
          ∧ f.sequence = s.rpkt.sequence) := by
  obtain ⟨fr, a, b, c, d, e⟩ := put_calls_frag_inv env s calls s (frag_inv_refl s)
  obtain ⟨f, hs, hop, hseq, hcnt, hoff, -, hro, -⟩ := ctl_flushpkt_spec env 0 (put_calls env calls s)
  obtain ⟨k1, k2, k3, k4, -⟩ := flush_crlf_frame 0 (put_calls env calls s)
  rw [k1] at hs
  rw [k3, d] at hop
  rw [k4, e] at hseq
  rw [k2] at hoff
  obtain ⟨m1, m2, m3, m4, m5, m6⟩ := more_op_bits _ (op_mask_lt s.res_opcode)
  have hch : offsets_chain s.res_offset (fr ++ [f])
      ((put_calls env calls s).res_offset + f.count) :=
    offsets_chain_append _ _ _ _ _ b hoff rfl
  refine ⟨fr, f, by unfold respond; rw [hs, a, List.append_assoc], ?_, ?_, ?_, ?_⟩
  · intro i hi
    rw [offsets_chain_get _ _ _ hch i hi, h0, Nat.zero_add]
  · intro g hg
    rw [(c g hg).1]; exact m1
  · rw [hop]; exact m4
  · intro g hg
    rcases List.mem_append.1 hg with hg | hg
    · rw [(c g hg).1, (c g hg).2]; exact ⟨m2, m3, rfl⟩
    · rw [List.mem_singleton] at hg
      subst hg
      rw [hop, hseq]; exact ⟨m5, m6, rfl⟩

theorem room_u32_eq (p : Nat) (h : p ≤ CTL_MAX_DATA_LEN) : room_u32 p = CTL_MAX_DATA_LEN - p := by
  unfold room_u32
  simp only [CTL_MAX_DATA_LEN] at h ⊢
  omega

/-- A flush with the More bit from a cursor inside the data area. -/
theorem flush_more_uniform (env : Env) (s : CtlState) (hp : s.datapt ≤ CTL_MAX_DATA_LEN) :
    (∃ d, (ctl_flushpkt env CTL_MORE s).sent = s.sent ++ [d]
        ∧ d.count = s.datapt
        ∧ (s.datapt ≤ s.rpkt.data.length → d.data_area = pending s))
    ∧ (ctl_flushpkt env CTL_MORE s).datapt = 0
    ∧ s.rpkt.data.length ≤ (ctl_flushpkt env CTL_MORE s).rpkt.data.length
    ∧ (ctl_flushpkt env CTL_MORE s).datapt_hi = s.datapt_hi
    ∧ (ctl_flushpkt env CTL_MORE s).datanotbinflag = s.datanotbinflag
    ∧ (ctl_flushpkt env CTL_MORE s).datasent = s.datasent
    ∧ (ctl_flushpkt env CTL_MORE s).datalinelen = s.datalinelen := by
  obtain ⟨d, hs, -, -, hcnt, -, hdata, -, hdp, -, -, hnb, hds, hdl, -, -, hhi, hbl⟩ :=
    ctl_flushpkt_spec env CTL_MORE s
  rw [flush_crlf_more _ _ ctl_more_ne_zero] at hs hcnt hdata hnb hds hdl hhi hbl
  have hc : d.count = s.datapt := by
    rw [hcnt]; simp only [CTL_MAX_DATA_LEN] at hp; omega
  refine ⟨⟨d, hs, hc, ?_⟩, hdp, hbl, hhi, hnb, hds, hdl⟩
  intro hb
  unfold Datagram.data_area pending
  rw [hc, hdata hb]

/-- One pass through the loop body of `ctl_putdata`, from a cursor inside the
data area. -/
theorem body_uniform (env : Env) (dp : List Nat) (s : CtlState)
    (hp : s.datapt ≤ CTL_MAX_DATA_LEN) :
    (ctl_putdata_body env dp s).1 = dp.drop (min dp.length (CTL_MAX_DATA_LEN - s.datapt))
    ∧ (∃ d, (ctl_putdata_body env dp s).2.sent = s.sent ++ [d]
        ∧ d.count = s.datapt + min dp.length (CTL_MAX_DATA_LEN - s.datapt)
        ∧ (CTL_MAX_DATA_LEN ≤ s.rpkt.data.length →
            d.data_area = pending s ++ dp.take (min dp.length (CTL_MAX_DATA_LEN - s.datapt))))
    ∧ (ctl_putdata_body env dp s).2.datapt = 0
    ∧ s.rpkt.data.length ≤ (ctl_putdata_body env dp s).2.rpkt.data.length
    ∧ (ctl_putdata_body env dp s).2.datapt_hi ≤ max s.datapt_hi CTL_MAX_DATA_LEN
    ∧ (ctl_putdata_body env dp s).2.datanotbinflag = s.datanotbinflag
    ∧ (ctl_putdata_body env dp s).2.datasent = s.datasent
    ∧ (ctl_putdata_body env dp s).2.datalinelen
        = s.datalinelen + min dp.length (CTL_MAX_DATA_LEN - s.datapt) := by
  unfold ctl_putdata_body
  rw [room_u32_eq _ hp]
  generalize hcur : min dp.length (CTL_MAX_DATA_LEN - s.datapt) = cur
  have hcur1 : cur ≤ dp.length := by omega
  have hcur2 : s.datapt + cur ≤ CTL_MAX_DATA_LEN := by omega
  have hlen : (dp.take cur).length = cur := by rw [List.length_take]; omega
  have hml := memcpy_length_ge s.rpkt.data s.datapt (dp.take cur)
  obtain ⟨⟨d, hs, hcnt, hdata⟩, hdp, hbl, hhi, hnb, hds, hdl⟩ :=
    flush_more_uniform env (set_datapt
      { s with
        rpkt := { s.rpkt with data := memcpy s.rpkt.data s.datapt (dp.take cur) },
        datalinelen := s.datalinelen + cur }
      (s.datapt + cur)) hcur2
  refine ⟨rfl, ⟨d, hs, hcnt, ?_⟩, hdp, le_trans hml hbl, ?_, hnb, hds, hdl⟩
  · intro hb
    have hb2 : s.datapt + cur ≤ s.rpkt.data.length := by omega
    rw [hdata (le_trans hb2 hml)]
    have := take_memcpy_end s.rpkt.data s.datapt (dp.take cur) (by omega)
    rw [hlen] at this
    exact this
  · rw [hhi]
    show max s.datapt_hi (s.datapt + cur) ≤ max s.datapt_hi CTL_MAX_DATA_LEN
    omega

theorem loop_succ_pos (env : Env) (ov n : Nat) (dp : List Nat) (s : CtlState)
    (h : (dp.length + ov) % 2 ^ 32 + s.datapt > CTL_MAX_DATA_LEN) :
    ctl_putdata_loop env ov (n + 1) dp s
      = ctl_putdata_loop env ov n (ctl_putdata_body env dp s).1 (ctl_putdata_body env dp s).2 := by
  show (if _ then _ else _) = _
  rw [if_pos h]

theorem loop_succ_neg (env : Env) (ov n : Nat) (dp : List Nat) (s : CtlState)
    (h : ¬ (dp.length + ov) % 2 ^ 32 + s.datapt > CTL_MAX_DATA_LEN) :
    ctl_putdata_loop env ov (n + 1) dp s = (dp, s) := by
  show (if _ then _ else _) = _
  rw [if_neg h]

/-- The loop of `ctl_putdata` from a cursor inside the data area, with fuel
above the measure `2 * |dp| + [datapt ≠ 0]`: it runs to completion, every
fragment it sends carries at most `CTL_MAX_DATA_LEN` bytes, and no byte is
lost or reordered. -/
theorem loop_uniform (env : Env) (ov : Nat) (hov : ov ≤ 3) :
    ∀ (fuel : Nat) (dp : List Nat) (s : CtlState),
      s.datapt ≤ CTL_MAX_DATA_LEN →
      dp.length + ov < 2 ^ 32 →
      2 * dp.length + (if s.datapt = 0 then 0 else 1) < fuel →
      (ctl_putdata_loop env ov fuel dp s).1.length + ov
          + (ctl_putdata_loop env ov fuel dp s).2.datapt ≤ CTL_MAX_DATA_LEN
      ∧ (∃ fr, (ctl_putdata_loop env ov fuel dp s).2.sent = s.sent ++ fr
          ∧ (∀ f ∈ fr, f.count ≤ CTL_MAX_DATA_LEN)
          ∧ (CTL_MAX_DATA_LEN ≤ s.rpkt.data.length →
              (fr.map Datagram.data_area).flatten
                  ++ (pending (ctl_putdata_loop env ov fuel dp s).2
                      ++ (ctl_putdata_loop env ov fuel dp s).1)
                = pending s ++ dp))
      ∧ s.rpkt.data.length ≤ (ctl_putdata_loop env ov fuel dp s).2.rpkt.data.length
      ∧ (ctl_putdata_loop env ov fuel dp s).2.datapt_hi ≤ max s.datapt_hi CTL_MAX_DATA_LEN
      ∧ (ctl_putdata_loop env ov fuel dp s).2.datanotbinflag = s.datanotbinflag
      ∧ (ctl_putdata_loop env ov fuel dp s).2.datasent = s.datasent
      ∧ (ctl_putdata_loop env ov fuel dp s).2.datalinelen
            + (ctl_putdata_loop env ov fuel dp s).1.length
          = s.datalinelen + dp.length := by
  intro fuel
  induction fuel with
  | zero => intro dp s _ _ hm; omega
  | succ n ih =>
    intro dp s hp hw hm
    by_cases hc : (dp.length + ov) % 2 ^ 32 + s.datapt > CTL_MAX_DATA_LEN
    · rw [loop_succ_pos _ _ _ _ _ hc]
      obtain ⟨b1, ⟨d, bs, bc, bd⟩, bp, bl, bh, bn, bds, bdl⟩ := body_uniform env dp s hp
      have hcur : min dp.length (CTL_MAX_DATA_LEN - s.datapt) ≤ dp.length := Nat.min_le_left _ _
      have hb1 : (ctl_putdata_body env dp s).1.length
          = dp.length - min dp.length (CTL_MAX_DATA_LEN - s.datapt) := by
        rw [b1, List.length_drop]
      have hmeas : 2 * (ctl_putdata_body env dp s).1.length
          + (if (ctl_putdata_body env dp s).2.datapt = 0 then 0 else 1) < n := by
        rw [bp, if_pos rfl, hb1]
        rw [Nat.mod_eq_of_lt hw] at hc
        simp only [CTL_MAX_DATA_LEN] at hc hp ⊢
        split_ifs at hm <;> omega
      obtain ⟨r1, ⟨fr, rs, rc, rd⟩, rl, rh, rn, rds, rdl⟩ :=
        ih (ctl_putdata_body env dp s).1 (ctl_putdata_body env dp s).2
          (by rw [bp]; exact Nat.zero_le _) (by rw [hb1]; omega) hmeas
      refine ⟨r1, ⟨d :: fr, by rw [rs, bs, List.append_assoc]; rfl, ?_, ?_⟩, le_trans bl rl, ?_,
        by rw [rn, bn], by rw [rds, bds], ?_⟩
      · intro f hf
        rcases List.mem_cons.1 hf with hf | hf
        · rw [hf, bc]; simp only [CTL_MAX_DATA_LEN] at hp ⊢; omega
        · exact rc f hf
      · intro hb
        have e1 := rd (le_trans hb bl)
        have e2 : pending (ctl_putdata_body env dp s).2 = [] := by
          unfold pending; rw [bp, List.take_zero]
        rw [List.map_cons, List.flatten_cons, List.append_assoc, e1, e2, List.nil_append, bd hb,
          b1, List.append_assoc, List.take_append_drop]
      · exact le_trans rh (by omega)
      · rw [rdl, bdl, hb1]; omega
    · rw [loop_succ_neg _ _ _ _ _ hc]
      rw [Nat.mod_eq_of_lt hw] at hc
      refine ⟨by simp only; omega, ⟨[], by simp, by simp, by simp⟩, Nat.le_refl _, by simp, rfl, rfl,
        rfl⟩

theorem memcpy_length_end (buf : List Nat) (pos : Nat) (src : List Nat) (h : pos ≤ buf.length) :
    pos + src.length ≤ (memcpy buf pos src).length := by
  simp only [memcpy, List.length_append, List.length_take, List.length_drop]
  omega

theorem take_memcpy2 (buf : List Nat) (p a b : Nat) (h : p ≤ buf.length) :
    (memcpy (memcpy buf p [a]) (p + 1) [b]).take (p + 1 + 1) = buf.take p ++ [a, b] := by
  have h1 := memcpy_length_end buf p [a] h
  have e1 := take_memcpy_end (memcpy buf p [a]) (p + 1) [b] h1
  have e2 := take_memcpy_end buf p [a] h
  simp only [List.length_singleton] at e1 e2
  rw [e1, e2, List.append_assoc]; rfl

theorem take_memcpy3 (buf : List Nat) (p a b c : Nat) (h : p ≤ buf.length) :
    (memcpy (memcpy (memcpy buf p [a]) (p + 1) [b]) (p + 1 + 1) [c]).take (p + 1 + 1 + 1)
      = buf.take p ++ [a, b, c] := by
  have h1 := memcpy_length_end buf p [a] h
  have h2 := memcpy_length_end (memcpy buf p [a]) (p + 1) [b] h1
  have e1 := take_memcpy_end (memcpy (memcpy buf p [a]) (p + 1) [b]) (p + 1 + 1) [c] h2
  simp only [List.length_singleton] at e1
  rw [e1, take_memcpy2 buf p a b h, List.append_assoc]; rfl

theorem separator_length (n : Nat) (s : CtlState) : (separator n s).length ≤ 3 := by
  unfold separator
  split_ifs <;> simp

/-- What the separator step of `ctl_putdata` does. -/
theorem sep_spec (n : Nat) (s : CtlState) :
    (ctl_putdata_sep n s).datapt = s.datapt + (separator n s).length
    ∧ (s.datapt ≤ s.rpkt.data.length → pending (ctl_putdata_sep n s) = pending s ++ separator n s)
    ∧ (ctl_putdata_sep n s).sent = s.sent
    ∧ (ctl_putdata_sep n s).datanotbinflag = s.datanotbinflag
    ∧ (ctl_putdata_sep n s).datasent = s.datasent
    ∧ (ctl_putdata_sep n s).datalinelen
        = (if s.datasent = true then
            if (n + (s.datalinelen + 1) + 1) % 2 ^ 32 ≥ MAXDATALINELEN then 0
            else s.datalinelen + 2
           else s.datalinelen)
    ∧ (ctl_putdata_sep n s).datapt_hi ≤ max s.datapt_hi (s.datapt + 3)
    ∧ s.rpkt.data.length ≤ (ctl_putdata_sep n s).rpkt.data.length := by
  unfold ctl_putdata_sep separator pending
  by_cases h1 : s.datasent = true
  · rw [if_pos h1, if_pos h1, if_pos h1]
    simp only [put_byte, set_datapt]
    by_cases h2 : (n + (s.datalinelen + 1) + 1) % 2 ^ 32 ≥ MAXDATALINELEN
    · rw [if_pos h2, if_pos h2, if_pos h2]
      have l1 := memcpy_length_ge s.rpkt.data s.datapt [44]
      have l2 := memcpy_length_ge (memcpy s.rpkt.data s.datapt [44]) (s.datapt + 1) [13]
      have l3 := memcpy_length_ge (memcpy (memcpy s.rpkt.data s.datapt [44]) (s.datapt + 1) [13])
        (s.datapt + 1 + 1) [10]
      refine ⟨rfl, fun h => take_memcpy3 _ _ _ _ _ h, rfl, rfl, rfl, rfl, ?_, ?_⟩
      · simp only; omega
      · simp only; omega
    · rw [if_neg h2, if_neg h2, if_neg h2]
      have l1 := memcpy_length_ge s.rpkt.data s.datapt [44]
      have l2 := memcpy_length_ge (memcpy s.rpkt.data s.datapt [44]) (s.datapt + 1) [32]
      refine ⟨rfl, fun h => take_memcpy2 _ _ _ _ h, rfl, rfl, rfl, rfl, ?_, ?_⟩
      · simp only; omega
      · simp only; omega
  · rw [if_neg h1, if_neg h1, if_neg h1]
    simp

/-- The loop and final copy of `ctl_putdata` from a cursor `s1` inside the
data area. -/
theorem putdata_tail (env : Env) (ov : Nat) (hov : ov ≤ 3) (dp : List Nat) (s1 : CtlState)
    (hp : s1.datapt ≤ CTL_MAX_DATA_LEN) (hw : dp.length + 3 < 2 ^ 32) (t : CtlState)
    (ht : t = { set_datapt
      { (ctl_putdata_loop env ov (2 * dp.length + 2) dp s1).2 with
        rpkt := { (ctl_putdata_loop env ov (2 * dp.length + 2) dp s1).2.rpkt with
          data := memcpy (ctl_putdata_loop env ov (2 * dp.length + 2) dp s1).2.rpkt.data
            (ctl_putdata_loop env ov (2 * dp.length + 2) dp s1).2.datapt
            (ctl_putdata_loop env ov (2 * dp.length + 2) dp s1).1 },
        datalinelen := (ctl_putdata_loop env ov (2 * dp.length + 2) dp s1).2.datalinelen
          + (ctl_putdata_loop env ov (2 * dp.length + 2) dp s1).1.length }
      ((ctl_putdata_loop env ov (2 * dp.length + 2) dp s1).2.datapt
        + (ctl_putdata_loop env ov (2 * dp.length + 2) dp s1).1.length) with datasent := true }) :
    t.datapt + ov ≤ CTL_MAX_DATA_LEN
    ∧ (∃ fr, t.sent = s1.sent ++ fr
        ∧ (∀ f ∈ fr, f.count ≤ CTL_MAX_DATA_LEN)
        ∧ (CTL_MAX_DATA_LEN ≤ s1.rpkt.data.length →
            (fr.map Datagram.data_area).flatten ++ pending t = pending s1 ++ dp))
    ∧ s1.rpkt.data.length ≤ t.rpkt.data.length
    ∧ t.datapt_hi ≤ max s1.datapt_hi CTL_MAX_DATA_LEN
    ∧ t.datanotbinflag = s1.datanotbinflag
    ∧ t.datasent = true
    ∧ t.datalinelen = s1.datalinelen + dp.length := by
  obtain ⟨r1, ⟨fr, rs, rc, rd⟩, rl, rh, rn, -, rdl⟩ :=
    loop_uniform env ov hov (2 * dp.length + 2) dp s1 hp (by omega) (by split_ifs <;> omega)
  generalize ctl_putdata_loop env ov (2 * dp.length + 2) dp s1 = r at *
  subst ht
  have hml := memcpy_length_ge r.2.rpkt.data r.2.datapt r.1
  refine ⟨?_, ⟨fr, rs, rc, ?_⟩, le_trans rl hml, ?_, rn, rfl, ?_⟩
  · show r.2.datapt + r.1.length + ov ≤ CTL_MAX_DATA_LEN
    omega
  · intro hb
    have hpend : pending ({ set_datapt
        { r.2 with
          rpkt := { r.2.rpkt with data := memcpy r.2.rpkt.data r.2.datapt r.1 },
          datalinelen := r.2.datalinelen + r.1.length }
        (r.2.datapt + r.1.length) with datasent := true }) = pending r.2 ++ r.1 :=
      take_memcpy_end r.2.rpkt.data r.2.datapt r.1 (by omega)
    rw [hpend]
    exact rd hb
  · show max r.2.datapt_hi (r.2.datapt + r.1.length) ≤ max s1.datapt_hi CTL_MAX_DATA_LEN
    omega
  · show r.2.datalinelen + r.1.length = s1.datalinelen + dp.length
    exact rdl

/-- One `ctl_putdata` call in a response that is all text (`bin = false`) or
all binary: the cursor stays inside the data area with the overhead to spare,
every fragment sent carries at most `CTL_MAX_DATA_LEN` bytes, and the bytes
written are the separator and the data, in order. -/
theorem putdata_uniform (env : Env) (tok : List Nat) (bin : Bool) (s : CtlState)
    (hp : s.datapt + (if bin then 0 else 3) ≤ CTL_MAX_DATA_LEN)
    (hw : tok.length + 3 < 2 ^ 32) :
    (ctl_putdata env tok bin s).datapt + (if bin then 0 else 3) ≤ CTL_MAX_DATA_LEN
    ∧ (∃ fr, (ctl_putdata env tok bin s).sent = s.sent ++ fr
        ∧ (∀ f ∈ fr, f.count ≤ CTL_MAX_DATA_LEN)
        ∧ (CTL_MAX_DATA_LEN ≤ s.rpkt.data.length →
            (fr.map Datagram.data_area).flatten ++ pending (ctl_putdata env tok bin s)
              = pending s ++ ((if bin then [] else separator tok.length s) ++ tok)))
    ∧ s.rpkt.data.length ≤ (ctl_putdata env tok bin s).rpkt.data.length
    ∧ (ctl_putdata env tok bin s).datapt_hi ≤ max s.datapt_hi CTL_MAX_DATA_LEN
    ∧ (bin = false → (ctl_putdata env tok bin s).datanotbinflag = true)
    ∧ (ctl_putdata env tok bin s).datasent = true
    ∧ (bin = false → (ctl_putdata env tok bin s).datalinelen
        = (if s.datasent = true then
            if (tok.length + (s.datalinelen + 1) + 1) % 2 ^ 32 ≥ MAXDATALINELEN then 0
            else s.datalinelen + 2
           else s.datalinelen) + tok.length) := by
  cases bin
  · simp only [Bool.false_eq_true, if_false] at hp ⊢
    obtain ⟨k1, k2, k3, k4, k5, k6, k7, k8⟩ :=
      sep_spec tok.length { s with datanotbinflag := true }
    have hsl := separator_length tok.length { s with datanotbinflag := true }
    obtain ⟨a, ⟨fr, b1, b2, b3⟩, c, d, e, f, g⟩ :=
      putdata_tail env 3 (Nat.le_refl 3) tok
        (ctl_putdata_sep tok.length { s with datanotbinflag := true })
        (by rw [k1]; show s.datapt + _ ≤ _; omega) hw (ctl_putdata env tok false s) rfl
    refine ⟨a, ⟨fr, by rw [b1, k3], b2, ?_⟩, le_trans k8 c, ?_, fun _ => by rw [e, k4],
      f, fun _ => by rw [g, k6]⟩
    · intro hb
      rw [b3 (le_trans hb k8), k2 (by show s.datapt ≤ s.rpkt.data.length; omega), List.append_assoc]
      rfl
    · refine le_trans d ?_
      have : (ctl_putdata_sep tok.length { s with datanotbinflag := true }).datapt_hi
          ≤ max s.datapt_hi (s.datapt + 3) := k7
      omega
  · simp only [if_true] at hp ⊢
    obtain ⟨a, ⟨fr, b1, b2, b3⟩, c, d, e, f, g⟩ :=
      putdata_tail env 0 (Nat.zero_le 3) tok s hp hw (ctl_putdata env tok true s) rfl
    exact ⟨a, ⟨fr, b1, b2, fun hb => by rw [b3 hb, List.nil_append]⟩, c, d,
      fun h => by simp at h, f, fun h => by simp at h⟩

/-- What the CR LF step of `ctl_flushpkt` writes. -/
theorem flush_crlf_spec (more : Nat) (s : CtlState) :
    (flush_crlf more s).datapt
        = (if more = 0 ∧ s.datanotbinflag = true ∧ s.datapt + 2 < CTL_MAX_DATA_LEN
           then s.datapt + 2 else s.datapt)
    ∧ (s.datapt ≤ s.rpkt.data.length →
        pending (flush_crlf more s)
          = pending s ++ (if more = 0 ∧ s.datanotbinflag = true ∧ s.datapt + 2 < CTL_MAX_DATA_LEN
                          then [13, 10] else [])) := by
  unfold flush_crlf pending
  by_cases h : more = 0 ∧ s.datanotbinflag = true ∧ s.datapt + 2 < CTL_MAX_DATA_LEN
  · rw [if_pos h, if_pos h, if_pos h]
    exact ⟨rfl, fun hb => take_memcpy2 _ _ _ _ hb⟩
  · rw [if_neg h, if_neg h, if_neg h]
    exact ⟨rfl, fun _ => (List.append_nil _).symm⟩

/-- The last flush of a response from a cursor inside the data area. -/
theorem flush_last_uniform (env : Env) (s : CtlState) (hp : s.datapt ≤ CTL_MAX_DATA_LEN) :
    ∃ d, (ctl_flushpkt env 0 s).sent = s.sent ++ [d]
      ∧ d.count ≤ CTL_MAX_DATA_LEN
      ∧ d.r_m_e_op = CTL_RESPONSE ||| 0 ||| (s.res_opcode &&& CTL_OP_MASK)
      ∧ (ctl_flushpkt env 0 s).datapt_hi ≤ max s.datapt_hi CTL_MAX_DATA_LEN
      ∧ (s.datapt + 2 ≤ s.rpkt.data.length →
          d.data_area = pending s ++
            (if s.datanotbinflag = true ∧ s.datapt + 2 < CTL_MAX_DATA_LEN then [13, 10] else [])) := by
  obtain ⟨d, hs, hop, -, hcnt, -, hdata, -, -, -, -, -, -, -, -, -, hhi, -⟩ :=
    ctl_flushpkt_spec env 0 s
  obtain ⟨k1, -, k3, -, -, -, -, -, -, k10, -, k12⟩ := flush_crlf_frame 0 s
  obtain ⟨c1, c2⟩ := flush_crlf_spec 0 s
  have hdp : (flush_crlf 0 s).datapt ≤ CTL_MAX_DATA_LEN
      ∧ (flush_crlf 0 s).datapt ≤ s.datapt + 2 := by
    rw [c1]; split_ifs <;> omega
  have hc : d.count = (flush_crlf 0 s).datapt := by
    rw [hcnt]; have := hdp.1; simp only [CTL_MAX_DATA_LEN] at this; omega
  refine ⟨d, by rw [hs, k1], by rw [hc]; exact hdp.1, by rw [hop, k3], ?_, ?_⟩
  · rw [hhi]; have := hdp.1; omega
  · intro hb
    unfold Datagram.data_area
    rw [hc, hdata (by omega)]
    have := c2 (by omega)
    unfold pending at this
    rw [this]
    simp only [true_and]
    rfl

/-- A run of `ctl_putdata` calls that are all text or all binary keeps the
cursor inside the data area. -/
theorem put_calls_uniform (env : Env) (bin : Bool) :
    ∀ (toks : List (List Nat)) (s : CtlState),
      s.datapt + (if bin then 0 else 3) ≤ CTL_MAX_DATA_LEN →
      (∀ tok ∈ toks, tok.length + 3 < 2 ^ 32) →
      (put_calls env (toks.map (fun t => (t, bin))) s).datapt + (if bin then 0 else 3)
          ≤ CTL_MAX_DATA_LEN
      ∧ (∃ fr, (put_calls env (toks.map (fun t => (t, bin))) s).sent = s.sent ++ fr
          ∧ ∀ f ∈ fr, f.count ≤ CTL_MAX_DATA_LEN)
      ∧ s.rpkt.data.length ≤ (put_calls env (toks.map (fun t => (t, bin))) s).rpkt.data.length
      ∧ (put_calls env (toks.map (fun t => (t, bin))) s).datapt_hi
          ≤ max s.datapt_hi CTL_MAX_DATA_LEN
      ∧ (bin = false → (toks ≠ [] ∨ s.datanotbinflag = true) →
          (put_calls env (toks.map (fun t => (t, bin))) s).datanotbinflag = true) := by
  intro toks
  induction toks with
  | nil =>
    intro s hp _
    exact ⟨hp, ⟨[], by simp [put_calls], by simp⟩, Nat.le_refl _, by simp [put_calls],
      fun _ h => by simpa [put_calls] using h⟩
  | cons tok rest ih =>
    intro s hp hw
    obtain ⟨a, ⟨fr, b1, b2, -⟩, c, d, e, -, -⟩ :=
      putdata_uniform env tok bin s hp (hw tok (List.mem_cons_self _ _))
    obtain ⟨a', ⟨fr', b1', b2'⟩, c', d', e'⟩ :=
      ih (ctl_putdata env tok bin s) a (fun t ht => hw t (List.mem_cons_of_mem _ ht))
    have hstep : put_calls env ((tok :: rest).map (fun t => (t, bin))) s
        = put_calls env (rest.map (fun t => (t, bin))) (ctl_putdata env tok bin s) := rfl
    rw [hstep]
    refine ⟨a', ⟨fr ++ fr', by rw [b1', b1, List.append_assoc], ?_⟩, le_trans c c', ?_, ?_⟩
    · intro f hf
      rcases List.mem_append.1 hf with hf | hf
      · exact b2 f hf
      · exact b2' f hf
    · exact le_trans d' (by omega)
    · intro hb _
      exact e' hb (Or.inr (e hb))

/-- Claim C5. In a response built only from text `ctl_putdata` calls, or only
from binary ones, started with the cursor at `rpkt.data`, the write cursor
never moves past `CTL_MAX_DATA_LEN` (its high-water mark stays at or below
that, if it was before) and every fragment sent, the last one with its
trailing CR LF included, has a count of at most `CTL_MAX_DATA_LEN`. Tokens are
shorter than `2^32 - 3` bytes, as `unsigned int` lengths need. -/
theorem respond_within_data_area (env : Env) (bin : Bool) (toks : List (List Nat))
    (s : CtlState) (hs : s.datapt = 0) (hw : ∀ tok ∈ toks, tok.length + 3 < 2 ^ 32) :
    (respond env (toks.map (fun t => (t, bin))) s).datapt_hi ≤ max s.datapt_hi CTL_MAX_DATA_LEN
    ∧ ∃ fr, (respond env (toks.map (fun t => (t, bin))) s).sent = s.sent ++ fr
        ∧ fr ≠ []
        ∧ ∀ f ∈ fr, f.count ≤ CTL_MAX_DATA_LEN := by
  obtain ⟨a, ⟨fr, b1, b2⟩, -, d, -⟩ :=
    put_calls_uniform env bin toks s (by rw [hs]; cases bin <;> decide) hw
  obtain ⟨l, l1, l2, -, l4, -⟩ :=
    flush_last_uniform env (put_calls env (toks.map (fun t => (t, bin))) s) (by omega)
  unfold respond
  refine ⟨le_trans l4 (by omega), fr ++ [l], by rw [l1, b1, List.append_assoc], by simp, ?_⟩
  intro f hf
  rcases List.mem_append.1 hf with hf | hf
  · exact b2 f hf
  · rw [List.mem_singleton] at hf
    rw [hf]; exact l2

theorem stream_extend (s t : CtlState) (fr : List Datagram) (bytes : List Nat)
    (hs : t.sent = s.sent ++ fr)
    (hb : (fr.map Datagram.data_area).flatten ++ pending t = pending s ++ bytes) :
    stream t = stream s ++ bytes := by
  unfold stream
  rw [hs, List.map_append, List.flatten_append, List.append_assoc, hb, List.append_assoc]

/-- Claim C9. A text `ctl_putdata` of a token of `n` bytes appends to the
output: the token alone if nothing was sent before in this response; comma,
CR, LF and the token if `n + L + 1 >= 72`, where `L = datalinelen + 1` counts
the comma, and then the line length restarts at 0 and grows by `n`; comma,
space and the token otherwise, the line length growing by `2 + n`. -/
theorem ctl_putdata_text_separator (env : Env) (tok : List Nat) (s : CtlState)
    (hp : s.datapt + 3 ≤ CTL_MAX_DATA_LEN) (hb : CTL_MAX_DATA_LEN ≤ s.rpkt.data.length)
    (hw : tok.length + s.datalinelen + 3 < 2 ^ 32) :
    (s.datasent = false →
        stream (ctl_putdata env tok false s) = stream s ++ tok
        ∧ (ctl_putdata env tok false s).datalinelen = s.datalinelen + tok.length)
    ∧ (s.datasent = true → tok.length + (s.datalinelen + 1) + 1 ≥ MAXDATALINELEN →
        stream (ctl_putdata env tok false s) = stream s ++ ([44, 13, 10] ++ tok)
        ∧ (ctl_putdata env tok false s).datalinelen = 0 + tok.length)
    ∧ (s.datasent = true → tok.length + (s.datalinelen + 1) + 1 < MAXDATALINELEN →
        stream (ctl_putdata env tok false s) = stream s ++ ([44, 32] ++ tok)
        ∧ (ctl_putdata env tok false s).datalinelen = s.datalinelen + 1 + 1 + tok.length)
    ∧ (ctl_putdata env tok false s).datasent = true := by
  obtain ⟨-, ⟨fr, b1, -, b3⟩, -, -, -, f, g⟩ :=
    putdata_uniform env tok false s (by simpa using hp) (by omega)
  have hst := stream_extend s _ fr _ b1 (b3 hb)
  have hg := g rfl
  have hmod : (tok.length + (s.datalinelen + 1) + 1) % 2 ^ 32
      = tok.length + (s.datalinelen + 1) + 1 := Nat.mod_eq_of_lt (by omega)
  simp only [Bool.false_eq_true, if_false, separator, hmod] at hst hg
  refine ⟨?_, ?_, ?_, f⟩
  · intro h
    have h' : ¬ s.datasent = true := by simp [h]
    rw [if_neg h'] at hst hg
    exact ⟨by simpa using hst, hg⟩
  · intro h hc
    rw [if_pos h, if_pos hc] at hst hg
    exact ⟨hst, hg⟩
  · intro h hc
    have hc' : ¬ tok.length + (s.datalinelen + 1) + 1 ≥ MAXDATALINELEN := by omega
    rw [if_pos h, if_neg hc'] at hst hg
    exact ⟨hst, by rw [hg]⟩

/-- Claim C8. A response with a text `ctl_putdata` call is built from text
calls only: every call of `ctl_putdata` in the source passes `bin = false`
but the two of the binary branch of `read_status`, which makes no text call.
Such a response, of at least one call and finished by `ctl_flushpkt(0)`, ends
with a fragment (More bit clear) whose data area ends in CR LF; and a flush
with the More bit appends nothing: the data area of the fragment it sends is
exactly the bytes pending in the packet. -/
theorem respond_text_ends_crlf (env : Env) (toks : List (List Nat)) (s : CtlState)
    (hs : s.datapt = 0) (hb : CTL_MAX_DATA_LEN ≤ s.rpkt.data.length) (hne : toks ≠ [])
    (hw : ∀ tok ∈ toks, tok.length + 3 < 2 ^ 32) :
    (∃ fr last pre, (respond env (toks.map (fun t => (t, false))) s).sent = s.sent ++ fr ++ [last]
        ∧ last.r_m_e_op &&& CTL_MORE = 0
        ∧ last.data_area = pre ++ [13, 10])
    ∧ (∀ (t : CtlState) (more : Nat), more ≠ 0 → t.datapt ≤ t.rpkt.data.length →
        t.datapt < 65536 →
        ∃ d, (ctl_flushpkt env more t).sent = t.sent ++ [d] ∧ d.data_area = pending t) := by
  constructor
  · obtain ⟨a, ⟨fr, b1, -⟩, c, -, e⟩ :=
      put_calls_uniform env false toks s (by rw [hs]; decide) hw
    simp only [Bool.false_eq_true, if_false] at a
    obtain ⟨l, l1, -, l3, -, l5⟩ :=
      flush_last_uniform env (put_calls env (toks.map (fun t => (t, false))) s) (by omega)
    have hflag := e rfl (Or.inl hne)
    have hcond : (put_calls env (toks.map (fun t => (t, false))) s).datanotbinflag = true
        ∧ (put_calls env (toks.map (fun t => (t, false))) s).datapt + 2 < CTL_MAX_DATA_LEN :=
      ⟨hflag, by omega⟩
    have hl5 := l5 (by omega)
    rw [if_pos hcond] at hl5
    obtain ⟨-, -, -, m4, -, -⟩ := more_op_bits _ (op_mask_lt (put_calls env (toks.map (fun t => (t, false))) s).res_opcode)
    refine ⟨fr, l, _, by unfold respond; rw [l1, b1], by rw [l3]; exact m4, hl5⟩
  · intro t more hm hlen h16
    obtain ⟨d, hs', -, -, hcnt, -, hdata, -⟩ := ctl_flushpkt_spec env more t
    rw [flush_crlf_more _ _ hm] at hs' hcnt hdata
    refine ⟨d, hs', ?_⟩
    unfold Datagram.data_area pending
    rw [hcnt, Nat.mod_eq_of_lt h16, hdata hlen]

theorem take_min_length (l : List Nat) (k : Nat) : l.take (min l.length k) = l.take k := by
  by_cases h : l.length ≤ k
  · rw [Nat.min_eq_left h, List.take_length, List.take_of_length_le h]
  · rw [Nat.min_eq_right (by omega)]

theorem drop_min_length (l : List Nat) (k : Nat) : l.drop (min l.length k) = l.drop k := by
  by_cases h : l.length ≤ k
  · rw [Nat.min_eq_left h, List.drop_length, List.drop_eq_nil_of_le h]
  · rw [Nat.min_eq_right (by omega)]

/-- The final copy of `ctl_putdata` keeps the datagrams sent and appends the
bytes the loop left pending. -/
theorem putdata_finish (env : Env) (tok : List Nat) (s : CtlState) (r : List Nat × CtlState)
    (hr : r = ctl_putdata_loop env 3 (2 * tok.length + 1 + 1) tok
      (ctl_putdata_sep tok.length { s with datanotbinflag := true })) :
    (ctl_putdata env tok false s).sent = r.2.sent
    ∧ (r.2.datapt ≤ r.2.rpkt.data.length →
        pending (ctl_putdata env tok false s) = pending r.2 ++ r.1) := by
  subst hr
  exact ⟨rfl, fun h => take_memcpy_end _ _ _ h⟩

/-- Claim C6, amended. With `p` the cursor after the separator: a text token
of `n` bytes with `n + 3 + p <= CTL_MAX_DATA_LEN` is written whole into the
packet under construction and nothing is sent; otherwise the call sends
fragments, the first of which ends with the first `CTL_MAX_DATA_LEN - p`
bytes of the token (all of it if it is that short), and the rest of the
token is what the following fragments and the new packet hold: a token longer
than the room left is split across fragments. -/
theorem ctl_putdata_token_placement (env : Env) (tok : List Nat) (s : CtlState)
    (hp : s.datapt + 3 ≤ CTL_MAX_DATA_LEN) (hb : CTL_MAX_DATA_LEN ≤ s.rpkt.data.length)
    (hw : tok.length + 3 < 2 ^ 32) :
    (tok.length + 3 + (s.datapt + (separator tok.length s).length) ≤ CTL_MAX_DATA_LEN →
        (ctl_putdata env tok false s).sent = s.sent
        ∧ pending (ctl_putdata env tok false s) = pending s ++ (separator tok.length s ++ tok))
    ∧ (CTL_MAX_DATA_LEN < tok.length + 3 + (s.datapt + (separator tok.length s).length) →
        ∃ f rest, (ctl_putdata env tok false s).sent = s.sent ++ f :: rest
          ∧ f.data_area = pending s ++ (separator tok.length s
              ++ tok.take (CTL_MAX_DATA_LEN - (s.datapt + (separator tok.length s).length)))
          ∧ (rest.map Datagram.data_area).flatten ++ pending (ctl_putdata env tok false s)
              = tok.drop (CTL_MAX_DATA_LEN - (s.datapt + (separator tok.length s).length))) := by
  obtain ⟨k1, k2, k3, -, -, -, -, k8⟩ := sep_spec tok.length { s with datanotbinflag := true }
  have hsl := separator_length tok.length { s with datanotbinflag := true }
  have k1' : (ctl_putdata_sep tok.length { s with datanotbinflag := true }).datapt
      = s.datapt + (separator tok.length s).length := k1
  have hsl' : (separator tok.length s).length ≤ 3 := hsl
  have k2' : pending (ctl_putdata_sep tok.length { s with datanotbinflag := true })
      = pending s ++ separator tok.length s := k2 (by show s.datapt ≤ s.rpkt.data.length; omega)
  have k3' : (ctl_putdata_sep tok.length { s with datanotbinflag := true }).sent = s.sent := k3
  have k8' : s.rpkt.data.length
      ≤ (ctl_putdata_sep tok.length { s with datanotbinflag := true }).rpkt.data.length := k8
  generalize hs1 : ctl_putdata_sep tok.length { s with datanotbinflag := true } = s1 at *
  have hmod : (tok.length + 3) % 2 ^ 32 = tok.length + 3 := Nat.mod_eq_of_lt (by omega)
  constructor
  · intro hfit
    have hc : ¬ (tok.length + 3) % 2 ^ 32 + s1.datapt > CTL_MAX_DATA_LEN := by
      rw [hmod, k1']; omega
    obtain ⟨f1, f2⟩ := putdata_finish env tok s (tok, s1)
      (by rw [hs1, loop_succ_neg _ _ _ _ _ hc])
    exact ⟨by rw [f1, k3'], by rw [f2 (by show s1.datapt ≤ s1.rpkt.data.length; omega), k2',
      List.append_assoc]⟩
  · intro hover
    have hc : (tok.length + 3) % 2 ^ 32 + s1.datapt > CTL_MAX_DATA_LEN := by
      rw [hmod, k1']; omega
    have hp1 : s1.datapt ≤ CTL_MAX_DATA_LEN := by rw [k1']; omega
    obtain ⟨b1, ⟨d, bs, -, bd⟩, bp, bl, -⟩ := body_uniform env tok s1 hp1
    have hb1 : (ctl_putdata_body env tok s1).1.length ≤ tok.length := by
      rw [b1, List.length_drop]; omega
    obtain ⟨r1, ⟨fr, rs, -, rd⟩, rl, -⟩ :=
      loop_uniform env 3 (Nat.le_refl 3) (2 * tok.length + 1) (ctl_putdata_body env tok s1).1
        (ctl_putdata_body env tok s1).2 (by rw [bp]; exact Nat.zero_le _) (by omega)
        (by rw [bp, if_pos rfl]; omega)
    obtain ⟨f1, f2⟩ := putdata_finish env tok s _ (by rw [hs1, loop_succ_pos _ _ _ _ _ hc])
    have hpend : pending (ctl_putdata_body env tok s1).2 = [] := by
      unfold pending; rw [bp, List.take_zero]
    refine ⟨d, fr, by rw [f1, rs, bs, k3', List.append_assoc]; rfl, ?_, ?_⟩
    · rw [bd (by omega), k2', k1', take_min_length, List.append_assoc]
    · rw [f2 (by omega), rd (by omega), hpend, List.nil_append, b1, k1', drop_min_length]

/-- Counterexample to claim C6 as stated: after a 460-byte token, the token
`0123456789` is cut after `01234`; the first fragment ends in the middle of
it and neither fragment holds the whole token. -/
theorem respond_splits_token :
    (respond std_env split_calls init_state).sent.map Datagram.data_area
      = [List.replicate 460 97 ++ [44, 13, 10] ++ str "01234", str "56789" ++ [13, 10]]
    ∧ ((respond std_env split_calls init_state).sent.map
        (fun d => decide (str "0123456789" <:+: d.data_area))) = [false, false] := by
  decide

/-- Claim C7 at its failing input: a 469-byte text token from the initial
state, no authentication. The second datagram has count 3 and length 16 (12 +
3 rounded up to a multiple of 4), but its padding byte at offset 15 is 65, a
byte of the first fragment left in the buffer, not zero. -/
theorem flush_padding_not_zeroed :
    init_state.res_authenticate = false
    ∧ (respond std_env long_token_calls init_state).sent.map
        (fun d => (d.count, d.len, d.data.drop d.count))
      = [(468, 480, []), (3, 16, [65])] := by
  decide

/-- Witness of the amended C4 on a two-token text response. -/
theorem respond_fragments_witness :
    ∃ fr last, (respond std_env two_token_calls init_state).sent
        = init_state.sent ++ (fr ++ [last])
      ∧ (∀ i (hi : i < (fr ++ [last]).length),
          ((fr ++ [last]).get ⟨i, hi⟩).offset
            = ((((fr ++ [last]).take i).map Datagram.count).sum) % 65536)
      ∧ (∀ f ∈ fr, f.r_m_e_op &&& CTL_MORE = CTL_MORE)
      ∧ last.r_m_e_op &&& CTL_MORE = 0
      ∧ (∀ f ∈ fr ++ [last], f.r_m_e_op &&& CTL_RESPONSE = CTL_RESPONSE
          ∧ f.r_m_e_op &&& CTL_OP_MASK = init_state.res_opcode &&& CTL_OP_MASK
          ∧ f.sequence = init_state.rpkt.sequence) :=
  respond_fragments std_env two_token_calls init_state (by decide)

/-- Witness of C5 on a text response with a 469-byte token. -/
theorem respond_within_data_area_witness :
    (respond std_env ([str "leap=0", List.replicate 469 65].map (fun t => (t, false)))
        init_state).datapt_hi ≤ max init_state.datapt_hi CTL_MAX_DATA_LEN
    ∧ ∃ fr, (respond std_env ([str "leap=0", List.replicate 469 65].map (fun t => (t, false)))
        init_state).sent = init_state.sent ++ fr
        ∧ fr ≠ []
        ∧ ∀ f ∈ fr, f.count ≤ CTL_MAX_DATA_LEN :=
  respond_within_data_area std_env false [str "leap=0", List.replicate 469 65] init_state
    (by decide) (by decide)


/-- Witness of the amended C6 on the token `0123456789` after a 460-byte
token. -/
theorem ctl_putdata_token_placement_witness :
    (10 + 3 + (after_460.datapt + (separator 10 after_460).length) ≤ CTL_MAX_DATA_LEN →
        (ctl_putdata std_env (str "0123456789") false after_460).sent = after_460.sent
        ∧ pending (ctl_putdata std_env (str "0123456789") false after_460)
            = pending after_460 ++ (separator 10 after_460 ++ str "0123456789"))
    ∧ (CTL_MAX_DATA_LEN < 10 + 3 + (after_460.datapt + (separator 10 after_460).length) →
        ∃ f rest, (ctl_putdata std_env (str "0123456789") false after_460).sent
            = after_460.sent ++ f :: rest
          ∧ f.data_area = pending after_460 ++ (separator 10 after_460
              ++ (str "0123456789").take
                  (CTL_MAX_DATA_LEN - (after_460.datapt + (separator 10 after_460).length)))
          ∧ (rest.map Datagram.data_area).flatten
                ++ pending (ctl_putdata std_env (str "0123456789") false after_460)
              = (str "0123456789").drop
                  (CTL_MAX_DATA_LEN - (after_460.datapt + (separator 10 after_460).length))) :=
  ctl_putdata_token_placement std_env (str "0123456789") after_460 (by decide) (by decide)
    (by decide)

/-- Witness of C8 on a two-token text response. -/
theorem respond_text_ends_crlf_witness :
    (∃ fr last pre,
        (respond std_env ([str "leap=0", str "stratum=2"].map (fun t => (t, false)))
          init_state).sent = init_state.sent ++ fr ++ [last]
        ∧ last.r_m_e_op &&& CTL_MORE = 0
        ∧ last.data_area = pre ++ [13, 10])
    ∧ (∀ (t : CtlState) (more : Nat), more ≠ 0 → t.datapt ≤ t.rpkt.data.length →
        t.datapt < 65536 →
        ∃ d, (ctl_flushpkt std_env more t).sent = t.sent ++ [d] ∧ d.data_area = pending t) :=
  respond_text_ends_crlf std_env [str "leap=0", str "stratum=2"] init_state (by decide)
    (by decide) (by decide) (by decide)

/-- Witness of C9 on the second token of a response. -/
theorem ctl_putdata_text_separator_witness :
    (after_leap.datasent = false →
        stream (ctl_putdata std_env (str "stratum=2") false after_leap)
          = stream after_leap ++ str "stratum=2"
        ∧ (ctl_putdata std_env (str "stratum=2") false after_leap).datalinelen
          = after_leap.datalinelen + (str "stratum=2").length)
    ∧ (after_leap.datasent = true →
        (str "stratum=2").length + (after_leap.datalinelen + 1) + 1 ≥ MAXDATALINELEN →
        stream (ctl_putdata std_env (str "stratum=2") false after_leap)
          = stream after_leap ++ ([44, 13, 10] ++ str "stratum=2")
        ∧ (ctl_putdata std_env (str "stratum=2") false after_leap).datalinelen
          = 0 + (str "stratum=2").length)
    ∧ (after_leap.datasent = true →
        (str "stratum=2").length + (after_leap.datalinelen + 1) + 1 < MAXDATALINELEN →
        stream (ctl_putdata std_env (str "stratum=2") false after_leap)
          = stream after_leap ++ ([44, 32] ++ str "stratum=2")
        ∧ (ctl_putdata std_env (str "stratum=2") false after_leap).datalinelen
          = after_leap.datalinelen + 1 + 1 + (str "stratum=2").length)
    ∧ (ctl_putdata std_env (str "stratum=2") false after_leap).datasent = true :=
  ctl_putdata_text_separator std_env (str "stratum=2") after_leap (by decide) (by decide)
    (by decide)

/-! ### One request, two responses -/

/-- Claim C3 at its failing input: a well-framed READVAR request whose item
`leap` carries a 128-byte value. `ctl_getitem` sends the BADFMT error
response (Response and Error bits, status `0x100`, 12 bytes) and returns
NULL; `read_sysvars` takes that for the end of the items and goes on to send
the default variables as a data fragment (Response bit only, count 111):
two datagrams, an error response together with a data response. -/
theorem readvar_overlong_value_two_responses :
    well_framed std_env overlong_request
    ∧ init_state.sent = []
    ∧ (process_control std_env readvar_handlers overlong_request 0 init_state).sent.map
        (fun d => (d.r_m_e_op, d.status, d.count, d.len))
      = [(0xa2, 0x100, 0, 12), (0x82, 0x100, 111, 124)] := by
  decide

/-! ### `process_control`: authentication -/

theorem process_control_request_state (env : Env) (h : Handlers) (rbufp : recvbuf)
    (restrict_mask : Int) (s : CtlState) (hwf : well_framed env rbufp) :
    process_control env h rbufp restrict_mask s
      = dispatch env rbufp restrict_mask (control_codes h) (request_state env rbufp s) := by
  obtain ⟨⟨hlen, hfl, hoff, hv1, hv2⟩, hcnt, hmul⟩ := hwf
  have hc1 : ¬ (rbufp.recv_length < CTL_HEADER_LEN
      ∨ (CTL_RESPONSE ||| CTL_MORE ||| CTL_ERROR) &&& byteAt rbufp.recv_pkt 1 ≠ 0
      ∨ be16 rbufp.recv_pkt 8 ≠ 0) := by
    simp only [hfl, hoff]; omega
  have hc2 : ¬ (PKT_VERSION (byteAt rbufp.recv_pkt 0) > env.NTP_VERSION
      ∨ PKT_VERSION (byteAt rbufp.recv_pkt 0) < env.NTP_OLDVERSION) := by omega
  have hc3 : ¬ (rbufp.recv_length - CTL_HEADER_LEN < be16 rbufp.recv_pkt 10
      ∨ rbufp.recv_length &&& 0x3 ≠ 0) := by
    rw [and3_eq_mod4]; omega
  unfold process_control request_state request_maclen request_properlen
  simp only [hc1, hc2, hc3, if_false]

theorem request_state_frame (env : Env) (rbufp : recvbuf) (s : CtlState) :
    (request_state env rbufp s).sent = s.sent
    ∧ (request_state env rbufp s).res_opcode = byteAt rbufp.recv_pkt 1
    ∧ (request_state env rbufp s).rpkt.sequence = be16 rbufp.recv_pkt 2
    ∧ (request_state env rbufp s).ctl_auth_keyid = s.ctl_auth_keyid
    ∧ (request_state env rbufp s).res_associd = be16 rbufp.recv_pkt 6
    ∧ (request_state env rbufp s).ext_sys_var = s.ext_sys_var
    ∧ (request_state env rbufp s).reqdata = rbufp.recv_pkt.drop CTL_HEADER_LEN
    ∧ (request_state env rbufp s).reqpt = 0
    ∧ (request_state env rbufp s).reqend = be16 rbufp.recv_pkt 10 := by
  unfold request_state
  dsimp only
  split_ifs <;> simp [set_datapt]

theorem request_state_auth (env : Env) (rbufp : recvbuf) (s : CtlState) :
    ((request_state env rbufp s).res_authenticate = true ↔ request_carries_mac env rbufp)
    ∧ ((request_state env rbufp s).res_authokay = true ↔ authenticated_ok env rbufp)
    ∧ (authenticated_ok env rbufp → (request_state env rbufp s).res_keyid = request_keyid rbufp)
    ∧ ((request_state env rbufp s).res_keyid = request_keyid rbufp
        ∨ (request_state env rbufp s).res_keyid = 0) := by
  unfold request_state authenticated_ok request_carries_mac request_keyid
  dsimp only
  split_ifs with h1 h2 h3 <;> simp_all [set_datapt]
theorem dispatch_auth_fail (env : Env) (h : Handlers) (rbufp : recvbuf) (m : Int) (s : CtlState)
    (hop : s.res_opcode = 3 ∨ s.res_opcode = 6 ∨ s.res_opcode = 12)
    (hau : s.res_authokay = false ∨ s.res_keyid ≠ s.ctl_auth_keyid) :
    dispatch env rbufp m (control_codes h) s = ctl_error env CERR_PERMISSION s := by
  rcases hop with h3 | h3 | h3 <;>
  simp [control_codes, dispatch, NO_REQUEST, CTL_OP_UNSPEC, CTL_OP_READSTAT, CTL_OP_READVAR,
    CTL_OP_WRITEVAR, CTL_OP_READCLOCK, CTL_OP_WRITECLOCK, CTL_OP_CONFIGURE, CTL_OP_READ_MRU,
    CTL_OP_READ_ORDLIST_A, CTL_OP_REQ_NONCE, AUTH, NOAUTH, h3, hau]

theorem dispatch_writeclock (env : Env) (h : Handlers) (rbufp : recvbuf) (m : Int) (s : CtlState)
    (hop : s.res_opcode = 5) :
    dispatch env rbufp m (control_codes h) s = h.write_clockstatus env rbufp m s := by
  simp [control_codes, dispatch, NO_REQUEST, CTL_OP_UNSPEC, CTL_OP_READSTAT, CTL_OP_READVAR,
    CTL_OP_WRITEVAR, CTL_OP_READCLOCK, CTL_OP_WRITECLOCK, CTL_OP_CONFIGURE, CTL_OP_READ_MRU,
    CTL_OP_READ_ORDLIST_A, CTL_OP_REQ_NONCE, AUTH, NOAUTH, hop]

/-- Claim C11. For a well-framed request with opcode WRITEVAR (3), CONFIGURE
(6) or READ_ORDLIST_A (12) that did not authenticate OK, or whose key id is
not `ctl_auth_keyid`, and for a well-framed WRITECLOCK (5) request whatever
its authentication, `process_control` does exactly `ctl_error(CERR_PERMISSION)`
on the state set up for the request. In the first case this holds for every
handler table, so the handler of the opcode is not run. One datagram is sent:
the PERMISSION error response. -/
theorem process_control_permission (env : Env) (h : Handlers) (rbufp : recvbuf)
    (restrict_mask : Int) (s : CtlState)
    (hwf : well_framed env rbufp)
    (hop : ((byteAt rbufp.recv_pkt 1 = 3 ∨ byteAt rbufp.recv_pkt 1 = 6
              ∨ byteAt rbufp.recv_pkt 1 = 12)
            ∧ (¬ authenticated_ok env rbufp ∨ request_keyid rbufp ≠ s.ctl_auth_keyid))
          ∨ (byteAt rbufp.recv_pkt 1 = 5 ∧ h.write_clockstatus = write_clockstatus)) :
    process_control env h rbufp restrict_mask s
        = ctl_error env CERR_PERMISSION (request_state env rbufp s)
    ∧ ∃ d, (process_control env h rbufp restrict_mask s).sent = s.sent ++ [d]
        ∧ d.r_m_e_op = CTL_RESPONSE ||| CTL_ERROR ||| byteAt rbufp.recv_pkt 1
        ∧ d.status = CERR_PERMISSION * 256
        ∧ d.count = 0
        ∧ d.sequence = be16 rbufp.recv_pkt 2 := by
  have hrs := process_control_request_state env h rbufp restrict_mask s hwf
  obtain ⟨f1, f2, f3, f4, -⟩ := request_state_frame env rbufp s
  obtain ⟨-, a2, a3, a4⟩ := request_state_auth env rbufp s
  obtain ⟨hopm, -⟩ := flags_clear_op _ (byteAt_lt _ _) hwf.1.2.1
  have key : process_control env h rbufp restrict_mask s
      = ctl_error env CERR_PERMISSION (request_state env rbufp s) := by
    rw [hrs]
    rcases hop with ⟨ho, hau⟩ | ⟨ho, hh⟩
    · apply dispatch_auth_fail
      · rw [f2]; exact ho
      · rw [f4]
        by_cases hok : authenticated_ok env rbufp
        · right
          rw [a3 hok]
          rcases hau with h1 | h1
          · exact absurd hok h1
          · exact h1
        · left
          cases hb : (request_state env rbufp s).res_authokay
          · rfl
          · exact absurd (a2.mp hb) hok
    · rw [dispatch_writeclock _ _ _ _ _ (by rw [f2]; exact ho), hh]
      rfl
  refine ⟨key, ?_⟩
  rw [key]
  obtain ⟨d, hd, h1, h2, h3, h4, -⟩ := ctl_error_sent env CERR_PERMISSION (request_state env rbufp s)
  refine ⟨d, by rw [hd, f1], ?_, ?_, h3, by rw [h4, f3]⟩
  · rw [h1, f2, hopm]
  · rw [h2]; decide

theorem process_control_permission_witness :
    (decide (authenticated_ok std_env writevar_plain_request) = false
      ∧ process_control std_env idle_handlers writevar_plain_request 0 init_state
        = ctl_error std_env CERR_PERMISSION
            (request_state std_env writevar_plain_request init_state))
    ∧ (authenticated_ok std_env writeclock_auth_request
      ∧ process_control std_env write_handlers writeclock_auth_request 0 init_state
        = ctl_error std_env CERR_PERMISSION
            (request_state std_env writeclock_auth_request init_state)) :=
  ⟨⟨by decide,
    (process_control_permission std_env idle_handlers writevar_plain_request 0 init_state
      (by decide) (Or.inl ⟨by decide, Or.inl (by decide)⟩)).1⟩,
   ⟨by decide,
    (process_control_permission std_env write_handlers writeclock_auth_request 0 init_state
      (by decide) (Or.inr ⟨by decide, rfl⟩)).1⟩⟩

/-! ### The position of the MAC -/

/-- Claim C12, counterexample. A 16-byte request with count 0 has four bytes
after the 4-byte-rounded end of header and data (offset 12), which is a MAC
length with `MIN_MAC_LEN = 4`; `process_control` does not take it to carry a
MAC and answers with a bare 12-byte error response. A 36-byte request with
count 0 is taken to carry a MAC, and the key id is the word at offset 16 (1),
not the word at offset 12 (9). -/
theorem mac_offset_not_four_rounded :
    well_framed std_env four_trailing_request
    ∧ spec_carries_mac std_env four_trailing_request
    ∧ (request_state std_env four_trailing_request init_state).res_authenticate = false
    ∧ (process_control std_env idle_handlers four_trailing_request 0 init_state).sent.map
        (fun d => d.len) = [12]
    ∧ well_framed std_env two_words_request
    ∧ spec_mac_offset two_words_request = 12
    ∧ be32 two_words_request.recv_pkt 12 = 9
    ∧ (request_state std_env two_words_request init_state).res_authenticate = true
    ∧ (request_state std_env two_words_request init_state).res_keyid = 1 := by
  decide

theorem properlen_bounds (rbufp : recvbuf) :
    request_properlen rbufp % 8 = 0
    ∧ CTL_HEADER_LEN + be16 rbufp.recv_pkt 10 ≤ request_properlen rbufp
    ∧ request_properlen rbufp < CTL_HEADER_LEN + be16 rbufp.recv_pkt 10 + 8 := by
  unfold request_properlen CTL_HEADER_LEN
  omega

theorem carries_mac_iff (env : Env) (rbufp : recvbuf) (hwf : well_framed env rbufp)
    (hlen : rbufp.recv_length < 2 ^ 64) (hmax : env.MAX_MAC_LEN < 2 ^ 63) :
    request_carries_mac env rbufp ↔
      (request_properlen rbufp ≤ rbufp.recv_length
        ∧ env.MIN_MAC_LEN ≤ rbufp.recv_length - request_properlen rbufp
        ∧ rbufp.recv_length - request_properlen rbufp ≤ env.MAX_MAC_LEN) := by
  obtain ⟨-, hcnt, hmul⟩ := hwf
  obtain ⟨p1, p2, p3⟩ := properlen_bounds rbufp
  unfold request_carries_mac request_maclen
  rw [and3_eq_mod4]
  unfold CTL_HEADER_LEN at *
  by_cases hle : request_properlen rbufp ≤ rbufp.recv_length
  · have e : (rbufp.recv_length + 2 ^ 64 - request_properlen rbufp) % 2 ^ 64
        = rbufp.recv_length - request_properlen rbufp := by omega
    rw [e]
    constructor
    · rintro ⟨-, h1, h2⟩; exact ⟨hle, h1, h2⟩
    · rintro ⟨-, h1, h2⟩; exact ⟨hmul, h1, h2⟩
  · have e : (rbufp.recv_length + 2 ^ 64 - request_properlen rbufp) % 2 ^ 64
        = rbufp.recv_length + 2 ^ 64 - request_properlen rbufp := by omega
    rw [e]
    constructor
    · rintro ⟨-, h1, h2⟩; omega
    · rintro ⟨h0, -⟩; omega

/-- Claim C12, amended. `process_control` treats a well-framed request as
carrying a MAC exactly when the bytes following the 8-byte-rounded end of
header and data (`properlen`, 12 + count rounded up to a multiple of 8)
number between `MIN_MAC_LEN` and `MAX_MAC_LEN` inclusive, and it reads the key
id from that offset: the request is authenticated OK exactly when that key is
trusted and `authdecrypt` accepts it, and `res_keyid` is that word (or 0 after
a failed check). -/
theorem process_control_mac_detection (env : Env) (h : Handlers) (rbufp : recvbuf)
    (restrict_mask : Int) (s : CtlState)
    (hwf : well_framed env rbufp)
    (hlen : rbufp.recv_length < 2 ^ 64) (hmax : env.MAX_MAC_LEN < 2 ^ 63) :
    process_control env h rbufp restrict_mask s
        = dispatch env rbufp restrict_mask (control_codes h) (request_state env rbufp s)
    ∧ request_properlen rbufp % 8 = 0
    ∧ CTL_HEADER_LEN + be16 rbufp.recv_pkt 10 ≤ request_properlen rbufp
    ∧ request_properlen rbufp < CTL_HEADER_LEN + be16 rbufp.recv_pkt 10 + 8
    ∧ ((request_state env rbufp s).res_authenticate = true ↔
        (request_properlen rbufp ≤ rbufp.recv_length
          ∧ env.MIN_MAC_LEN ≤ rbufp.recv_length - request_properlen rbufp
          ∧ rbufp.recv_length - request_properlen rbufp ≤ env.MAX_MAC_LEN))
    ∧ ((request_state env rbufp s).res_authokay = true ↔
        ((request_state env rbufp s).res_authenticate = true
          ∧ env.authistrusted (be32 rbufp.recv_pkt (request_properlen rbufp)) = true
          ∧ env.authdecrypt (be32 rbufp.recv_pkt (request_properlen rbufp)) rbufp.recv_pkt
              (request_properlen rbufp) (rbufp.recv_length - request_properlen rbufp) = true))
    ∧ ((request_state env rbufp s).res_keyid = be32 rbufp.recv_pkt (request_properlen rbufp)
        ∨ (request_state env rbufp s).res_keyid = 0) := by
  obtain ⟨p1, p2, p3⟩ := properlen_bounds rbufp
  obtain ⟨a1, a2, a3, a4⟩ := request_state_auth env rbufp s
  have hc := carries_mac_iff env rbufp hwf hlen hmax
  refine ⟨process_control_request_state env h rbufp restrict_mask s hwf, p1, p2, p3,
    a1.trans hc, ?_, a4⟩
  rw [a2, a1]
  unfold authenticated_ok request_keyid
  constructor
  · rintro ⟨c, t, d⟩
    have hc2 := hc.mp c
    have e : request_maclen rbufp = rbufp.recv_length - request_properlen rbufp := by
      unfold request_maclen; omega
    rw [e] at d
    have e2 : rbufp.recv_length - (rbufp.recv_length - request_properlen rbufp)
        = request_properlen rbufp := by omega
    rw [e2] at d
    exact ⟨c, t, d⟩
  · rintro ⟨c, t, d⟩
    have hc2 := hc.mp c
    have e : request_maclen rbufp = rbufp.recv_length - request_properlen rbufp := by
      unfold request_maclen; omega
    have e2 : rbufp.recv_length - (rbufp.recv_length - request_properlen rbufp)
        = request_properlen rbufp := by omega
    refine ⟨c, t, ?_⟩
    rw [e, e2]
    exact d

theorem process_control_mac_detection_witness :
    (request_state std_env writeclock_auth_request init_state).res_authenticate = true
    ∧ request_properlen writeclock_auth_request = 16
    ∧ (request_state std_env writeclock_auth_request init_state).res_keyid = 1 :=
  ⟨(process_control_mac_detection std_env idle_handlers writeclock_auth_request 0 init_state
      (by decide) (by decide) (by decide)).2.2.2.2.1.mpr (by decide), by decide, by decide⟩

theorem request_bytes_nil (D : List Nat) (E p : Nat) (h : E ≤ p) : request_bytes D E p = [] := by
  unfold request_bytes
  have : E - p = 0 := by omega
  rw [this]; rfl

theorem request_bytes_cons (D : List Nat) (E p : Nat) (h : p < E) :
    request_bytes D E p = byteAt D p :: request_bytes D E (p + 1) := by
  unfold request_bytes
  have : E - p = (E - (p + 1)) + 1 := by omega
  rw [this]; rfl

theorem request_bytes_length (D : List Nat) (E p : Nat) :
    (request_bytes D E p).length = E - p := by
  unfold request_bytes
  simp

theorem request_bytes_drop (D : List Nat) (E : Nat) (k p : Nat) :
    (request_bytes D E p).drop k = request_bytes D E (p + k) := by
  induction k generalizing p with
  | zero => rfl
  | succ k ih =>
    by_cases h : p < E
    · rw [request_bytes_cons D E p h, List.drop_succ_cons, ih]
      congr 1; omega
    · rw [request_bytes_nil D E p (by omega), request_bytes_nil D E (p + (k + 1)) (by omega)]
      rfl

theorem skip_while_eq (pr : Nat → Bool) (D : List Nat) (E : Nat) (fuel p : Nat)
    (hf : E - p ≤ fuel) :
    skip_while pr D E fuel p = p + ((request_bytes D E p).takeWhile pr).length := by
  induction fuel generalizing p with
  | zero =>
    rw [request_bytes_nil D E p (by omega)]; rfl
  | succ fuel ih =>
    unfold skip_while
    by_cases h : p < E
    · rw [request_bytes_cons D E p h]
      by_cases hp : pr (byteAt D p) = true
      · rw [if_pos ⟨h, hp⟩, ih (p + 1) (by omega), List.takeWhile_cons_of_pos hp,
          List.length_cons]
        omega
      · rw [if_neg (fun hc => hp hc.2), List.takeWhile_cons_of_neg hp]
        rfl
    · rw [if_neg (fun hc => h hc.1), request_bytes_nil D E p (by omega)]
      rfl

theorem match_tag_eq (D text : List Nat) (E : Nat) (fuel p i : Nat)
    (hf : text.length - i < fuel) :
    match_tag D text E fuel p i
      = (p + tag_run (text.drop i) (request_bytes D E p),
         i + tag_run (text.drop i) (request_bytes D E p)) := by
  induction fuel generalizing p i with
  | zero => omega
  | succ fuel ih =>
    unfold match_tag
    by_cases hi : i < text.length
    · have hd : text.drop i = text.getD i 0 :: text.drop (i + 1) := by
        rw [List.getD_eq_getElem _ _ hi]
        exact List.drop_eq_getElem_cons hi
      by_cases hp : p < E
      · rw [request_bytes_cons D E p hp, hd]
        by_cases hc : text.getD i 0 ≠ 0 ∧ text.getD i 0 ≠ 61 ∧ byteAt D p = text.getD i 0
        · rw [if_pos ⟨hc.1, hc.2.1, hp, hc.2.2⟩, ih (p + 1) (i + 1) (by omega)]
          simp only [tag_run, hc, if_true, and_self, ne_eq, not_false_eq_true]
          congr 1 <;> omega
        · rw [if_neg (fun hx => hc ⟨hx.1, hx.2.1, hx.2.2.2⟩)]
          simp only [tag_run, hc, if_false]
          rfl
      · rw [if_neg (fun hx => hp hx.2.2.1), request_bytes_nil D E p (by omega), hd]
        rfl
    · have hd : text.drop i = [] := List.drop_eq_nil_of_le (by omega)
      have hg : text.getD i 0 = 0 := by
        rw [List.getD_eq_default _ _ (by omega)]
      rw [if_neg (fun hx => hx.1 hg), hd]
      rfl

theorem copy_value_eq (D : List Nat) (E : Nat) (fuel p : Nat) (acc : List Nat)
    (hf : E - p ≤ fuel) :
    copy_value D E fuel p acc
      = if (request_bytes D E p).takeWhile (fun c => c != 44) ≠ []
            ∧ 128 ≤ acc.length + ((request_bytes D E p).takeWhile (fun c => c != 44)).length
        then none
        else some (p + ((request_bytes D E p).takeWhile (fun c => c != 44)).length,
                   acc ++ (request_bytes D E p).takeWhile (fun c => c != 44)) := by
  induction fuel generalizing p acc with
  | zero =>
    rw [request_bytes_nil D E p (by omega)]
    simp [copy_value]
  | succ fuel ih =>
    unfold copy_value
    by_cases h : p < E
    · rw [request_bytes_cons D E p h]
      by_cases hp : byteAt D p ≠ 44
      · have hp2 : (byteAt D p != 44) = true := by simpa using hp
        rw [if_pos ⟨h, hp⟩, List.takeWhile_cons]
        simp only [hp2, if_true]
        by_cases hl : (acc ++ [byteAt D p]).length ≥ 128
        · rw [if_pos hl]
          rw [if_pos]
          refine ⟨by simp, ?_⟩
          simp only [List.length_append, List.length_cons, List.length_nil] at hl ⊢
          omega
        · rw [if_neg hl, ih (p + 1) _ (by omega)]
          simp only [List.length_append, List.length_cons, List.length_nil] at hl ⊢
          by_cases hn : (request_bytes D E (p + 1)).takeWhile (fun c => c != 44) = []
          · rw [hn]
            simp only [ne_eq, not_true_eq_false, false_and, if_false, List.length_nil,
              List.append_nil, reduceCtorEq, not_false_eq_true, true_and]
            rw [if_neg (by omega)]
          · by_cases hb : 128 ≤ acc.length + 1
                + ((request_bytes D E (p + 1)).takeWhile (fun c => c != 44)).length
            · rw [if_pos ⟨hn, hb⟩, if_pos ⟨by simp, by omega⟩]
            · rw [if_neg (fun hx => hb hx.2), if_neg (fun hx => hb (by omega))]
              simp only [List.append_assoc, List.singleton_append, Option.some.injEq,
                Prod.mk.injEq, and_true]
              omega
      · have hp2 : (byteAt D p != 44) = false := by simpa using hp
        rw [if_neg (fun hx => hp hx.2), List.takeWhile_cons]
        simp [hp2]
    · rw [if_neg (fun hx => h hx.1), request_bytes_nil D E p (by omega)]
      simp

theorem tag_run_name (t R : List Nat)
    (h : t.getD (tag_run t R) 0 = 0 ∨ t.getD (tag_run t R) 0 = 61) :
    t.takeWhile (fun c => c != 0 && c != 61) = R.take (tag_run t R) := by
  induction t generalizing R with
  | nil => simp [tag_run]
  | cons c t ih =>
    cases R with
    | nil =>
      simp only [tag_run, List.getD_cons_zero] at h
      rw [List.takeWhile_cons]
      rcases h with h | h <;> simp [h, tag_run]
    | cons r R =>
      by_cases hc : c ≠ 0 ∧ c ≠ 61 ∧ r = c
      · simp only [tag_run, hc, if_true, and_self, ne_eq, not_false_eq_true,
          List.getD_cons_succ] at h ⊢
        rw [List.takeWhile_cons, List.take_succ_cons, ← ih R h]
        simp [hc.1, hc.2.1, hc.2.2]
      · simp only [tag_run, hc, if_false, List.getD_cons_zero] at h ⊢
        rw [List.takeWhile_cons]
        rcases h with h | h <;> simp [h]

theorem tag_run_of_name (t X : List Nat) :
    tag_run t (t.takeWhile (fun c => c != 0 && c != 61) ++ X)
      = (t.takeWhile (fun c => c != 0 && c != 61)).length := by
  induction t with
  | nil => simp [tag_run]
  | cons c t ih =>
    rw [List.takeWhile_cons]
    by_cases hc : (c != 0 && c != 61) = true
    · simp only [hc, if_true, List.cons_append, tag_run, List.length_cons]
      have hc2 : c ≠ 0 ∧ c ≠ 61 := by simpa using hc
      simp only [hc2, ne_eq, not_false_eq_true, and_self, if_true, ih]
    · have hc2 : ¬ (c ≠ 0 ∧ c ≠ 61) := by simpa using hc
      have hc3 : (c != 0 && c != 61) = false := by simpa using hc
      simp only [hc3, Bool.false_eq_true, if_false, List.nil_append, List.length_nil]
      cases X with
      | nil => simp [tag_run]
      | cons r X =>
        simp only [tag_run]
        rw [if_neg (fun hx => hc2 ⟨hx.1, hx.2.1⟩)]

theorem name_stop (t : List Nat) :
    t.getD (t.takeWhile (fun c => c != 0 && c != 61)).length 0 = 0
      ∨ t.getD (t.takeWhile (fun c => c != 0 && c != 61)).length 0 = 61 := by
  induction t with
  | nil => simp
  | cons c t ih =>
    rw [List.takeWhile_cons]
    by_cases hc : (c != 0 && c != 61) = true
    · simp only [hc, if_true, List.length_cons, List.getD_cons_succ]
      exact ih
    · have hc2 : ¬ (c ≠ 0 ∧ c ≠ 61) := by simpa using hc
      have hc3 : (c != 0 && c != 61) = false := by simpa using hc
      simp only [hc3, Bool.false_eq_true, if_false, List.length_nil, List.getD_cons_zero]
      omega

theorem tag_run_le (t R : List Nat) : tag_run t R ≤ R.length := by
  induction t generalizing R with
  | nil => simp [tag_run]
  | cons c t ih =>
    cases R with
    | nil => simp [tag_run]
    | cons r R =>
      simp only [tag_run, List.length_cons]
      split_ifs
      · have := ih R; omega
      · omega

theorem takeWhile_append_stop (pr : Nat → Bool) (ws more : List Nat)
    (hws : ∀ c ∈ ws, pr c = true) (hm : ∀ c, more.head? = some c → pr c = false) :
    (ws ++ more).takeWhile pr = ws := by
  induction ws with
  | nil =>
    cases more with
    | nil => rfl
    | cons c more =>
      have := hm c rfl
      simp [List.takeWhile_cons, this]
  | cons w ws ih =>
    have h1 := hws w (List.mem_cons_self _ _)
    rw [List.cons_append, List.takeWhile_cons, if_pos h1,
      ih (fun c hc => hws c (List.mem_cons_of_mem _ hc))]

theorem entry_outcome_unfold (D : List Nat) (E p : Nat) (v : ctl_var) :
    entry_outcome D E p v =
      if v.flags.padding = false ∧ byteAt D p = (v.text.getD []).getD 0 0 then
        let k := tag_run (v.text.getD []) (request_bytes D E p)
        if (v.text.getD []).getD k 0 = 0 ∨ (v.text.getD []).getD k 0 = 61 then
          let cp := p + k + ((request_bytes D E (p + k)).takeWhile isspace).length
          if cp = E ∨ byteAt D cp = 44 then .bare (if cp < E then cp + 1 else cp)
          else if byteAt D cp = 61 then
            let cp1 := cp + 1 + ((request_bytes D E (cp + 1)).takeWhile isspace).length
            let val := (request_bytes D E cp1).takeWhile (fun c => c != 44)
            if 128 ≤ val.length then .too_long
            else .valued (if cp1 + val.length < E then cp1 + val.length + 1
                          else cp1 + val.length) val
          else .no_match
        else .no_match
      else .no_match := by
  unfold entry_outcome
  dsimp only
  rw [match_tag_eq D (v.text.getD []) E ((v.text.getD []).length + 1) p 0 (by omega)]
  dsimp only
  rw [List.drop_zero, Nat.zero_add]
  generalize tag_run (v.text.getD []) (request_bytes D E p) = k
  rw [skip_while_eq isspace D E (E - (p + k)) (p + k) (Nat.le_refl _)]
  generalize p + k + ((request_bytes D E (p + k)).takeWhile isspace).length = cp
  rw [skip_while_eq isspace D E (E - (cp + 1)) (cp + 1) (Nat.le_refl _)]
  generalize cp + 1 + ((request_bytes D E (cp + 1)).takeWhile isspace).length = cp1
  rw [copy_value_eq D E (E - cp1) cp1 [] (Nat.le_refl _)]
  simp only [List.length_nil, Nat.zero_add, List.nil_append]
  generalize (request_bytes D E cp1).takeWhile (fun c => c != 44) = val
  by_cases hv : 128 ≤ val.length
  · have hne : val ≠ [] := by
      intro h0; rw [h0] at hv; simp at hv
    simp only [hv, hne, ne_eq, not_false_eq_true, and_self, if_true]
  · simp only [hv, and_false, if_false]

theorem rb_cons_inv (D : List Nat) (E q c : Nat) (L : List Nat)
    (h : request_bytes D E q = c :: L) :
    q < E ∧ byteAt D q = c ∧ request_bytes D E (q + 1) = L := by
  by_cases hq : q < E
  · rw [request_bytes_cons D E q hq] at h
    injection h with h1 h2
    exact ⟨hq, h1, h2⟩
  · rw [request_bytes_nil D E q (by omega)] at h
    cases h

theorem rb_nil_inv (D : List Nat) (E q : Nat) (h : request_bytes D E q = []) : E ≤ q := by
  have := request_bytes_length D E q
  rw [h] at this
  simp only [List.length_nil] at this
  omega

theorem rb_append (D : List Nat) (E q : Nat) (A B : List Nat)
    (h : request_bytes D E q = A ++ B) : request_bytes D E (q + A.length) = B := by
  rw [← request_bytes_drop, h, List.drop_left']
  rfl

theorem takeWhile_append_drop (pr : Nat → Bool) (l : List Nat) :
    l.takeWhile pr ++ l.drop (l.takeWhile pr).length = l := by
  induction l with
  | nil => rfl
  | cons a l ih =>
    rw [List.takeWhile_cons]
    by_cases h : pr a = true
    · simp only [h, if_true, List.length_cons, List.drop_succ_cons, List.cons_append, ih]
    · have h2 : pr a = false := by simpa using h
      simp only [h2, Bool.false_eq_true, if_false, List.length_nil, List.drop_zero,
        List.nil_append]

theorem dropWhile_eq_drop (pr : Nat → Bool) (l : List Nat) :
    l.dropWhile pr = l.drop (l.takeWhile pr).length := by
  induction l with
  | nil => rfl
  | cons a l ih =>
    rw [List.takeWhile_cons, List.dropWhile_cons]
    by_cases h : pr a = true
    · simp only [h, if_true, List.length_cons, List.drop_succ_cons, ih]
    · have h2 : pr a = false := by simpa using h
      simp only [h2, Bool.false_eq_true, if_false, List.length_nil, List.drop_zero]

theorem name_head (t : List Nat) (hne : t.takeWhile (fun c => c != 0 && c != 61) ≠ []) :
    (t.takeWhile (fun c => c != 0 && c != 61)).head? = some (t.getD 0 0) := by
  cases t with
  | nil => simp at hne
  | cons c t =>
    rw [List.takeWhile_cons] at hne ⊢
    by_cases h : (c != 0 && c != 61) = true
    · simp [h]
    · have h2 : (c != 0 && c != 61) = false := by simpa using h
      simp [h2] at hne

/-- An entry that the loop body of `ctl_getitem` accepts is not a padding
entry, and the item at the cursor bears its name. -/
theorem entry_outcome_names (D : List Nat) (E p : Nat) (v : ctl_var)
    (h : entry_outcome D E p v ≠ .no_match) :
    v.flags.padding = false ∧ names v (request_bytes D E p) := by
  rw [entry_outcome_unfold] at h
  dsimp only at h
  by_cases h1 : v.flags.padding = false ∧ byteAt D p = (v.text.getD []).getD 0 0
  swap
  · rw [if_neg h1] at h; exact absurd rfl h
  rw [if_pos h1] at h
  by_cases h2 : (v.text.getD []).getD (tag_run (v.text.getD []) (request_bytes D E p)) 0 = 0
      ∨ (v.text.getD []).getD (tag_run (v.text.getD []) (request_bytes D E p)) 0 = 61
  swap
  · rw [if_neg h2] at h; exact absurd rfl h
  rw [if_pos h2] at h
  have hname := tag_run_name _ _ h2
  have hk := tag_run_le (v.text.getD []) (request_bytes D E p)
  rw [request_bytes_length] at hk
  revert h hname hk
  generalize tag_run (v.text.getD []) (request_bytes D E p) = k
  intro h hname hk
  have hkl : (List.take k (request_bytes D E p)).length = k := by
    rw [List.length_take, request_bytes_length]; omega
  unfold names ctl_var.name
  rw [hname, hkl, request_bytes_drop, dropWhile_eq_drop, request_bytes_drop]
  refine ⟨h1.1, rfl, ?_⟩
  revert h
  generalize p + k + ((request_bytes D E (p + k)).takeWhile isspace).length = cp
  intro h
  by_cases hcp : cp < E
  · rw [request_bytes_cons D E cp hcp]
    by_cases h3 : cp = E ∨ byteAt D cp = 44
    · rcases h3 with h3 | h3
      · omega
      · right; left; simp [h3]
    · rw [if_neg h3] at h
      by_cases h4 : byteAt D cp = 61
      · right; right; simp [h4]
      · rw [if_neg h4] at h; exact absurd rfl h
  · left
    exact request_bytes_nil D E cp (by omega)

theorem entry_outcome_bare (D : List Nat) (E p : Nat) (v : ctl_var) (ws more : List Nat)
    (hpad : v.flags.padding = false) (hne : v.name ≠ [])
    (hR : request_bytes D E p = v.name ++ ws ++ more)
    (hws : ∀ c ∈ ws, isspace c = true)
    (hmore : more = [] ∨ more.head? = some 44) :
    entry_outcome D E p v
      = .bare (p + v.name.length + ws.length + (if more = [] then 0 else 1)) := by
  rw [entry_outcome_unfold]
  dsimp only
  have hk : tag_run (v.text.getD []) (request_bytes D E p) = v.name.length := by
    rw [hR, List.append_assoc]; exact tag_run_of_name _ _
  have hfc : byteAt D p = (v.text.getD []).getD 0 0 := by
    have h1 := name_head (v.text.getD []) hne
    have h2 : (request_bytes D E p).head? = some ((v.text.getD []).getD 0 0) := by
      rw [hR, List.append_assoc, List.head?_append_of_ne_nil _ hne]; exact h1
    cases hrb : request_bytes D E p with
    | nil => rw [hrb] at h2; cases h2
    | cons c L =>
      rw [hrb] at h2
      obtain ⟨-, hb, -⟩ := rb_cons_inv D E p c L hrb
      rw [hb]
      simpa using h2
  have hst : (v.text.getD []).getD v.name.length 0 = 0
      ∨ (v.text.getD []).getD v.name.length 0 = 61 := name_stop _
  rw [if_pos ⟨hpad, hfc⟩, hk, if_pos hst]
  have hR1 : request_bytes D E (p + v.name.length) = ws ++ more :=
    rb_append D E p _ _ (by rw [hR, List.append_assoc])
  have hR2 : request_bytes D E (p + v.name.length + ws.length) = more :=
    rb_append D E _ _ _ hR1
  have hstop : ∀ c, more.head? = some c → isspace c = false := by
    intro c hc
    rcases hmore with h0 | h0
    · rw [h0] at hc; cases hc
    · rw [h0] at hc; injection hc with hc; rw [← hc]; decide
  rw [hR1, takeWhile_append_stop isspace ws more hws hstop]
  have hnl : 0 < v.name.length := List.length_pos.mpr hne
  revert hR2
  generalize hcpd : p + v.name.length + ws.length = cp
  intro hR2
  cases more with
  | nil =>
    have := rb_nil_inv D E cp hR2
    have hl := request_bytes_length D E p
    rw [hR] at hl
    simp only [List.length_append, List.length_nil] at hl
    have hcp : cp = E := by omega
    rw [if_pos (Or.inl hcp), if_neg (by omega)]
    simp
  | cons c more =>
    obtain ⟨hlt, hb, -⟩ := rb_cons_inv D E cp c more hR2
    have hc : c = 44 := by
      rcases hmore with h0 | h0
      · cases h0
      · simpa using h0
    rw [if_pos (Or.inr (by rw [hb, hc])), if_pos hlt]
    simp

theorem entry_outcome_valued (D : List Nat) (E p : Nat) (v : ctl_var)
    (ws ws2 val tl : List Nat)
    (hpad : v.flags.padding = false) (hne : v.name ≠ [])
    (hR : request_bytes D E p = v.name ++ ws ++ 61 :: (ws2 ++ val ++ tl))
    (hws : ∀ c ∈ ws, isspace c = true) (hws2 : ∀ c ∈ ws2, isspace c = true)
    (hval : ∀ c ∈ val, c ≠ 44) (hv0 : ∀ c, val.head? = some c → isspace c = false)
    (htl : tl = [] ∨ tl.head? = some 44) :
    entry_outcome D E p v
      = if 128 ≤ val.length then .too_long
        else .valued (p + v.name.length + ws.length + 1 + ws2.length + val.length
               + (if tl = [] then 0 else 1)) val := by
  rw [entry_outcome_unfold]
  dsimp only
  have hk : tag_run (v.text.getD []) (request_bytes D E p) = v.name.length := by
    rw [hR, List.append_assoc]; exact tag_run_of_name _ _
  have hfc : byteAt D p = (v.text.getD []).getD 0 0 := by
    have h1 := name_head (v.text.getD []) hne
    have h2 : (request_bytes D E p).head? = some ((v.text.getD []).getD 0 0) := by
      rw [hR, List.append_assoc, List.head?_append_of_ne_nil _ hne]; exact h1
    cases hrb : request_bytes D E p with
    | nil => rw [hrb] at h2; cases h2
    | cons c L =>
      rw [hrb] at h2
      obtain ⟨-, hb, -⟩ := rb_cons_inv D E p c L hrb
      rw [hb]
      simpa using h2
  have hst : (v.text.getD []).getD v.name.length 0 = 0
      ∨ (v.text.getD []).getD v.name.length 0 = 61 := name_stop _
  rw [if_pos ⟨hpad, hfc⟩, hk, if_pos hst]
  have hR1 : request_bytes D E (p + v.name.length) = ws ++ 61 :: (ws2 ++ val ++ tl) :=
    rb_append D E p _ _ (by rw [hR, List.append_assoc])
  have hR2 : request_bytes D E (p + v.name.length + ws.length) = 61 :: (ws2 ++ val ++ tl) :=
    rb_append D E _ _ _ hR1
  rw [hR1, takeWhile_append_stop isspace ws _ hws
    (by intro c hc; simp only [List.head?_cons, Option.some.injEq] at hc; rw [← hc]; decide)]
  revert hR2
  generalize p + v.name.length + ws.length = cp
  intro hR2
  obtain ⟨hlt, hb, hR3⟩ := rb_cons_inv D E cp 61 _ hR2
  rw [if_neg (by rw [hb]; omega), if_pos hb]
  rw [List.append_assoc] at hR3
  have hstop2 : ∀ c, (val ++ tl).head? = some c → isspace c = false := by
    intro c hc
    cases val with
    | nil =>
      rw [List.nil_append] at hc
      rcases htl with h0 | h0
      · rw [h0] at hc; cases hc
      · rw [h0] at hc; injection hc with hc; rw [← hc]; decide
    | cons a val => exact hv0 c (by simpa using hc)
  rw [hR3, takeWhile_append_stop isspace ws2 _ hws2 hstop2]
  have hR4 : request_bytes D E (cp + 1 + ws2.length) = val ++ tl := rb_append D E _ _ _ hR3
  have hR5 : request_bytes D E (cp + 1 + ws2.length + val.length) = tl :=
    rb_append D E _ _ _ hR4
  have hstop3 : ∀ c, tl.head? = some c → (fun c => c != 44) c = false := by
    intro c hc
    rcases htl with h0 | h0
    · rw [h0] at hc; cases hc
    · rw [h0] at hc; injection hc with hc; rw [← hc]; decide
  rw [hR4, takeWhile_append_stop (fun c => c != 44) val tl
    (by intro c hc; simpa using hval c hc) hstop3]
  by_cases hv : 128 ≤ val.length
  · rw [if_pos hv, if_pos hv]
  · rw [if_neg hv, if_neg hv]
    congr 1
    revert hR5
    generalize hcpe : cp + 1 + ws2.length + val.length = ce
    intro hR5
    cases tl with
    | nil =>
      have := rb_nil_inv D E ce hR5
      rw [if_neg (by omega)]
      simp
    | cons c tl =>
      obtain ⟨hlt2, -, -⟩ := rb_cons_inv D E ce c tl hR5
      rw [if_pos hlt2]
      simp

theorem ctl_getitem_scan_cons (env : Env) (v : ctl_var) (rest : List ctl_var) (s : CtlState) :
    ctl_getitem_scan env (v :: rest) s
      = if v.flags.eov then { v := some v, data := none, st := s }
        else match entry_outcome s.reqdata s.reqend s.reqpt v with
          | .no_match => ctl_getitem_scan env rest s
          | o => item_return env v s o := by
  rw [ctl_getitem_scan]
  unfold entry_outcome
  dsimp only
  by_cases hlog : env.nlog_sysevent = true
      ∧ (ctl_error env CERR_BADFMT s).quiet_until ≤ env.current_time
  · split_ifs <;> try rfl
    all_goals (cases copy_value s.reqdata s.reqend _ _ [] <;> simp [item_return, hlog])
  · split_ifs <;> try rfl
    all_goals (cases copy_value s.reqdata s.reqend _ _ [] <;> simp [item_return, hlog])

theorem scan_skip (env : Env) (pre : List ctl_var) (v : ctl_var) (post : List ctl_var)
    (s : CtlState)
    (hpre : ∀ u ∈ pre, u.flags.eov = false
      ∧ entry_outcome s.reqdata s.reqend s.reqpt u = .no_match)
    (hv : v.flags.eov = false)
    (hm : entry_outcome s.reqdata s.reqend s.reqpt v ≠ .no_match) :
    ctl_getitem_scan env (pre ++ v :: post) s
      = item_return env v s (entry_outcome s.reqdata s.reqend s.reqpt v) := by
  induction pre with
  | nil =>
    rw [List.nil_append, ctl_getitem_scan_cons, hv]
    rw [if_neg (by simp)]
    cases ho : entry_outcome s.reqdata s.reqend s.reqpt v with
    | no_match => exact absurd ho hm
    | bare cp => rfl
    | valued cp val => rfl
    | too_long => rfl
  | cons u pre ih =>
    obtain ⟨h1, h2⟩ := hpre u (List.mem_cons_self _ _)
    rw [List.cons_append, ctl_getitem_scan_cons, h1, h2]
    simp only [Bool.false_eq_true, if_false]
    exact ih (fun w hw => hpre w (List.mem_cons_of_mem _ hw))

theorem scan_no_match (env : Env) (l : List ctl_var) (s : CtlState)
    (hl : ∀ u ∈ l, u.flags.eov = false →
      entry_outcome s.reqdata s.reqend s.reqpt u = .no_match) :
    ∃ e, e.flags.eov = true
      ∧ ctl_getitem_scan env l s = { v := some e, data := none, st := s } := by
  induction l with
  | nil => exact ⟨eol, rfl, rfl⟩
  | cons u l ih =>
    rw [ctl_getitem_scan_cons]
    by_cases he : u.flags.eov = true
    · rw [if_pos he]; exact ⟨u, he, rfl⟩
    · have he2 : u.flags.eov = false := by simpa using he
      rw [if_neg he, hl u (List.mem_cons_self _ _) he2]
      exact ih (fun w hw => hl w (List.mem_cons_of_mem _ hw))

theorem scan_some (env : Env) (l : List ctl_var) (s : CtlState) (v : ctl_var)
    (h : (ctl_getitem_scan env l s).v = some v) :
    (v.flags.eov = true ∧ (ctl_getitem_scan env l s).st = s)
    ∨ (v ∈ l ∧ entry_outcome s.reqdata s.reqend s.reqpt v ≠ .no_match) := by
  induction l with
  | nil =>
    left
    rw [ctl_getitem_scan] at h ⊢
    simp only [Option.some.injEq] at h
    rw [← h]; exact ⟨rfl, rfl⟩
  | cons u l ih =>
    rw [ctl_getitem_scan_cons] at h ⊢
    by_cases he : u.flags.eov = true
    · rw [if_pos he] at h ⊢
      simp only [Option.some.injEq] at h
      left; rw [← h]; exact ⟨he, rfl⟩
    · rw [if_neg he] at h ⊢
      cases ho : entry_outcome s.reqdata s.reqend s.reqpt u with
      | no_match =>
        rw [ho] at h
        rcases ih h with h1 | h1
        · left; exact h1
        · right; exact ⟨List.mem_cons_of_mem _ h1.1, h1.2⟩
      | bare cp =>
        rw [ho] at h
        simp only [item_return, Option.some.injEq] at h
        right; rw [← h]; exact ⟨List.mem_cons_self _ _, by rw [ho]; simp⟩
      | valued cp val =>
        rw [ho] at h
        simp only [item_return, Option.some.injEq] at h
        right; rw [← h]; exact ⟨List.mem_cons_self _ _, by rw [ho]; simp⟩
      | too_long =>
        rw [ho] at h
        simp only [item_return] at h
        cases h

theorem ctl_getitem_eq (env : Env) (l : List ctl_var) (s : CtlState) :
    ctl_getitem env (some l) s
      = if item_start s ≥ s.reqend then
          { v := none, data := none, st := { s with reqpt := item_start s } }
        else ctl_getitem_scan env l { s with reqpt := item_start s } := by
  unfold ctl_getitem item_start
  rw [skip_while_eq _ _ _ _ _ (Nat.le_refl _)]

/-! ### The request parser: `ctl_getitem` -/

theorem ctl_error_keeps (env : Env) (e : Nat) (s : CtlState) :
    (ctl_error env e s).numctlbadpkts = s.numctlbadpkts
    ∧ (ctl_error env e s).ext_sys_var = s.ext_sys_var
    ∧ (ctl_error env e s).ctl_sys_num_events = s.ctl_sys_num_events
    ∧ (ctl_error env e s).reqdata = s.reqdata
    ∧ (ctl_error env e s).reqpt = s.reqpt
    ∧ (ctl_error env e s).reqend = s.reqend
    ∧ (ctl_error env e s).quiet_until = s.quiet_until
    ∧ (ctl_error env e s).res_opcode = s.res_opcode
    ∧ (ctl_error env e s).res_associd = s.res_associd
    ∧ (ctl_error env e s).res_authokay = s.res_authokay
    ∧ (ctl_error env e s).ctl_auth_keyid = s.ctl_auth_keyid
    ∧ (ctl_error env e s).rpkt.sequence = s.rpkt.sequence
    ∧ (ctl_error env e s).rpkt.data.length ≥ s.rpkt.data.length
    ∧ (ctl_error env e s).aborted = s.aborted := by
  unfold ctl_error
  by_cases ha : s.res_authenticate = true
  · simp [ha, sendpkt, authencrypt, memcpy_length_ge]
  · simp [ha, sendpkt]

theorem dropWhile_head_stop (pr : Nat → Bool) (l : List Nat) (c : Nat)
    (h : (l.dropWhile pr).head? = some c) : pr c = false := by
  induction l with
  | nil => cases h
  | cons a l ih =>
    rw [List.dropWhile_cons] at h
    by_cases ha : pr a = true
    · rw [if_pos ha] at h; exact ih h
    · rw [if_neg ha] at h
      simp only [List.head?_cons, Option.some.injEq] at h
      rw [← h]; simpa using ha

theorem not_names_no_match (D : List Nat) (E p : Nat) (u : ctl_var)
    (h : ¬ names u (request_bytes D E p)) : entry_outcome D E p u = .no_match := by
  by_contra hc
  exact h (entry_outcome_names D E p u hc).2

theorem ctl_getitem_found (env : Env) (pre post : List ctl_var) (v : ctl_var) (s : CtlState)
    (hpre : ∀ u ∈ pre, u.flags.eov = false
      ∧ ¬ names u (request_bytes s.reqdata s.reqend (item_start s)))
    (hv : v.flags.eov = false)
    (hm : entry_outcome s.reqdata s.reqend (item_start s) v ≠ .no_match)
    (hlt : item_start s < s.reqend) :
    ctl_getitem env (some (pre ++ v :: post)) s
      = item_return env v { s with reqpt := item_start s }
          (entry_outcome s.reqdata s.reqend (item_start s) v) := by
  rw [ctl_getitem_eq, if_neg (by omega)]
  exact scan_skip env pre v post { s with reqpt := item_start s }
    (fun u hu => ⟨(hpre u hu).1, not_names_no_match _ _ _ u (hpre u hu).2⟩) hv hm

theorem item_nonempty_lt (D : List Nat) (E p : Nat) (a b : List Nat) (ha : a ≠ [])
    (h : request_bytes D E p = a ++ b) : p < E := by
  have hl := request_bytes_length D E p
  rw [h, List.length_append] at hl
  have := List.length_pos.mpr ha
  omega

theorem trim_value_strip (val : List Nat) (h0 : ∀ c ∈ val, c ≠ 0) :
    trim_value val = strip_trailing val := by
  unfold trim_value strip_trailing
  rw [List.takeWhile_eq_self_iff]
  intro c hc
  rw [List.mem_reverse] at hc
  have := h0 c (List.mem_reverse.mp ((List.dropWhile_sublist _).subset hc))
  simpa using this

/-- Claim C14, counterexample. The value token of `leap=` followed by 128
bytes `x` is 128 bytes long, and `ctl_getitem` rejects it: it returns no item
and sends the BADFMT error response. -/
theorem getitem_rejects_128_bytes :
    request_bytes overlong_state.reqdata overlong_state.reqend 5 = List.replicate 128 120
    ∧ (ctl_getitem std_env (some sys_var) overlong_state).v = none
    ∧ (ctl_getitem std_env (some sys_var) overlong_state).st.sent.map (fun d => d.status)
        = [CERR_BADFMT * 256]
    ∧ (ctl_getitem std_env (some sys_var) overlong_state).st.numctlbadpkts
        = overlong_state.numctlbadpkts + 1 := by
  decide

/-- Claim C14, amended. For an item `name = value` whose name is that of the
first matching table entry `v`, where the value token `val` is the bytes
after the white space that follows `=`, up to the next comma or the end
(trailing white space included): `ctl_getitem` accepts the item when the
token is at most 127 bytes long, and sends nothing; it rejects the item when
the token is 128 bytes or longer: it returns no item, increments
`numctlbadpkts` by one and sends the BADFMT error response. -/
theorem ctl_getitem_value_limit (env : Env) (pre post : List ctl_var) (v : ctl_var)
    (s : CtlState) (ws ws2 val tl : List Nat)
    (hpre : ∀ u ∈ pre, u.flags.eov = false
      ∧ ¬ names u (request_bytes s.reqdata s.reqend (item_start s)))
    (hv : v.flags.eov = false ∧ v.flags.padding = false ∧ v.name ≠ [])
    (hR : request_bytes s.reqdata s.reqend (item_start s)
      = v.name ++ ws ++ 61 :: (ws2 ++ val ++ tl))
    (hws : ∀ c ∈ ws, isspace c = true) (hws2 : ∀ c ∈ ws2, isspace c = true)
    (hval : ∀ c ∈ val, c ≠ 44) (hv0 : ∀ c, val.head? = some c → isspace c = false)
    (htl : tl = [] ∨ tl.head? = some 44) :
    (val.length ≤ 127 →
      (ctl_getitem env (some (pre ++ v :: post)) s).v = some v
      ∧ (ctl_getitem env (some (pre ++ v :: post)) s).data = some (trim_value val)
      ∧ (ctl_getitem env (some (pre ++ v :: post)) s).st.sent = s.sent
      ∧ (ctl_getitem env (some (pre ++ v :: post)) s).st.numctlbadpkts = s.numctlbadpkts)
    ∧ (128 ≤ val.length →
      (ctl_getitem env (some (pre ++ v :: post)) s).v = none
      ∧ (ctl_getitem env (some (pre ++ v :: post)) s).data = none
      ∧ (ctl_getitem env (some (pre ++ v :: post)) s).st.numctlbadpkts = s.numctlbadpkts + 1
      ∧ ∃ d, (ctl_getitem env (some (pre ++ v :: post)) s).st.sent = s.sent ++ [d]
        ∧ d.r_m_e_op = CTL_RESPONSE ||| CTL_ERROR ||| (s.res_opcode &&& CTL_OP_MASK)
        ∧ d.status = CERR_BADFMT * 256
        ∧ d.count = 0) := by
  have ho := entry_outcome_valued s.reqdata s.reqend (item_start s) v ws ws2 val tl hv.2.1 hv.2.2
    hR hws hws2 hval hv0 htl
  have hlt : item_start s < s.reqend :=
    item_nonempty_lt _ _ _ _ _ hv.2.2 (by rw [hR, List.append_assoc])
  have hm : entry_outcome s.reqdata s.reqend (item_start s) v ≠ .no_match := by
    rw [ho]; split_ifs <;> simp
  have hf := ctl_getitem_found env pre post v s hpre hv.1 hm hlt
  rw [hf, ho]
  constructor
  · intro hle
    rw [if_neg (by omega)]
    exact ⟨rfl, rfl, rfl, rfl⟩
  · intro hge
    rw [if_pos hge]
    obtain ⟨d, hd, h1, h2, h3, -⟩ := ctl_error_sent env CERR_BADFMT { s with reqpt := item_start s }
    have hnb : (ctl_error env CERR_BADFMT { s with reqpt := item_start s }).numctlbadpkts
        = s.numctlbadpkts := (ctl_error_keeps env CERR_BADFMT _).1
    refine ⟨rfl, rfl, ?_, d, ?_, h1, by rw [h2]; decide, h3⟩
    · simp only [item_return]
      split_ifs <;> simp only [hnb]
    · simp only [item_return]
      split_ifs <;> simp only [hd]

theorem getitem_bare (env : Env) (pre post : List ctl_var) (v : ctl_var) (s : CtlState)
    (ws more : List Nat)
    (hpre : ∀ u ∈ pre, u.flags.eov = false
      ∧ ¬ names u (request_bytes s.reqdata s.reqend (item_start s)))
    (hv : v.flags.eov = false ∧ v.flags.padding = false ∧ v.name ≠ [])
    (hR : request_bytes s.reqdata s.reqend (item_start s) = v.name ++ ws ++ more)
    (hws : ∀ c ∈ ws, isspace c = true)
    (hmore : more = [] ∨ more.head? = some 44) :
    ctl_getitem env (some (pre ++ v :: post)) s
      = { v := some v, data := some [],
          st := { s with reqpt := item_start s + v.name.length + ws.length
                    + (if more = [] then 0 else 1) } } := by
  have ho := entry_outcome_bare s.reqdata s.reqend (item_start s) v ws more hv.2.1 hv.2.2
    hR hws hmore
  have hlt : item_start s < s.reqend :=
    item_nonempty_lt _ _ _ _ _ hv.2.2 (by rw [hR, List.append_assoc])
  rw [ctl_getitem_found env pre post v s hpre hv.1 (by rw [ho]; simp) hlt, ho]
  rfl

theorem getitem_valued (env : Env) (pre post : List ctl_var) (v : ctl_var) (s : CtlState)
    (ws ws2 val tl : List Nat)
    (hpre : ∀ u ∈ pre, u.flags.eov = false
      ∧ ¬ names u (request_bytes s.reqdata s.reqend (item_start s)))
    (hv : v.flags.eov = false ∧ v.flags.padding = false ∧ v.name ≠ [])
    (hR : request_bytes s.reqdata s.reqend (item_start s)
      = v.name ++ ws ++ 61 :: (ws2 ++ val ++ tl))
    (hws : ∀ c ∈ ws, isspace c = true) (hws2 : ∀ c ∈ ws2, isspace c = true)
    (hval : ∀ c ∈ val, c ≠ 44) (hv0 : ∀ c, val.head? = some c → isspace c = false)
    (htl : tl = [] ∨ tl.head? = some 44) (hlen : val.length < 128) :
    ctl_getitem env (some (pre ++ v :: post)) s
      = { v := some v, data := some (trim_value val),
          st := { s with reqpt := item_start s + v.name.length + ws.length + 1 + ws2.length
                    + val.length + (if tl = [] then 0 else 1) } } := by
  have ho := entry_outcome_valued s.reqdata s.reqend (item_start s) v ws ws2 val tl hv.2.1
    hv.2.2 hR hws hws2 hval hv0 htl
  rw [if_neg (by omega)] at ho
  have hlt : item_start s < s.reqend :=
    item_nonempty_lt _ _ _ _ _ hv.2.2 (by rw [hR, List.append_assoc])
  rw [ctl_getitem_found env pre post v s hpre hv.1 (by rw [ho]; simp) hlt, ho]
  rfl

theorem getitem_unmatched (env : Env) (l : List ctl_var) (s : CtlState)
    (hne : request_bytes s.reqdata s.reqend (item_start s) ≠ [])
    (hall : ∀ u ∈ l, ¬ names u (request_bytes s.reqdata s.reqend (item_start s))) :
    ∃ e, e.flags.eov = true
      ∧ ctl_getitem env (some l) s
        = { v := some e, data := none, st := { s with reqpt := item_start s } } := by
  have hlt : ¬ item_start s ≥ s.reqend := by
    intro hge
    exact hne (request_bytes_nil _ _ _ hge)
  rw [ctl_getitem_eq, if_neg hlt]
  exact scan_no_match env l { s with reqpt := item_start s }
    (fun u hu _ => not_names_no_match _ _ _ u (hall u hu))

theorem getitem_some (env : Env) (l : List ctl_var) (s : CtlState) (v : ctl_var)
    (hv : (ctl_getitem env (some l) s).v = some v) :
    (v.flags.eov = true
      ∧ (ctl_getitem env (some l) s).st = { s with reqpt := item_start s })
    ∨ (v ∈ l ∧ v.flags.padding = false
      ∧ names v (request_bytes s.reqdata s.reqend (item_start s))) := by
  rw [ctl_getitem_eq] at hv ⊢
  by_cases hge : item_start s ≥ s.reqend
  · rw [if_pos hge] at hv; cases hv
  · rw [if_neg hge] at hv ⊢
    rcases scan_some env l { s with reqpt := item_start s } v hv with h1 | h1
    · left; exact h1
    · right
      obtain ⟨hp, hn⟩ := entry_outcome_names s.reqdata s.reqend (item_start s) v h1.2
      exact ⟨h1.1, hp, hn⟩

theorem ctl_getitem_value_limit_witness :
    ((ctl_getitem std_env (some sys_var) overlong_state).v = none
      ∧ (ctl_getitem std_env (some sys_var) overlong_state).data = none
      ∧ (ctl_getitem std_env (some sys_var) overlong_state).st.numctlbadpkts
          = overlong_state.numctlbadpkts + 1
      ∧ ∃ d, (ctl_getitem std_env (some sys_var) overlong_state).st.sent
          = overlong_state.sent ++ [d]
        ∧ d.r_m_e_op = CTL_RESPONSE ||| CTL_ERROR ||| (overlong_state.res_opcode &&& CTL_OP_MASK)
        ∧ d.status = CERR_BADFMT * 256
        ∧ d.count = 0)
    ∧ (ctl_getitem std_env (some sys_var) longest_value_state).v = some leap_var :=
  ⟨(ctl_getitem_value_limit std_env (sys_var.take 1) (sys_var.drop 2) leap_var overlong_state
      [] [] (List.replicate 128 120) [] (by decide) (by decide) (by decide) (by decide)
      (by decide) (by decide) (by decide) (by decide)).2 (by decide),
   ((ctl_getitem_value_limit std_env (sys_var.take 1) (sys_var.drop 2) leap_var
      longest_value_state [] [] (List.replicate 127 120) [] (by decide) (by decide) (by decide)
      (by decide) (by decide) (by decide) (by decide) (by decide)).1 (by decide)).1⟩

/-- Claim C15. For an item whose name is that of the first matching table
entry `v`: if the name is followed, after optional white space, by the end
of the input or a comma, `ctl_getitem` returns `v` with the empty string as
value; if it is followed by `=`, the value is the bytes up to the next comma
or the end of the input with the leading and the trailing white space
removed (for a value token of less than 128 bytes without NUL). In both
cases the request cursor ends just past the item and its terminating comma,
if there is one. -/
theorem ctl_getitem_item (env : Env) (pre post : List ctl_var) (v : ctl_var) (s : CtlState)
    (hpre : ∀ u ∈ pre, u.flags.eov = false
      ∧ ¬ names u (request_bytes s.reqdata s.reqend (item_start s)))
    (hv : v.flags.eov = false ∧ v.flags.padding = false ∧ v.name ≠ []) :
    (∀ ws more : List Nat,
      request_bytes s.reqdata s.reqend (item_start s) = v.name ++ ws ++ more →
      (∀ c ∈ ws, isspace c = true) →
      (more = [] ∨ more.head? = some 44) →
      ctl_getitem env (some (pre ++ v :: post)) s
        = { v := some v, data := some [],
            st := { s with reqpt := item_start s + v.name.length + ws.length
                      + (if more = [] then 0 else 1) } })
    ∧ (∀ ws ws2 val tl : List Nat,
      request_bytes s.reqdata s.reqend (item_start s)
        = v.name ++ ws ++ 61 :: (ws2 ++ val ++ tl) →
      (∀ c ∈ ws, isspace c = true) → (∀ c ∈ ws2, isspace c = true) →
      (∀ c ∈ val, c ≠ 44 ∧ c ≠ 0) → (∀ c, val.head? = some c → isspace c = false) →
      (tl = [] ∨ tl.head? = some 44) →
      val.length < 128 →
      ctl_getitem env (some (pre ++ v :: post)) s
        = { v := some v, data := some (strip_trailing val),
            st := { s with reqpt := item_start s + v.name.length + ws.length + 1 + ws2.length
                      + val.length + (if tl = [] then 0 else 1) } }) := by
  constructor
  · intro ws more hR hws hmore
    exact getitem_bare env pre post v s ws more hpre hv hR hws hmore
  · intro ws ws2 val tl hR hws hws2 hval hv0 htl hlen
    rw [getitem_valued env pre post v s ws ws2 val tl hpre hv hR hws hws2
      (fun c hc => (hval c hc).1) hv0 htl hlen,
      trim_value_strip val (fun c hc => (hval c hc).2)]

theorem ctl_getitem_item_witness :
    ctl_getitem std_env (some sys_var) spaced_state
        = { v := some leap_var, data := some (str "1"),
            st := { spaced_state with reqpt := 12 } }
    ∧ ctl_getitem std_env (some sys_var) { spaced_state with reqpt := 12 }
        = { v := some (ctl_var.mk 8 RO (some (str "tc"))), data := some [],
            st := { spaced_state with reqpt := 14 } } :=
  ⟨(ctl_getitem_item std_env (sys_var.take 1) (sys_var.drop 2) leap_var spaced_state
      (by decide) (by decide)).2 [32] [32] [49, 32] (str ",tc") (by decide) (by decide)
      (by decide) (by decide) (by decide) (by decide) (by decide),
   (ctl_getitem_item std_env (sys_var.take 8) (sys_var.drop 9)
      (ctl_var.mk 8 RO (some (str "tc"))) { spaced_state with reqpt := 12 }
      (by decide) (by decide)).1 [] [] (by decide) (by decide) (by decide)⟩

/-- Claim C16. `ctl_getitem` first skips leading commas and white space:
the bytes between the cursor and the item start are commas and white space,
and the item does not begin with one. When nothing remains it returns NULL.
Otherwise a table entry `v` is returned only if it is not a PADDING entry and
the item bears the name of `v` byte for byte (the text of `v` up to `=` or
the end of the string); and when no entry's name is that of the item, the
return is an entry flagged `EOV`, with the request cursor at the start of the
unmatched item. -/
theorem ctl_getitem_matching (env : Env) (l : List ctl_var) (s : CtlState) :
    (∀ c ∈ (request_bytes s.reqdata s.reqend s.reqpt).take (item_start s - s.reqpt),
        c = 44 ∨ isspace c = true)
    ∧ (∀ c, (request_bytes s.reqdata s.reqend (item_start s)).head? = some c →
        c ≠ 44 ∧ isspace c = false)
    ∧ (request_bytes s.reqdata s.reqend (item_start s) = [] →
        ctl_getitem env (some l) s
          = { v := none, data := none, st := { s with reqpt := item_start s } })
    ∧ (∀ v, (ctl_getitem env (some l) s).v = some v →
        (v.flags.eov = true
          ∧ (ctl_getitem env (some l) s).st = { s with reqpt := item_start s })
        ∨ (v ∈ l ∧ v.flags.padding = false
          ∧ names v (request_bytes s.reqdata s.reqend (item_start s))))
    ∧ (request_bytes s.reqdata s.reqend (item_start s) ≠ [] →
        (∀ u ∈ l, ¬ names u (request_bytes s.reqdata s.reqend (item_start s))) →
        ∃ e, e.flags.eov = true
          ∧ ctl_getitem env (some l) s
            = { v := some e, data := none, st := { s with reqpt := item_start s } }) := by
  have hsplit := takeWhile_append_drop (fun c => c = 44 || isspace c)
    (request_bytes s.reqdata s.reqend s.reqpt)
  have hdrop := dropWhile_eq_drop (fun c => c = 44 || isspace c)
    (request_bytes s.reqdata s.reqend s.reqpt)
  rw [request_bytes_drop] at hsplit hdrop
  have his : item_start s = s.reqpt + ((request_bytes s.reqdata s.reqend s.reqpt).takeWhile
      (fun c => c = 44 || isspace c)).length := rfl
  refine ⟨?_, ?_, ?_, ?_, ?_⟩
  · intro c hc
    have e : item_start s - s.reqpt = ((request_bytes s.reqdata s.reqend s.reqpt).takeWhile
        (fun c => c = 44 || isspace c)).length := by omega
    rw [e] at hc
    have hc2 : c ∈ (request_bytes s.reqdata s.reqend s.reqpt).takeWhile
        (fun c => c = 44 || isspace c) := by
      have ht := congrArg (List.take ((request_bytes s.reqdata s.reqend s.reqpt).takeWhile
        (fun c => c = 44 || isspace c)).length) hsplit
      rw [List.take_left'] at ht
      · rw [ht]; exact hc
      · rfl
    simpa using List.mem_takeWhile_imp hc2
  · intro c hc
    rw [his, ← hdrop] at hc
    have := dropWhile_head_stop _ _ c hc
    simpa using this
  · intro hnil
    rw [ctl_getitem_eq, if_pos (rb_nil_inv _ _ _ hnil)]
  · intro v hv
    exact getitem_some env l s v hv
  · intro hne hall
    exact getitem_unmatched env l s hne hall

theorem ctl_getitem_matching_witness :
    ∃ e, e.flags.eov = true
      ∧ ctl_getitem std_env (some sys_var) foo_state
        = { v := some e, data := none, st := { foo_state with reqpt := item_start foo_state } } :=
  (ctl_getitem_matching std_env sys_var foo_state).2.2.2.2 (by decide) (by decide)

/-! ### READVAR: built-in names come first -/

theorem item_start_idem (s : CtlState) :
    item_start { s with reqpt := item_start s } = item_start s := by
  have hdrop := dropWhile_eq_drop (fun c => c = 44 || isspace c)
    (request_bytes s.reqdata s.reqend s.reqpt)
  rw [request_bytes_drop] at hdrop
  have his : item_start s = s.reqpt + ((request_bytes s.reqdata s.reqend s.reqpt).takeWhile
      (fun c => c = 44 || isspace c)).length := rfl
  rw [← his] at hdrop
  show item_start s + ((request_bytes s.reqdata s.reqend (item_start s)).takeWhile
      (fun c => c = 44 || isspace c)).length = item_start s
  have : (request_bytes s.reqdata s.reqend (item_start s)).takeWhile
      (fun c => c = 44 || isspace c) = [] := by
    rw [← hdrop]
    cases hdw : (request_bytes s.reqdata s.reqend s.reqpt).dropWhile
        (fun c => c = 44 || isspace c) with
    | nil => rfl
    | cons a L =>
      have := dropWhile_head_stop _ _ a (by rw [hdw]; rfl)
      rw [List.takeWhile_cons, this]
      simp
  rw [this]
  rfl

theorem sys_var_codes :
    ∀ u ∈ sys_var, u.flags.eov = false → u.flags.padding = false →
      1 ≤ u.code ∧ u.code ≤ CS_MAXCODE := by
  decide

theorem ctl_getitem_none_eq (env : Env) (s : CtlState) :
    ctl_getitem env none s
      = if item_start s ≥ s.reqend then
          { v := none, data := none, st := { s with reqpt := item_start s } }
        else { v := some eol, data := none, st := { s with reqpt := item_start s } } := by
  unfold ctl_getitem item_start
  rw [skip_while_eq _ _ _ _ _ (Nat.le_refl _)]

theorem ctl_getitem_at_start_none (env : Env) (s1 : CtlState)
    (h : item_start s1 = s1.reqpt) (hlt : s1.reqpt < s1.reqend) :
    ctl_getitem env none s1 = { v := some eol, data := none, st := s1 } := by
  rw [ctl_getitem_none_eq, h, if_neg (by omega)]

theorem ctl_getitem_at_start_unmatched (env : Env) (l : List ctl_var) (s1 : CtlState)
    (h : item_start s1 = s1.reqpt) (hlt : s1.reqpt < s1.reqend)
    (hall : ∀ u ∈ l, ¬ names u (request_bytes s1.reqdata s1.reqend s1.reqpt)) :
    ∃ e, e.flags.eov = true
      ∧ ctl_getitem env (some l) s1 = { v := some e, data := none, st := s1 } := by
  have hne : request_bytes s1.reqdata s1.reqend (item_start s1) ≠ [] := by
    rw [h, request_bytes_cons _ _ _ hlt]; simp
  obtain ⟨e, he, hg⟩ := getitem_unmatched env l s1 hne (by rw [h]; exact hall)
  rw [h] at hg
  exact ⟨e, he, hg⟩

theorem ctl_getitem_at_start_opt (env : Env) (tbl : Option (List ctl_var)) (s1 : CtlState)
    (h : item_start s1 = s1.reqpt) (hlt : s1.reqpt < s1.reqend)
    (hall : ∀ u ∈ tbl.getD [], ¬ names u (request_bytes s1.reqdata s1.reqend s1.reqpt)) :
    ∃ e, e.flags.eov = true
      ∧ ctl_getitem env tbl s1 = { v := some e, data := none, st := s1 } := by
  cases tbl with
  | none => exact ⟨eol, rfl, ctl_getitem_at_start_none env s1 h hlt⟩
  | some l => exact ctl_getitem_at_start_unmatched env l s1 h hlt hall

theorem entry_outcome_progress (D : List Nat) (E p : Nat) (v : ctl_var) (hp : p < E) :
    (∀ cp, entry_outcome D E p v = .bare cp → p < cp)
    ∧ (∀ cp val, entry_outcome D E p v = .valued cp val → p < cp) := by
  rw [entry_outcome_unfold]
  dsimp only
  generalize tag_run (v.text.getD []) (request_bytes D E p) = k
  generalize ((request_bytes D E (p + k)).takeWhile isspace).length = a
  generalize ((request_bytes D E (p + k + a + 1)).takeWhile isspace).length = b
  generalize (request_bytes D E (p + k + a + 1 + b)).takeWhile (fun c => c != 44) = vl
  constructor
  · intro cp h
    split_ifs at h <;> (cases h; omega)
  · intro cp val h
    split_ifs at h <;> (cases h; omega)

theorem item_return_state (env : Env) (v : ctl_var) (s : CtlState) (o : item_outcome) :
    (item_return env v s o).st.reqend = s.reqend
    ∧ (item_return env v s o).st.reqdata = s.reqdata
    ∧ (item_return env v s o).st.ext_sys_var = s.ext_sys_var
    ∧ (item_return env v s o).st.ctl_sys_num_events = s.ctl_sys_num_events
    ∧ (item_return env v s o).st.aborted = s.aborted := by
  obtain ⟨-, k2, k3, k4, -, k6, -, -, -, -, -, -, -, k14⟩ := ctl_error_keeps env CERR_BADFMT s
  cases o with
  | no_match => exact ⟨rfl, rfl, rfl, rfl, rfl⟩
  | bare cp => exact ⟨rfl, rfl, rfl, rfl, rfl⟩
  | valued cp val => exact ⟨rfl, rfl, rfl, rfl, rfl⟩
  | too_long =>
    simp only [item_return]
    split_ifs <;> exact ⟨k6, k4, k2, k3, k14⟩

theorem scan_state (env : Env) (l : List ctl_var) (s : CtlState) (hp : s.reqpt < s.reqend) :
    (ctl_getitem_scan env l s).st.reqend = s.reqend
    ∧ (ctl_getitem_scan env l s).st.reqdata = s.reqdata
    ∧ (ctl_getitem_scan env l s).st.ext_sys_var = s.ext_sys_var
    ∧ (ctl_getitem_scan env l s).st.ctl_sys_num_events = s.ctl_sys_num_events
    ∧ (ctl_getitem_scan env l s).st.aborted = s.aborted
    ∧ (∀ v, (ctl_getitem_scan env l s).v = some v →
        (v.flags.eov = true ∧ (ctl_getitem_scan env l s).st = s)
        ∨ (v.flags.eov = false ∧ s.reqpt < (ctl_getitem_scan env l s).st.reqpt)) := by
  induction l with
  | nil =>
    rw [ctl_getitem_scan]
    refine ⟨rfl, rfl, rfl, rfl, rfl, ?_⟩
    intro v hv
    simp only [Option.some.injEq] at hv
    left; rw [← hv]; exact ⟨rfl, rfl⟩
  | cons u l ih =>
    rw [ctl_getitem_scan_cons]
    by_cases he : u.flags.eov = true
    · rw [if_pos he]
      refine ⟨rfl, rfl, rfl, rfl, rfl, ?_⟩
      intro v hv
      simp only [Option.some.injEq] at hv
      left; rw [← hv]; exact ⟨he, rfl⟩
    · rw [if_neg he]
      have he2 : u.flags.eov = false := by simpa using he
      obtain ⟨p1, p2⟩ := entry_outcome_progress s.reqdata s.reqend s.reqpt u hp
      cases ho : entry_outcome s.reqdata s.reqend s.reqpt u with
      | no_match => exact ih
      | bare cp =>
        refine ⟨rfl, rfl, rfl, rfl, rfl, ?_⟩
        intro v hv
        simp only [item_return, Option.some.injEq] at hv
        right; rw [← hv]; exact ⟨he2, p1 cp ho⟩
      | valued cp val =>
        refine ⟨rfl, rfl, rfl, rfl, rfl, ?_⟩
        intro v hv
        simp only [item_return, Option.some.injEq] at hv
        right; rw [← hv]; exact ⟨he2, p2 cp val ho⟩
      | too_long =>
        obtain ⟨q1, q2, q3, q4, q5⟩ := item_return_state env u s .too_long
        refine ⟨q1, q2, q3, q4, q5, ?_⟩
        intro v hv
        simp only [item_return] at hv
        cases hv

theorem item_start_ge (s : CtlState) : s.reqpt ≤ item_start s := by
  unfold item_start; omega

theorem getitem_state (env : Env) (tbl : Option (List ctl_var)) (s : CtlState) :
    (ctl_getitem env tbl s).st.reqend = s.reqend
    ∧ (ctl_getitem env tbl s).st.reqdata = s.reqdata
    ∧ (ctl_getitem env tbl s).st.ext_sys_var = s.ext_sys_var
    ∧ (ctl_getitem env tbl s).st.ctl_sys_num_events = s.ctl_sys_num_events
    ∧ (ctl_getitem env tbl s).st.aborted = s.aborted
    ∧ (∀ v, (ctl_getitem env tbl s).v = some v →
        s.reqpt < s.reqend
        ∧ ((v.flags.eov = true
              ∧ (ctl_getitem env tbl s).st = { s with reqpt := item_start s })
          ∨ (v.flags.eov = false ∧ s.reqpt < (ctl_getitem env tbl s).st.reqpt))) := by
  have hge := item_start_ge s
  cases tbl with
  | none =>
    rw [ctl_getitem_none_eq]
    by_cases h : item_start s ≥ s.reqend
    · rw [if_pos h]
      refine ⟨rfl, rfl, rfl, rfl, rfl, ?_⟩
      intro v hv; cases hv
    · rw [if_neg h]
      refine ⟨rfl, rfl, rfl, rfl, rfl, ?_⟩
      intro v hv
      simp only [Option.some.injEq] at hv
      refine ⟨by omega, Or.inl ⟨by rw [← hv]; rfl, rfl⟩⟩
  | some l =>
    rw [ctl_getitem_eq]
    by_cases h : item_start s ≥ s.reqend
    · rw [if_pos h]
      refine ⟨rfl, rfl, rfl, rfl, rfl, ?_⟩
      intro v hv; cases hv
    · rw [if_neg h]
      obtain ⟨q1, q2, q3, q4, q5, q6⟩ := scan_state env l { s with reqpt := item_start s }
        (by show item_start s < s.reqend; omega)
      refine ⟨q1, q2, q3, q4, q5, ?_⟩
      intro v hv
      refine ⟨by omega, ?_⟩
      rcases q6 v hv with ⟨a, b⟩ | ⟨a, b⟩
      · left; exact ⟨a, b⟩
      · right
        refine ⟨a, ?_⟩
        have b2 : item_start s < (ctl_getitem_scan env l { s with reqpt := item_start s }).st.reqpt := b
        omega

theorem set_sys_var_frame (data : List Nat) (dflt : var_flags) (s : CtlState) :
    (set_sys_var data dflt s).reqend = s.reqend
    ∧ (set_sys_var data dflt s).reqpt = s.reqpt
    ∧ (set_sys_var data dflt s).reqdata = s.reqdata
    ∧ (set_sys_var data dflt s).sent = s.sent := by
  unfold set_sys_var
  cases set_var_walk data dflt (s.ext_sys_var.getD []) <;> exact ⟨rfl, rfl, rfl, rfl⟩

theorem write_body_progress (env : Env) (t t2 : CtlState)
    (h : write_variables_body env t = .continues t2) :
    t2.reqend = t.reqend ∧ t.reqpt < t2.reqpt ∧ t.reqpt < t.reqend := by
  unfold write_variables_body at h
  dsimp only at h
  have g1 := getitem_state env (some sys_var) t
  revert g1 h
  generalize ctl_getitem env (some sys_var) t = r
  intro h g1
  have g2 := getitem_state env r.st.ext_sys_var r.st
  revert g2 h
  generalize ctl_getitem env r.st.ext_sys_var r.st = r2
  intro h g2
  obtain ⟨a1, -, -, -, -, a6⟩ := g1
  obtain ⟨b1, -, -, -, -, b6⟩ := g2
  split at h
  · cases h
  · rename_i v hv
    obtain ⟨c1, c2⟩ := a6 v hv
    split_ifs at h with he
    split at h
    · cases h
    · rename_i v2 hv2
      obtain ⟨d1, d2⟩ := b6 v2 hv2
      split_ifs at h with he2 hw
      obtain ⟨f1, f2, -, -⟩ := set_sys_var_frame
        ((v2.text.getD []).takeWhile (fun c => c != 0 && c != 61) ++ [61] ++ r2.data.getD [])
        v2.flags r2.st
      injection h with h
      rw [← h, f1, f2]
      have hge : t.reqpt ≤ r.st.reqpt := by
        rcases c2 with ⟨-, x⟩ | ⟨-, x⟩
        · rw [x]; exact item_start_ge t
        · omega
      rcases d2 with ⟨x, -⟩ | ⟨-, x⟩
      · exact absurd x he2
      · exact ⟨by rw [b1, a1], by omega, c1⟩

theorem write_items_fuel (env : Env) (f1 f2 : Nat) (t : CtlState)
    (h1 : t.reqend - t.reqpt < f1) (h2 : t.reqend - t.reqpt < f2) :
    write_variables_items env f1 t = write_variables_items env f2 t := by
  induction f1 generalizing f2 t with
  | zero => omega
  | succ n ih =>
    cases f2 with
    | zero => omega
    | succ m =>
      rw [write_variables_items, write_variables_items]
      cases hb : write_variables_body env t with
      | returned u => rfl
      | finished u => rfl
      | continues u =>
        obtain ⟨p1, p2, p3⟩ := write_body_progress env t u hb
        exact ih m u (by omega) (by omega)

theorem write_body_unknown (env : Env) (t : CtlState)
    (hne : request_bytes t.reqdata t.reqend (item_start t) ≠ [])
    (hsys : ∀ u ∈ sys_var, ¬ names u (request_bytes t.reqdata t.reqend (item_start t)))
    (hext : ∀ u ∈ t.ext_sys_var.getD [],
      ¬ names u (request_bytes t.reqdata t.reqend (item_start t))) :
    write_variables_body env t
      = .returned (ctl_error env CERR_UNKNOWNVAR { t with reqpt := item_start t }) := by
  obtain ⟨e, he, hg⟩ := getitem_unmatched env sys_var t hne hsys
  have hidem := item_start_idem t
  have hlt : item_start t < t.reqend := by
    by_contra hge
    exact hne (request_bytes_nil _ _ _ (by omega))
  obtain ⟨e2, he2, hg2⟩ := ctl_getitem_at_start_opt env t.ext_sys_var
    { t with reqpt := item_start t } hidem hlt hext
  unfold write_variables_body
  rw [hg]
  dsimp only
  rw [if_pos he, hg2]
  dsimp only
  rw [if_pos he2]

theorem write_body_builtin (env : Env) (t : CtlState) (v : ctl_var)
    (hv : (ctl_getitem env (some sys_var) t).v = some v) (he : v.flags.eov = false) :
    write_variables_body env t
      = if v.flags.can_write = false then
          .returned (ctl_error env CERR_PERMISSION (ctl_getitem env (some sys_var) t).st)
        else if (ctl_getitem env (some sys_var) t).data.getD [] = []
            ∨ (strtol env.strtol_einval
                ((ctl_getitem env (some sys_var) t).data.getD [])).2 = true then
          .returned (ctl_error env CERR_BADFMT (ctl_getitem env (some sys_var) t).st)
        else if outside_leap_bits env (strtol env.strtol_einval
            ((ctl_getitem env (some sys_var) t).data.getD [])).1 = true then
          .returned (ctl_error env CERR_BADVALUE (ctl_getitem env (some sys_var) t).st)
        else .returned (ctl_error env CERR_UNSPEC (ctl_getitem env (some sys_var) t).st) := by
  unfold write_variables_body
  revert hv
  generalize ctl_getitem env (some sys_var) t = r
  intro hv
  dsimp only
  rw [hv]
  dsimp only
  rw [if_neg (by rw [he]; simp)]

theorem write_body_ext (env : Env) (t : CtlState) (v2 : ctl_var)
    (hne : request_bytes t.reqdata t.reqend (item_start t) ≠ [])
    (hsys : ∀ u ∈ sys_var, ¬ names u (request_bytes t.reqdata t.reqend (item_start t)))
    (hv : (ctl_getitem env t.ext_sys_var { t with reqpt := item_start t }).v = some v2)
    (he : v2.flags.eov = false) :
    write_variables_body env t
      = if v2.flags.can_write = false then
          .returned (ctl_error env CERR_PERMISSION
            (ctl_getitem env t.ext_sys_var { t with reqpt := item_start t }).st)
        else
          .continues (set_sys_var
            (v2.name ++ [61]
              ++ (ctl_getitem env t.ext_sys_var { t with reqpt := item_start t }).data.getD [])
            v2.flags (ctl_getitem env t.ext_sys_var { t with reqpt := item_start t }).st) := by
  obtain ⟨e, hee, hg⟩ := getitem_unmatched env sys_var t hne hsys
  unfold write_variables_body
  rw [hg]
  dsimp only
  rw [if_pos hee]
  revert hv
  generalize ctl_getitem env t.ext_sys_var { t with reqpt := item_start t } = r2
  intro hv
  rw [hv]
  dsimp only
  rw [if_neg (by rw [he]; simp)]
  rfl

theorem write_items_returned (env : Env) (fuel : Nat) (t u : CtlState)
    (hf : t.reqend - t.reqpt < fuel) (hb : write_variables_body env t = .returned u) :
    write_variables_items env fuel t = (true, u) := by
  cases fuel with
  | zero => omega
  | succ n => rw [write_variables_items, hb]

theorem write_items_continues (env : Env) (fuel : Nat) (t u : CtlState)
    (hf : t.reqend - t.reqpt < fuel) (hb : write_variables_body env t = .continues u) :
    write_variables_items env fuel t = write_variables_items env fuel u
    ∧ u.reqend - u.reqpt < fuel := by
  obtain ⟨p1, p2, p3⟩ := write_body_progress env t u hb
  cases fuel with
  | zero => omega
  | succ n =>
    rw [write_variables_items, hb]
    exact ⟨write_items_fuel env n (n + 1) u (by omega) (by omega), by omega⟩

/-- Claim C18. For a WRITEVAR that reached its handler: a nonzero association
id yields PERMISSION. Otherwise the handler runs the item loop and returns
what the loop returns. At every item (a loop state `t`, with the fuel that
the handler provides): an item whose name is in neither `sys_var` nor
`ext_sys_var` ends the request with UNKNOWNVAR; an item whose descriptor
(built-in or extension) lacks `CAN_WRITE` ends it with PERMISSION; a writable
built-in whose value `strtol` converts to a number with a bit outside
`LEAP_NOTINSYNC` ends it with BADVALUE; and a writable extension item is
stored and the loop goes on with the next item, so that items are taken in
request order and the first offending one ends the request. -/
theorem write_variables_errors (env : Env) (rbufp : recvbuf) (restrict_mask : Int)
    (s : CtlState) :
    (s.res_associd ≠ 0 →
      write_variables env rbufp restrict_mask s = ctl_error env CERR_PERMISSION s)
    ∧ (s.res_associd = 0 → ∀ u,
        write_variables_items env (s.reqend + 1)
          { s with rpkt := { s.rpkt with
              status := env.ctlsysstatus s.ctl_sys_num_events % 65536 } } = (true, u) →
        write_variables env rbufp restrict_mask s = u)
    ∧ (∀ (fuel : Nat) (t : CtlState), t.reqend - t.reqpt < fuel →
        (request_bytes t.reqdata t.reqend (item_start t) ≠ [] →
          (∀ u ∈ sys_var, ¬ names u (request_bytes t.reqdata t.reqend (item_start t))) →
          (∀ u ∈ t.ext_sys_var.getD [],
            ¬ names u (request_bytes t.reqdata t.reqend (item_start t))) →
          write_variables_items env fuel t
            = (true, ctl_error env CERR_UNKNOWNVAR { t with reqpt := item_start t }))
        ∧ (∀ v, (ctl_getitem env (some sys_var) t).v = some v → v.flags.eov = false →
          v.flags.can_write = false →
          write_variables_items env fuel t
            = (true, ctl_error env CERR_PERMISSION (ctl_getitem env (some sys_var) t).st))
        ∧ (request_bytes t.reqdata t.reqend (item_start t) ≠ [] →
          (∀ u ∈ sys_var, ¬ names u (request_bytes t.reqdata t.reqend (item_start t))) →
          ∀ v, (ctl_getitem env t.ext_sys_var { t with reqpt := item_start t }).v = some v →
          v.flags.eov = false → v.flags.can_write = false →
          write_variables_items env fuel t
            = (true, ctl_error env CERR_PERMISSION
                (ctl_getitem env t.ext_sys_var { t with reqpt := item_start t }).st))
        ∧ (∀ v, (ctl_getitem env (some sys_var) t).v = some v → v.flags.eov = false →
          v.flags.can_write = true →
          (ctl_getitem env (some sys_var) t).data.getD [] ≠ [] →
          (strtol env.strtol_einval ((ctl_getitem env (some sys_var) t).data.getD [])).2
            = false →
          outside_leap_bits env
            (strtol env.strtol_einval ((ctl_getitem env (some sys_var) t).data.getD [])).1
            = true →
          write_variables_items env fuel t
            = (true, ctl_error env CERR_BADVALUE (ctl_getitem env (some sys_var) t).st))
        ∧ (request_bytes t.reqdata t.reqend (item_start t) ≠ [] →
          (∀ u ∈ sys_var, ¬ names u (request_bytes t.reqdata t.reqend (item_start t))) →
          ∀ v, (ctl_getitem env t.ext_sys_var { t with reqpt := item_start t }).v = some v →
          v.flags.eov = false → v.flags.can_write = true →
          write_variables_items env fuel t
            = write_variables_items env fuel
                (set_sys_var
                  (v.name ++ [61] ++ (ctl_getitem env t.ext_sys_var
                    { t with reqpt := item_start t }).data.getD [])
                  v.flags
                  (ctl_getitem env t.ext_sys_var { t with reqpt := item_start t }).st)
          ∧ (set_sys_var
                  (v.name ++ [61] ++ (ctl_getitem env t.ext_sys_var
                    { t with reqpt := item_start t }).data.getD [])
                  v.flags
                  (ctl_getitem env t.ext_sys_var { t with reqpt := item_start t }).st).reqend
              - (set_sys_var
                  (v.name ++ [61] ++ (ctl_getitem env t.ext_sys_var
                    { t with reqpt := item_start t }).data.getD [])
                  v.flags
                  (ctl_getitem env t.ext_sys_var { t with reqpt := item_start t }).st).reqpt
              < fuel)) := by
  refine ⟨?_, ?_, ?_⟩
  · intro h
    unfold write_variables
    rw [if_pos h]
  · intro h u hu
    unfold write_variables
    rw [if_neg (by simp [h])]
    dsimp only
    rw [hu]
    rfl
  · intro fuel t hf
    refine ⟨?_, ?_, ?_, ?_, ?_⟩
    · intro hne hsys hext
      exact write_items_returned env fuel t _ hf (write_body_unknown env t hne hsys hext)
    · intro v hv he hw
      apply write_items_returned env fuel t _ hf
      rw [write_body_builtin env t v hv he, if_pos hw]
    · intro hne hsys v hv he hw
      apply write_items_returned env fuel t _ hf
      rw [write_body_ext env t v hne hsys hv he, if_pos hw]
    · intro v hv he hw hval herr hout
      apply write_items_returned env fuel t _ hf
      rw [write_body_builtin env t v hv he, if_neg (by rw [hw]; simp),
        if_neg (by rw [herr]; simp [hval]), if_pos hout]
    · intro hne hsys v hv he hw
      apply write_items_continues env fuel t _ hf
      rw [write_body_ext env t v hne hsys hv he, if_neg (by rw [hw]; simp)]

theorem write_variables_errors_witness :
    (write_variables_items std_env 13 mixed_write_state
        = write_variables_items std_env 13
            (set_sys_var (str "foo=5") RW { mixed_write_state with reqpt := 6 })
      ∧ write_variables_items std_env 13
            (set_sys_var (str "foo=5") RW { mixed_write_state with reqpt := 6 })
        = (true, ctl_error std_env CERR_BADVALUE
            (set_sys_var (str "foo=5") RW { mixed_write_state with reqpt := 12 })))
    ∧ (process_control std_env write_handlers (auth_writevar (str "foo=5,leap=4")) 0
          auth_state).sent.map (fun d => d.status) = [CERR_BADVALUE * 256] :=
  ⟨⟨(((write_variables_errors std_env (auth_writevar (str "foo=5,leap=4")) 0
        mixed_write_state).2.2 13 mixed_write_state (by decide)).2.2.2.2 (by decide)
        (by decide) (ctl_var.mk 0 RW (some (str "foo=1"))) (by decide) (by decide)
        (by decide)).1,
    ((write_variables_errors std_env (auth_writevar (str "foo=5,leap=4")) 0
        mixed_write_state).2.2 13
        (set_sys_var (str "foo=5") RW { mixed_write_state with reqpt := 6 })
        (by decide)).2.2.2.1 leap_var (by decide) (by decide) (by decide) (by decide)
        (by decide) (by decide)⟩,
   by decide⟩

/-- Claim C19. An authenticated WRITEVAR of the writable built-in `leap`
with the value `1abc`, which is not a decimal integer, is not answered with
BADFMT: `strtol` converts the leading `1` and leaves `errno` alone, so the
request passes the format check and ends in `ctl_error(CERR_UNSPEC)`. The
same happens for `abc` when the C library does not set `errno` for a string
without digits. A missing value (`leap=` or `leap`) does get BADFMT. -/
theorem writevar_nondecimal_not_badfmt :
    well_framed std_env (auth_writevar (str "leap=1abc"))
    ∧ authenticated_ok std_env (auth_writevar (str "leap=1abc"))
    ∧ strtol std_env.strtol_einval (str "1abc") = (1, false)
    ∧ (process_control std_env write_handlers (auth_writevar (str "leap=1abc")) 0
        auth_state).sent.map (fun d => (d.r_m_e_op, d.status))
        = [(CTL_RESPONSE ||| CTL_ERROR ||| 3, CERR_UNSPEC * 256)]
    ∧ (process_control std_env write_handlers (auth_writevar (str "leap=abc")) 0
        auth_state).sent.map (fun d => (d.r_m_e_op, d.status))
        = [(CTL_RESPONSE ||| CTL_ERROR ||| 3, CERR_UNSPEC * 256)]
    ∧ (process_control std_env write_handlers (auth_writevar (str "leap=")) 0
        auth_state).sent.map (fun d => (d.r_m_e_op, d.status))
        = [(CTL_RESPONSE ||| CTL_ERROR ||| 3, CERR_BADFMT * 256)]
    ∧ (process_control std_env write_handlers (auth_writevar (str "leap")) 0
        auth_state).sent.map (fun d => (d.r_m_e_op, d.status))
        = [(CTL_RESPONSE ||| CTL_ERROR ||| 3, CERR_BADFMT * 256)] := by
  decide

theorem write_variables_first (env : Env) (rbufp : recvbuf) (restrict_mask : Int)
    (s u : CtlState) (hassoc : s.res_associd = 0)
    (hb : write_variables_body env
      { s with rpkt := { s.rpkt with
          status := env.ctlsysstatus s.ctl_sys_num_events % 65536 } } = .returned u) :
    write_variables env rbufp restrict_mask s = u := by
  have hi := write_items_returned env (s.reqend + 1) _ u
    (by show s.reqend - s.reqpt < s.reqend + 1; omega) hb
  unfold write_variables
  rw [if_neg (by simp [hassoc])]
  dsimp only
  rw [hi]
  rfl

theorem write_builtin_valid (env : Env) (s : CtlState)
    (pre post : List ctl_var) (v : ctl_var) (ws ws2 val tl : List Nat)
    (hsv : sys_var = pre ++ v :: post)
    (hpre : ∀ u ∈ pre, u.flags.eov = false
      ∧ ¬ names u (request_bytes s.reqdata s.reqend (item_start s)))
    (hv : v.flags.eov = false ∧ v.flags.padding = false ∧ v.name ≠ [])
    (hR : request_bytes s.reqdata s.reqend (item_start s)
      = v.name ++ ws ++ 61 :: (ws2 ++ val ++ tl))
    (hws : ∀ c ∈ ws, isspace c = true) (hws2 : ∀ c ∈ ws2, isspace c = true)
    (hval : ∀ c ∈ val, c ≠ 44) (hv0 : ∀ c, val.head? = some c → isspace c = false)
    (htl : tl = [] ∨ tl.head? = some 44) (hlen : val.length < 128)
    (hw : v.flags.can_write = true) (hne : trim_value val ≠ [])
    (herr : (strtol env.strtol_einval (trim_value val)).2 = false)
    (hin : outside_leap_bits env (strtol env.strtol_einval (trim_value val)).1 = false) :
    write_variables_body env s
      = .returned (ctl_error env CERR_UNSPEC
          { s with reqpt := item_start s + v.name.length + ws.length + 1 + ws2.length
              + val.length + (if tl = [] then 0 else 1) }) := by
  have hg := getitem_valued env pre post v s ws ws2 val tl hpre hv hR hws hws2 hval hv0 htl hlen
  rw [← hsv] at hg
  rw [write_body_builtin env s v (by rw [hg]) hv.1, hg]
  dsimp only [Option.getD]
  rw [if_neg (by rw [hw]; simp), if_neg (by rw [herr]; simp [hne]),
    if_neg (by rw [hin]; simp)]

/-! ### WRITEVAR of a built-in: a later READVAR answers the same -/

theorem same_store_write (a b : CtlState) (src : List Nat) (k : Nat) (hk : k = src.length)
    (h : same_store a b) :
    same_store
      (set_datapt { a with
          rpkt := { a.rpkt with data := memcpy a.rpkt.data a.datapt src },
          datalinelen := a.datalinelen + k } (a.datapt + k))
      (set_datapt { b with
          rpkt := { b.rpkt with data := memcpy b.rpkt.data b.datapt src },
          datalinelen := b.datalinelen + k } (b.datapt + k)) := by
  subst hk
  have e1 := take_memcpy_end a.rpkt.data a.datapt src h.room_left
  have e2 := take_memcpy_end b.rpkt.data b.datapt src h.room_right
  have l1 := memcpy_length_end a.rpkt.data a.datapt src h.room_left
  have l2 := memcpy_length_end b.rpkt.data b.datapt src h.room_right
  obtain ⟨h1, h2, h3, h4, h5, h6, h7, h8, h9, h10, h11, h12, h13, h14, h15, h16, h17, h18,
    h19, h20, h21, h22, h23, h24⟩ := h
  constructor <;> simp only [set_datapt] <;> first | assumption | omega | rw [e1, e2, h22]

theorem same_store_put_byte (a b : CtlState) (c : Nat) (h : same_store a b) :
    same_store (put_byte a c) (put_byte b c) := by
  have e1 := take_memcpy_end a.rpkt.data a.datapt [c] h.room_left
  have e2 := take_memcpy_end b.rpkt.data b.datapt [c] h.room_right
  have l1 := memcpy_length_end a.rpkt.data a.datapt [c] h.room_left
  have l2 := memcpy_length_end b.rpkt.data b.datapt [c] h.room_right
  obtain ⟨h1, h2, h3, h4, h5, h6, h7, h8, h9, h10, h11, h12, h13, h14, h15, h16, h17, h18,
    h19, h20, h21, h22, h23, h24⟩ := h
  simp only [List.length_singleton] at e1 e2 l1 l2
  constructor <;> simp only [put_byte, set_datapt] <;>
    first | assumption | omega | rw [e1, e2, h22]

theorem take_memcpy_congr (X Y : List Nat) (n p : Nat) (src : List Nat)
    (h : X.take n = Y.take n) (hx : n ≤ X.length) (hy : n ≤ Y.length) :
    (memcpy X p src).take n = (memcpy Y p src).take n := by
  by_cases hp : n ≤ p
  · rw [take_memcpy_before X p n src hp hx, take_memcpy_before Y p n src hp hy, h]
  · have key : ∀ Z : List Nat, n ≤ Z.length →
        (memcpy Z p src).take n
          = (Z.take n).take p ++ (src ++ (Z.take n).drop (p + src.length)).take (n - p) := by
      intro Z hz
      unfold memcpy
      rw [List.append_assoc, List.take_append_eq_append_take, List.length_take,
        Nat.min_eq_left (by omega), List.take_take, Nat.min_eq_right (by omega),
        List.take_take, Nat.min_eq_left (by omega)]
      congr 1
      rw [List.take_append_eq_append_take, List.take_append_eq_append_take]
      congr 1
      rw [List.drop_take, List.take_take]
      congr 1
      omega
    rw [key X hx, key Y hy, h]

theorem same_new_append (A B : List Datagram) (a b a2 b2 : CtlState) (da db : Datagram)
    (hn : same_new A B a b) (ha : a2.sent = a.sent ++ [da]) (hb : b2.sent = b.sent ++ [db])
    (hv : da.view = db.view) : same_new A B a2 b2 := by
  obtain ⟨X, Y, hx, hy, hxy⟩ := hn
  refine ⟨X ++ [da], Y ++ [db], ?_, ?_, ?_⟩
  · rw [ha, hx, List.append_assoc]
  · rw [hb, hy, List.append_assoc]
  · rw [List.map_append, List.map_append, hxy]
    simp only [List.map_cons, List.map_nil, hv]

theorem same_new_of_sent (A B : List Datagram) (a b a2 b2 : CtlState)
    (hn : same_new A B a b) (ha : a2.sent = a.sent) (hb : b2.sent = b.sent) :
    same_new A B a2 b2 := by
  obtain ⟨X, Y, hx, hy, hxy⟩ := hn
  exact ⟨X, Y, by rw [ha, hx], by rw [hb, hy], hxy⟩

theorem ctl_error_view (env : Env) (e : Nat) (a b : CtlState) (h : same_store a b) :
    ∃ da db, (ctl_error env e a).sent = a.sent ++ [da]
      ∧ (ctl_error env e b).sent = b.sent ++ [db] ∧ da.view = db.view := by
  obtain ⟨da, hda, a1, a2, a3, a4, a5, a6, a7, -⟩ := ctl_error_sent env e a
  obtain ⟨db, hdb, b1, b2, b3, b4, b5, b6, b7, -⟩ := ctl_error_sent env e b
  refine ⟨da, db, hda, hdb, ?_⟩
  simp only [Datagram.view, Datagram.header_bytes, Datagram.data_area, a1, a2, a3, a4, a5, a6,
    a7, b1, b2, b3, b4, b5, b6, b7, h.li_vn_mode, h.sequence, h.associd, h.offset, h.res_opcode,
    List.take_zero]

theorem agree_ctl_error (env : Env) (e : Nat) (A B : List Datagram) (a b : CtlState)
    (h : same_store a b) (hn : same_new A B a b) :
    same_store (ctl_error env e a) (ctl_error env e b)
    ∧ same_new A B (ctl_error env e a) (ctl_error env e b) := by
  obtain ⟨da, db, hda, hdb, hv⟩ := ctl_error_view env e a b h
  refine ⟨?_, same_new_append A B a b _ _ da db hn hda hdb hv⟩
  obtain ⟨h1, h2, h3, h4, h5, h6, h7, h8, h9, h10, h11, h12, h13, h14, h15, h16, h17, h18,
    h19, h20, h21, h22, h23, h24⟩ := h
  by_cases hau : b.res_authenticate = true
  · have hau2 : a.res_authenticate = true := by rw [h13]; exact hau
    have hp := take_memcpy_congr a.rpkt.data b.rpkt.data a.datapt (CTL_HEADER_LEN - CTL_HEADER_LEN + 4)
      (env.compute_mac b.res_keyid
        (header_bytes { b.rpkt with
            r_m_e_op := CTL_RESPONSE ||| CTL_ERROR ||| (b.res_opcode &&& CTL_OP_MASK),
            status := ((e <<< 8) % 65536) &&& 0xff00, count := 0 }
          ++ b.rpkt.data.take (CTL_HEADER_LEN - CTL_HEADER_LEN)))
      (by rw [h22, h9]) h23 (by rw [h9]; exact h24)
    have hl1 := fun dg => memcpy_length_ge a.rpkt.data (CTL_HEADER_LEN - CTL_HEADER_LEN + 4) dg
    have hl2 := fun dg => memcpy_length_ge b.rpkt.data (CTL_HEADER_LEN - CTL_HEADER_LEN + 4) dg
    constructor <;> simp only [ctl_error, hau, hau2, if_true, sendpkt, authencrypt] <;>
      first
      | assumption
      | exact le_trans h23 (hl1 _)
      | exact le_trans h24 (hl2 _)
      | (simp only [header_bytes, h1, h2, h4, h5, h6, h9, h15, List.take_zero,
           Nat.sub_self] at hp ⊢
         exact hp)
  · have hau0 : b.res_authenticate = false := by simpa using hau
    have hau2 : a.res_authenticate = false := by rw [h13]; exact hau0
    constructor <;> simp only [ctl_error, hau0, hau2, Bool.false_eq_true, if_false, sendpkt] <;>
      assumption

theorem same_store_flush_crlf (more : Nat) (a b : CtlState) (h : same_store a b) :
    same_store (flush_crlf more a) (flush_crlf more b)
    ∧ (flush_crlf more a).sent = a.sent ∧ (flush_crlf more b).sent = b.sent := by
  unfold flush_crlf
  rw [h.datanotbinflag, h.datapt]
  split_ifs
  · exact ⟨same_store_put_byte _ _ 10 (same_store_put_byte _ _ 13 h), rfl, rfl⟩
  · exact ⟨h, rfl, rfl⟩

theorem take_count_area (X Y : List Nat) (dp c L : Nat) (hc : c ≤ dp)
    (h : (X.take L).take dp = Y.take dp) : (X.take L).take c = Y.take c := by
  have e1 : ∀ Z : List Nat, List.take c (List.take dp Z) = List.take c Z := fun Z => by
    rw [List.take_take, Nat.min_eq_left hc]
  have := congrArg (List.take c) h
  rw [e1, e1] at this
  exact this

/-- What `ctl_flushpkt` sends and leaves, in terms of the state `s1` after the
CR LF step: the fields of the datagram that a client reads, and the fields of
the state that the read handlers read. -/
theorem ctl_flushpkt_fields (env : Env) (more : Nat) (s : CtlState)
    (hroom : (flush_crlf more s).datapt ≤ (flush_crlf more s).rpkt.data.length) :
    ∃ d, (ctl_flushpkt env more s).sent = (flush_crlf more s).sent ++ [d]
      ∧ d.li_vn_mode = (flush_crlf more s).rpkt.li_vn_mode
      ∧ d.r_m_e_op = CTL_RESPONSE ||| more ||| ((flush_crlf more s).res_opcode &&& CTL_OP_MASK)
      ∧ d.sequence = (flush_crlf more s).rpkt.sequence
      ∧ d.status = (flush_crlf more s).rpkt.status
      ∧ d.associd = (flush_crlf more s).rpkt.associd
      ∧ d.offset = (flush_crlf more s).res_offset % 65536
      ∧ d.count = (flush_crlf more s).datapt % 65536
      ∧ d.data_area = (flush_crlf more s).rpkt.data.take ((flush_crlf more s).datapt % 65536)
      ∧ (ctl_flushpkt env more s).rpkt.li_vn_mode = (flush_crlf more s).rpkt.li_vn_mode
      ∧ (ctl_flushpkt env more s).rpkt.sequence = (flush_crlf more s).rpkt.sequence
      ∧ (ctl_flushpkt env more s).rpkt.status = (flush_crlf more s).rpkt.status
      ∧ (ctl_flushpkt env more s).rpkt.associd = (flush_crlf more s).rpkt.associd
      ∧ (ctl_flushpkt env more s).rpkt.offset = (flush_crlf more s).res_offset % 65536
      ∧ (ctl_flushpkt env more s).res_opcode = (flush_crlf more s).res_opcode
      ∧ (ctl_flushpkt env more s).res_associd = (flush_crlf more s).res_associd
      ∧ (ctl_flushpkt env more s).res_offset
          = (flush_crlf more s).res_offset + (flush_crlf more s).datapt
      ∧ (ctl_flushpkt env more s).datapt = 0
      ∧ (ctl_flushpkt env more s).datalinelen = (flush_crlf more s).datalinelen
      ∧ (ctl_flushpkt env more s).datasent = (flush_crlf more s).datasent
      ∧ (ctl_flushpkt env more s).datanotbinflag = (flush_crlf more s).datanotbinflag
      ∧ (ctl_flushpkt env more s).res_authenticate = (flush_crlf more s).res_authenticate
      ∧ (ctl_flushpkt env more s).res_authokay = (flush_crlf more s).res_authokay
      ∧ (ctl_flushpkt env more s).res_keyid = (flush_crlf more s).res_keyid
      ∧ (ctl_flushpkt env more s).reqdata = (flush_crlf more s).reqdata
      ∧ (ctl_flushpkt env more s).reqpt = (flush_crlf more s).reqpt
      ∧ (ctl_flushpkt env more s).reqend = (flush_crlf more s).reqend
      ∧ (ctl_flushpkt env more s).ctl_sys_num_events = (flush_crlf more s).ctl_sys_num_events
      ∧ (ctl_flushpkt env more s).ext_sys_var = (flush_crlf more s).ext_sys_var
      ∧ (ctl_flushpkt env more s).quiet_until = (flush_crlf more s).quiet_until := by
  unfold ctl_flushpkt
  revert hroom
  generalize flush_crlf more s = s1
  intro hroom
  have hp4 : s1.datapt + CTL_HEADER_LEN ≤ pad_loop 0x3 4 (s1.datapt + CTL_HEADER_LEN) := by
    rw [pad_loop4]; omega
  have hp8 : pad_loop 0x3 4 (s1.datapt + CTL_HEADER_LEN)
      ≤ pad_loop 7 8 (pad_loop 0x3 4 (s1.datapt + CTL_HEADER_LEN)) := by
    rw [pad_loop8]; omega
  have hc : s1.datapt % 65536 ≤ s1.datapt := Nat.mod_le _ _
  by_cases ha : s1.res_authenticate = true <;> by_cases hm : more = 0
  · simp only [ha, hm, sendpkt, authencrypt, if_true, ne_eq, not_true_eq_false, if_false]
    refine ⟨_, rfl, ?_⟩
    simp only [true_and, and_true, Datagram.data_area]
    exact take_count_area _ _ _ _ _ hc (flush_take_auth _ _ _ _ _ _ hroom (by omega) (by omega))
  · simp only [ha, hm, sendpkt, authencrypt, if_true, ne_eq, not_false_eq_true]
    refine ⟨_, rfl, ?_⟩
    simp only [true_and, and_true, Datagram.data_area]
    exact take_count_area _ _ _ _ _ hc (flush_take_auth _ _ _ _ _ _ hroom (by omega) (by omega))
  · have ha2 : s1.res_authenticate = false := by simpa using ha
    simp only [ha2, hm, sendpkt, ne_eq, not_true_eq_false, Bool.false_eq_true, if_false]
    refine ⟨_, rfl, ?_⟩
    simp only [true_and, and_true, Datagram.data_area]
    exact take_count_area _ _ _ _ _ hc (flush_take_plain _ _ _ (by omega))
  · have ha2 : s1.res_authenticate = false := by simpa using ha
    simp only [ha2, hm, sendpkt, ne_eq, not_false_eq_true, Bool.false_eq_true, if_false, if_true]
    refine ⟨_, rfl, ?_⟩
    simp only [true_and, and_true, Datagram.data_area]
    exact take_count_area _ _ _ _ _ hc (flush_take_plain _ _ _ (by omega))

theorem agree_flushpkt (env : Env) (more : Nat) (A B : List Datagram) (a b : CtlState)
    (h : same_store a b) (hn : same_new A B a b) :
    same_store (ctl_flushpkt env more a) (ctl_flushpkt env more b)
    ∧ same_new A B (ctl_flushpkt env more a) (ctl_flushpkt env more b) := by
  obtain ⟨hc, sa, sb⟩ := same_store_flush_crlf more a b h
  obtain ⟨da, hda, a1, a2, a3, a4, a5, a6, a7, a8, a9, a10, a11, a12, a13, a14, a15, a16, a17,
    a18, a19, a20, a21, a22, a23, a24, a25, a26, a27, a28, a29⟩ :=
    ctl_flushpkt_fields env more a hc.room_left
  obtain ⟨db, hdb, b1, b2, b3, b4, b5, b6, b7, b8, b9, b10, b11, b12, b13, b14, b15, b16, b17,
    b18, b19, b20, b21, b22, b23, b24, b25, b26, b27, b28, b29⟩ :=
    ctl_flushpkt_fields env more b hc.room_right
  obtain ⟨h1, h2, h3, h4, h5, h6, h7, h8, h9, h10, h11, h12, h13, h14, h15, h16, h17, h18,
    h19, h20, h21, h22, h23, h24⟩ := hc
  constructor
  · constructor
    · rw [a9, b9, h1]
    · rw [a10, b10, h2]
    · rw [a11, b11, h3]
    · rw [a12, b12, h4]
    · rw [a13, b13, h8]
    · rw [a14, b14, h6]
    · rw [a15, b15, h7]
    · rw [a16, b16, h8, h9]
    · rw [a17, b17]
    · rw [a18, b18, h10]
    · rw [a19, b19, h11]
    · rw [a20, b20, h12]
    · rw [a21, b21, h13]
    · rw [a22, b22, h14]
    · rw [a23, b23, h15]
    · rw [a24, b24, h16]
    · rw [a25, b25, h17]
    · rw [a26, b26, h18]
    · rw [a27, b27, h19]
    · rw [a28, b28, h20]
    · rw [a29, b29, h21]
    · rw [a17, b17, List.take_zero, List.take_zero]
    · rw [a17]; exact Nat.zero_le _
    · rw [b17]; exact Nat.zero_le _
  · have hn1 := same_new_of_sent A B a b (flush_crlf more a) (flush_crlf more b) hn sa sb
    apply same_new_append A B _ _ _ _ da db hn1 hda hdb
    have hpend : (flush_crlf more a).rpkt.data.take ((flush_crlf more b).datapt % 65536)
        = (flush_crlf more b).rpkt.data.take ((flush_crlf more b).datapt % 65536) := by
      have := congrArg (List.take ((flush_crlf more b).datapt % 65536)) h22
      rw [List.take_take, List.take_take, h9, Nat.min_eq_left (Nat.mod_le _ _)] at this
      exact this
    simp only [Datagram.view, Datagram.header_bytes, a1, a2, a3, a4, a5, a6, a7, a8, b1, b2,
      b3, b4, b5, b6, b7, b8, h1, h2, h3, h4, h6, h8, h9, hpend]

theorem same_store_linelen (a b : CtlState) (n : Nat) (h : same_store a b) :
    same_store { a with datalinelen := n } { b with datalinelen := n } := by
  obtain ⟨h1, h2, h3, h4, h5, h6, h7, h8, h9, h10, h11, h12, h13, h14, h15, h16, h17, h18,
    h19, h20, h21, h22, h23, h24⟩ := h
  constructor <;> first | assumption | rfl

theorem same_store_notbin (a b : CtlState) (h : same_store a b) :
    same_store { a with datanotbinflag := true } { b with datanotbinflag := true } := by
  obtain ⟨h1, h2, h3, h4, h5, h6, h7, h8, h9, h10, h11, h12, h13, h14, h15, h16, h17, h18,
    h19, h20, h21, h22, h23, h24⟩ := h
  constructor <;> first | assumption | rfl

theorem same_store_datasent (a b : CtlState) (h : same_store a b) :
    same_store { a with datasent := true } { b with datasent := true } := by
  obtain ⟨h1, h2, h3, h4, h5, h6, h7, h8, h9, h10, h11, h12, h13, h14, h15, h16, h17, h18,
    h19, h20, h21, h22, h23, h24⟩ := h
  constructor <;> first | assumption | rfl

theorem agree_body (env : Env) (dp : List Nat) (A B : List Datagram) (a b : CtlState)
    (h : agree A B a b) :
    (ctl_putdata_body env dp a).1 = (ctl_putdata_body env dp b).1
    ∧ agree A B (ctl_putdata_body env dp a).2 (ctl_putdata_body env dp b).2 := by
  obtain ⟨hs, hn⟩ := h
  unfold ctl_putdata_body
  dsimp only
  rw [hs.datapt]
  refine ⟨rfl, ?_⟩
  have hk : min dp.length (room_u32 b.datapt)
      = (dp.take (min dp.length (room_u32 b.datapt))).length := by
    rw [List.length_take]; omega
  have hw := same_store_write a b (dp.take (min dp.length (room_u32 b.datapt)))
    (min dp.length (room_u32 b.datapt)) hk hs
  rw [hs.datapt] at hw
  exact agree_flushpkt env CTL_MORE A B _ _ hw (same_new_of_sent A B a b _ _ hn rfl rfl)

theorem agree_loop (env : Env) (ov fuel : Nat) (dp : List Nat) (A B : List Datagram)
    (a b : CtlState) (h : agree A B a b) :
    (ctl_putdata_loop env ov fuel dp a).1 = (ctl_putdata_loop env ov fuel dp b).1
    ∧ agree A B (ctl_putdata_loop env ov fuel dp a).2 (ctl_putdata_loop env ov fuel dp b).2 := by
  induction fuel generalizing dp a b with
  | zero => exact ⟨rfl, h⟩
  | succ n ih =>
    rw [ctl_putdata_loop, ctl_putdata_loop, h.1.datapt]
    split_ifs
    · obtain ⟨e, hb⟩ := agree_body env dp A B a b h
      rw [e]
      exact ih _ _ _ hb
    · exact ⟨rfl, h⟩

theorem agree_put_byte (A B : List Datagram) (a b : CtlState) (c : Nat) (h : agree A B a b) :
    agree A B (put_byte a c) (put_byte b c) :=
  ⟨same_store_put_byte a b c h.1, same_new_of_sent A B a b _ _ h.2 rfl rfl⟩

theorem agree_sep (dlen : Nat) (A B : List Datagram) (a b : CtlState) (h : agree A B a b) :
    agree A B (ctl_putdata_sep dlen a) (ctl_putdata_sep dlen b) := by
  obtain ⟨hs, hn⟩ := h
  unfold ctl_putdata_sep
  dsimp only
  rw [hs.datasent, hs.datalinelen]
  have p1 := same_store_linelen _ _ (b.datalinelen + 1) (same_store_put_byte a b 44 hs)
  split_ifs
  · exact ⟨same_store_linelen _ _ 0
      (same_store_put_byte _ _ 10 (same_store_put_byte _ _ 13 p1)),
      same_new_of_sent A B a b _ _ hn rfl rfl⟩
  · exact ⟨same_store_linelen _ _ (b.datalinelen + 1 + 1) (same_store_put_byte _ _ 32 p1),
      same_new_of_sent A B a b _ _ hn rfl rfl⟩
  · exact ⟨hs, hn⟩

theorem agree_putdata (env : Env) (dp : List Nat) (bin : Bool) (A B : List Datagram)
    (a b : CtlState) (h : agree A B a b) :
    agree A B (ctl_putdata env dp bin a) (ctl_putdata env dp bin b) := by
  unfold ctl_putdata
  dsimp only
  have h1 : agree A B (if bin = true then a
        else ctl_putdata_sep dp.length { a with datanotbinflag := true })
      (if bin = true then b else ctl_putdata_sep dp.length { b with datanotbinflag := true }) := by
    split_ifs
    · exact h
    · exact agree_sep dp.length A B _ _
        ⟨same_store_notbin a b h.1, same_new_of_sent A B a b _ _ h.2 rfl rfl⟩
  obtain ⟨e, h2⟩ := agree_loop env (if bin = true then 0 else 3) (2 * dp.length + 2) dp A B _ _ h1
  revert e h2
  generalize ctl_putdata_loop env (if bin = true then 0 else 3) (2 * dp.length + 2) dp
    (if bin = true then a else ctl_putdata_sep dp.length { a with datanotbinflag := true }) = ra
  generalize ctl_putdata_loop env (if bin = true then 0 else 3) (2 * dp.length + 2) dp
    (if bin = true then b else ctl_putdata_sep dp.length { b with datanotbinflag := true }) = rb
  intro e h2
  rw [e]
  have hw := same_store_write ra.2 rb.2 rb.1 rb.1.length rfl h2.1
  exact ⟨same_store_datasent _ _ hw, same_new_of_sent A B ra.2 rb.2 _ _ h2.2 rfl rfl⟩

theorem agree_put_tokens (env : Env) (toks : List (List Nat)) (A B : List Datagram)
    (a b : CtlState) (h : agree A B a b) :
    agree A B (put_tokens env toks a) (put_tokens env toks b) := by
  unfold put_tokens
  induction toks generalizing a b with
  | nil => exact h
  | cons t toks ih =>
    rw [List.foldl_cons, List.foldl_cons]
    exact ih _ _ (agree_putdata env t false A B a b h)

theorem same_store_reqpt (a b : CtlState) (n : Nat) (h : same_store a b) :
    same_store { a with reqpt := n } { b with reqpt := n } := by
  obtain ⟨h1, h2, h3, h4, h5, h6, h7, h8, h9, h10, h11, h12, h13, h14, h15, h16, h17, h18,
    h19, h20, h21, h22, h23, h24⟩ := h
  constructor <;> first | assumption | rfl

theorem same_store_badpkts (a b : CtlState) (n m : Nat) (h : same_store a b) :
    same_store { a with numctlbadpkts := n } { b with numctlbadpkts := m } := by
  obtain ⟨h1, h2, h3, h4, h5, h6, h7, h8, h9, h10, h11, h12, h13, h14, h15, h16, h17, h18,
    h19, h20, h21, h22, h23, h24⟩ := h
  constructor <;> assumption

theorem same_store_quiet (a b : CtlState) (q n m : Nat) (h : same_store a b) :
    same_store { a with quiet_until := q, syslog_warnings := n }
      { b with quiet_until := q, syslog_warnings := m } := by
  obtain ⟨h1, h2, h3, h4, h5, h6, h7, h8, h9, h10, h11, h12, h13, h14, h15, h16, h17, h18,
    h19, h20, h21, h22, h23, h24⟩ := h
  constructor <;> first | assumption | rfl

theorem same_store_aborted (a b : CtlState) (h : same_store a b) :
    same_store { a with aborted := true } { b with aborted := true } := by
  obtain ⟨h1, h2, h3, h4, h5, h6, h7, h8, h9, h10, h11, h12, h13, h14, h15, h16, h17, h18,
    h19, h20, h21, h22, h23, h24⟩ := h
  constructor <;> assumption

theorem same_store_cleared (a b : CtlState) (x y : List Nat) (h : same_store a b) :
    same_store { a with cleared_peers := x } { b with cleared_peers := y } := by
  obtain ⟨h1, h2, h3, h4, h5, h6, h7, h8, h9, h10, h11, h12, h13, h14, h15, h16, h17, h18,
    h19, h20, h21, h22, h23, h24⟩ := h
  constructor <;> assumption

theorem same_store_status (a b : CtlState) (n : Nat) (h : same_store a b) :
    same_store { a with rpkt := { a.rpkt with status := n } }
      { b with rpkt := { b.rpkt with status := n } } := by
  obtain ⟨h1, h2, h3, h4, h5, h6, h7, h8, h9, h10, h11, h12, h13, h14, h15, h16, h17, h18,
    h19, h20, h21, h22, h23, h24⟩ := h
  constructor <;> first | assumption | rfl

theorem same_store_events (a b : CtlState) (n : Nat) (h : same_store a b) :
    same_store { a with ctl_sys_num_events := n } { b with ctl_sys_num_events := n } := by
  obtain ⟨h1, h2, h3, h4, h5, h6, h7, h8, h9, h10, h11, h12, h13, h14, h15, h16, h17, h18,
    h19, h20, h21, h22, h23, h24⟩ := h
  constructor <;> first | assumption | rfl

theorem agree_item_return (env : Env) (v : ctl_var) (o : item_outcome) (A B : List Datagram)
    (a b : CtlState) (h : agree A B a b) :
    (item_return env v a o).v = (item_return env v b o).v
    ∧ (item_return env v a o).data = (item_return env v b o).data
    ∧ agree A B (item_return env v a o).st (item_return env v b o).st := by
  cases o with
  | no_match => exact ⟨rfl, rfl, h⟩
  | bare cp =>
    exact ⟨rfl, rfl, same_store_reqpt a b cp h.1, same_new_of_sent A B a b _ _ h.2 rfl rfl⟩
  | valued cp val =>
    exact ⟨rfl, rfl, same_store_reqpt a b cp h.1, same_new_of_sent A B a b _ _ h.2 rfl rfl⟩
  | too_long =>
    obtain ⟨hs, hn⟩ := agree_ctl_error env CERR_BADFMT A B a b h.1 h.2
    refine ⟨rfl, rfl, ?_⟩
    by_cases hq : env.nlog_sysevent = true
        ∧ (ctl_error env CERR_BADFMT b).quiet_until ≤ env.current_time
    · have ea : (item_return env v a .too_long).st
          = { ({ ctl_error env CERR_BADFMT a with
                  numctlbadpkts := (ctl_error env CERR_BADFMT a).numctlbadpkts + 1 } : CtlState) with
              quiet_until := env.current_time + 300,
              syslog_warnings := (ctl_error env CERR_BADFMT a).syslog_warnings + 1 } := by
        simp only [item_return]
        rw [if_pos (by rw [hs.quiet_until]; exact hq)]
      have eb : (item_return env v b .too_long).st
          = { ({ ctl_error env CERR_BADFMT b with
                  numctlbadpkts := (ctl_error env CERR_BADFMT b).numctlbadpkts + 1 } : CtlState) with
              quiet_until := env.current_time + 300,
              syslog_warnings := (ctl_error env CERR_BADFMT b).syslog_warnings + 1 } := by
        simp only [item_return]
        rw [if_pos hq]
      rw [ea, eb]
      exact ⟨same_store_quiet _ _ _ _ _ (same_store_badpkts _ _ _ _ hs),
        same_new_of_sent A B _ _ _ _ hn rfl rfl⟩
    · have ea : (item_return env v a .too_long).st
          = { ctl_error env CERR_BADFMT a with
                  numctlbadpkts := (ctl_error env CERR_BADFMT a).numctlbadpkts + 1 } := by
        simp only [item_return]
        rw [if_neg (by rw [hs.quiet_until]; exact hq)]
      have eb : (item_return env v b .too_long).st
          = { ctl_error env CERR_BADFMT b with
                  numctlbadpkts := (ctl_error env CERR_BADFMT b).numctlbadpkts + 1 } := by
        simp only [item_return]
        rw [if_neg hq]
      rw [ea, eb]
      exact ⟨same_store_badpkts _ _ _ _ hs, same_new_of_sent A B _ _ _ _ hn rfl rfl⟩

theorem agree_scan (env : Env) (l : List ctl_var) (A B : List Datagram) (a b : CtlState)
    (h : agree A B a b) :
    (ctl_getitem_scan env l a).v = (ctl_getitem_scan env l b).v
    ∧ (ctl_getitem_scan env l a).data = (ctl_getitem_scan env l b).data
    ∧ agree A B (ctl_getitem_scan env l a).st (ctl_getitem_scan env l b).st := by
  induction l with
  | nil =>
    rw [ctl_getitem_scan, ctl_getitem_scan]
    exact ⟨rfl, rfl, h⟩
  | cons u l ih =>
    rw [ctl_getitem_scan_cons, ctl_getitem_scan_cons, h.1.reqdata, h.1.reqend, h.1.reqpt]
    split_ifs
    · exact ⟨rfl, rfl, h⟩
    · cases ho : entry_outcome b.reqdata b.reqend b.reqpt u with
      | no_match => exact ih
      | bare cp => exact agree_item_return env u (.bare cp) A B a b h
      | valued cp val => exact agree_item_return env u (.valued cp val) A B a b h
      | too_long => exact agree_item_return env u .too_long A B a b h

theorem agree_getitem (env : Env) (tbl : Option (List ctl_var)) (A B : List Datagram)
    (a b : CtlState) (h : agree A B a b) :
    (ctl_getitem env tbl a).v = (ctl_getitem env tbl b).v
    ∧ (ctl_getitem env tbl a).data = (ctl_getitem env tbl b).data
    ∧ agree A B (ctl_getitem env tbl a).st (ctl_getitem env tbl b).st := by
  have his : item_start a = item_start b := by
    unfold item_start
    rw [h.1.reqdata, h.1.reqend, h.1.reqpt]
  have hst : agree A B { a with reqpt := item_start b } { b with reqpt := item_start b } :=
    ⟨same_store_reqpt a b _ h.1, same_new_of_sent A B a b _ _ h.2 rfl rfl⟩
  have hre : a.reqend = b.reqend := h.1.reqend
  cases tbl with
  | none =>
    rw [ctl_getitem_none_eq, ctl_getitem_none_eq, his]
    split_ifs <;>
      first
        | exact ⟨rfl, rfl, hst.1, hst.2⟩
        | (exfalso; omega)
  | some l =>
    rw [ctl_getitem_eq, ctl_getitem_eq, his]
    split_ifs <;>
      first
        | exact ⟨rfl, rfl, hst.1, hst.2⟩
        | exact agree_scan env l A B _ _ hst
        | (exfalso; omega)

theorem agree_foldl {α : Type} (A B : List Datagram) (f : CtlState → α → CtlState)
    (hf : ∀ a b x, agree A B a b → agree A B (f a x) (f b x)) (l : List α)
    (a b : CtlState) (h : agree A B a b) :
    agree A B (l.foldl f a) (l.foldl f b) := by
  induction l generalizing a b with
  | nil => exact h
  | cons x l ih =>
    rw [List.foldl_cons, List.foldl_cons]
    exact ih _ _ (hf a b x h)

theorem agree_aborted (A B : List Datagram) (a b : CtlState) (h : agree A B a b) :
    agree A B { a with aborted := true } { b with aborted := true } :=
  ⟨same_store_aborted a b h.1, same_new_of_sent A B a b _ _ h.2 rfl rfl⟩

theorem agree_read_sysvars_items (env : Env) (wc : Nat) (A B : List Datagram) (fuel : Nat)
    (wants : List Bool) (gotvar : Bool) (a b : CtlState) (h : agree A B a b) :
    (read_sysvars_items env wc fuel wants gotvar a).1
      = (read_sysvars_items env wc fuel wants gotvar b).1
    ∧ agree A B (read_sysvars_items env wc fuel wants gotvar a).2
        (read_sysvars_items env wc fuel wants gotvar b).2 := by
  induction fuel generalizing wants gotvar a b with
  | zero => exact ⟨rfl, h⟩
  | succ fuel ih =>
    obtain ⟨g1, g2, g3⟩ := agree_getitem env (some sys_var) A B a b h
    rw [read_sysvars_items, read_sysvars_items]
    dsimp only
    rw [g1]
    cases hv : (ctl_getitem env (some sys_var) b).v with
    | none => exact ⟨rfl, g3⟩
    | some v =>
      dsimp only
      by_cases he : v.flags.eov = false
      · rw [if_pos he, if_pos he]
        by_cases hc : v.code < wc
        · rw [if_pos hc, if_pos hc]
          exact ih _ _ _ _ g3
        · rw [if_neg hc, if_neg hc]
          exact ⟨rfl, agree_aborted A B _ _ g3⟩
      · rw [if_neg he, if_neg he]
        have hx := g3.1.ext_sys_var
        obtain ⟨k1, k2, k3⟩ := agree_getitem env
          (ctl_getitem env (some sys_var) b).st.ext_sys_var A B _ _ g3
        rw [hx, k1]
        cases hv2 : (ctl_getitem env (ctl_getitem env (some sys_var) b).st.ext_sys_var
            (ctl_getitem env (some sys_var) b).st).v with
        | none => exact ⟨rfl, agree_ctl_error env _ A B _ _ k3.1 k3.2⟩
        | some v2 =>
          dsimp only
          by_cases he2 : v2.flags.eov = true
          · rw [if_pos he2, if_pos he2]
            exact ⟨rfl, agree_ctl_error env _ A B _ _ k3.1 k3.2⟩
          · rw [if_neg he2, if_neg he2]
            by_cases hc : v2.code + CS_MAXCODE + 1 < wc
            · rw [if_pos hc, if_pos hc]
              exact ih _ _ _ _ k3
            · rw [if_neg hc, if_neg hc]
              exact ⟨rfl, agree_aborted A B _ _ k3⟩

theorem agree_read_peervars_items (env : Env) (A B : List Datagram) (fuel : Nat)
    (wants : List Bool) (gotvar : Bool) (a b : CtlState) (h : agree A B a b) :
    (read_peervars_items env fuel wants gotvar a).1
      = (read_peervars_items env fuel wants gotvar b).1
    ∧ agree A B (read_peervars_items env fuel wants gotvar a).2
        (read_peervars_items env fuel wants gotvar b).2 := by
  induction fuel generalizing wants gotvar a b with
  | zero => exact ⟨rfl, h⟩
  | succ fuel ih =>
    obtain ⟨g1, g2, g3⟩ := agree_getitem env (some peer_var) A B a b h
    rw [read_peervars_items, read_peervars_items]
    dsimp only
    rw [g1]
    cases hv : (ctl_getitem env (some peer_var) b).v with
    | none => exact ⟨rfl, g3⟩
    | some v =>
      dsimp only
      by_cases he : v.flags.eov = true
      · rw [if_pos he, if_pos he]
        exact ⟨rfl, agree_ctl_error env _ A B _ _ g3.1 g3.2⟩
      · rw [if_neg he, if_neg he]
        by_cases hc : v.code < CP_MAXCODE + 1
        · rw [if_pos hc, if_pos hc]
          exact ih _ _ _ _ g3
        · rw [if_neg hc, if_neg hc]
          exact ⟨rfl, agree_aborted A B _ _ g3⟩

theorem agree_flush (env : Env) (more : Nat) (A B : List Datagram) (a b : CtlState)
    (h : agree A B a b) : agree A B (ctl_flushpkt env more a) (ctl_flushpkt env more b) :=
  agree_flushpkt env more A B a b h.1 h.2

theorem agree_putsys (env : Env) (n : Nat) (A B : List Datagram) (a b : CtlState)
    (h : agree A B a b) : agree A B (ctl_putsys env n a) (ctl_putsys env n b) :=
  agree_put_tokens env _ A B a b h

theorem agree_putpeer (env : Env) (n p : Nat) (A B : List Datagram) (a b : CtlState)
    (h : agree A B a b) : agree A B (ctl_putpeer env n p a) (ctl_putpeer env n p b) :=
  agree_put_tokens env _ A B a b h

theorem agree_read_sysvars_from (env : Env) (A B : List Datagram) (wc1 wc2 f1 f2 : Nat)
    (hwc : wc1 = wc2) (hf : f1 = f2) (a b : CtlState) (h : agree A B a b) :
    agree A B
      (match (read_sysvars_items env wc1 f1 (List.replicate wc1 false) false a).1 with
       | none => (read_sysvars_items env wc1 f1 (List.replicate wc1 false) false a).2
       | some (wants, gotvar) =>
         ctl_flushpkt env 0
           (if gotvar then
              (List.range (wc1 - (CS_MAXCODE + 1))).foldl
                (fun t n =>
                  if wants.getD (n + CS_MAXCODE + 1) false then
                    ctl_putdata env (((t.ext_sys_var.getD []).getD n eol).text.getD []) false t
                  else t)
                ((List.range' 1 CS_MAXCODE).foldl
                  (fun t n => if wants.getD n false then ctl_putsys env n t else t)
                  (read_sysvars_items env wc1 f1 (List.replicate wc1 false) false a).2)
            else
              (((def_sys_var.foldl (fun t cs => ctl_putsys env cs t)
                  (read_sysvars_items env wc1 f1 (List.replicate wc1 false) false a).2).ext_sys_var.getD
                    []).takeWhile (fun kv => !kv.flags.eov)).foldl
                (fun t kv =>
                  if kv.flags.deflt then ctl_putdata env (kv.text.getD []) false t else t)
                (def_sys_var.foldl (fun t cs => ctl_putsys env cs t)
                  (read_sysvars_items env wc1 f1 (List.replicate wc1 false) false a).2)))
      (match (read_sysvars_items env wc2 f2 (List.replicate wc2 false) false b).1 with
       | none => (read_sysvars_items env wc2 f2 (List.replicate wc2 false) false b).2
       | some (wants, gotvar) =>
         ctl_flushpkt env 0
           (if gotvar then
              (List.range (wc2 - (CS_MAXCODE + 1))).foldl
                (fun t n =>
                  if wants.getD (n + CS_MAXCODE + 1) false then
                    ctl_putdata env (((t.ext_sys_var.getD []).getD n eol).text.getD []) false t
                  else t)
                ((List.range' 1 CS_MAXCODE).foldl
                  (fun t n => if wants.getD n false then ctl_putsys env n t else t)
                  (read_sysvars_items env wc2 f2 (List.replicate wc2 false) false b).2)
            else
              (((def_sys_var.foldl (fun t cs => ctl_putsys env cs t)
                  (read_sysvars_items env wc2 f2 (List.replicate wc2 false) false b).2).ext_sys_var.getD
                    []).takeWhile (fun kv => !kv.flags.eov)).foldl
                (fun t kv =>
                  if kv.flags.deflt then ctl_putdata env (kv.text.getD []) false t else t)
                (def_sys_var.foldl (fun t cs => ctl_putsys env cs t)
                  (read_sysvars_items env wc2 f2 (List.replicate wc2 false) false b).2))) := by
  subst hwc
  subst hf
  obtain ⟨e1, e2⟩ :=
    agree_read_sysvars_items env wc1 A B f1 (List.replicate wc1 false) false a b h
  generalize read_sysvars_items env wc1 f1 (List.replicate wc1 false) false a = ra at e1 e2 ⊢
  generalize read_sysvars_items env wc1 f1 (List.replicate wc1 false) false b = rb at e1 e2 ⊢
  obtain ⟨ra1, ra2⟩ := ra
  obtain ⟨rb1, rb2⟩ := rb
  dsimp only at e1 e2 ⊢
  subst e1
  cases ra1 with
  | none => exact e2
  | some wg =>
    obtain ⟨wants, gotvar⟩ := wg
    dsimp only
    apply agree_flush
    cases gotvar with
    | true =>
      simp only [if_true]
      apply agree_foldl
      · intro x y n hxy
        split_ifs
        · rw [hxy.1.ext_sys_var]
          exact agree_putdata env _ false A B x y hxy
        · exact hxy
      · apply agree_foldl
        · intro x y n hxy
          split_ifs
          · exact agree_putsys env n A B x y hxy
          · exact hxy
        · exact e2
    | false =>
      simp only [Bool.false_eq_true, if_false]
      have hd : agree A B (def_sys_var.foldl (fun t cs => ctl_putsys env cs t) ra2)
          (def_sys_var.foldl (fun t cs => ctl_putsys env cs t) rb2) :=
        agree_foldl A B _ (fun x y n hxy => agree_putsys env n A B x y hxy) _ _ _ e2
      rw [hd.1.ext_sys_var]
      apply agree_foldl
      · intro x y kv hxy
        split_ifs
        · exact agree_putdata env _ false A B x y hxy
        · exact hxy
      · exact hd

theorem agree_status (A B : List Datagram) (a b : CtlState) (n m : Nat) (e : n = m)
    (h : agree A B a b) :
    agree A B { a with rpkt := { a.rpkt with status := n } }
      { b with rpkt := { b.rpkt with status := m } } := by
  subst e
  exact ⟨same_store_status _ _ _ h.1, same_new_of_sent A B a b _ _ h.2 rfl rfl⟩

theorem agree_events (A B : List Datagram) (a b : CtlState) (n : Nat) (h : agree A B a b) :
    agree A B { a with ctl_sys_num_events := n } { b with ctl_sys_num_events := n } :=
  ⟨same_store_events _ _ n h.1, same_new_of_sent A B a b _ _ h.2 rfl rfl⟩

theorem agree_read_sysvars (env : Env) (A B : List Datagram) (a b : CtlState)
    (h : agree A B a b) : agree A B (read_sysvars env a) (read_sysvars env b) := by
  have h1 := agree_status A B a b (env.ctlsysstatus a.ctl_sys_num_events % 65536)
    (env.ctlsysstatus b.ctl_sys_num_events % 65536) (by rw [h.1.ctl_sys_num_events]) h
  by_cases hb : b.res_authokay = true
  · have ha : a.res_authokay = true := by rw [h.1.res_authokay]; exact hb
    have h2 := agree_events A B _ _ 0 h1
    have key := agree_read_sysvars_from env A B
      (CS_MAXCODE + 1 + count_var a.ext_sys_var) (CS_MAXCODE + 1 + count_var b.ext_sys_var)
      (a.reqend + 1) (b.reqend + 1) (by rw [h.1.ext_sys_var]) (by rw [h.1.reqend]) _ _ h2
    unfold read_sysvars
    dsimp only
    rw [if_pos ha, if_pos hb]
    exact key
  · have ha : ¬ a.res_authokay = true := by rw [h.1.res_authokay]; exact hb
    have key := agree_read_sysvars_from env A B
      (CS_MAXCODE + 1 + count_var a.ext_sys_var) (CS_MAXCODE + 1 + count_var b.ext_sys_var)
      (a.reqend + 1) (b.reqend + 1) (by rw [h.1.ext_sys_var]) (by rw [h.1.reqend]) _ _ h1
    unfold read_sysvars
    dsimp only
    rw [if_neg ha, if_neg hb]
    exact key

theorem agree_cleared (A B : List Datagram) (a b : CtlState) (x y : List Nat)
    (h : agree A B a b) :
    agree A B { a with cleared_peers := x } { b with cleared_peers := y } :=
  ⟨same_store_cleared _ _ x y h.1, same_new_of_sent A B a b _ _ h.2 rfl rfl⟩

theorem agree_read_peervars_from (env : Env) (A B : List Datagram) (peer f1 f2 : Nat)
    (hf : f1 = f2) (a b : CtlState) (h : agree A B a b) :
    agree A B
      (match (read_peervars_items env f1 (List.replicate (CP_MAXCODE + 1) false) false a).1 with
       | none => (read_peervars_items env f1 (List.replicate (CP_MAXCODE + 1) false) false a).2
       | some (wants, gotvar) =>
         ctl_flushpkt env 0
           (if gotvar then
              (List.range' 1 CP_MAXCODE).foldl
                (fun t i => if wants.getD i false then ctl_putpeer env i peer t else t)
                (read_peervars_items env f1 (List.replicate (CP_MAXCODE + 1) false) false a).2
            else
              def_peer_var.foldl (fun t cp => ctl_putpeer env cp peer t)
                (read_peervars_items env f1 (List.replicate (CP_MAXCODE + 1) false) false a).2))
      (match (read_peervars_items env f2 (List.replicate (CP_MAXCODE + 1) false) false b).1 with
       | none => (read_peervars_items env f2 (List.replicate (CP_MAXCODE + 1) false) false b).2
       | some (wants, gotvar) =>
         ctl_flushpkt env 0
           (if gotvar then
              (List.range' 1 CP_MAXCODE).foldl
                (fun t i => if wants.getD i false then ctl_putpeer env i peer t else t)
                (read_peervars_items env f2 (List.replicate (CP_MAXCODE + 1) false) false b).2
            else
              def_peer_var.foldl (fun t cp => ctl_putpeer env cp peer t)
                (read_peervars_items env f2 (List.replicate (CP_MAXCODE + 1) false) false b).2)) := by
  subst hf
  obtain ⟨e1, e2⟩ :=
    agree_read_peervars_items env A B f1 (List.replicate (CP_MAXCODE + 1) false) false a b h
  generalize read_peervars_items env f1 (List.replicate (CP_MAXCODE + 1) false) false a = ra
    at e1 e2 ⊢
  generalize read_peervars_items env f1 (List.replicate (CP_MAXCODE + 1) false) false b = rb
    at e1 e2 ⊢
  obtain ⟨ra1, ra2⟩ := ra
  obtain ⟨rb1, rb2⟩ := rb
  dsimp only at e1 e2 ⊢
  subst e1
  cases ra1 with
  | none => exact e2
  | some wg =>
    obtain ⟨wants, gotvar⟩ := wg
    dsimp only
    apply agree_flush
    cases gotvar with
    | true =>
      simp only [if_true]
      apply agree_foldl
      · intro x y n hxy
        split_ifs
        · exact agree_putpeer env n peer A B x y hxy
        · exact hxy
      · exact e2
    | false =>
      simp only [Bool.false_eq_true, if_false]
      exact agree_foldl A B _ (fun x y n hxy => agree_putpeer env n peer A B x y hxy) _ _ _ e2

theorem agree_read_peervars (env : Env) (A B : List Datagram) (a b : CtlState)
    (h : agree A B a b) : agree A B (read_peervars env a) (read_peervars env b) := by
  have hpa : env.findpeerbyassoc a.res_associd = env.findpeerbyassoc b.res_associd := by
    rw [h.1.res_associd]
  unfold read_peervars
  rw [hpa]
  cases hp : env.findpeerbyassoc b.res_associd with
  | none => exact agree_ctl_error env _ A B a b h.1 h.2
  | some peer =>
    dsimp only
    have h1 := agree_status A B a b (env.ctlpeerstatus peer % 65536)
      (env.ctlpeerstatus peer % 65536) rfl h
    by_cases hb : b.res_authokay = true
    · have ha : a.res_authokay = true := by rw [h.1.res_authokay]; exact hb
      have h2 := agree_cleared A B _ _ (peer :: a.cleared_peers) (peer :: b.cleared_peers) h1
      have key := agree_read_peervars_from env A B peer
        (a.reqend + 1) (b.reqend + 1) (by rw [h.1.reqend]) _ _ h2
      rw [if_pos ha, if_pos hb]
      exact key
    · have ha : ¬ a.res_authokay = true := by rw [h.1.res_authokay]; exact hb
      have key := agree_read_peervars_from env A B peer
        (a.reqend + 1) (b.reqend + 1) (by rw [h.1.reqend]) _ _ h1
      rw [if_neg ha, if_neg hb]
      exact key

theorem agree_read_variables (env : Env) (ra rb : recvbuf) (ma mb : Int)
    (A B : List Datagram) (a b : CtlState) (h : agree A B a b) :
    agree A B (read_variables env ra ma a) (read_variables env rb mb b) := by
  unfold read_variables
  have e := h.1.res_associd
  by_cases hz : b.res_associd = 0
  · have hz2 : a.res_associd = 0 := by rw [e]; exact hz
    rw [if_neg (by simpa using hz2), if_neg (by simpa using hz)]
    exact agree_read_sysvars env A B a b h
  · have hz2 : a.res_associd ≠ 0 := by rw [e]; exact hz
    rw [if_pos hz2, if_pos hz]
    exact agree_read_peervars env A B a b h

theorem dispatch_readvar (env : Env) (h : Handlers) (rbufp : recvbuf) (m : Int) (s : CtlState)
    (hop : s.res_opcode = 2) :
    dispatch env rbufp m (control_codes h) s = h.read_variables env rbufp m s := by
  simp [control_codes, dispatch, NO_REQUEST, CTL_OP_UNSPEC, CTL_OP_READSTAT, CTL_OP_READVAR,
    CTL_OP_WRITEVAR, CTL_OP_READCLOCK, CTL_OP_WRITECLOCK, CTL_OP_CONFIGURE, CTL_OP_READ_MRU,
    CTL_OP_READ_ORDLIST_A, CTL_OP_REQ_NONCE, AUTH, NOAUTH, hop]

theorem same_store_request_state (env : Env) (q : recvbuf) (s u : CtlState)
    (e1 : s.ext_sys_var = u.ext_sys_var) (e2 : s.ctl_sys_num_events = u.ctl_sys_num_events)
    (e3 : s.rpkt.offset = u.rpkt.offset) (e4 : s.quiet_until = u.quiet_until) :
    same_store (request_state env q s) (request_state env q u) := by
  unfold request_state
  dsimp only
  split_ifs <;> constructor <;> simp [set_datapt, e1, e2, e3, e4]

theorem ctl_error_offset (env : Env) (e : Nat) (s : CtlState) :
    (ctl_error env e s).rpkt.offset = s.rpkt.offset := by
  unfold ctl_error
  dsimp only
  split_ifs <;> simp [sendpkt, authencrypt]

theorem readvar_unaffected (env : Env) (h : Handlers) (q : recvbuf) (m : Int) (s u : CtlState)
    (hh : h.read_variables = read_variables) (hwf : well_framed env q)
    (hop : byteAt q.recv_pkt 1 = 2)
    (e1 : s.ext_sys_var = u.ext_sys_var) (e2 : s.ctl_sys_num_events = u.ctl_sys_num_events)
    (e3 : s.rpkt.offset = u.rpkt.offset) (e4 : s.quiet_until = u.quiet_until) :
    ∃ X Y, (process_control env h q m s).sent = s.sent ++ X
      ∧ (process_control env h q m u).sent = u.sent ++ Y
      ∧ X.map Datagram.view = Y.map Datagram.view := by
  have hs := request_state_frame env q s
  have hu := request_state_frame env q u
  rw [process_control_request_state env h q m s hwf, process_control_request_state env h q m u hwf,
    dispatch_readvar env h q m _ (by rw [hs.2.1]; exact hop),
    dispatch_readvar env h q m _ (by rw [hu.2.1]; exact hop), hh]
  have hag : agree s.sent u.sent (request_state env q s) (request_state env q u) :=
    ⟨same_store_request_state env q s u e1 e2 e3 e4,
      [], [], by rw [hs.1, List.append_nil], by rw [hu.1, List.append_nil], rfl⟩
  exact (agree_read_variables env q q m m s.sent u.sent _ _ hag).2

/-- Claim C20. A WRITEVAR (association id 0) whose first item writes a
writable built-in variable with a well-formed value inside `LEAP_NOTINSYNC`
(such as `leap=1`) does nothing but `ctl_error(CERR_UNSPEC)`: the handler
sends that one error response and returns, and the extension list
`ext_sys_var` and the event counter behind the system status are what they
were. The system variables themselves are not part of the state a handler
can change. So a READVAR answers the same before and after: for every
well-framed READVAR request, the datagrams that `process_control` sends for
it from the state the write leaves have the same header fields and data
areas as those it sends from any state `s0` with the extension list, event
counter, fragment offset field and log quiet time of the state `s` the write
started from (`s` itself, or the state before the write request came in). -/
theorem writevar_builtin_no_effect (env : Env) (rbufp : recvbuf) (restrict_mask : Int)
    (s : CtlState) (pre post : List ctl_var) (v : ctl_var) (ws ws2 val tl : List Nat)
    (hassoc : s.res_associd = 0)
    (hsv : sys_var = pre ++ v :: post)
    (hpre : ∀ u ∈ pre, u.flags.eov = false
      ∧ ¬ names u (request_bytes s.reqdata s.reqend (item_start s)))
    (hv : v.flags.eov = false ∧ v.flags.padding = false ∧ v.name ≠ [])
    (hR : request_bytes s.reqdata s.reqend (item_start s)
      = v.name ++ ws ++ 61 :: (ws2 ++ val ++ tl))
    (hws : ∀ c ∈ ws, isspace c = true) (hws2 : ∀ c ∈ ws2, isspace c = true)
    (hval : ∀ c ∈ val, c ≠ 44) (hv0 : ∀ c, val.head? = some c → isspace c = false)
    (htl : tl = [] ∨ tl.head? = some 44) (hlen : val.length < 128)
    (hw : v.flags.can_write = true) (hne : trim_value val ≠ [])
    (herr : (strtol env.strtol_einval (trim_value val)).2 = false)
    (hin : outside_leap_bits env (strtol env.strtol_einval (trim_value val)).1 = false) :
    (∃ t, write_variables env rbufp restrict_mask s = ctl_error env CERR_UNSPEC t
      ∧ t.sent = s.sent
      ∧ (write_variables env rbufp restrict_mask s).ext_sys_var = s.ext_sys_var
      ∧ (write_variables env rbufp restrict_mask s).ctl_sys_num_events = s.ctl_sys_num_events
      ∧ ∃ d, (write_variables env rbufp restrict_mask s).sent = s.sent ++ [d]
        ∧ d.r_m_e_op = CTL_RESPONSE ||| CTL_ERROR ||| (s.res_opcode &&& CTL_OP_MASK)
        ∧ d.status = CERR_UNSPEC * 256
        ∧ d.count = 0)
    ∧ ∀ (h : Handlers) (q : recvbuf) (m : Int) (s0 : CtlState),
        h.read_variables = read_variables → well_framed env q
        → byteAt q.recv_pkt 1 = CTL_OP_READVAR
        → s0.ext_sys_var = s.ext_sys_var → s0.ctl_sys_num_events = s.ctl_sys_num_events
        → s0.rpkt.offset = s.rpkt.offset → s0.quiet_until = s.quiet_until
        → ∃ X Y, (process_control env h q m s0).sent = s0.sent ++ X
          ∧ (process_control env h q m (write_variables env rbufp restrict_mask s)).sent
              = (write_variables env rbufp restrict_mask s).sent ++ Y
          ∧ X.map Datagram.view = Y.map Datagram.view := by
  have hb := write_builtin_valid env
    { s with rpkt := { s.rpkt with status := env.ctlsysstatus s.ctl_sys_num_events % 65536 } }
    pre post v ws ws2 val tl hsv hpre hv hR hws hws2 hval hv0 htl hlen hw hne herr hin
  have hwv := write_variables_first env rbufp restrict_mask s _ hassoc hb
  obtain ⟨-, k2, k3, -, -, -, k7, -⟩ := ctl_error_keeps env CERR_UNSPEC
    { ({ s with rpkt := { s.rpkt with
          status := env.ctlsysstatus s.ctl_sys_num_events % 65536 } } : CtlState) with
      reqpt := item_start s + v.name.length + ws.length + 1 + ws2.length
              + val.length + (if tl = [] then 0 else 1) }
  have k8 := ctl_error_offset env CERR_UNSPEC
    { ({ s with rpkt := { s.rpkt with
          status := env.ctlsysstatus s.ctl_sys_num_events % 65536 } } : CtlState) with
      reqpt := item_start s + v.name.length + ws.length + 1 + ws2.length
              + val.length + (if tl = [] then 0 else 1) }
  obtain ⟨d, hd, e1, e2, e3, -⟩ := ctl_error_sent env CERR_UNSPEC
    { ({ s with rpkt := { s.rpkt with
          status := env.ctlsysstatus s.ctl_sys_num_events % 65536 } } : CtlState) with
      reqpt := item_start s + v.name.length + ws.length + 1 + ws2.length
              + val.length + (if tl = [] then 0 else 1) }
  refine ⟨⟨_, hwv, rfl, ?_, ?_, d, ?_, e1, by rw [e2]; decide, e3⟩, ?_⟩
  · rw [hwv]; exact k2
  · rw [hwv]; exact k3
  · rw [hwv]; exact hd
  · intro h q m s0 hh hwf hop x1 x2 x3 x4
    refine readvar_unaffected env h q m s0 _ hh hwf hop ?_ ?_ ?_ ?_
    · rw [hwv]; exact x1.trans k2.symm
    · rw [hwv]; exact x2.trans k3.symm
    · rw [hwv]; exact x3.trans k8.symm
    · rw [hwv]; exact x4.trans k7.symm

theorem writevar_builtin_no_effect_witness :
    (∃ t, write_variables leap_env (auth_writevar (str "leap=1")) 0 leap1_write_state
          = ctl_error leap_env CERR_UNSPEC t
      ∧ t.sent = leap1_write_state.sent
      ∧ (write_variables leap_env (auth_writevar (str "leap=1")) 0 leap1_write_state).ext_sys_var
          = leap1_write_state.ext_sys_var
      ∧ (write_variables leap_env (auth_writevar (str "leap=1")) 0
          leap1_write_state).ctl_sys_num_events = leap1_write_state.ctl_sys_num_events
      ∧ ∃ d, (write_variables leap_env (auth_writevar (str "leap=1")) 0 leap1_write_state).sent
          = leap1_write_state.sent ++ [d]
        ∧ d.r_m_e_op = CTL_RESPONSE ||| CTL_ERROR ||| (leap1_write_state.res_opcode &&& CTL_OP_MASK)
        ∧ d.status = CERR_UNSPEC * 256
        ∧ d.count = 0)
    ∧ (∃ X Y, (process_control leap_env write_handlers leap_foo_request 0 auth_state).sent
          = auth_state.sent ++ X
        ∧ (process_control leap_env write_handlers leap_foo_request 0
            (write_variables leap_env (auth_writevar (str "leap=1")) 0 leap1_write_state)).sent
          = (write_variables leap_env (auth_writevar (str "leap=1")) 0 leap1_write_state).sent
            ++ Y
        ∧ X.map Datagram.view = Y.map Datagram.view)
    ∧ (process_control leap_env write_handlers leap_foo_request 0
          (process_control leap_env write_handlers (auth_writevar (str "leap=1")) 0
            auth_state)).sent.map Datagram.view
        = ((process_control leap_env write_handlers (auth_writevar (str "leap=1")) 0
            auth_state).sent
          ++ (process_control leap_env write_handlers leap_foo_request 0
                auth_state).sent).map Datagram.view :=
  ⟨(writevar_builtin_no_effect leap_env (auth_writevar (str "leap=1")) 0 leap1_write_state
      (sys_var.take 1) (sys_var.drop 2) leap_var [] [] (str "1") [] (by decide) (by decide)
      (by decide) (by decide) (by decide) (by decide) (by decide) (by decide) (by decide)
      (by decide) (by decide) (by decide) (by decide) (by decide) (by decide)).1,
   (writevar_builtin_no_effect leap_env (auth_writevar (str "leap=1")) 0 leap1_write_state
      (sys_var.take 1) (sys_var.drop 2) leap_var [] [] (str "1") [] (by decide) (by decide)
      (by decide) (by decide) (by decide) (by decide) (by decide) (by decide) (by decide)
      (by decide) (by decide) (by decide) (by decide) (by decide) (by decide)).2
      write_handlers leap_foo_request 0 auth_state rfl (by decide) (by decide) (by decide)
      (by decide) (by decide) (by decide),
   by decide⟩

/-! ### The random tag -/

theorem dec_digits_digits (fuel : Nat) : ∀ (n c : Nat), c ∈ dec_digits fuel n → 48 ≤ c ∧ c ≤ 57 := by
  induction fuel with
  | zero => intro n c h; simp [dec_digits] at h
  | succ fuel ih =>
    intro n c h
    rw [dec_digits] at h
    split_ifs at h with h1
    · simp only [List.mem_singleton] at h; omega
    · rw [List.mem_append, List.mem_singleton] at h
      rcases h with h | h
      · exact ih _ _ h
      · omega

theorem dec_digits_length (fuel : Nat) : ∀ n : Nat, (dec_digits fuel n).length ≤ fuel := by
  induction fuel with
  | zero => intro n; simp [dec_digits]
  | succ fuel ih =>
    intro n
    rw [dec_digits]
    split_ifs
    · simp
    · rw [List.length_append, List.length_singleton]
      have := ih (n / 10)
      omega

theorem dec_digits_ne_nil (fuel n : Nat) : dec_digits (fuel + 1) n ≠ [] := by
  rw [dec_digits]
  split_ifs <;> simp

theorem fmt_ld_length (i : Int) : (fmt_ld i).length ≤ 21 := by
  unfold fmt_ld
  split_ifs
  · rw [List.length_cons]
    have := dec_digits_length 20 i.natAbs
    omega
  · have := dec_digits_length 20 i.toNat
    omega

theorem random_tag_small (env : Env) (indx : Int) (s : CtlState)
    (hd : env.ntp_random s.random_calls % 2 ^ 32 < 2 ^ 31) :
    ∃ a b c v, 97 ≤ a ∧ a ≤ 122 ∧ 97 ≤ b ∧ b ≤ 122 ∧ 97 ≤ c ∧ c ≤ 122
      ∧ (∀ d ∈ fmt_lu v, 48 ≤ d ∧ d ≤ 57) ∧ fmt_lu v ≠ []
      ∧ send_random_tag_value env indx s
          = ctl_putdata env ([a, b, c, 46] ++ fmt_ld indx ++ [61] ++ fmt_lu v) false
              { s with random_calls := s.random_calls + 1 } := by
  generalize hr : env.ntp_random s.random_calls % 2 ^ 32 = r at hd
  have e1 : to_int32 r = (r : Int) := by
    unfold to_int32
    have : r % 2 ^ 32 = r := by omega
    rw [this, if_pos hd]
  have t1 : ∀ n : Nat, ((97 : Int) + ((n : Int)).tmod 26) % 256 = ((97 + n % 26 : Nat) : Int) := by
    intro n
    rw [Int.tmod_eq_emod (by omega) (by omega)]
    omega
  have t2 : ∀ n : Nat, ((n : Int)) >>> 5 = ((n / 32 : Nat) : Int) := by
    intro n
    show Int.shiftRight (n : Int) 5 = _
    simp [Int.shiftRight, Nat.shiftRight_eq_div_pow]
  have hl := fmt_ld_length indx
  have hv := dec_digits_length 20 ((r / 32 / 32 / 32) % 2 ^ 64)
  refine ⟨97 + r % 26, 97 + r / 32 % 26, 97 + r / 32 / 32 % 26, r / 32 / 32 / 32,
    by omega, by omega, by omega, by omega, by omega, by omega,
    fun d hd => dec_digits_digits 20 _ d hd, dec_digits_ne_nil 19 _, ?_⟩
  unfold send_random_tag_value ntp_random
  dsimp only
  rw [hr, e1, t1, t2, t1, t2, t1, t2]
  simp only [Int.toNat_ofNat]
  have e5 : to_u64 ((r / 32 / 32 / 32 : Nat) : Int) = r / 32 / 32 / 32 := by
    unfold to_u64; omega
  rw [e5, List.take_of_length_le (by omega)]
  unfold ctl_putuint ctl_put_tagged
  have e6 : ([97 + r % 26, 97 + r / 32 % 26, 97 + r / 32 / 32 % 26, 46] ++ fmt_ld indx).length + 1 < 200 := by
    simp only [List.length_append, List.length_cons, List.length_nil]; omega
  rw [if_pos e6, List.take_of_length_le]
  · unfold fmt_lu
    simp only [List.length_append, List.length_cons, List.length_nil] at e6 ⊢
    omega

/-- The part of claim C28 that holds. For every draw below `2^31`, which
`send_random_tag_value` reads as a non-negative `int`, and every index `k`,
`send_random_tag_value` takes one draw and emits one token through
`ctl_putdata`: three characters each in `a`..`z`, a dot, the decimal index
`k`, `=` and a non-empty string of decimal digits. -/
theorem random_tag_lower_case (env : Env) (indx : Int) (s : CtlState)
    (hd : (ntp_random env s).1 < 2 ^ 31) :
    ∃ a b c v, 97 ≤ a ∧ a ≤ 122 ∧ 97 ≤ b ∧ b ≤ 122 ∧ 97 ≤ c ∧ c ≤ 122
      ∧ (∀ d ∈ fmt_lu v, 48 ≤ d ∧ d ≤ 57) ∧ fmt_lu v ≠ []
      ∧ send_random_tag_value env indx s
          = ctl_putdata env ([a, b, c, 46] ++ fmt_ld indx ++ [61] ++ fmt_lu v) false
              (ntp_random env s).2 :=
  random_tag_small env indx s hd

/-- The theorem `random_tag_lower_case` on the draw `0x7fffffff` with index 5:
the token is `xdr.5=65535`. -/
theorem random_tag_lower_case_witness :
    (∃ a b c v, 97 ≤ a ∧ a ≤ 122 ∧ 97 ≤ b ∧ b ≤ 122 ∧ 97 ≤ c ∧ c ≤ 122
      ∧ (∀ d ∈ fmt_lu v, 48 ≤ d ∧ d ≤ 57) ∧ fmt_lu v ≠ []
      ∧ send_random_tag_value { std_env with ntp_random := (fun _ => 0x7fffffff) } 5 init_state
          = ctl_putdata { std_env with ntp_random := (fun _ => 0x7fffffff) }
              ([a, b, c, 46] ++ fmt_ld 5 ++ [61] ++ fmt_lu v) false
              (ntp_random { std_env with ntp_random := (fun _ => 0x7fffffff) } init_state).2)
    ∧ stream (send_random_tag_value { std_env with ntp_random := (fun _ => 0x7fffffff) } 5
        init_state) = str "xdr.5=65535" :=
  ⟨random_tag_lower_case { std_env with ntp_random := (fun _ => 0x7fffffff) } 5 init_state
    (by decide), by decide⟩

/-- Claim C28 fails on this input: the 32-bit draw `0x80000000` with index 5.
The routine computes `'a' + noise % 26` for a lower case letter, but `noise`
is an `int` and the draw is `-2^31` in it; `%` gives the remainders -24, -4
and -18, so the three characters are `I`, `]` and `O`, none of them a lower
case letter, and the value is `-65536` printed as an unsigned long. -/
theorem random_tag_high_draw :
    ((ntp_random { std_env with ntp_random := (fun _ => 0x80000000) } init_state).1 = 2 ^ 31)
    ∧ stream (send_random_tag_value { std_env with ntp_random := (fun _ => 0x80000000) } 5
        init_state) = str "I]O.5=18446744073709486080" := by
  decide

/-! ### Randomized entries: every field once -/

theorem request_data_area_eq (rbufp : recvbuf) :
    request_data_area rbufp
      = (List.range (be16 rbufp.recv_pkt 10)).map
          (fun i => byteAt rbufp.recv_pkt (CTL_HEADER_LEN + i)) := by
  unfold request_data_area request_bytes
  rw [Nat.sub_zero, List.range_eq_range']
  apply List.map_congr_left
  intro i _
  unfold byteAt
  rw [List.getD_eq_getElem?_getD, List.getD_eq_getElem?_getD, List.getElem?_drop]

theorem data_area_selector (rbufp : recvbuf) (sel : List Nat) :
    (be16 rbufp.recv_pkt 10 = sel.length
      ∧ (List.range sel.length).map (fun i => byteAt rbufp.recv_pkt (CTL_HEADER_LEN + i)) = sel)
    ↔ request_data_area rbufp = sel := by
  rw [request_data_area_eq]
  constructor
  · rintro ⟨h1, h2⟩
    rw [h1, h2]
  · intro h
    have hl : be16 rbufp.recv_pkt 10 = sel.length := by
      have := congrArg List.length h
      rw [List.length_map, List.length_range] at this
      exact this
    refine ⟨hl, ?_⟩
    rw [← hl]
    exact h

theorem send_restrict_list_eq (env : Env) (ipv6 : Bool) :
    ∀ (l : List restrict_u) (idx : Nat) (s : CtlState), idx + l.length < 2 ^ 32 →
      (send_restrict_list env ipv6 l idx s).1 = idx + l.length
      ∧ (send_restrict_list env ipv6 l idx s).2
          = ((List.range' idx l.length).zip (l.map (fun r => (r, ipv6)))).foldl
              (fun t e => send_restrict_entry env e.2.1 e.2.2 e.1 t) s := by
  intro l
  induction l with
  | nil =>
    intro idx s _
    exact ⟨rfl, rfl⟩
  | cons r l ih =>
    intro idx s h
    rw [List.length_cons] at h
    rw [send_restrict_list, Nat.mod_eq_of_lt (by omega)]
    obtain ⟨i1, i2⟩ := ih (idx + 1) (send_restrict_entry env r ipv6 idx s) (by omega)
    rw [i1, i2]
    refine ⟨by rw [List.length_cons]; omega, ?_⟩
    rw [List.length_cons, List.range'_succ, List.map_cons, List.zip_cons_cons, List.foldl_cons]

theorem zip_range_append {α : Type} (a b : List α) (k : Nat) :
    (List.range' k (a ++ b).length).zip (a ++ b)
      = (List.range' k a.length).zip a ++ (List.range' (k + a.length) b.length).zip b := by
  induction a generalizing k with
  | nil => simp
  | cons x a ih =>
    rw [List.cons_append, List.length_cons, List.length_cons, List.range'_succ, List.range'_succ,
      List.zip_cons_cons, List.zip_cons_cons, List.cons_append, ih (k + 1),
      show k + (a.length + 1) = k + 1 + a.length by omega]

theorem read_addr_restrictions_eq (env : Env) (s : CtlState)
    (hlen : (restrict_entries env).length < 2 ^ 32) :
    read_addr_restrictions env s
      = ctl_flushpkt env 0
          (((List.range (restrict_entries env).length).zip (restrict_entries env)).foldl
            (fun t e => send_restrict_entry env e.2.1 e.2.2 e.1 t) s) := by
  unfold restrict_entries at hlen ⊢
  rw [List.length_append, List.length_map, List.length_map] at hlen
  unfold read_addr_restrictions
  dsimp only
  obtain ⟨a1, a2⟩ := send_restrict_list_eq env false env.restrictlist4 0 s (by omega)
  rw [a1, a2, Nat.zero_add]
  obtain ⟨b1, b2⟩ := send_restrict_list_eq env true env.restrictlist6 env.restrictlist4.length
    ((((List.range' 0 env.restrictlist4.length).zip
      (env.restrictlist4.map (fun r => (r, false)))).foldl
        (fun t e => send_restrict_entry env e.2.1 e.2.2 e.1 t) s)) (by omega)
  rw [b2, List.range_eq_range', zip_range_append, List.foldl_append, List.length_map,
    List.length_map, Nat.zero_add]

/-- Claim C30. `read_ordlist`: a request data area that is empty or is exactly
the 7 bytes `ifstats` selects the ifstats listing; one that is exactly the 17
bytes `addr_restrictions` selects the restrict listing, which sends the
entries of the IPv4 list followed by those of the IPv6 list, with indices
running consecutively from 0, and flushes the response; any other data area
yields the UNKNOWNVAR error response and nothing else. The two lists hold
fewer than `2^32` entries, as the `u_int` index needs. -/
theorem read_ordlist_selector (env : Env) (rbufp : recvbuf) (restrict_mask : Int)
    (s : CtlState) (hlen : (restrict_entries env).length < 2 ^ 32) :
    ((request_data_area rbufp = [] ∨ request_data_area rbufp = str "ifstats") →
      read_ordlist env rbufp restrict_mask s = read_ifstats env s)
    ∧ (request_data_area rbufp = str "addr_restrictions" →
      read_ordlist env rbufp restrict_mask s
        = ctl_flushpkt env 0
            (((List.range (restrict_entries env).length).zip (restrict_entries env)).foldl
              (fun t e => send_restrict_entry env e.2.1 e.2.2 e.1 t) s))
    ∧ (request_data_area rbufp ≠ [] → request_data_area rbufp ≠ str "ifstats" →
        request_data_area rbufp ≠ str "addr_restrictions" →
      read_ordlist env rbufp restrict_mask s = ctl_error env CERR_UNKNOWNVAR s
      ∧ ∃ d, (read_ordlist env rbufp restrict_mask s).sent = s.sent ++ [d]
        ∧ d.r_m_e_op = CTL_RESPONSE ||| CTL_ERROR ||| (s.res_opcode &&& CTL_OP_MASK)
        ∧ d.status = CERR_UNKNOWNVAR * 256
        ∧ d.count = 0) := by
  have e0 := data_area_selector rbufp []
  have e7 := data_area_selector rbufp (str "ifstats")
  have e17 := data_area_selector rbufp (str "addr_restrictions")
  have l7 : (str "ifstats").length = 7 := by decide
  have l17 : (str "addr_restrictions").length = 17 := by decide
  rw [l7] at e7
  rw [l17] at e17
  simp only [List.length_nil, List.range_zero, List.map_nil, and_true] at e0
  refine ⟨?_, ?_, ?_⟩
  · intro h
    unfold read_ordlist
    dsimp only
    rw [if_pos]
    rcases h with h | h
    · exact Or.inl (e0.mpr h)
    · exact Or.inr (e7.mpr h)
  · intro h
    have h17 := e17.mpr h
    unfold read_ordlist
    dsimp only
    rw [if_neg, if_pos h17, read_addr_restrictions_eq env s hlen]
    rw [h17.1]
    intro hc
    rcases hc with hc | ⟨hc, _⟩ <;> omega
  · intro h0 h7 h17
    have k : read_ordlist env rbufp restrict_mask s = ctl_error env CERR_UNKNOWNVAR s := by
      unfold read_ordlist
      dsimp only
      rw [if_neg, if_neg]
      · intro hc; exact h17 (e17.mp hc)
      · intro hc
        rcases hc with hc | hc
        · exact h0 (e0.mp hc)
        · exact h7 (e7.mp hc)
    refine ⟨k, ?_⟩
    obtain ⟨d, hd, d1, d2, d3, -⟩ := ctl_error_sent env CERR_UNKNOWNVAR s
    exact ⟨d, by rw [k]; exact hd, d1, by rw [d2]; decide, d3⟩

/-! ### CONFIGURE -/

theorem same_globals_refl (a : CtlState) : same_globals a a :=
  ⟨rfl, rfl, rfl, rfl, rfl, rfl, rfl, rfl, rfl, rfl, rfl, rfl, rfl, rfl, rfl, rfl, rfl⟩

theorem same_globals_trans {a b c : CtlState} (h1 : same_globals a b) (h2 : same_globals b c) :
    same_globals a c := by
  obtain ⟨a1, a2, a3, a4, a5, a6, a7, a8, a9, a10, a11, a12, a13, a14, a15, a16, a17⟩ := h1
  obtain ⟨b1, b2, b3, b4, b5, b6, b7, b8, b9, b10, b11, b12, b13, b14, b15, b16, b17⟩ := h2
  exact ⟨a1.trans b1, a2.trans b2, a3.trans b3, a4.trans b4, a5.trans b5, a6.trans b6,
    a7.trans b7, a8.trans b8, a9.trans b9, a10.trans b10, a11.trans b11, a12.trans b12,
    a13.trans b13, a14.trans b14, a15.trans b15, a16.trans b16, a17.trans b17⟩

theorem ctl_error_globals (env : Env) (e : Nat) (s : CtlState) :
    same_globals (ctl_error env e s) s := by
  unfold ctl_error same_globals
  dsimp only
  split_ifs <;> simp [sendpkt]

theorem put_byte_globals (s : CtlState) (c : Nat) : same_globals (put_byte s c) s := by
  simp [put_byte, set_datapt, same_globals]

theorem flush_crlf_globals (more : Nat) (s : CtlState) : same_globals (flush_crlf more s) s := by
  unfold flush_crlf
  split_ifs
  · exact same_globals_trans (put_byte_globals _ _) (put_byte_globals _ _)
  · exact same_globals_refl s

theorem ctl_flushpkt_globals (env : Env) (more : Nat) (s : CtlState) :
    same_globals (ctl_flushpkt env more s) s := by
  refine same_globals_trans ?_ (flush_crlf_globals more s)
  unfold ctl_flushpkt
  generalize flush_crlf more s = t
  dsimp only
  unfold same_globals
  split_ifs <;> simp [sendpkt]

theorem ctl_putdata_loop_globals (env : Env) (ov : Nat) :
    ∀ (fuel : Nat) (dp : List Nat) (s : CtlState),
      same_globals (ctl_putdata_loop env ov fuel dp s).2 s := by
  intro fuel
  induction fuel with
  | zero => intro dp s; exact same_globals_refl s
  | succ fuel ih =>
    intro dp s
    rw [ctl_putdata_loop]
    split_ifs
    · refine same_globals_trans (ih _ _) ?_
      unfold ctl_putdata_body
      dsimp only
      refine same_globals_trans (ctl_flushpkt_globals env CTL_MORE _) ?_
      simp [set_datapt, same_globals]
    · exact same_globals_refl s

theorem ctl_putdata_sep_globals (n : Nat) (s : CtlState) :
    same_globals (ctl_putdata_sep n s) s := by
  unfold ctl_putdata_sep
  dsimp only
  split_ifs <;> simp [put_byte, set_datapt, same_globals]

theorem ctl_putdata_globals (env : Env) (dp : List Nat) (bin : Bool) (s : CtlState) :
    same_globals (ctl_putdata env dp bin s) s := by
  unfold ctl_putdata
  dsimp only
  have h1 : same_globals
      (if bin = true then s else ctl_putdata_sep dp.length { s with datanotbinflag := true }) s := by
    split_ifs
    · exact same_globals_refl s
    · exact same_globals_trans (ctl_putdata_sep_globals _ _) (by simp [same_globals])
  have h2 := ctl_putdata_loop_globals env (if bin = true then 0 else 3) (2 * dp.length + 2) dp
    (if bin = true then s else ctl_putdata_sep dp.length { s with datanotbinflag := true })
  refine same_globals_trans ?_ (same_globals_trans h2 h1)
  simp [set_datapt, same_globals]

theorem request_bytes_range (D : List Nat) (E p : Nat) :
    (List.range (E - p)).map (fun i => byteAt D (p + i)) = request_bytes D E p := by
  unfold request_bytes
  rw [List.range'_eq_map_range, List.map_map]
  rfl

theorem request_bytes_lt (D : List Nat) (E p : Nat) : ∀ c ∈ request_bytes D E p, c < 256 := by
  intro c hc
  unfold request_bytes at hc
  rw [List.mem_map] at hc
  obtain ⟨i, _, rfl⟩ := hc
  exact byteAt_lt D i

theorem byteAt_append_left (a b : List Nat) (i : Nat) (hi : i < a.length) :
    byteAt (a ++ b) i = byteAt a i := by
  unfold byteAt
  rw [List.getD_eq_getElem?_getD, List.getD_eq_getElem?_getD, List.getElem?_append_left hi]

theorem byteAt_last (a : List Nat) (ha : a ≠ []) (hlt : ∀ c ∈ a, c < 256) :
    some (byteAt a (a.length - 1)) = a.getLast? := by
  unfold byteAt
  rw [List.getLast?_eq_getElem?, List.getD_eq_getElem?_getD]
  have hpos : 0 < a.length := List.length_pos.mpr ha
  have hi : a.length - 1 < a.length := by omega
  rw [List.getElem?_eq_getElem hi]
  simp only [Option.getD_some]
  rw [Nat.mod_eq_of_lt (hlt _ (List.getElem_mem hi))]

theorem cstring_append (a rest : List Nat) (ha : ∀ c ∈ a, c ≠ 0) :
    cstring (a ++ 0 :: rest) = a := by
  unfold cstring
  induction a with
  | nil => simp
  | cons x a ih =>
    have hx : x ≠ 0 := ha x (List.mem_cons_self _ _)
    rw [List.cons_append, List.takeWhile_cons, if_pos (by simpa using hx),
      ih (fun c hc => ha c (List.mem_cons_of_mem _ hc))]

/-- The buffer `configure` hands to the collaborator: the data, the newline
if one is appended, a NUL, and what the buffer held beyond. -/
theorem configure_buffer (old data : List Nat) (hlt : ∀ c ∈ data, c < 256) :
    memcpy
        (if decide (data.length > 0 ∧ byteAt (memcpy old 0 data) (data.length - 1) ≠ 10) = true
          then memcpy (memcpy old 0 data) data.length [10] else memcpy old 0 data)
        (if decide (data.length > 0 ∧ byteAt (memcpy old 0 data) (data.length - 1) ≠ 10) = true
          then data.length + 1 else data.length) [0]
      = data ++ config_newline data
          ++ 0 :: old.drop ((data ++ config_newline data).length + 1) := by
  have e0 : memcpy old 0 data = data ++ old.drop data.length := by
    unfold memcpy; simp
  rw [e0]
  by_cases hd : data = []
  · subst hd
    simp [config_newline, memcpy]
  · have hpos : 0 < data.length := List.length_pos.mpr hd
    have hb : byteAt (data ++ old.drop data.length) (data.length - 1)
        = byteAt data (data.length - 1) := byteAt_append_left _ _ _ (by omega)
    have hl := byteAt_last data hd hlt
    rw [hb]
    by_cases h10 : byteAt data (data.length - 1) = 10
    · have hg : data.getLast? = some 10 := by rw [← hl, h10]
      have hn : config_newline data = [] := by
        unfold config_newline; rw [if_neg]; intro hc; exact hc.2 hg
      rw [hn, if_neg (by simp [h10]), if_neg (by simp [h10])]
      unfold memcpy
      simp [List.take_append_of_le_length]
    · have hg : data.getLast? ≠ some 10 := by
        rw [← hl]; intro hc; exact h10 (Option.some.inj hc)
      have hn : config_newline data = [10] := by
        unfold config_newline; rw [if_pos ⟨hd, hg⟩]
      rw [hn, if_pos (by simp [h10, hpos]), if_pos (by simp [h10, hpos])]
      unfold memcpy
      simp [List.take_append_of_le_length, List.take_append_eq_append_take]
      rw [List.take_of_length_le (Nat.le_succ _), List.drop_append_eq_append_drop,
        List.drop_of_length_le (by omega), List.nil_append,
        show data.length + 1 + 1 - data.length = 2 by omega]
      simp [List.drop_drop]

theorem configure_run (env : Env) (rbufp : recvbuf) (restrict_mask : Int) (s : CtlState)
    (hsize : 2 ≤ env.remote_config_buffer_size ∧ env.remote_config_buffer_size < 2 ^ 64)
    (hreq : s.reqpt ≤ s.reqend ∧ s.reqend < 2 ^ 64)
    (hassoc : s.res_associd = 0)
    (hmod : env.RES_NOMODIFY &&& (restrict_mask % 2 ^ 32).toNat = 0)
    (hfit : s.reqend - s.reqpt ≤ env.remote_config_buffer_size - 2) :
    (configure env rbufp restrict_mask s).config_runs
      = s.config_runs ++ [request_bytes s.reqdata s.reqend s.reqpt
          ++ config_newline (request_bytes s.reqdata s.reqend s.reqpt)
          ++ 0 :: s.remote_config_buffer.drop
              ((request_bytes s.reqdata s.reqend s.reqpt
                ++ config_newline (request_bytes s.reqdata s.reqend s.reqpt)).length + 1)] := by
  have e1 : (s.reqend + 2 ^ 64 - s.reqpt) % 2 ^ 64 = s.reqend - s.reqpt := by omega
  have e2 : (env.remote_config_buffer_size + 2 ^ 64 - 2) % 2 ^ 64
      = env.remote_config_buffer_size - 2 := by omega
  have hl : (request_bytes s.reqdata s.reqend s.reqpt).length = s.reqend - s.reqpt := by
    unfold request_bytes
    rw [List.length_map, List.length_range']
  have hb := configure_buffer s.remote_config_buffer (request_bytes s.reqdata s.reqend s.reqpt)
    (request_bytes_lt _ _ _)
  rw [hl] at hb
  unfold configure
  rw [if_neg (by rw [hassoc]; simp), if_neg (by rw [hmod]; simp)]
  dsimp only
  rw [e1, e2, if_neg (by omega), request_bytes_range]
  refine ((ctl_flushpkt_globals env 0 _).2.2.2.2.2.2.1).trans ?_
  refine ((ctl_putdata_globals env _ false _).2.2.2.2.2.2.1).trans ?_
  dsimp only
  rw [hb]

theorem configure_rejects (env : Env) (rbufp : recvbuf) (restrict_mask : Int) (s : CtlState)
    (h : s.res_associd ≠ 0 ∨ env.RES_NOMODIFY &&& (restrict_mask % 2 ^ 32).toNat ≠ 0
      ∨ (s.reqend + 2 ^ 64 - s.reqpt) % 2 ^ 64
          > (env.remote_config_buffer_size + 2 ^ 64 - 2) % 2 ^ 64) :
    (configure env rbufp restrict_mask s).config_runs = s.config_runs
    ∧ (s.res_associd ≠ 0 → configure env rbufp restrict_mask s = ctl_error env CERR_BADVALUE s) := by
  constructor
  · unfold configure
    by_cases h1 : s.res_associd ≠ 0
    · rw [if_pos h1]
      exact (ctl_error_globals env _ s).2.2.2.2.2.2.1
    · rw [if_neg h1]
      by_cases h2 : env.RES_NOMODIFY &&& (restrict_mask % 2 ^ 32).toNat ≠ 0
      · rw [if_pos h2]
        dsimp only
        refine ((ctl_flushpkt_globals env 0 _).2.2.2.2.2.2.1).trans ?_
        exact (ctl_putdata_globals env _ false _).2.2.2.2.2.2.1
      · rw [if_neg h2]
        dsimp only
        have h3 : (s.reqend + 2 ^ 64 - s.reqpt) % 2 ^ 64
            > (env.remote_config_buffer_size + 2 ^ 64 - 2) % 2 ^ 64 := by
          rcases h with h | h | h
          · exact absurd h h1
          · exact absurd h h2
          · exact h
        rw [if_pos h3]
        refine ((ctl_flushpkt_globals env 0 _).2.2.2.2.2.2.1).trans ?_
        exact (ctl_putdata_globals env _ false _).2.2.2.2.2.2.1
  · intro h1
    unfold configure
    rw [if_pos h1]

/-! ### Nonces -/

theorem hex_digit_facts : ∀ d, d < 16 →
    isspace (hex_digit d) = false ∧ hex_digit d ≠ 45 ∧ hex_digit d ≠ 43
    ∧ hex_digit d ≠ 120 ∧ hex_digit d ≠ 88
    ∧ digit_value 16 (hex_digit d) = some d := by
  decide

theorem scan_hex8 (d0 d1 d2 d3 d4 d5 d6 d7 : Nat) (rest : List Nat)
    (h0 : d0 < 16) (h1 : d1 < 16) (h2 : d2 < 16) (h3 : d3 < 16) (h4 : d4 < 16) (h5 : d5 < 16)
    (h6 : d6 < 16) (h7 : d7 < 16) :
    scan_number 16 (some 8)
        ([hex_digit d0, hex_digit d1, hex_digit d2, hex_digit d3, hex_digit d4, hex_digit d5,
          hex_digit d6, hex_digit d7] ++ rest)
      = some { neg := false,
               value := 16 * (16 * (16 * (16 * (16 * (16 * (16 * (16 * 0 + d0) + d1) + d2) + d3)
                  + d4) + d5) + d6) + d7,
               rest := rest } := by
  obtain ⟨a0, b0, c0, -, -, e0⟩ := hex_digit_facts d0 h0
  obtain ⟨-, -, -, x1, y1, e1⟩ := hex_digit_facts d1 h1
  obtain ⟨-, -, -, -, -, e2⟩ := hex_digit_facts d2 h2
  obtain ⟨-, -, -, -, -, e3⟩ := hex_digit_facts d3 h3
  obtain ⟨-, -, -, -, -, e4⟩ := hex_digit_facts d4 h4
  obtain ⟨-, -, -, -, -, e5⟩ := hex_digit_facts d5 h5
  obtain ⟨-, -, -, -, -, e6⟩ := hex_digit_facts d6 h6
  obtain ⟨-, -, -, -, -, e7⟩ := hex_digit_facts d7 h7
  unfold scan_number
  simp only [List.cons_append, List.nil_append, List.dropWhile_cons, a0, Bool.false_eq_true,
    if_false, Option.getD_some, List.head?_cons, Option.some.injEq, b0, c0, or_self, and_false,
    decide_False, List.getD_cons_succ, List.getD_cons_zero, x1, y1, false_and,
    List.take_succ_cons, List.take_zero, List.takeWhile_cons, e0, e1, e2, e3, e4, e5, e6, e7,
    Option.isSome_some, if_true, List.takeWhile_nil, List.foldl_cons, List.foldl_nil,
    List.length_cons, List.length_nil, List.drop_succ_cons, List.drop_zero]
  simp

theorem fmt_08x_eq (a : Nat) :
    fmt_08x a
      = [hex_digit (a % 2 ^ 32 / 16 ^ 7 % 16), hex_digit (a % 2 ^ 32 / 16 ^ 6 % 16),
         hex_digit (a % 2 ^ 32 / 16 ^ 5 % 16), hex_digit (a % 2 ^ 32 / 16 ^ 4 % 16),
         hex_digit (a % 2 ^ 32 / 16 ^ 3 % 16), hex_digit (a % 2 ^ 32 / 16 ^ 2 % 16),
         hex_digit (a % 2 ^ 32 / 16 ^ 1 % 16), hex_digit (a % 2 ^ 32 / 16 ^ 0 % 16)] := by
  unfold fmt_08x
  rfl

theorem fmt_08x_length (a : Nat) : (fmt_08x a).length = 8 := by
  rw [fmt_08x_eq]; rfl

/-- The conversion `%08x` of `sscanf` reads back what `%08x` of `snprintf`
printed. -/
theorem scan_fmt_08x (a : Nat) (rest : List Nat) :
    scan_number 16 (some 8) (fmt_08x a ++ rest)
      = some { neg := false, value := a % 2 ^ 32, rest := rest } := by
  rw [fmt_08x_eq, scan_hex8 _ _ _ _ _ _ _ _ rest (Nat.mod_lt _ (by norm_num))
    (Nat.mod_lt _ (by norm_num)) (Nat.mod_lt _ (by norm_num)) (Nat.mod_lt _ (by norm_num))
    (Nat.mod_lt _ (by norm_num)) (Nat.mod_lt _ (by norm_num)) (Nat.mod_lt _ (by norm_num))
    (Nat.mod_lt _ (by norm_num))]
  congr 2
  have : a % 2 ^ 32 < 2 ^ 32 := Nat.mod_lt _ (by norm_num)
  generalize a % 2 ^ 32 = b at this
  norm_num
  omega

theorem stored_unsigned_32 (v : Nat) (rest : List Nat) :
    stored_unsigned 32 { neg := false, value := v % 2 ^ 32, rest := rest } = v % 2 ^ 32 := by
  unfold stored_unsigned
  simp only [Bool.false_eq_true, if_false]
  omega

theorem salt_loop_fresh (env : Env) (fuel : Nat) (s : CtlState)
    (h0 : s.salt.getD 0 0 ≠ 0)
    (h1 : (env.current_time + 2 ^ 64 - s.last_salt_update % 2 ^ 64) % 2 ^ 64 < 3600) :
    salt_loop env fuel s = some s := by
  unfold salt_loop
  rw [if_neg (by omega)]

theorem lfp_parts (ts : Nat) (h : ts < 2 ^ 64) : lfpinit (lfpuint ts % 2 ^ 32) (lfpfrac ts % 2 ^ 32) = ts := by
  unfold lfpinit lfpuint lfpfrac
  omega

theorem lfpuint_lfpinit (i f : Nat) : lfpuint (lfpinit i f) = i % 2 ^ 32 := by
  unfold lfpinit lfpuint
  omega

theorem lfpfrac_lfpinit (i f : Nat) : lfpfrac (lfpinit i f) = f % 2 ^ 32 := by
  unfold lfpinit lfpfrac
  omega

/-- A nonce from `generate_nonce`, checked by `validate_nonce` for a request
from the same address in a state with the same salt, not due for renewal:
the check passes exactly when the integer part of the time since the
receive timestamp of the issuing request is below `NONCE_TIMEOUT`. -/
theorem validate_generated (env1 env2 : Env) (fuel1 fuel2 octets : Nat) (rb1 rb2 : recvbuf)
    (s s1 s2 : CtlState) (n : List Nat)
    (hg : generate_nonce env1 fuel1 rb1 octets s = some (n, s1))
    (hoct : 25 ≤ octets) (ht0 : rb1.recv_time < 2 ^ 64)
    (haddr : rb2.recv_srcadr = rb1.recv_srcadr)
    (hdig : env2.nonce_digest = env1.nonce_digest)
    (hsalt : s2.salt = s1.salt)
    (h0 : s2.salt.getD 0 0 ≠ 0)
    (h1 : (env2.current_time + 2 ^ 64 - s2.last_salt_update % 2 ^ 64) % 2 ^ 64 < 3600) :
    validate_nonce env2 fuel2 n rb2 s2
      = some (decide (lfpuint ((env2.systime % 2 ^ 64 + 2 ^ 64 - rb1.recv_time) % 2 ^ 64)
          < env2.NONCE_TIMEOUT), s2) := by
  unfold generate_nonce derive_nonce at hg
  cases hs : salt_loop env1 fuel1 s with
  | none => rw [hs] at hg; simp at hg
  | some t =>
    rw [hs] at hg
    simp only [Option.some.injEq, Prod.mk.injEq] at hg
    obtain ⟨hn, ht⟩ := hg
    subst ht
    rw [List.take_of_length_le (by
      simp only [List.length_append, fmt_08x_length]; omega)] at hn
    subst hn
    unfold validate_nonce derive_nonce
    rw [List.append_assoc, scan_fmt_08x]
    dsimp only
    rw [scan_fmt_08x]
    dsimp only
    rw [← List.append_nil (fmt_08x _), scan_fmt_08x]
    dsimp only
    rw [salt_loop_fresh env2 fuel2 s2 h0 h1]
    dsimp only
    rw [stored_unsigned_32, stored_unsigned_32, stored_unsigned_32, lfpuint_lfpinit,
      lfpfrac_lfpinit, lfp_parts _ ht0, haddr, hdig, hsalt]
    have e1 : lfpuint rb1.recv_time % 2 ^ 32 % 2 ^ 32 = lfpuint rb1.recv_time := by
      unfold lfpuint; omega
    have e2 : lfpfrac rb1.recv_time % 2 ^ 32 % 2 ^ 32 = lfpfrac rb1.recv_time := by
      unfold lfpfrac; omega
    rw [e1, e2]
    simp

/-! ### READ_MRU: the response under construction -/

theorem building_start (s : CtlState) (h1 : s.datapt + 3 ≤ CTL_MAX_DATA_LEN)
    (h2 : CTL_MAX_DATA_LEN ≤ s.rpkt.data.length) : building s s :=
  ⟨frag_inv_refl s, h1, h2⟩

theorem building_view (s0 s t : CtlState) (h : building s0 s) (h1 : t.sent = s.sent)
    (h2 : t.res_offset = s.res_offset) (h3 : t.res_opcode = s.res_opcode)
    (h4 : t.rpkt = s.rpkt) (h5 : t.datapt = s.datapt) : building s0 t :=
  ⟨frag_inv_congr s0 s t h.1 h1 h2 h3 (by rw [h4]), by rw [h5]; exact h.2.1,
    by rw [h4]; exact h.2.2⟩

theorem building_putdata (env : Env) (s0 s : CtlState) (tok : List Nat)
    (hw : tok.length + 3 < 2 ^ 32) (h : building s0 s) :
    building s0 (ctl_putdata env tok false s)
    ∧ stream (ctl_putdata env tok false s) = stream s ++ (separator tok.length s ++ tok)
    ∧ (ctl_putdata env tok false s).datanotbinflag = true := by
  obtain ⟨u1, ⟨fr, u2, -, u3⟩, u4, -, u5, -, -⟩ := putdata_uniform env tok false s h.2.1 hw
  refine ⟨⟨ctl_putdata_frag_inv env s0 s tok false h.1, u1, le_trans h.2.2 u4⟩, ?_, u5 rfl⟩
  exact stream_extend s _ fr _ u2 (u3 h.2.2)

theorem building_put_tagged (env : Env) (s0 s : CtlState) (tag value : List Nat)
    (h : building s0 s) : building s0 (ctl_put_tagged env tag value s) := by
  unfold ctl_put_tagged
  split_ifs with h1
  · refine (building_putdata env s0 s _ ?_ h).1
    simp only [List.length_append, List.length_cons, List.length_nil, List.length_take]
    have : min (200 - (tag.length + 1) - 1) value.length ≤ 200 := by omega
    have : (2 : Nat) ^ 32 = 4294967296 := by norm_num
    omega
  · exact building_view s0 s _ h rfl rfl rfl rfl rfl

theorem building_putunqstr (env : Env) (s0 s : CtlState) (tag data : List Nat)
    (ht : tag.length ≤ 512) (h : building s0 s) :
    building s0 (ctl_putunqstr env tag data s) := by
  have : (2 : Nat) ^ 32 = 4294967296 := by norm_num
  unfold ctl_putunqstr
  split_ifs with h1 h2
  · refine (building_putdata env s0 s _ ?_ h).1
    simp only [List.length_append, List.length_cons, List.length_nil]
    omega
  · exact building_view s0 s _ h rfl rfl rfl rfl rfl
  · exact (building_putdata env s0 s _ (by omega) h).1

theorem building_random_tag (env : Env) (s0 s : CtlState) (indx : Int) (h : building s0 s) :
    building s0 (send_random_tag_value env indx s) := by
  unfold send_random_tag_value ctl_putuint ntp_random
  dsimp only
  exact building_put_tagged env s0 _ _ _ (building_view s0 s _ h rfl rfl rfl rfl rfl)

theorem tag_d_length (name : List Nat) (k : Int) : (tag_d name k).length ≤ 31 := by
  unfold tag_d
  rw [List.length_take]
  omega

theorem building_mru_field (env : Env) (s0 s : CtlState) (mon : mon_entry) (count : Int)
    (which : Nat) (h : building s0 s) : building s0 (mru_field env mon count which s) := by
  unfold mru_field
  split
  · exact building_putunqstr env s0 s _ _ (by have := tag_d_length (str "addr") count; omega) h
  · exact building_put_tagged env s0 s _ _ h
  · exact building_put_tagged env s0 s _ _ h
  · exact building_put_tagged env s0 s _ _ h
  · exact building_put_tagged env s0 s _ _ h
  · exact building_put_tagged env s0 s _ _ h
  · exact h

theorem building_mru_entry_loop (env : Env) (s0 : CtlState) (mon : mon_entry) (count : Int) :
    ∀ (remaining : Nat) (sent : List Bool) (noise : Nat) (s : CtlState), building s0 s →
      building s0 (send_mru_entry_loop env mon count remaining sent noise s) := by
  intro remaining
  induction remaining with
  | zero => intro sent noise s h; exact h
  | succ remaining ih =>
    intro sent noise s h
    rw [send_mru_entry_loop]
    split
    · exact building_view s0 s _ h rfl rfl rfl rfl rfl
    · exact ih _ _ _ (building_mru_field env s0 s mon count _ h)

theorem building_mru_entry (env : Env) (s0 s : CtlState) (mon : mon_entry) (count : Int)
    (h : building s0 s) : building s0 (send_mru_entry env mon count s) := by
  unfold send_mru_entry ntp_random
  dsimp only
  exact building_mru_entry_loop env s0 mon count _ _ _ _
    (building_view s0 s _ h rfl rfl rfl rfl rfl)

theorem same_output_refl (s : CtlState) : same_output s s :=
  ⟨rfl, rfl, rfl, rfl, rfl, rfl, rfl, rfl, rfl, rfl⟩

theorem same_output_trans {a b c : CtlState} (h1 : same_output a b) (h2 : same_output b c) :
    same_output a c := by
  obtain ⟨a1, a2, a3, a4, a5, a6, a7, a8, a9, a10⟩ := h1
  obtain ⟨b1, b2, b3, b4, b5, b6, b7, b8, b9, b10⟩ := h2
  exact ⟨a1.trans b1, a2.trans b2, a3.trans b3, a4.trans b4, a5.trans b5, a6.trans b6,
    a7.trans b7, a8.trans b8, a9.trans b9, a10.trans b10⟩

theorem ntp_random_output (env : Env) (s : CtlState) : same_output (ntp_random env s).2 s :=
  ⟨rfl, rfl, rfl, rfl, rfl, rfl, rfl, rfl, rfl, rfl⟩

theorem salt_output (s : CtlState) (salt : List Nat) (t : Nat) :
    same_output { s with salt := salt, last_salt_update := t } s :=
  ⟨rfl, rfl, rfl, rfl, rfl, rfl, rfl, rfl, rfl, rfl⟩

theorem salt_loop_succ (env : Env) (fuel : Nat) (s : CtlState)
    (hc : s.salt.getD 0 0 = 0
      ∨ (env.current_time + 2 ^ 64 - s.last_salt_update % 2 ^ 64) % 2 ^ 64 ≥ 3600) :
    salt_loop env (fuel + 1) s
      = salt_loop env fuel
          { (ntp_random env (ntp_random env (ntp_random env (ntp_random env s).2).2).2).2 with
            salt := [(ntp_random env s).1, (ntp_random env (ntp_random env s).2).1,
              (ntp_random env (ntp_random env (ntp_random env s).2).2).1,
              (ntp_random env (ntp_random env (ntp_random env (ntp_random env s).2).2).2).1],
            last_salt_update := env.current_time } := by
  rw [salt_loop, if_pos hc]

theorem salt_loop_view (env : Env) :
    ∀ (fuel : Nat) (s t : CtlState), salt_loop env fuel s = some t → same_output t s := by
  intro fuel
  induction fuel with
  | zero =>
    intro s t h
    unfold salt_loop at h
    by_cases hc : s.salt.getD 0 0 = 0
        ∨ (env.current_time + 2 ^ 64 - s.last_salt_update % 2 ^ 64) % 2 ^ 64 ≥ 3600
    · rw [if_pos hc] at h
      exact absurd h (by simp)
    · rw [if_neg hc] at h
      cases h
      exact same_output_refl s
  | succ fuel ih =>
    intro s t h
    by_cases hc : s.salt.getD 0 0 = 0
        ∨ (env.current_time + 2 ^ 64 - s.last_salt_update % 2 ^ 64) % 2 ^ 64 ≥ 3600
    · rw [salt_loop_succ env fuel s hc] at h
      refine same_output_trans (ih _ _ h) ?_
      refine same_output_trans (salt_output _ _ _) ?_
      refine same_output_trans (ntp_random_output env _) ?_
      refine same_output_trans (ntp_random_output env _) ?_
      refine same_output_trans (ntp_random_output env _) ?_
      exact ntp_random_output env _
    · unfold salt_loop at h
      rw [if_neg hc] at h
      cases h
      exact same_output_refl s

theorem generate_nonce_view (env : Env) (fuel octets : Nat) (rbufp : recvbuf) (s : CtlState)
    (r : List Nat × CtlState) (h : generate_nonce env fuel rbufp octets s = some r) :
    same_output r.2 s := by
  unfold generate_nonce derive_nonce at h
  cases hs : salt_loop env fuel s with
  | none => rw [hs] at h; simp at h
  | some t =>
    rw [hs] at h
    simp only [Option.some.injEq] at h
    subst h
    exact salt_loop_view env fuel s t hs

theorem building_output (s0 s t : CtlState) (h : building s0 s) (ht : same_output t s) :
    building s0 t :=
  building_view s0 s t h ht.1 ht.2.1 ht.2.2.1 ht.2.2.2.1 ht.2.2.2.2.1

theorem building_mru_emit (env : Env) (s0 s : CtlState) (mon : mon_entry) (count : Nat)
    (h : building s0 s) : building s0 (mru_emit env mon count s) := by
  unfold mru_emit
  dsimp only
  split_ifs
  · exact building_random_tag env s0 _ _ (building_mru_entry env s0 _ _ _ h)
  · exact building_mru_entry env s0 _ _ _ h

theorem building_mru_walk (env : Env) (p : mru_parms) (frags limit now : Nat) (s0 : CtlState) :
    ∀ (mon count : Nat) (prior : Option Nat) (emitted : List Nat) (s : CtlState),
      building s0 s → building s0 (mru_walk env p frags limit now mon count prior emitted s).st := by
  intro mon
  induction mon with
  | zero => intro count prior emitted s h; exact h
  | succ m ih =>
    intro count prior emitted s h
    rw [mru_walk]
    split_ifs
    · exact ih _ _ _ _ h
    · exact ih _ _ _ _ (building_view s0 s _ h rfl rfl rfl rfl rfl)
    · exact ih _ _ _ _ (building_mru_emit env s0 _ _ _
        (building_view s0 s _ h rfl rfl rfl rfl rfl))
    · exact ih _ _ _ _ (building_mru_emit env s0 _ _ _ h)
    · exact h

theorem data_op_bits : ∀ y, y < 32 →
    (CTL_RESPONSE ||| CTL_MORE ||| y) &&& CTL_ERROR = 0
    ∧ (CTL_RESPONSE ||| 0 ||| y) &&& CTL_ERROR = 0 := by
  decide

theorem data_only_building (s0 s : CtlState) (h : building s0 s) : data_only s0 s := by
  obtain ⟨⟨fr, h1, -, h3, -, -⟩, -, -⟩ := h
  refine ⟨fr, h1, ?_⟩
  intro d hd
  rw [(h3 d hd).1]
  exact (data_op_bits _ (op_mask_lt _)).1

theorem data_only_flush (env : Env) (s0 s : CtlState) (h : building s0 s) :
    data_only s0 (ctl_flushpkt env 0 s) := by
  obtain ⟨fr, h1, h2⟩ := data_only_building s0 s h
  obtain ⟨d, d1, -, d3, -⟩ := flush_last_uniform env s (by have := h.2.1; omega)
  refine ⟨fr ++ [d], by rw [d1, h1, List.append_assoc], ?_⟩
  intro x hx
  rcases List.mem_append.mp hx with hx | hx
  · exact h2 x hx
  · rw [List.mem_singleton] at hx
    subst hx
    rw [d3]
    exact (data_op_bits _ (op_mask_lt _)).2

theorem building_putts (env : Env) (s0 s : CtlState) (tag : List Nat) (ts : Nat)
    (h : building s0 s) : building s0 (ctl_putts env tag ts s) :=
  building_put_tagged env s0 s _ _ h

theorem data_only_finish (env : Env) (now : Nat) (w : mru_walked) (s0 : CtlState)
    (h : building s0 w.st) : data_only s0 (mru_finish env now w) := by
  unfold mru_finish
  dsimp only
  apply data_only_flush
  split_ifs
  · cases w.prior_mon with
    | none => exact building_putts env s0 _ _ _ (building_random_tag env s0 _ _ h)
    | some m =>
      exact building_putts env s0 _ _ _
        (building_putts env s0 _ _ _ (building_random_tag env s0 _ _ h))
  · cases w.prior_mon with
    | none => exact building_putts env s0 _ _ _ h
    | some m => exact building_putts env s0 _ _ _ (building_putts env s0 _ _ _ h)
  · exact h

theorem data_only_send (env : Env) (rbufp : recvbuf) (p : mru_parms) (frags limit mon : Nat)
    (s0 s : CtlState) (h : building s0 s) :
    data_only s0 (mru_send env rbufp p frags limit mon s) := by
  unfold mru_send
  dsimp only
  cases hg : generate_nonce env SALT_ROUNDS rbufp 128 s with
  | none => exact data_only_building s0 _ (building_view s0 s _ h rfl rfl rfl rfl rfl)
  | some r =>
    dsimp only
    apply data_only_finish
    apply building_mru_walk
    apply building_putunqstr env s0 _ _ _ (by decide)
    exact building_output s0 s r.2 h (generate_nonce_view env _ _ rbufp s r hg)

theorem mru_start_sent (env : Env) (rbufp : recvbuf) (p : mru_parms) (frags limit : Nat)
    (s : CtlState) (h1 : s.datapt + 3 ≤ CTL_MAX_DATA_LEN)
    (h2 : CTL_MAX_DATA_LEN ≤ s.rpkt.data.length) :
    (p.priors ≠ 0 ∧ mru_find_start env p = none
      ∧ mru_start env rbufp p frags limit s = ctl_error env CERR_UNKNOWNVAR s)
    ∨ ((p.priors = 0 ∨ (mru_find_start env p).isSome = true)
      ∧ data_only s (mru_start env rbufp p frags limit s)) := by
  have hb := building_start s h1 h2
  unfold mru_start
  by_cases hp : p.priors ≠ 0
  · rw [if_pos hp]
    cases hf : mru_find_start env p with
    | none => exact Or.inl ⟨hp, rfl, rfl⟩
    | some m =>
      refine Or.inr ⟨Or.inr rfl, ?_⟩
      dsimp only
      apply data_only_send
      apply building_putunqstr env s _ _ _ (by decide)
      exact building_putts env s _ _ _ hb
  · rw [if_neg hp]
    refine Or.inr ⟨Or.inl (by simpa using hp), ?_⟩
    apply data_only_send
    exact building_view s s _ hb rfl rfl rfl rfl rfl

theorem mru_respond_badvalue (env : Env) (rbufp : recvbuf) (p : mru_parms) (s : CtlState)
    (h1 : s.datapt + 3 ≤ CTL_MAX_DATA_LEN) (h2 : CTL_MAX_DATA_LEN ≤ s.rpkt.data.length) :
    (((p.frags = 0 ∧ ¬ (0 < p.limit ∧ p.limit ≤ env.MRU_ROW_LIMIT))
        ∨ p.frags > env.MRU_FRAGS_LIMIT) →
      mru_respond env rbufp p s = ctl_error env CERR_BADVALUE s)
    ∧ (¬ ((p.frags = 0 ∧ ¬ (0 < p.limit ∧ p.limit ≤ env.MRU_ROW_LIMIT))
        ∨ p.frags > env.MRU_FRAGS_LIMIT) →
      mru_respond env rbufp p s
        = mru_start env rbufp p
            (if p.frags = 0 then env.MRU_FRAGS_LIMIT % 2 ^ 16 else p.frags)
            (if p.limit = 0 then UINT_MAX else p.limit) s
      ∧ ∃ new, (mru_respond env rbufp p s).sent = s.sent ++ new
          ∧ ∀ d ∈ new, ¬ (d.r_m_e_op &&& CTL_ERROR = CTL_ERROR
              ∧ d.status = CERR_BADVALUE * 256)) := by
  constructor
  · intro hc
    unfold mru_respond
    rw [if_pos hc]
  · intro hc
    have e : mru_respond env rbufp p s
        = mru_start env rbufp p
            (if p.frags = 0 then env.MRU_FRAGS_LIMIT % 2 ^ 16 else p.frags)
            (if p.limit = 0 then UINT_MAX else p.limit) s := by
      unfold mru_respond
      rw [if_neg hc]
      push_neg at hc
      by_cases hf : p.frags = 0
      · have hl := hc.1 hf
        have hl0 : p.limit ≠ 0 := by omega
        rw [if_pos ⟨by simp [hf], hl0, hf⟩, if_neg (by simp [hf]), if_pos hf, if_neg hl0]
      · by_cases hl : p.limit = 0
        · rw [if_neg (by simp [hf, hl]), if_pos ⟨hf, hl⟩, if_neg hf, if_pos hl]
        · rw [if_neg (by simp [hf]), if_neg (by simp [hl]), if_neg hf, if_neg hl]
    refine ⟨e, ?_⟩
    rw [e]
    rcases mru_start_sent env rbufp p
      (if p.frags = 0 then env.MRU_FRAGS_LIMIT % 2 ^ 16 else p.frags)
      (if p.limit = 0 then UINT_MAX else p.limit) s h1 h2 with ⟨-, -, k⟩ | ⟨-, fr, k1, k2⟩
    · obtain ⟨d, hd, -, d2, -⟩ := ctl_error_sent env CERR_UNKNOWNVAR s
      refine ⟨[d], by rw [k]; exact hd, ?_⟩
      intro x hx
      rw [List.mem_singleton] at hx
      subst hx
      rw [d2]
      intro hcon
      exact absurd hcon.2 (by decide)
    · refine ⟨fr, k1, ?_⟩
      intro x hx hcon
      rw [k2 x hx] at hcon
      exact absurd hcon.1 (by decide)

/-! ### READ_MRU: the starting point -/

theorem findSome_range {α : Type} (f : Nat → Option α) (n : Nat) :
    ∀ b : α, (List.range n).findSome? f = some b
      ↔ ∃ i, i < n ∧ f i = some b ∧ ∀ j, j < i → f j = none := by
  induction n with
  | zero => intro b; simp
  | succ n ih =>
    intro b
    rw [List.range_succ, List.findSome?_append]
    cases hr : (List.range n).findSome? f with
    | none =>
      have hnone : ∀ j, j < n → f j = none := by
        intro j hj
        exact List.findSome?_eq_none_iff.mp hr j (List.mem_range.mpr hj)
      simp only [Option.or, List.findSome?_cons, List.findSome?_nil]
      constructor
      · intro h
        refine ⟨n, by omega, ?_, hnone⟩
        cases hf : f n with
        | none => rw [hf] at h; simp at h
        | some c => rw [hf] at h; simpa using h
      · rintro ⟨i, hi, hfi, hlt⟩
        have hin : i = n := by
          by_contra hne
          have := hnone i (by omega)
          rw [hfi] at this
          exact absurd this (by simp)
        subst hin
        rw [hfi]
    | some c =>
      obtain ⟨i, hi, hfi, hlt⟩ := (ih c).mp hr
      simp only [Option.or, Option.some.injEq]
      constructor
      · intro h
        subst h
        exact ⟨i, by omega, hfi, hlt⟩
      · rintro ⟨k, hk, hfk, hltk⟩
        have hik : i = k := by
          rcases Nat.lt_trichotomy i k with h | h | h
          · have := hltk i h
            rw [hfi] at this
            exact absurd this (by simp)
          · exact h
          · have := hlt k h
            rw [hfk] at this
            exact absurd this (by simp)
        subst hik
        rw [hfi] at hfk
        exact Option.some.inj hfk

theorem anchor_body (env : Env) (p : mru_parms) (i m : Nat) :
    (match mru_lookup env (p.addr.getD i {}) with
      | none => none
      | some m => if (mon_at env m).last = p.last.getD i 0 then some m else none) = some m
    ↔ anchor_matches env p i m := by
  unfold anchor_matches
  cases hl : mru_lookup env (p.addr.getD i {}) with
  | none => simp
  | some k =>
    dsimp only
    by_cases hk : (mon_at env k).last = p.last.getD i 0
    · rw [if_pos hk]
      constructor
      · intro h
        have := Option.some.inj h
        subst this
        exact ⟨rfl, hk⟩
      · rintro ⟨h1, -⟩
        exact h1
    · rw [if_neg hk]
      constructor
      · intro h; exact absurd h (by simp)
      · rintro ⟨h1, h2⟩
        have := Option.some.inj h1
        subst this
        exact absurd h2 hk

theorem anchor_body_none (env : Env) (p : mru_parms) (i : Nat) :
    (match mru_lookup env (p.addr.getD i {}) with
      | none => none
      | some m => if (mon_at env m).last = p.last.getD i 0 then some m else none) = none
    ↔ ∀ m, ¬ anchor_matches env p i m := by
  constructor
  · intro h m hm
    rw [(anchor_body env p i m).mpr hm] at h
    exact absurd h (by simp)
  · intro h
    cases hb : (match mru_lookup env (p.addr.getD i {}) with
      | none => none
      | some m => if (mon_at env m).last = p.last.getD i 0 then some m else none) with
    | none => rfl
    | some m => exact absurd ((anchor_body env p i m).mp hb) (h m)

/-- The starting point search returns the entry matched by the least index
below `priors` that matches any. -/
theorem mru_find_start_some (env : Env) (p : mru_parms) (m : Nat) :
    mru_find_start env p = some m
      ↔ ∃ i, i < p.priors ∧ anchor_matches env p i m
          ∧ ∀ j, j < i → ∀ k, ¬ anchor_matches env p j k := by
  unfold mru_find_start
  rw [findSome_range]
  constructor
  · rintro ⟨i, hi, h1, h2⟩
    exact ⟨i, hi, (anchor_body env p i m).mp h1,
      fun j hj => (anchor_body_none env p j).mp (h2 j hj)⟩
  · rintro ⟨i, hi, h1, h2⟩
    exact ⟨i, hi, (anchor_body env p i m).mpr h1,
      fun j hj => (anchor_body_none env p j).mpr (h2 j hj)⟩

theorem mru_find_start_none (env : Env) (p : mru_parms) :
    mru_find_start env p = none ↔ ∀ i, i < p.priors → ∀ k, ¬ anchor_matches env p i k := by
  unfold mru_find_start
  rw [List.findSome?_eq_none_iff]
  constructor
  · intro h i hi
    exact (anchor_body_none env p i).mp (h i (List.mem_range.mpr hi))
  · intro h i hi
    exact (anchor_body_none env p i).mpr (h i (List.mem_range.mp hi))

theorem mru_start_anchor (env : Env) (rbufp : recvbuf) (p : mru_parms) (frags limit : Nat)
    (s : CtlState) (hp : p.priors ≠ 0) :
    ((∀ i, i < p.priors → ∀ k, ¬ anchor_matches env p i k) →
      mru_start env rbufp p frags limit s = ctl_error env CERR_UNKNOWNVAR s)
    ∧ (∀ i m, i < p.priors → anchor_matches env p i m →
        (∀ j, j < i → ∀ k, ¬ anchor_matches env p j k) →
      mru_start env rbufp p frags limit s
        = mru_send env rbufp p frags limit (if limit > 1 then m else m + 1)
            (ctl_putunqstr env (str "addr.older") (env.sockporttoa (mon_at env m).rmtadr)
              (ctl_putts env (str "last.older") (mon_at env m).last s))) := by
  constructor
  · intro h
    unfold mru_start
    rw [if_pos hp, (mru_find_start_none env p).mpr h]
  · intro i m hi hm hmin
    unfold mru_start
    rw [if_pos hp, (mru_find_start_some env p m).mpr ⟨i, hi, hm, hmin⟩]

theorem read_mru_list_valid (env : Env) (rbufp : recvbuf) (restrict_mask : Int)
    (s s2 : CtlState) (n : List Nat)
    (hres : env.RES_NOMRULIST &&& (restrict_mask % 2 ^ 32).toNat = 0)
    (hn : (mru_parse env (s.reqend + 1) {} s).1.pnonce = some n)
    (hv : validate_nonce env SALT_ROUNDS n rbufp (mru_parse env (s.reqend + 1) {} s).2
      = some (true, s2)) :
    read_mru_list env rbufp restrict_mask s
      = mru_respond env rbufp (mru_parse env (s.reqend + 1) {} s).1 s2 := by
  unfold read_mru_list
  rw [if_neg (by rw [hres]; simp)]
  dsimp only
  rw [hn]
  dsimp only
  rw [hv]
  simp

/-! ### READ_MRU: the end of the list -/

theorem ts_text_length (ts : Nat) : (ts_text ts).length = 19 := by
  unfold ts_text
  simp only [List.length_append, List.length_cons, List.length_nil, fmt_08x_length]

theorem putts_stream (env : Env) (s0 s : CtlState) (tag : List Nat) (ts : Nat)
    (ht : tag.length ≤ 100) (h : building s0 s) :
    building s0 (ctl_putts env tag ts s)
    ∧ stream (ctl_putts env tag ts s)
        = stream s ++ (separator (tag.length + 20) s ++ (tag ++ [61] ++ ts_text ts))
    ∧ (ctl_putts env tag ts s).datanotbinflag = true := by
  have hlen := ts_text_length ts
  have e : ctl_putts env tag ts s = ctl_putdata env (tag ++ [61] ++ ts_text ts) false s := by
    unfold ctl_putts ctl_put_tagged
    rw [if_pos (by omega)]
    show ctl_putdata env (tag ++ [61] ++ (ts_text ts).take _) false s = _
    rw [List.take_of_length_le (by omega)]
  have hl : (tag ++ [61] ++ ts_text ts).length = tag.length + 20 := by
    simp only [List.length_append, List.length_cons, List.length_nil, hlen]
  have : (2 : Nat) ^ 32 = 4294967296 := by norm_num
  obtain ⟨a, b, c⟩ := building_putdata env s0 s (tag ++ [61] ++ ts_text ts) (by omega) h
  rw [e]
  rw [hl] at b
  exact ⟨a, b, c⟩

/-- The last flush of a text response under construction: CR LF is appended
and the packet goes out. -/
theorem flush_stream (env : Env) (s0 s : CtlState) (h : building s0 s)
    (hn : s.datanotbinflag = true) :
    stream (ctl_flushpkt env 0 s) = stream s ++ [13, 10] := by
  obtain ⟨d, d1, -, -, -, d5⟩ := flush_last_uniform env s (by have := h.2.1; omega)
  obtain ⟨-, -, -, -, -, -, -, -, hdp, -⟩ := ctl_flushpkt_spec env 0 s
  have hp := h.2.1
  have hb := h.2.2
  have hd := d5 (by omega)
  rw [if_pos ⟨hn, by simp only [CTL_MAX_DATA_LEN] at hp ⊢; omega⟩] at hd
  refine stream_extend s _ [d] _ d1 ?_
  have : pending (ctl_flushpkt env 0 s) = [] := by
    unfold pending
    rw [hdp, List.take_zero]
  rw [this, List.append_nil]
  simp [hd]

/-- The bookkeeping of the entry loop: `prior_mon` is the entry sent last. -/
theorem mru_walk_prior (env : Env) (p : mru_parms) (frags limit now : Nat) :
    ∀ (mon count : Nat) (prior : Option Nat) (emitted : List Nat) (s : CtlState),
      prior = emitted.getLast? →
      (mru_walk env p frags limit now mon count prior emitted s).prior_mon
        = (mru_walk env p frags limit now mon count prior emitted s).emitted.getLast? := by
  intro mon
  induction mon with
  | zero => intro count prior emitted s h; exact h
  | succ m ih =>
    intro count prior emitted s h
    rw [mru_walk]
    split_ifs
    · exact ih _ _ _ _ h
    · exact ih _ _ _ _ h
    · exact ih _ _ _ _ (by rw [List.getLast?_append]; rfl)
    · exact ih _ _ _ _ (by rw [List.getLast?_append]; rfl)
    · exact h

/-- The entry loop stops before the head of the list only because `frags` or
`limit` is reached. -/
theorem mru_walk_stop (env : Env) (p : mru_parms) (frags limit now : Nat) :
    ∀ (mon count : Nat) (prior : Option Nat) (emitted : List Nat) (s : CtlState),
      (mru_walk env p frags limit now mon count prior emitted s).mon ≠ 0 →
      ¬ ((mru_walk env p frags limit now mon count prior emitted s).st.res_frags < frags
        ∧ (mru_walk env p frags limit now mon count prior emitted s).count < limit) := by
  intro mon
  induction mon with
  | zero => intro count prior emitted s h; exact absurd rfl h
  | succ m ih =>
    intro count prior emitted s
    rw [mru_walk]
    split_ifs with h1
    · exact ih _ _ _ _
    · exact ih _ _ _ _
    · exact ih _ _ _ _
    · exact ih _ _ _ _
    · intro _; exact h1

theorem finish_tokens (env : Env) (now : Nat) (s0 s1 : CtlState) (prior : Option Nat)
    (h : building s0 s1) :
    stream (ctl_flushpkt env 0
        (match prior with
          | none => ctl_putts env (str "now") now s1
          | some m => ctl_putts env (str "last.newest") (mon_at env m).last
              (ctl_putts env (str "now") now s1)))
      = stream s1 ++ (separator 23 s1 ++ (str "now=" ++ ts_text now))
          ++ (match prior with
              | none => []
              | some m =>
                separator 31 (ctl_putts env (str "now") now s1)
                  ++ (str "last.newest=" ++ ts_text (mon_at env m).last))
          ++ [13, 10] := by
  obtain ⟨a1, a2, a3⟩ := putts_stream env s0 s1 (str "now") now (by decide) h
  cases prior with
  | none =>
    dsimp only
    rw [flush_stream env s0 _ a1 a3, a2, List.append_nil]
    rfl
  | some m =>
    dsimp only
    obtain ⟨b1, b2, b3⟩ := putts_stream env s0 _ (str "last.newest") (mon_at env m).last
      (by decide) a1
    rw [flush_stream env s0 _ b1 b3, b2, a2]
    rfl

/-- The end of `read_mru_list` on the output stream. -/
theorem mru_finish_stream (env : Env) (now : Nat) (w : mru_walked) (s0 : CtlState)
    (h : building s0 w.st) :
    (w.mon = 0 →
      stream (mru_finish env now w)
        = stream (if w.count > 1 then send_random_tag_value env (to_int32 (w.count - 1)) w.st
            else w.st)
          ++ (separator 23 (if w.count > 1
                then send_random_tag_value env (to_int32 (w.count - 1)) w.st else w.st)
              ++ (str "now=" ++ ts_text now))
          ++ (match w.prior_mon with
              | none => []
              | some m =>
                separator 31 (ctl_putts env (str "now") now
                    (if w.count > 1
                      then send_random_tag_value env (to_int32 (w.count - 1)) w.st else w.st))
                  ++ (str "last.newest=" ++ ts_text (mon_at env m).last))
          ++ [13, 10])
    ∧ (w.mon ≠ 0 → mru_finish env now w = ctl_flushpkt env 0 w.st) := by
  constructor
  · intro hm
    have hs1 : building s0 (if w.count > 1
        then send_random_tag_value env (to_int32 (w.count - 1)) w.st else w.st) := by
      split_ifs
      · exact building_random_tag env s0 _ _ h
      · exact h
    have e := finish_tokens env now s0 _ w.prior_mon hs1
    rw [← e]
    unfold mru_finish
    dsimp only
    rw [if_pos hm]
  · intro hm
    unfold mru_finish
    dsimp only
    rw [if_neg hm]

/-! ### READSTAT with association id 0 -/

/-- The loop of `ctl_putdata` on binary data of a multiple of four bytes from
a cursor at a multiple of four: every fragment sent carries a multiple of four
bytes, and the cursor and the bytes left stay at multiples of four. -/
theorem loop_aligned (env : Env) :
    ∀ (fuel : Nat) (dp : List Nat) (s : CtlState),
      s.datapt ≤ CTL_MAX_DATA_LEN → s.datapt % 4 = 0 → dp.length % 4 = 0 →
      (ctl_putdata_loop env 0 fuel dp s).1.length % 4 = 0
      ∧ (ctl_putdata_loop env 0 fuel dp s).2.datapt % 4 = 0
      ∧ ∃ fr, (ctl_putdata_loop env 0 fuel dp s).2.sent = s.sent ++ fr
          ∧ ∀ f ∈ fr, f.count % 4 = 0 := by
  intro fuel
  induction fuel with
  | zero =>
    intro dp s _ h4 hd
    exact ⟨hd, h4, [], by simp [ctl_putdata_loop], by simp⟩
  | succ n ih =>
    intro dp s hp h4 hd
    by_cases hc : (dp.length + 0) % 2 ^ 32 + s.datapt > CTL_MAX_DATA_LEN
    · rw [loop_succ_pos _ _ _ _ _ hc]
      obtain ⟨b1, ⟨d, bs, bc, -⟩, bp, -⟩ := body_uniform env dp s hp
      have hmin : min dp.length (CTL_MAX_DATA_LEN - s.datapt) % 4 = 0 := by
        simp only [CTL_MAX_DATA_LEN] at hp ⊢
        omega
      have hb1 : (ctl_putdata_body env dp s).1.length % 4 = 0 := by
        rw [b1, List.length_drop]
        have : min dp.length (CTL_MAX_DATA_LEN - s.datapt) ≤ dp.length := Nat.min_le_left _ _
        omega
      obtain ⟨r1, r2, fr, rs, rc⟩ :=
        ih (ctl_putdata_body env dp s).1 (ctl_putdata_body env dp s).2
          (by rw [bp]; exact Nat.zero_le _) (by rw [bp]) hb1
      refine ⟨r1, r2, d :: fr, by rw [rs, bs, List.append_assoc]; rfl, ?_⟩
      intro f hf
      rcases List.mem_cons.1 hf with hf | hf
      · rw [hf, bc]; omega
      · exact rc f hf
    · rw [loop_succ_neg _ _ _ _ _ hc]
      exact ⟨hd, h4, [], by simp, by simp⟩

/-- One binary `ctl_putdata` of a multiple of four bytes from a cursor at a
multiple of four. -/
theorem putdata_bin_aligned (env : Env) (tok : List Nat) (s : CtlState)
    (hp : s.datapt ≤ CTL_MAX_DATA_LEN) (h4 : s.datapt % 4 = 0) (ht : tok.length % 4 = 0)
    (hw : tok.length + 3 < 2 ^ 32) :
    (ctl_putdata env tok true s).datapt ≤ CTL_MAX_DATA_LEN
    ∧ (ctl_putdata env tok true s).datapt % 4 = 0
    ∧ (ctl_putdata env tok true s).datanotbinflag = s.datanotbinflag
    ∧ s.rpkt.data.length ≤ (ctl_putdata env tok true s).rpkt.data.length
    ∧ ∃ fr, (ctl_putdata env tok true s).sent = s.sent ++ fr
        ∧ (∀ f ∈ fr, f.count % 4 = 0)
        ∧ (CTL_MAX_DATA_LEN ≤ s.rpkt.data.length →
            (fr.map Datagram.data_area).flatten ++ pending (ctl_putdata env tok true s)
              = pending s ++ tok) := by
  obtain ⟨a, ⟨fr, b1, -, b3⟩, c, -, e, -, -⟩ :=
    putdata_tail env 0 (Nat.zero_le 3) tok s hp hw (ctl_putdata env tok true s) rfl
  obtain ⟨r1, r2, fr2, rs, rc⟩ := loop_aligned env (2 * tok.length + 2) tok s hp h4 ht
  have hsent : (ctl_putdata env tok true s).sent
      = (ctl_putdata_loop env 0 (2 * tok.length + 2) tok s).2.sent := rfl
  have hdp : (ctl_putdata env tok true s).datapt
      = (ctl_putdata_loop env 0 (2 * tok.length + 2) tok s).2.datapt
        + (ctl_putdata_loop env 0 (2 * tok.length + 2) tok s).1.length := rfl
  have hfr : fr = fr2 := by
    have := b1.symm.trans (hsent.trans rs)
    exact List.append_cancel_left this
  subst hfr
  exact ⟨by omega, by rw [hdp]; omega, e, c, fr, b1, rc, b3⟩

/-- The peer loop of `read_status`: the fragments sent carry multiples of four
bytes, and what is sent, pending and left in `a_st` is what was there followed
by the pairs of the peers. -/
theorem read_status_loop_spec (env : Env) :
    ∀ (peers a_st : List Nat) (s : CtlState),
      s.datapt ≤ CTL_MAX_DATA_LEN → s.datapt % 4 = 0 → CTL_MAX_DATA_LEN ≤ s.rpkt.data.length →
      a_st.length % 4 = 0 → a_st.length < CTL_MAX_DATA_LEN →
      (read_status_loop env peers a_st s).2.datapt ≤ CTL_MAX_DATA_LEN
      ∧ (read_status_loop env peers a_st s).2.datapt % 4 = 0
      ∧ (read_status_loop env peers a_st s).2.datanotbinflag = s.datanotbinflag
      ∧ CTL_MAX_DATA_LEN ≤ (read_status_loop env peers a_st s).2.rpkt.data.length
      ∧ (read_status_loop env peers a_st s).1.length % 4 = 0
      ∧ (read_status_loop env peers a_st s).1.length < CTL_MAX_DATA_LEN
      ∧ ∃ fr, (read_status_loop env peers a_st s).2.sent = s.sent ++ fr
          ∧ (∀ f ∈ fr, f.count % 4 = 0)
          ∧ (fr.map Datagram.data_area).flatten
              ++ pending (read_status_loop env peers a_st s).2
              ++ (read_status_loop env peers a_st s).1
            = pending s ++ a_st ++ assoc_status_pairs env peers := by
  intro peers
  induction peers with
  | nil =>
    intro a_st s hp h4 hb ha hl
    refine ⟨hp, h4, rfl, hb, ha, hl, [], by simp [read_status_loop], by simp, ?_⟩
    simp [read_status_loop, assoc_status_pairs]
  | cons peer rest ih =>
    intro a_st s hp h4 hb ha hl
    have hpairs : assoc_status_pairs env (peer :: rest)
        = [env.peer_associd peer / 256 % 256, env.peer_associd peer % 256,
            env.ctlpeerstatus peer / 256 % 256, env.ctlpeerstatus peer % 256]
          ++ assoc_status_pairs env rest := by
      simp [assoc_status_pairs]
    have hlen : (a_st ++ [env.peer_associd peer / 256 % 256, env.peer_associd peer % 256]
        ++ [env.ctlpeerstatus peer / 256 % 256, env.ctlpeerstatus peer % 256]).length
          = a_st.length + 4 := by
      simp only [List.length_append, List.length_cons, List.length_nil]
    have happ : a_st ++ [env.peer_associd peer / 256 % 256, env.peer_associd peer % 256]
        ++ [env.ctlpeerstatus peer / 256 % 256, env.ctlpeerstatus peer % 256]
        = a_st ++ [env.peer_associd peer / 256 % 256, env.peer_associd peer % 256,
            env.ctlpeerstatus peer / 256 % 256, env.ctlpeerstatus peer % 256] := by
      simp
    rw [read_status_loop]
    generalize hx : a_st ++ [env.peer_associd peer / 256 % 256, env.peer_associd peer % 256]
        ++ [env.ctlpeerstatus peer / 256 % 256, env.ctlpeerstatus peer % 256] = x at hlen happ
    have : (2 : Nat) ^ 32 = 4294967296 := by norm_num
    simp only [CTL_MAX_DATA_LEN] at hl
    by_cases hc : x.length / 2 + 1 ≥ CTL_MAX_DATA_LEN / 2
    · rw [if_pos hc]
      obtain ⟨p1, p2, p3, p4, fr, p5, p6, p7⟩ :=
        putdata_bin_aligned env x s hp h4 (by omega) (by omega)
      obtain ⟨q1, q2, q3, q4, q5, q6, fr2, q7, q8, q9⟩ :=
        ih [] (ctl_putdata env x true s) p1 p2 (le_trans hb p4) rfl (by decide)
      refine ⟨q1, q2, q3.trans p3, q4, q5, q6, fr ++ fr2, by rw [q7, p5, List.append_assoc], ?_, ?_⟩
      · intro f hf
        rcases List.mem_append.1 hf with hf | hf
        · exact p6 f hf
        · exact q8 f hf
      · rw [List.map_append, List.flatten_append, List.append_assoc, List.append_assoc]
        rw [List.append_assoc] at q9
        rw [q9, List.append_nil, ← List.append_assoc, p7 hb, happ, hpairs]
        simp only [List.append_assoc]
    · rw [if_neg hc]
      simp only [CTL_MAX_DATA_LEN] at hc
      obtain ⟨q1, q2, q3, q4, q5, q6, fr2, q7, q8, q9⟩ :=
        ih x s hp h4 hb (by omega) (by simp only [CTL_MAX_DATA_LEN]; omega)
      refine ⟨q1, q2, q3, q4, q5, q6, fr2, q7, q8, ?_⟩
      rw [q9, happ, hpairs]
      simp only [List.append_assoc]

/-- The last flush of a binary response: the packet goes out as it is. -/
theorem flush_bin (env : Env) (s : CtlState) (hp : s.datapt ≤ CTL_MAX_DATA_LEN)
    (hb : CTL_MAX_DATA_LEN ≤ s.rpkt.data.length) (hn : s.datanotbinflag = false) :
    ∃ d, (ctl_flushpkt env 0 s).sent = s.sent ++ [d]
      ∧ d.count = s.datapt ∧ d.data_area = pending s := by
  obtain ⟨d, hs, -, -, hcnt, -, hdata, -⟩ := ctl_flushpkt_spec env 0 s
  have hf : flush_crlf 0 s = s := by
    unfold flush_crlf
    rw [if_neg (by rw [hn]; simp)]
  rw [hf] at hs hcnt hdata
  have hc : d.count = s.datapt := by
    rw [hcnt]; simp only [CTL_MAX_DATA_LEN] at hp; omega
  refine ⟨d, hs, hc, ?_⟩
  unfold Datagram.data_area pending
  rw [hc, hdata (by omega)]

/-- READSTAT with association id 0, from the start of a response. -/
theorem read_status_pairs (env : Env) (rbufp : recvbuf) (restrict_mask : Int) (s : CtlState)
    (hassoc : s.res_associd = 0) (hp : s.datapt = 0)
    (hb : CTL_MAX_DATA_LEN ≤ s.rpkt.data.length) (hn : s.datanotbinflag = false) :
    ∃ fr, (read_status env rbufp restrict_mask s).sent = s.sent ++ fr
      ∧ (fr.map Datagram.data_area).flatten = assoc_status_pairs env env.peer_list
      ∧ (∀ f ∈ fr, f.count % 4 = 0)
      ∧ fr ≠ [] := by
  unfold read_status
  rw [if_neg (by rw [hassoc]; simp)]
  dsimp only
  generalize hs1 : ({ s with rpkt := { s.rpkt with
      status := env.ctlsysstatus s.ctl_sys_num_events % 65536 } } : CtlState) = s1
  have e1 : s1.datapt = 0 := by rw [← hs1]; exact hp
  have e2 : CTL_MAX_DATA_LEN ≤ s1.rpkt.data.length := by rw [← hs1]; exact hb
  have e3 : s1.datanotbinflag = false := by rw [← hs1]; exact hn
  have e4 : s1.sent = s.sent := by rw [← hs1]
  have e5 : pending s1 = [] := by unfold pending; rw [e1, List.take_zero]
  obtain ⟨q1, q2, q3, q4, q5, q6, fr, q7, q8, q9⟩ :=
    read_status_loop_spec env env.peer_list [] s1 (by rw [e1]; exact Nat.zero_le _)
      (by rw [e1]) e2 rfl (by decide)
  rw [e5, List.nil_append, List.nil_append] at q9
  have : (2 : Nat) ^ 32 = 4294967296 := by norm_num
  by_cases hr : (read_status_loop env env.peer_list [] s1).1 ≠ []
  · rw [if_pos hr]
    obtain ⟨p1, p2, p3, p4, fr2, p5, p6, p7⟩ :=
      putdata_bin_aligned env (read_status_loop env env.peer_list [] s1).1
        (read_status_loop env env.peer_list [] s1).2 q1 q2 q5
        (by simp only [CTL_MAX_DATA_LEN] at q6; omega)
    obtain ⟨d, d1, d2, d3⟩ := flush_bin env _ p1 (le_trans q4 p4) (by rw [p3, q3, e3])
    refine ⟨fr ++ fr2 ++ [d], by rw [d1, p5, q7, e4]; simp only [List.append_assoc], ?_, ?_,
      by simp⟩
    · rw [List.map_append, List.flatten_append, List.map_append, List.flatten_append]
      simp only [List.map_cons, List.map_nil, List.flatten_cons, List.flatten_nil,
        List.append_nil]
      rw [d3, List.append_assoc, p7 q4, ← List.append_assoc, q9]
    · intro f hf
      rcases List.mem_append.1 hf with hf | hf
      · rcases List.mem_append.1 hf with hf | hf
        · exact q8 f hf
        · exact p6 f hf
      · rw [List.mem_singleton] at hf
        rw [hf, d2]; exact p2
  · rw [if_neg hr]
    have hr2 : (read_status_loop env env.peer_list [] s1).1 = [] := by
      by_contra h; exact hr h
    rw [hr2, List.append_nil] at q9
    obtain ⟨d, d1, d2, d3⟩ := flush_bin env _ q1 q4 (by rw [q3, e3])
    refine ⟨fr ++ [d], by rw [d1, q7, e4]; simp only [List.append_assoc], ?_, ?_, by simp⟩
    · rw [List.map_append, List.flatten_append]
      simp only [List.map_cons, List.map_nil, List.flatten_cons, List.flatten_nil,
        List.append_nil]
      rw [d3, q9]
    · intro f hf
      rcases List.mem_append.1 hf with hf | hf
      · exact q8 f hf
      · rw [List.mem_singleton] at hf
        rw [hf, d2]; exact q2

/-! ### CONFIGURE, nonces and READ_MRU: the claims -/

theorem validate_nonce_view (env : Env) (fuel : Nat) (pnonce : List Nat) (rbufp : recvbuf)
    (s : CtlState) (r : Bool × CtlState) (h : validate_nonce env fuel pnonce rbufp s = some r) :
    same_output r.2 s := by
  unfold validate_nonce at h
  split at h
  · cases h; exact same_output_refl s
  · split at h
    · cases h; exact same_output_refl s
    · split at h
      · cases h; exact same_output_refl s
      · dsimp only at h
        unfold derive_nonce at h
        split at h
        · exact absurd h (by simp)
        · rename_i d hd
          split at hd
          · exact absurd hd (by simp)
          · rename_i t ht
            simp only [Option.some.injEq] at hd h
            subst hd
            subst h
            exact salt_loop_view env fuel s t ht

/-- Claim C21, amended. For CONFIGURE with association id 0, no NOMODIFY
restriction and request data of `n` bytes with
`n <= sizeof(remote_config.buffer) - 2`, the buffer handed to the
configuration collaborator is the request data, one newline if `n > 0` and the
data do not end in a newline, and a NUL; the NUL-terminated text in it is the
data with that newline under the condition that no byte of the data is NUL. A
request with `n > sizeof(remote_config.buffer) - 2`, a nonzero association id
or a NOMODIFY restriction never reaches the collaborator, and a nonzero
association id gets the BADVALUE error response. The buffer holds at least two
bytes and the request pointers are in order. -/
theorem configure_text (env : Env) (rbufp : recvbuf) (restrict_mask : Int) (s : CtlState)
    (hsize : 2 ≤ env.remote_config_buffer_size ∧ env.remote_config_buffer_size < 2 ^ 64)
    (hreq : s.reqpt ≤ s.reqend ∧ s.reqend < 2 ^ 64) :
    (s.res_associd = 0 → env.RES_NOMODIFY &&& (restrict_mask % 2 ^ 32).toNat = 0 →
      s.reqend - s.reqpt ≤ env.remote_config_buffer_size - 2 →
      ∃ rest, (configure env rbufp restrict_mask s).config_runs
          = s.config_runs ++ [request_bytes s.reqdata s.reqend s.reqpt
              ++ config_newline (request_bytes s.reqdata s.reqend s.reqpt) ++ 0 :: rest]
        ∧ ((∀ c ∈ request_bytes s.reqdata s.reqend s.reqpt, c ≠ 0) →
            cstring (request_bytes s.reqdata s.reqend s.reqpt
              ++ config_newline (request_bytes s.reqdata s.reqend s.reqpt) ++ 0 :: rest)
            = request_bytes s.reqdata s.reqend s.reqpt
              ++ config_newline (request_bytes s.reqdata s.reqend s.reqpt)))
    ∧ (s.res_associd ≠ 0 ∨ env.RES_NOMODIFY &&& (restrict_mask % 2 ^ 32).toNat ≠ 0
        ∨ s.reqend - s.reqpt > env.remote_config_buffer_size - 2 →
      (configure env rbufp restrict_mask s).config_runs = s.config_runs)
    ∧ (s.res_associd ≠ 0 →
      configure env rbufp restrict_mask s = ctl_error env CERR_BADVALUE s) := by
  have e1 : (s.reqend + 2 ^ 64 - s.reqpt) % 2 ^ 64 = s.reqend - s.reqpt := by omega
  have e2 : (env.remote_config_buffer_size + 2 ^ 64 - 2) % 2 ^ 64
      = env.remote_config_buffer_size - 2 := by omega
  refine ⟨?_, ?_, ?_⟩
  · intro hassoc hmod hfit
    refine ⟨_, configure_run env rbufp restrict_mask s hsize hreq hassoc hmod hfit, ?_⟩
    intro hnz
    apply cstring_append
    intro c hc
    rcases List.mem_append.mp hc with hc | hc
    · exact hnz c hc
    · unfold config_newline at hc
      split_ifs at hc
      · rw [List.mem_singleton] at hc
        omega
      · exact absurd hc (List.not_mem_nil c)
  · intro h
    refine (configure_rejects env rbufp restrict_mask s ?_).1
    rw [e1, e2]
    exact h
  · intro h
    exact (configure_rejects env rbufp restrict_mask s (Or.inl h)).2 h

theorem configure_text_witness :
    ∃ rest, (configure std_env config_request 0
          (request_state std_env config_request auth_state)).config_runs
        = (request_state std_env config_request auth_state).config_runs
          ++ [request_bytes (request_state std_env config_request auth_state).reqdata
                (request_state std_env config_request auth_state).reqend
                (request_state std_env config_request auth_state).reqpt
              ++ config_newline
                  (request_bytes (request_state std_env config_request auth_state).reqdata
                    (request_state std_env config_request auth_state).reqend
                    (request_state std_env config_request auth_state).reqpt)
              ++ 0 :: rest]
      ∧ cstring (request_bytes (request_state std_env config_request auth_state).reqdata
            (request_state std_env config_request auth_state).reqend
            (request_state std_env config_request auth_state).reqpt
          ++ config_newline
              (request_bytes (request_state std_env config_request auth_state).reqdata
                (request_state std_env config_request auth_state).reqend
                (request_state std_env config_request auth_state).reqpt)
          ++ 0 :: rest)
        = request_bytes (request_state std_env config_request auth_state).reqdata
            (request_state std_env config_request auth_state).reqend
            (request_state std_env config_request auth_state).reqpt
          ++ config_newline
              (request_bytes (request_state std_env config_request auth_state).reqdata
                (request_state std_env config_request auth_state).reqend
                (request_state std_env config_request auth_state).reqpt) :=
  match (configure_text std_env config_request 0
      (request_state std_env config_request auth_state) (by decide) (by decide)).1
      (by decide) (by decide) (by decide) with
  | ⟨rest, h1, h2⟩ => ⟨rest, h1, h2 (by decide)⟩

/-- Counterexample to claim C21 as stated: the authenticated CONFIGURE request
with association id 0 whose three data bytes are `a`, NUL, `b` reaches the
collaborator, and the NUL-terminated text handed over is `a` alone, not the
request data followed by a newline. -/
theorem configure_nul_cuts_text :
    (request_state std_env config_nul_request auth_state).res_associd = 0
    ∧ request_bytes (request_state std_env config_nul_request auth_state).reqdata
        (request_state std_env config_nul_request auth_state).reqend
        (request_state std_env config_nul_request auth_state).reqpt = [97, 0, 98]
    ∧ (process_control std_env all_handlers config_nul_request 0 auth_state).config_runs.map
        cstring = [[97]] := by
  decide

/-- Claim C22, amended. A nonce issued by `generate_nonce` for a request
received at time `t0` from a client is checked by `validate_nonce` at time
`t >= t0` for a request from the same address, in a state with the same salt
that is not due for renewal (its first word is not zero and it is less than
an hour old), with the same digest: the result is true at every `t` before
`t0 + NONCE_TIMEOUT` and false at every `t` from `t0 + NONCE_TIMEOUT` on.
Times are 64-bit `l_fp` values, `NONCE_TIMEOUT` is in seconds, and the buffer
for the nonce has room for its 24 digits. -/
theorem nonce_window (env1 env2 : Env) (fuel1 fuel2 octets : Nat) (rb1 rb2 : recvbuf)
    (s s1 s2 : CtlState) (n : List Nat)
    (hg : generate_nonce env1 fuel1 rb1 octets s = some (n, s1))
    (hoct : 25 ≤ octets)
    (haddr : rb2.recv_srcadr = rb1.recv_srcadr)
    (hdig : env2.nonce_digest = env1.nonce_digest)
    (hsalt : s2.salt = s1.salt)
    (h0 : s2.salt.getD 0 0 ≠ 0)
    (h1 : (env2.current_time + 2 ^ 64 - s2.last_salt_update % 2 ^ 64) % 2 ^ 64 < 3600)
    (ht : rb1.recv_time ≤ env2.systime ∧ env2.systime < 2 ^ 64) :
    (env2.systime < rb1.recv_time + env2.NONCE_TIMEOUT * 2 ^ 32 →
      validate_nonce env2 fuel2 n rb2 s2 = some (true, s2))
    ∧ (env2.systime ≥ rb1.recv_time + env2.NONCE_TIMEOUT * 2 ^ 32 →
      validate_nonce env2 fuel2 n rb2 s2 = some (false, s2)) := by
  have hv := validate_generated env1 env2 fuel1 fuel2 octets rb1 rb2 s s1 s2 n hg hoct
    (by omega) haddr hdig hsalt h0 h1
  have hd : (env2.systime % 2 ^ 64 + 2 ^ 64 - rb1.recv_time) % 2 ^ 64
      = env2.systime - rb1.recv_time := by omega
  have hu : lfpuint (env2.systime - rb1.recv_time) = (env2.systime - rb1.recv_time) / 2 ^ 32 := by
    unfold lfpuint
    apply Nat.mod_eq_of_lt
    rw [Nat.div_lt_iff_lt_mul (by norm_num)]
    have : (2 : Nat) ^ 32 * 2 ^ 32 = 2 ^ 64 := by norm_num
    omega
  rw [hd, hu] at hv
  rw [hv]
  constructor
  · intro h
    have : (env2.systime - rb1.recv_time) / 2 ^ 32 < env2.NONCE_TIMEOUT := by
      rw [Nat.div_lt_iff_lt_mul (by norm_num)]
      omega
    rw [decide_eq_true this]
  · intro h
    have : ¬ (env2.systime - rb1.recv_time) / 2 ^ 32 < env2.NONCE_TIMEOUT := by
      rw [Nat.div_lt_iff_lt_mul (by norm_num)]
      omega
    rw [decide_eq_false this]

theorem nonce_window_witness :
    validate_nonce { salt_env with current_time := 3599, systime := 110 * 2 ^ 32 } SALT_ROUNDS
        (str "000000640000000000000005") nonce_request salt5_state = some (true, salt5_state) :=
  (nonce_window { salt_env with current_time := 3590, systime := 100 * 2 ^ 32 }
    { salt_env with current_time := 3599, systime := 110 * 2 ^ 32 } SALT_ROUNDS SALT_ROUNDS 64
    nonce_request nonce_request salt5_state salt5_state salt5_state
    (str "000000640000000000000005") (by decide) (by decide) rfl rfl rfl (by decide)
    (by decide) (by decide)).1 (by decide)

/-- Counterexample to claim C22 as stated: with `NONCE_TIMEOUT` 16, a nonce is
issued at 100 s, when the salt is 3590 s old; the check at 110 s, inside the
window, finds the salt an hour old, draws a new one and fails. -/
theorem nonce_salt_renewed :
    std_env.NONCE_TIMEOUT = 16
    ∧ generate_nonce { salt_env with current_time := 3590, systime := 100 * 2 ^ 32 } SALT_ROUNDS
        nonce_request 64 salt5_state = some (str "000000640000000000000005", salt5_state)
    ∧ (validate_nonce { salt_env with current_time := 3600, systime := 110 * 2 ^ 32 } SALT_ROUNDS
        (str "000000640000000000000005") nonce_request salt5_state).map Prod.fst
        = some false := by
  decide

/-- Claim C23 fails on this input: a READ_MRU request without restriction
whose data area is `frags=` followed by 128 bytes `x` carries no nonce, and
`ctl_getitem` answers it with the BADFMT error datagram from inside the
parameter loop, before `read_mru_list` comes to its check that is to return no
responses until the nonce is validated. -/
theorem read_mru_badfmt_without_nonce :
    (process_control std_env all_handlers
        (plain_request 10 (str "frags=" ++ List.replicate 128 120)) 0 init_state).sent.map
      (fun d => (d.r_m_e_op, d.status, d.count))
      = [(CTL_RESPONSE ||| CTL_ERROR ||| 10, CERR_BADFMT * 256, 0)] := by
  decide

theorem mru_respond_ok (env : Env) (rbufp : recvbuf) (p : mru_parms) (s : CtlState)
    (hc : ¬ ((p.frags = 0 ∧ ¬ (0 < p.limit ∧ p.limit ≤ env.MRU_ROW_LIMIT))
        ∨ p.frags > env.MRU_FRAGS_LIMIT)) :
    mru_respond env rbufp p s
      = mru_start env rbufp p
          (if p.frags = 0 then env.MRU_FRAGS_LIMIT % 2 ^ 16 else p.frags)
          (if p.limit = 0 then UINT_MAX else p.limit) s
    ∧ 1 ≤ (if p.limit = 0 then UINT_MAX else p.limit) := by
  constructor
  · unfold mru_respond
    rw [if_neg hc]
    push_neg at hc
    by_cases hf : p.frags = 0
    · have hl := hc.1 hf
      have hl0 : p.limit ≠ 0 := by omega
      rw [if_pos ⟨by simp [hf], hl0, hf⟩, if_neg (by simp [hf]), if_pos hf, if_neg hl0]
    · by_cases hl : p.limit = 0
      · rw [if_neg (by simp [hf, hl]), if_pos ⟨hf, hl⟩, if_neg hf, if_pos hl]
      · rw [if_neg (by simp [hf]), if_neg (by simp [hl]), if_neg hf, if_neg hl]
  · split_ifs with hl
    · decide
    · omega

/-- Claim C24. For a READ_MRU request without the NOMRULIST restriction whose
nonce `validate_nonce` accepts, `read_mru_list` sends the BADVALUE error
response if `frags = 0` and `limit` is not in `(0, MRU_ROW_LIMIT]`, or if
`frags > MRU_FRAGS_LIMIT`; otherwise it goes on with a missing `limit` taken
as `UINT_MAX` and a missing `frags` as `MRU_FRAGS_LIMIT`, and no datagram it
sends then is the BADVALUE error response. `p` are the parameters read from
the request and `s2` is the state after the validation, with room for a token
in the response packet; `MRU_FRAGS_LIMIT` fits the `u_short` `frags`. -/
theorem read_mru_frags_limit (env : Env) (rbufp : recvbuf) (restrict_mask : Int)
    (s s2 : CtlState) (n : List Nat) (p : mru_parms)
    (hres : env.RES_NOMRULIST &&& (restrict_mask % 2 ^ 32).toNat = 0)
    (hp : (mru_parse env (s.reqend + 1) {} s).1 = p)
    (hn : p.pnonce = some n)
    (hv : validate_nonce env SALT_ROUNDS n rbufp (mru_parse env (s.reqend + 1) {} s).2
      = some (true, s2))
    (h1 : s2.datapt + 3 ≤ CTL_MAX_DATA_LEN) (h2 : CTL_MAX_DATA_LEN ≤ s2.rpkt.data.length)
    (hfl : env.MRU_FRAGS_LIMIT < 2 ^ 16) :
    (((p.frags = 0 ∧ ¬ (0 < p.limit ∧ p.limit ≤ env.MRU_ROW_LIMIT))
        ∨ p.frags > env.MRU_FRAGS_LIMIT) →
      read_mru_list env rbufp restrict_mask s = ctl_error env CERR_BADVALUE s2
      ∧ ∃ d, (read_mru_list env rbufp restrict_mask s).sent = s2.sent ++ [d]
        ∧ d.r_m_e_op = CTL_RESPONSE ||| CTL_ERROR ||| (s2.res_opcode &&& CTL_OP_MASK)
        ∧ d.status = CERR_BADVALUE * 256
        ∧ d.count = 0)
    ∧ (¬ ((p.frags = 0 ∧ ¬ (0 < p.limit ∧ p.limit ≤ env.MRU_ROW_LIMIT))
        ∨ p.frags > env.MRU_FRAGS_LIMIT) →
      read_mru_list env rbufp restrict_mask s
        = mru_start env rbufp p
            (if p.frags = 0 then env.MRU_FRAGS_LIMIT else p.frags)
            (if p.limit = 0 then UINT_MAX else p.limit) s2
      ∧ ∃ new, (read_mru_list env rbufp restrict_mask s).sent = s2.sent ++ new
          ∧ ∀ d ∈ new, ¬ (d.r_m_e_op &&& CTL_ERROR = CTL_ERROR
              ∧ d.status = CERR_BADVALUE * 256)) := by
  subst hp
  have e := read_mru_list_valid env rbufp restrict_mask s s2 n hres hn hv
  obtain ⟨a, b⟩ := mru_respond_badvalue env rbufp (mru_parse env (s.reqend + 1) {} s).1 s2 h1 h2
  rw [Nat.mod_eq_of_lt hfl] at b
  rw [e]
  constructor
  · intro hc
    refine ⟨a hc, ?_⟩
    rw [a hc]
    obtain ⟨d, hd, d1, d2, d3, -⟩ := ctl_error_sent env CERR_BADVALUE s2
    exact ⟨d, hd, d1, by rw [d2]; decide, d3⟩
  · intro hc
    exact b hc

theorem read_mru_frags_limit_witness :
    read_mru_list mru_env mru_frags_request 0 (mru_request_state mru_frags_request)
      = mru_start mru_env mru_frags_request (mru_request_parms mru_frags_request)
          (if (mru_request_parms mru_frags_request).frags = 0 then mru_env.MRU_FRAGS_LIMIT
            else (mru_request_parms mru_frags_request).frags)
          (if (mru_request_parms mru_frags_request).limit = 0 then UINT_MAX
            else (mru_request_parms mru_frags_request).limit)
          (mru_checked_state mru_frags_request)
    ∧ ∃ new, (read_mru_list mru_env mru_frags_request 0
          (mru_request_state mru_frags_request)).sent
        = (mru_checked_state mru_frags_request).sent ++ new
      ∧ ∀ d ∈ new, ¬ (d.r_m_e_op &&& CTL_ERROR = CTL_ERROR ∧ d.status = CERR_BADVALUE * 256) :=
  (read_mru_frags_limit mru_env mru_frags_request 0 (mru_request_state mru_frags_request)
    (mru_checked_state mru_frags_request) (str "000000000000000000001234")
    (mru_request_parms mru_frags_request) (by decide) rfl (by decide) (by decide) (by decide)
    (by decide) (by decide)).2 (by decide)

/-- Claim C25. For a READ_MRU request without the NOMRULIST restriction with
a nonce that `validate_nonce` accepts, valid `frags` and `limit`, and
`priors > 0` starting points: the starting point `i` matches the entry `m`
(`anchor_matches`) when the hash chain search for `addr.i` finds `m` and the
`last` of `m` equals `last.i`. If no `i` below `priors` matches, all that
`read_mru_list` sends after the parameter loop is the UNKNOWNVAR error
response. If `i` is the least index that matches and `m` its entry, the
entries are sent by `mru_send` from the pointer `m`, which is the position
`m - 1` next to `m` towards the head of the list (NULL at the head), or from
`m + 1`, the entry `m` itself, when `limit` is 1; `last.older` and
`addr.older` of `m` are written first. -/
theorem read_mru_anchor (env : Env) (rbufp : recvbuf) (restrict_mask : Int)
    (s s2 : CtlState) (n : List Nat) (p : mru_parms)
    (hres : env.RES_NOMRULIST &&& (restrict_mask % 2 ^ 32).toNat = 0)
    (hp : (mru_parse env (s.reqend + 1) {} s).1 = p)
    (hn : p.pnonce = some n)
    (hv : validate_nonce env SALT_ROUNDS n rbufp (mru_parse env (s.reqend + 1) {} s).2
      = some (true, s2))
    (hok : ¬ ((p.frags = 0 ∧ ¬ (0 < p.limit ∧ p.limit ≤ env.MRU_ROW_LIMIT))
        ∨ p.frags > env.MRU_FRAGS_LIMIT))
    (hpr : p.priors > 0) :
    s2.sent = (mru_parse env (s.reqend + 1) {} s).2.sent
    ∧ 1 ≤ (if p.limit = 0 then UINT_MAX else p.limit)
    ∧ ((∀ i, i < p.priors → ∀ k, ¬ anchor_matches env p i k) →
        read_mru_list env rbufp restrict_mask s = ctl_error env CERR_UNKNOWNVAR s2
        ∧ ∃ d, (read_mru_list env rbufp restrict_mask s).sent = s2.sent ++ [d]
          ∧ d.r_m_e_op = CTL_RESPONSE ||| CTL_ERROR ||| (s2.res_opcode &&& CTL_OP_MASK)
          ∧ d.status = CERR_UNKNOWNVAR * 256
          ∧ d.count = 0)
    ∧ (∀ i m, i < p.priors → anchor_matches env p i m →
        (∀ j, j < i → ∀ k, ¬ anchor_matches env p j k) →
        read_mru_list env rbufp restrict_mask s
          = mru_send env rbufp p
              (if p.frags = 0 then env.MRU_FRAGS_LIMIT % 2 ^ 16 else p.frags)
              (if p.limit = 0 then UINT_MAX else p.limit)
              (if (if p.limit = 0 then UINT_MAX else p.limit) > 1 then m else m + 1)
              (ctl_putunqstr env (str "addr.older") (env.sockporttoa (mon_at env m).rmtadr)
                (ctl_putts env (str "last.older") (mon_at env m).last s2))) := by
  subst hp
  have e := read_mru_list_valid env rbufp restrict_mask s s2 n hres hn hv
  obtain ⟨a, b⟩ := mru_respond_ok env rbufp (mru_parse env (s.reqend + 1) {} s).1 s2 hok
  obtain ⟨c1, c2⟩ := mru_start_anchor env rbufp (mru_parse env (s.reqend + 1) {} s).1
    (if (mru_parse env (s.reqend + 1) {} s).1.frags = 0 then env.MRU_FRAGS_LIMIT % 2 ^ 16
      else (mru_parse env (s.reqend + 1) {} s).1.frags)
    (if (mru_parse env (s.reqend + 1) {} s).1.limit = 0 then UINT_MAX
      else (mru_parse env (s.reqend + 1) {} s).1.limit) s2 (by omega)
  refine ⟨(validate_nonce_view env _ _ _ _ _ hv).1, b, ?_, ?_⟩
  · intro h
    have k : read_mru_list env rbufp restrict_mask s = ctl_error env CERR_UNKNOWNVAR s2 := by
      rw [e, a, c1 h]
    refine ⟨k, ?_⟩
    rw [k]
    obtain ⟨d, hd, d1, d2, d3, -⟩ := ctl_error_sent env CERR_UNKNOWNVAR s2
    exact ⟨d, hd, d1, by rw [d2]; decide, d3⟩
  · intro i m hi hm hmin
    rw [e, a, c2 i m hi hm hmin]

theorem read_mru_anchor_witness :
    read_mru_list mru_env mru_anchor_request 0 (mru_request_state mru_anchor_request)
      = mru_send mru_env mru_anchor_request (mru_request_parms mru_anchor_request)
          (if (mru_request_parms mru_anchor_request).frags = 0
            then mru_env.MRU_FRAGS_LIMIT % 2 ^ 16
            else (mru_request_parms mru_anchor_request).frags)
          (if (mru_request_parms mru_anchor_request).limit = 0 then UINT_MAX
            else (mru_request_parms mru_anchor_request).limit)
          (if (if (mru_request_parms mru_anchor_request).limit = 0 then UINT_MAX
              else (mru_request_parms mru_anchor_request).limit) > 1 then 2 else 2 + 1)
          (ctl_putunqstr mru_env (str "addr.older")
            (mru_env.sockporttoa (mon_at mru_env 2).rmtadr)
            (ctl_putts mru_env (str "last.older") (mon_at mru_env 2).last
              (mru_checked_state mru_anchor_request))) :=
  (read_mru_anchor mru_env mru_anchor_request 0 (mru_request_state mru_anchor_request)
    (mru_checked_state mru_anchor_request) (str "000000000000000000001234")
    (mru_request_parms mru_anchor_request) (by decide) rfl (by decide) (by decide) (by decide)
    (by decide)).2.2.2 0 2 (by decide) (by decide) (fun j hj => absurd hj (Nat.not_lt_zero j))

theorem assoc_status_pairs_length (env : Env) (peers : List Nat) :
    (assoc_status_pairs env peers).length = 4 * peers.length := by
  unfold assoc_status_pairs
  induction peers with
  | nil => rfl
  | cons p rest ih =>
    rw [List.map_cons, List.flatten_cons, List.length_append, ih, List.length_cons]
    simp only [List.length_cons, List.length_nil]
    omega

/-- Claim C27. In `read_mru_list`, `mru_send` writes the new nonce, runs the
entry loop (`w` is what it returns) and ends the response. When the loop has
reached the head of the list (`w.mon` is NULL), the output ends with the token
`now=` of the timestamp taken before the loop, then, if and only if an entry
was sent, the token `last.newest=` with the `last` of the entry sent last,
then CR LF. When the loop has stopped before the head, `frags` or `limit` is
reached and the response is flushed with nothing written after the loop. The
response under construction is in the state `s`, with room for a token. -/
theorem read_mru_end_tokens (env : Env) (rbufp : recvbuf) (p : mru_parms)
    (frags limit mon : Nat) (s0 s : CtlState) (r : List Nat × CtlState) (w : mru_walked)
    (h : building s0 s)
    (hg : generate_nonce env SALT_ROUNDS rbufp 128 s = some r)
    (hw : mru_walk env p frags limit (env.systime % 2 ^ 64) mon 0 none []
      (ctl_putunqstr env (str "nonce") r.1 r.2) = w) :
    (w.mon = 0 →
      stream (mru_send env rbufp p frags limit mon s)
        = stream (if w.count > 1 then send_random_tag_value env (to_int32 (w.count - 1)) w.st
            else w.st)
          ++ (separator 23 (if w.count > 1
                then send_random_tag_value env (to_int32 (w.count - 1)) w.st else w.st)
              ++ (str "now=" ++ ts_text (env.systime % 2 ^ 64)))
          ++ (match w.emitted.getLast? with
              | none => []
              | some m =>
                separator 31 (ctl_putts env (str "now") (env.systime % 2 ^ 64)
                    (if w.count > 1
                      then send_random_tag_value env (to_int32 (w.count - 1)) w.st else w.st))
                  ++ (str "last.newest=" ++ ts_text (mon_at env m).last))
          ++ [13, 10])
    ∧ (w.mon ≠ 0 →
      ¬ (w.st.res_frags < frags ∧ w.count < limit)
      ∧ mru_send env rbufp p frags limit mon s = ctl_flushpkt env 0 w.st) := by
  have e : mru_send env rbufp p frags limit mon s = mru_finish env (env.systime % 2 ^ 64) w := by
    unfold mru_send
    dsimp only
    rw [hg]
    dsimp only
    rw [hw]
  have hb : building s0 w.st := by
    rw [← hw]
    apply building_mru_walk
    exact building_putunqstr env s0 _ _ _ (by decide)
      (building_output s0 s r.2 h (generate_nonce_view env _ _ rbufp s r hg))
  have hpr : w.prior_mon = w.emitted.getLast? := by
    rw [← hw]
    exact mru_walk_prior env p frags limit _ mon 0 none [] _ rfl
  obtain ⟨f1, f2⟩ := mru_finish_stream env (env.systime % 2 ^ 64) w s0 hb
  rw [hpr] at f1
  rw [e]
  refine ⟨f1, ?_⟩
  intro hm
  refine ⟨?_, f2 hm⟩
  rw [← hw] at hm ⊢
  exact mru_walk_stop env p frags limit _ mon 0 none [] _ hm

theorem read_mru_end_tokens_witness :
    (stream (mru_send mru_env mru_frags_request {} 4 UINT_MAX 3
        (mru_request_state mru_frags_request))
      = stream (if mru_frags_walk.count > 1
            then send_random_tag_value mru_env (to_int32 (mru_frags_walk.count - 1))
              mru_frags_walk.st
            else mru_frags_walk.st)
          ++ (separator 23 (if mru_frags_walk.count > 1
                then send_random_tag_value mru_env (to_int32 (mru_frags_walk.count - 1))
                  mru_frags_walk.st
                else mru_frags_walk.st)
              ++ (str "now=" ++ ts_text (mru_env.systime % 2 ^ 64)))
          ++ (match mru_frags_walk.emitted.getLast? with
              | none => []
              | some m =>
                separator 31 (ctl_putts mru_env (str "now") (mru_env.systime % 2 ^ 64)
                    (if mru_frags_walk.count > 1
                      then send_random_tag_value mru_env (to_int32 (mru_frags_walk.count - 1))
                        mru_frags_walk.st
                      else mru_frags_walk.st))
                  ++ (str "last.newest=" ++ ts_text (mon_at mru_env m).last))
          ++ [13, 10])
    ∧ mru_frags_walk.emitted = [2, 1, 0]
    ∧ (str "now=0x00000000.00000000, last.newest=0x00000003.00000005" ++ [13, 10])
        <:+ stream (mru_send mru_env mru_frags_request {} 4 UINT_MAX 3
              (mru_request_state mru_frags_request)) :=
  ⟨(read_mru_end_tokens mru_env mru_frags_request {} 4 UINT_MAX 3
      (mru_request_state mru_frags_request) (mru_request_state mru_frags_request)
      (str "000000000000000000001234",
        { mru_request_state mru_frags_request with salt := [1, 2, 3, 4], random_calls := 4 })
      mru_frags_walk (building_start _ (by decide) (by decide)) (by decide) rfl).1 (by decide),
    by decide, by decide⟩

/-- Claim C29. For READSTAT with association id 0 and any peer list, from the
start of a response (cursor at the start of the data area, no text written):
the data areas of the fragments `read_status` sends, put end to end, are
exactly the pairs association id, status of the peers in peer-list order, each
value as a big-endian 16-bit word, four bytes a peer; the count of every
fragment is a multiple of 4; and at least one fragment is sent. -/
theorem read_status_all_peers (env : Env) (rbufp : recvbuf) (restrict_mask : Int)
    (s : CtlState) (hassoc : s.res_associd = 0) (hp : s.datapt = 0)
    (hb : CTL_MAX_DATA_LEN ≤ s.rpkt.data.length) (hn : s.datanotbinflag = false) :
    ∃ fr, (read_status env rbufp restrict_mask s).sent = s.sent ++ fr
      ∧ (fr.map Datagram.data_area).flatten = assoc_status_pairs env env.peer_list
      ∧ (assoc_status_pairs env env.peer_list).length = 4 * env.peer_list.length
      ∧ (∀ f ∈ fr, f.count % 4 = 0)
      ∧ fr ≠ [] := by
  obtain ⟨fr, a, b, c, d⟩ := read_status_pairs env rbufp restrict_mask s hassoc hp hb hn
  exact ⟨fr, a, b, assoc_status_pairs_length env env.peer_list, c, d⟩

theorem read_status_all_peers_witness :
    (∃ fr, (read_status mru_env readstat_request 0 (mru_request_state readstat_request)).sent
        = (mru_request_state readstat_request).sent ++ fr
      ∧ (fr.map Datagram.data_area).flatten = assoc_status_pairs mru_env mru_env.peer_list
      ∧ (assoc_status_pairs mru_env mru_env.peer_list).length = 4 * mru_env.peer_list.length
      ∧ (∀ f ∈ fr, f.count % 4 = 0)
      ∧ fr ≠ [])
    ∧ (read_status mru_env readstat_request 0 (mru_request_state readstat_request)).sent.map
        Datagram.data_area = [[0, 1, 0x41, 0x42, 0, 2, 0x41, 0x42]] :=
  ⟨read_status_all_peers mru_env readstat_request 0 (mru_request_state readstat_request)
    (by decide) (by decide) (by decide) (by decide), by decide⟩

theorem read_ordlist_selector_witness :
    read_ordlist restrict_env ordlist_request 0
        (request_state restrict_env ordlist_request init_state)
      = ctl_flushpkt restrict_env 0
          (((List.range (restrict_entries restrict_env).length).zip
              (restrict_entries restrict_env)).foldl
            (fun t e => send_restrict_entry restrict_env e.2.1 e.2.2 e.1 t)
            (request_state restrict_env ordlist_request init_state)) :=
  (read_ordlist_selector restrict_env ordlist_request 0
    (request_state restrict_env ordlist_request init_state) (by decide)).2.1 (by decide)

/-! ### The error offset, MRU starting points and `ctl_putts` -/

/-- Claim C36 fails on this input: READSTAT for association id 0 with 120
peers is answered in two fragments, the second with offset 468; the request
with the unknown opcode 31 that follows gets the BADOP error response with
count 0 and the offset field 468, not 0. `ctl_error` fills in the opcode, the
status and the count and sends `rpkt` with the offset the last `ctl_flushpkt`
left in it, and `process_control` does not reset that field. -/
theorem error_response_stale_offset :
    (process_control peers_env all_handlers (plain_request 31 []) 0
        (process_control peers_env all_handlers (plain_request 1 []) 0 init_state)).sent.map
      (fun d => (d.r_m_e_op, d.status, d.offset, d.count))
      = [(CTL_RESPONSE ||| CTL_MORE ||| 1, 0, 0, 468), (CTL_RESPONSE ||| 1, 0, 468, 12),
         (CTL_RESPONSE ||| CTL_ERROR ||| 31, CERR_BADOP * 256, 468, 0)] := by
  decide

/-- Claim C38 fails on this input: with the timestamp `0x00000001.00000000`,
whose fraction is zero, the request that gives `addr.0` before `last.0` counts
one starting point and the request that gives `last.0` before `addr.0` counts
none, although both store the same timestamp and address. The `addr` branch
tests `lfpuint(last[si]) && lfpfrac(last[si])`, which is false for a nonzero
timestamp with a zero word. -/
theorem priors_depend_on_order :
    (mru_parse mru_env ((request_state mru_env addr_last_request init_state).reqend + 1) {}
        (request_state mru_env addr_last_request init_state)).1.priors = 1
    ∧ (mru_parse mru_env ((request_state mru_env last_addr_request init_state).reqend + 1) {}
        (request_state mru_env last_addr_request init_state)).1.priors = 0
    ∧ (mru_parse mru_env ((request_state mru_env addr_last_request init_state).reqend + 1) {}
        (request_state mru_env addr_last_request init_state)).1.last
      = (mru_parse mru_env ((request_state mru_env last_addr_request init_state).reqend + 1) {}
        (request_state mru_env last_addr_request init_state)).1.last
    ∧ (mru_parse mru_env ((request_state mru_env addr_last_request init_state).reqend + 1) {}
        (request_state mru_env addr_last_request init_state)).1.addr
      = (mru_parse mru_env ((request_state mru_env last_addr_request init_state).reqend + 1) {}
        (request_state mru_env last_addr_request init_state)).1.addr := by
  decide

theorem scan_ts_text (v : Nat) :
    scan_timestamp (ts_text v) = some (lfpuint v % 2 ^ 32, lfpfrac v % 2 ^ 32) := by
  unfold scan_timestamp ts_text
  have e1 : ([48, 120] ++ fmt_08x (lfpuint v) ++ [46] ++ fmt_08x (lfpfrac v)).take 2
      = [48, 120] := by
    simp
  have e2 : ([48, 120] ++ fmt_08x (lfpuint v) ++ [46] ++ fmt_08x (lfpfrac v)).drop 2
      = fmt_08x (lfpuint v) ++ ([46] ++ fmt_08x (lfpfrac v)) := by
    simp
  rw [if_pos e1, e2, scan_fmt_08x]
  dsimp only
  rw [if_pos (by simp)]
  have e3 : ([46] ++ fmt_08x (lfpfrac v)).tail = fmt_08x (lfpfrac v) ++ [] := by simp
  rw [e3, scan_fmt_08x]
  dsimp only
  rw [stored_unsigned_32, stored_unsigned_32]

theorem hex_digit_range : ∀ d, d < 16 →
    (48 ≤ hex_digit d ∧ hex_digit d ≤ 57) ∨ (97 ≤ hex_digit d ∧ hex_digit d ≤ 102) := by
  decide

theorem fmt_08x_hex (a : Nat) :
    ∀ c ∈ fmt_08x a, (48 ≤ c ∧ c ≤ 57) ∨ (97 ≤ c ∧ c ≤ 102) := by
  intro c hc
  unfold fmt_08x at hc
  rw [List.mem_map] at hc
  obtain ⟨i, -, rfl⟩ := hc
  exact hex_digit_range _ (Nat.mod_lt _ (by norm_num))

theorem last_index_scan : ∀ i : Nat, i < 16 →
    cstring (str "last." ++ fmt_ld (i : Int)) = str "last." ++ fmt_ld (i : Int)
    ∧ (str "last." ++ fmt_ld (i : Int)) ≠ str "nonce"
    ∧ (str "last." ++ fmt_ld (i : Int)) ≠ str "frags"
    ∧ (str "last." ++ fmt_ld (i : Int)) ≠ str "limit"
    ∧ (str "last." ++ fmt_ld (i : Int)) ≠ str "mincount"
    ∧ (str "last." ++ fmt_ld (i : Int)) ≠ str "resall"
    ∧ (str "last." ++ fmt_ld (i : Int)) ≠ str "resany"
    ∧ (str "last." ++ fmt_ld (i : Int)) ≠ str "maxlstint"
    ∧ (str "last." ++ fmt_ld (i : Int)) ≠ str "laddr"
    ∧ (str "last." ++ fmt_ld (i : Int)) ≠ str "recent"
    ∧ scan_index (str "last") (str "last." ++ fmt_ld (i : Int)) = some i := by
  decide

/-- The `last.i` branch of the parameter loop of `read_mru_list` on the text
that `ctl_putts` prints for `v`. -/
theorem mru_item_last (env : Env) (c : Nat) (f : var_flags) (i v : Nat) (p : mru_parms)
    (hi : i < 16) (hv : v < 2 ^ 64) :
    (mru_item env { code := c, flags := f, text := some (str "last." ++ fmt_ld (i : Int)) }
        (ts_text v) p).map (fun q => q.last)
      = some (p.last.set i v) := by
  obtain ⟨h0, h1, h2, h3, h4, h5, h6, h7, h8, h9, h10⟩ := last_index_scan i hi
  unfold mru_item
  simp only [Option.getD_some]
  rw [h0]
  rw [if_neg h1, if_neg h2, if_neg h3, if_neg h4, if_neg h5, if_neg h6, if_neg h7, if_neg h8,
    if_neg h9, h10]
  dsimp only
  rw [scan_ts_text, Option.map_some', Option.map_some']
  dsimp only
  rw [lfp_parts v hv]

/-- Claim C32. For every `l_fp` value `v` (64 bits), `ctl_putts` hands
`ctl_putdata` the token `tag=0x`, eight hexadecimal digits, a dot and eight
hexadecimal digits; reading the value text with `sscanf("0x%08x.%08x")` gives
the integer part and the fraction of `v`, `lfpinit` of the two is `v` again,
and the `last.i` branch of the parameter loop of `read_mru_list` stores `v`.
The tag is at most 179 bytes long, so that the text fits the 200-byte buffer
of `ctl_putts`. -/
theorem putts_roundtrip (env : Env) (tag : List Nat) (v : Nat) (s : CtlState)
    (hv : v < 2 ^ 64) (ht : tag.length ≤ 179) :
    ctl_putts env tag v s
      = ctl_putdata env (tag ++ [61] ++ ([48, 120] ++ fmt_08x (lfpuint v) ++ [46]
          ++ fmt_08x (lfpfrac v))) false s
    ∧ (fmt_08x (lfpuint v)).length = 8 ∧ (fmt_08x (lfpfrac v)).length = 8
    ∧ (∀ c ∈ fmt_08x (lfpuint v) ++ fmt_08x (lfpfrac v),
        (48 ≤ c ∧ c ≤ 57) ∨ (97 ≤ c ∧ c ≤ 102))
    ∧ scan_timestamp ([48, 120] ++ fmt_08x (lfpuint v) ++ [46] ++ fmt_08x (lfpfrac v))
        = some (lfpuint v, lfpfrac v)
    ∧ lfpinit (lfpuint v) (lfpfrac v) = v
    ∧ ∀ (c : Nat) (f : var_flags) (i : Nat) (p : mru_parms), i < 16 →
        (mru_item env { code := c, flags := f, text := some (str "last." ++ fmt_ld (i : Int)) }
          ([48, 120] ++ fmt_08x (lfpuint v) ++ [46] ++ fmt_08x (lfpfrac v)) p).map
          (fun q => q.last) = some (p.last.set i v) := by
  have hu : lfpuint v % 2 ^ 32 = lfpuint v := by unfold lfpuint; omega
  have hf : lfpfrac v % 2 ^ 32 = lfpfrac v := by unfold lfpfrac; omega
  have hs := scan_ts_text v
  have hl := lfp_parts v hv
  rw [hu, hf] at hs hl
  refine ⟨?_, fmt_08x_length _, fmt_08x_length _, ?_, hs, hl, ?_⟩
  · have hlen := ts_text_length v
    unfold ctl_putts ctl_put_tagged
    rw [if_pos (by omega)]
    show ctl_putdata env (tag ++ [61] ++ (ts_text v).take _) false s = _
    rw [List.take_of_length_le (by omega)]
    rfl
  · intro c hc
    rcases List.mem_append.mp hc with h | h
    · exact fmt_08x_hex _ c h
    · exact fmt_08x_hex _ c h
  · intro c f i p hi
    exact mru_item_last env c f i v p hi hv

/-- Witness of C32 on the timestamp `0xdeadbeef.00000001` with the tag
`last.0`. -/
theorem putts_roundtrip_witness :
    scan_timestamp ([48, 120] ++ fmt_08x (lfpuint 0xdeadbeef00000001) ++ [46]
        ++ fmt_08x (lfpfrac 0xdeadbeef00000001))
      = some (lfpuint 0xdeadbeef00000001, lfpfrac 0xdeadbeef00000001)
    ∧ lfpinit (lfpuint 0xdeadbeef00000001) (lfpfrac 0xdeadbeef00000001) = 0xdeadbeef00000001
    ∧ stream (ctl_putts std_env (str "last.0") 0xdeadbeef00000001 init_state)
        = str "last.0=0xdeadbeef.00000001" :=
  ⟨(putts_roundtrip std_env (str "last.0") 0xdeadbeef00000001 init_state (by decide)
      (by decide)).2.2.2.2.1,
   (putts_roundtrip std_env (str "last.0") 0xdeadbeef00000001 init_state (by decide)
      (by decide)).2.2.2.2.2.1,
   by decide⟩

/-! ### Comparing `l_fp` values -/

/-- One round of the loop of `cmp_work` on limbs below `2^32` with a borrow
of 0 or 1: the limb `r` of the difference and the borrow out `c`. -/
theorem cmp_limb (a b cy : Nat) (ha : a < 2 ^ 32) (hb : b < 2 ^ 32) (hc : cy ≤ 1) :
    ∃ r c : Nat,
      ((if sub32 a cy > a then 1 else 0)
        ||| (if sub32 (sub32 a cy) b > sub32 a cy then 1 else 0)) = c
      ∧ sub32 (sub32 a cy) b = r
      ∧ r < 2 ^ 32 ∧ c ≤ 1
      ∧ (a : Int) - b - cy = (r : Int) - 2 ^ 32 * (c : Int) := by
  have h1 : sub32 a cy = if a < cy then a + 2 ^ 32 - cy else a - cy := by
    unfold sub32
    split_ifs <;> omega
  have h2 : sub32 (sub32 a cy) b
      = if sub32 a cy < b then sub32 a cy + 2 ^ 32 - b else sub32 a cy - b := by
    have : sub32 a cy < 2 ^ 32 := by unfold sub32; omega
    generalize sub32 a cy = x at this ⊢
    unfold sub32
    split_ifs <;> omega
  rw [h2, h1]
  by_cases c1 : a < cy
  · have e1 : (if a < cy then a + 2 ^ 32 - cy else a - cy) = a + 2 ^ 32 - cy := if_pos c1
    rw [e1]
    have c2 : ¬ a + 2 ^ 32 - cy < b := by omega
    rw [if_neg c2, if_pos (by omega), if_neg (by omega)]
    exact ⟨_, 1, by decide, rfl, by omega, by omega, by omega⟩
  · have e1 : (if a < cy then a + 2 ^ 32 - cy else a - cy) = a - cy := if_neg c1
    rw [e1]
    by_cases c2 : a - cy < b
    · rw [if_pos c2, if_neg (by omega), if_pos (by omega)]
      exact ⟨_, 1, by decide, rfl, by omega, by omega, by omega⟩
    · rw [if_neg c2, if_neg (by omega), if_neg (by omega)]
      exact ⟨_, 0, by decide, rfl, by omega, by omega, by omega⟩

/-- The comparison `cmp_work` on three limbs below `2^32`: with `A` and `B`
the numbers the limbs make, the difference `A - B` modulo `2^96` decides. -/
theorem cmp_work_spec (a0 a1 a2 b0 b1 b2 : Nat) (h0 : a0 < 2 ^ 32) (h1 : a1 < 2 ^ 32)
    (h2 : a2 < 2 ^ 32) (k0 : b0 < 2 ^ 32) (k1 : b1 < 2 ^ 32) (k2 : b2 < 2 ^ 32) :
    ∃ r0 r1 r2 c : Nat, r0 < 2 ^ 32 ∧ r1 < 2 ^ 32 ∧ r2 < 2 ^ 32 ∧ c ≤ 1
      ∧ ((a0 : Int) + 2 ^ 32 * a1 + 2 ^ 64 * a2) - (b0 + 2 ^ 32 * b1 + 2 ^ 64 * b2)
          = (r0 + 2 ^ 32 * r1 + 2 ^ 64 * r2) - 2 ^ 96 * c
      ∧ cmp_work [a0, a1, a2] [b0, b1, b2]
          = if r2 ≠ 0 then -1 else if r0 ≠ 0 ∨ r1 ≠ 0 then 1 else 0 := by
  obtain ⟨r0, c0, e0, f0, p1, p2, p3⟩ := cmp_limb a0 b0 0 h0 k0 (by omega)
  obtain ⟨r1, c1, e1, f1, q1, q2, q3⟩ := cmp_limb a1 b1 c0 h1 k1 p2
  obtain ⟨r2, c2, e2, f2, s1, s2, s3⟩ := cmp_limb a2 b2 c1 h2 k2 q2
  refine ⟨r0, r1, r2, c2, p1, q1, s1, s2, by omega, ?_⟩
  unfold cmp_work
  simp only [List.range_succ, List.range_zero, List.nil_append, List.cons_append,
    List.foldl_cons, List.foldl_nil, List.getD_cons_zero, List.getD_cons_succ, List.set_cons_zero,
    List.set_cons_succ]
  rw [e0, f0, e1, f1, f2]

theorem l_fp_scmp_sign (a b : Nat) :
    l_fp_scmp a b
      = if lfp_signed a < lfp_signed b then -1 else if lfp_signed a > lfp_signed b then 1 else 0 := by
  have hA : sub32 0 (if lfpsint a < 0 then 1 else 0)
      = if a % 2 ^ 64 < 2 ^ 63 then 0 else 2 ^ 32 - 1 := by
    unfold lfpsint to_int32 lfpuint sub32
    split_ifs <;> omega
  have hB : sub32 0 (if lfpsint b < 0 then 1 else 0)
      = if b % 2 ^ 64 < 2 ^ 63 then 0 else 2 ^ 32 - 1 := by
    unfold lfpsint to_int32 lfpuint sub32
    split_ifs <;> omega
  have a0 : lfpfrac a < 2 ^ 32 := by unfold lfpfrac; omega
  have a1 : lfpuint a < 2 ^ 32 := by unfold lfpuint; omega
  have b0 : lfpfrac b < 2 ^ 32 := by unfold lfpfrac; omega
  have b1 : lfpuint b < 2 ^ 32 := by unfold lfpuint; omega
  have ea : a % 2 ^ 64 = lfpfrac a + 2 ^ 32 * lfpuint a := by unfold lfpfrac lfpuint; omega
  have eb : b % 2 ^ 64 = lfpfrac b + 2 ^ 32 * lfpuint b := by unfold lfpfrac lfpuint; omega
  unfold l_fp_scmp lfp_signed
  rw [hA, hB]
  obtain ⟨r0, r1, r2, c, p0, p1, p2, pc, pe, pw⟩ := cmp_work_spec (lfpfrac a) (lfpuint a)
    (if a % 2 ^ 64 < 2 ^ 63 then 0 else 2 ^ 32 - 1) (lfpfrac b) (lfpuint b)
    (if b % 2 ^ 64 < 2 ^ 63 then 0 else 2 ^ 32 - 1) a0 a1 (by split_ifs <;> omega) b0 b1
    (by split_ifs <;> omega)
  rw [pw]
  generalize a % 2 ^ 64 = A at *
  generalize b % 2 ^ 64 = B at *
  generalize lfpfrac a = x0 at *
  generalize lfpuint a = x1 at *
  generalize lfpfrac b = y0 at *
  generalize lfpuint b = y1 at *
  split_ifs at pe ⊢ <;> first | rfl | (exfalso; omega)

theorem l_fp_ucmp_order (a b : Nat) :
    l_fp_ucmp a b
      = if a % 2 ^ 64 < b % 2 ^ 64 then -1 else if a % 2 ^ 64 > b % 2 ^ 64 then 1 else 0 := by
  have a0 : lfpfrac a < 2 ^ 32 := by unfold lfpfrac; omega
  have a1 : lfpuint a < 2 ^ 32 := by unfold lfpuint; omega
  have b0 : lfpfrac b < 2 ^ 32 := by unfold lfpfrac; omega
  have b1 : lfpuint b < 2 ^ 32 := by unfold lfpuint; omega
  have ea : a % 2 ^ 64 = lfpfrac a + 2 ^ 32 * lfpuint a := by unfold lfpfrac lfpuint; omega
  have eb : b % 2 ^ 64 = lfpfrac b + 2 ^ 32 * lfpuint b := by unfold lfpfrac lfpuint; omega
  unfold l_fp_ucmp
  obtain ⟨r0, r1, r2, c, p0, p1, p2, pc, pe, pw⟩ := cmp_work_spec (lfpfrac a) (lfpuint a) 0
    (lfpfrac b) (lfpuint b) 0 a0 a1 (by norm_num) b0 b1 (by norm_num)
  rw [pw]
  generalize a % 2 ^ 64 = A at *
  generalize b % 2 ^ 64 = B at *
  generalize lfpfrac a = x0 at *
  generalize lfpuint a = x1 at *
  generalize lfpfrac b = y0 at *
  generalize lfpuint b = y1 at *
  split_ifs <;> first | rfl | (exfalso; omega)

theorem cmp_cases_int (x y : Int) :
    (x > y ↔ (if x < y then (-1 : Int) else if x > y then 1 else 0) = 1)
    ∧ ((¬ x > y ∧ ¬ y > x) ↔ (if x < y then (-1 : Int) else if x > y then 1 else 0) = 0)
    ∧ (y > x ↔ (if x < y then (-1 : Int) else if x > y then 1 else 0) = -1)
    ∧ ((if x < y then (-1 : Int) else if x > y then 1 else 0) = -1
      ∨ (if x < y then (-1 : Int) else if x > y then 1 else 0) = 0
      ∨ (if x < y then (-1 : Int) else if x > y then 1 else 0) = 1) := by
  rcases lt_trichotomy x y with h | h | h
  · rw [if_pos h]
    exact ⟨⟨fun k => by omega, fun k => by omega⟩, ⟨fun k => by omega, fun k => by omega⟩,
      ⟨fun _ => rfl, fun _ => h⟩, Or.inl rfl⟩
  · subst h
    simp
  · rw [if_neg (by omega), if_pos h]
    exact ⟨⟨fun _ => rfl, fun _ => h⟩, ⟨fun k => by omega, fun k => by omega⟩,
      ⟨fun k => by omega, fun k => by omega⟩, Or.inr (Or.inr rfl)⟩

theorem cmp_cases_nat (x y : Nat) :
    (x > y ↔ (if x < y then (-1 : Int) else if x > y then 1 else 0) = 1)
    ∧ ((¬ x > y ∧ ¬ y > x) ↔ (if x < y then (-1 : Int) else if x > y then 1 else 0) = 0)
    ∧ (y > x ↔ (if x < y then (-1 : Int) else if x > y then 1 else 0) = -1) := by
  rcases lt_trichotomy x y with h | h | h
  · rw [if_pos h]
    exact ⟨⟨fun k => by omega, fun k => by omega⟩, ⟨fun k => by omega, fun k => by omega⟩,
      ⟨fun _ => rfl, fun _ => h⟩⟩
  · subst h
    simp
  · rw [if_neg (by omega), if_pos h]
    exact ⟨⟨fun _ => rfl, fun _ => h⟩, ⟨fun k => by omega, fun k => by omega⟩,
      ⟨fun k => by omega, fun k => by omega⟩⟩

/-- Claim C34. For all `l_fp` values `a` and `b`, the signed relational macro
`L_ISGT(a, b)`, `a > b` as signed 64-bit fixed point, is true exactly when the
reference three-limb sign-extended subtraction `l_fp_scmp(a, b)` returns 1;
`L_ISGT(a, b)` and `L_ISGT(b, a)` are both false exactly when it returns 0;
`L_ISGT(b, a)` is true exactly when it returns -1; and `l_fp_scmp` returns
only -1, 0 or 1. -/
theorem signed_relops (a b : Nat) :
    (L_ISGT a b = true ↔ l_fp_scmp a b = 1)
    ∧ ((L_ISGT a b = false ∧ L_ISGT b a = false) ↔ l_fp_scmp a b = 0)
    ∧ (L_ISGT b a = true ↔ l_fp_scmp a b = -1)
    ∧ (l_fp_scmp a b = -1 ∨ l_fp_scmp a b = 0 ∨ l_fp_scmp a b = 1) := by
  rw [l_fp_scmp_sign]
  unfold L_ISGT
  simp only [decide_eq_true_eq, decide_eq_false_iff_not]
  exact cmp_cases_int (lfp_signed a) (lfp_signed b)

/-- Claim C35. For all `l_fp` values `a` and `b`, the unsigned relational
macro `L_ISGTU(a, b)`, `a > b` as unsigned 64-bit values, is true exactly when
the reference three-limb zero-extended subtraction `l_fp_ucmp(a, b)` returns
1; `L_ISGTU(a, b)` and `L_ISGTU(b, a)` are both false exactly when it returns
0; and `L_ISGTU(b, a)` is true exactly when it returns -1. -/
theorem unsigned_relops (a b : Nat) :
    (L_ISGTU a b = true ↔ l_fp_ucmp a b = 1)
    ∧ ((L_ISGTU a b = false ∧ L_ISGTU b a = false) ↔ l_fp_ucmp a b = 0)
    ∧ (L_ISGTU b a = true ↔ l_fp_ucmp a b = -1) := by
  rw [l_fp_ucmp_order]
  unfold L_ISGTU
  simp only [decide_eq_true_eq, decide_eq_false_iff_not]
  exact cmp_cases_nat (a % 2 ^ 64) (b % 2 ^ 64)

/-! ### `ctl_putarray` -/

theorem putarray_rounds (val : Nat → List Nat) (start L : Nat) (hs : start < 8)
    (hL : ∀ i, i < 8 → (val i).length ≤ L) :
    ∀ (k fuel : Nat) (buffer : List Nat), 1 ≤ k → k ≤ 8 → k ≤ fuel →
      buffer.length + k * (1 + L) ≤ 199 →
      ctl_putarray_loop val start fuel ((start + k) % 8) buffer
        = .done (buffer ++ ((List.range k).map
            (fun m => [32] ++ val ((start + k - 1 - m) % 8))).flatten) := by
  intro k
  induction k with
  | zero => intro fuel buffer h1; omega
  | succ k ih =>
    intro fuel buffer _ h8 hf hfit
    obtain ⟨fuel, rfl⟩ : ∃ f, fuel = f + 1 := ⟨fuel - 1, by omega⟩
    have hj : (if (start + (k + 1)) % 8 = 0 then NTP_SHIFT else (start + (k + 1)) % 8) - 1
        = (start + k) % 8 := by
      unfold NTP_SHIFT
      split_ifs <;> omega
    have hv := hL ((start + k) % 8) (Nat.mod_lt _ (by norm_num))
    have hmul : (k + 1) * (1 + L) = k * (1 + L) + (1 + L) := by ring
    rw [ctl_putarray_loop]
    simp only [hj]
    rw [if_pos (by omega), List.take_of_length_le (by
      simp only [List.length_append, List.length_cons, List.length_nil]; omega)]
    rw [List.range_succ_eq_map, List.map_cons, List.flatten_cons]
    have e0 : (start + (k + 1) - 1 - 0) % 8 = (start + k) % 8 := by
      congr 1
    rw [e0]
    by_cases hk : k = 0
    · subst hk
      rw [if_neg (by simp only [Nat.add_zero]; rw [Nat.mod_eq_of_lt hs]; simp)]
      simp
    · rw [if_pos (by omega)]
      rw [ih fuel _ (by omega) (by omega) (by omega) (by
        simp only [List.length_append, List.length_cons, List.length_nil]; omega)]
      congr 1
      rw [List.append_assoc, List.map_map]
      congr 3
      apply List.map_congr_left
      intro m _
      simp only [Function.comp]
      congr 3
      omega

theorem putarray_order_perm : ∀ start, start < 8 →
    (putarray_order start).Perm (List.range 8)
    ∧ (putarray_order start).head? = some ((start + 7) % 8)
    ∧ (putarray_order start).getLast? = some start := by
  decide

/-- Claim C31, amended. For every `start` in 0..7, `ctl_putarray` ends its
loop and hands `ctl_putdata` the tag, `=` and eight values, each after a
space: the first is `arr[start - 1]` (`arr[7]` for `start = 0`), each
following one is taken from the index one lower modulo 8, and the last is
`arr[start]`, so that every index 0..7 is printed exactly once. The texts of
the values are at most `L` bytes long and fit the 200-byte buffer with the
tag. -/
theorem ctl_putarray_order (env : Env) (tag : List Nat) (val : Nat → List Nat)
    (start L : Nat) (s : CtlState) (hs : start < 8)
    (hL : ∀ i, i < 8 → (val i).length ≤ L) (hfit : tag.length + 1 + 8 * (1 + L) ≤ 199) :
    ctl_putarray env tag val start s
      = ctl_putdata env
          (tag ++ [61] ++ ((putarray_order start).map (fun i => [32] ++ val i)).flatten) false s
    ∧ (putarray_order start).Perm (List.range 8)
    ∧ (putarray_order start).head? = some ((start + 7) % 8)
    ∧ (putarray_order start).getLast? = some start
    ∧ ∀ m, m < 8 → (putarray_order start).getD m 0 = (start + 7 - m) % 8 := by
  obtain ⟨p1, p2, p3⟩ := putarray_order_perm start hs
  refine ⟨?_, p1, p2, p3, ?_⟩
  · have h := putarray_rounds val start L hs hL 8 PUTARRAY_ROUNDS (tag ++ [61]) (by norm_num)
      (by norm_num) (by unfold PUTARRAY_ROUNDS; norm_num)
      (by simp only [List.length_append, List.length_cons, List.length_nil]; omega)
    have e : (start + 8) % 8 = start := by omega
    rw [e] at h
    unfold ctl_putarray
    rw [h]
    dsimp only
    unfold putarray_order NTP_SHIFT
    rw [List.map_map]
    rfl
  · intro m hm
    unfold putarray_order NTP_SHIFT
    rw [List.getD_eq_getElem?_getD, List.getElem?_map,
      List.getElem?_range hm]
    rfl

/-- Witness of the amended C31 with `start = 3` and an array whose element `i`
prints as the digit `i`. -/
theorem ctl_putarray_order_witness :
    ctl_putarray std_env (str "filtdelay") digit_array 3 init_state
      = ctl_putdata std_env
          (str "filtdelay" ++ [61]
            ++ ((putarray_order 3).map (fun i => [32] ++ digit_array i)).flatten) false init_state
    ∧ putarray_order 3 = [2, 1, 0, 7, 6, 5, 4, 3]
    ∧ stream (ctl_putarray std_env (str "filtdelay") digit_array 3 init_state)
        = str "filtdelay= 2 1 0 7 6 5 4 3" :=
  ⟨(ctl_putarray_order std_env (str "filtdelay") digit_array 3 1 init_state (by decide)
      (by decide) (by decide)).1, by decide, by decide⟩

/-- Counterexample to claim C31 as stated: with `start = 0` and an array whose
element `i` prints as the digit `i`, the first value written is `arr[7]`, not
`arr[0]`, which comes last: the loop steps the index down before it prints. -/
theorem ctl_putarray_first_value :
    stream (ctl_putarray std_env (str "filtdelay") digit_array 0 init_state)
      = str "filtdelay= 7 6 5 4 3 2 1 0" := by
  decide

/-! ### Lines of a text response -/

theorem scan_bytes_bound (bytes : List Nat) :
    ∀ (lines : List Nat) (cur : Nat) (cr : Bool),
      ∃ new, (bytes.foldl scan_byte (lines, cur, cr)).1 = lines ++ new
        ∧ (∀ n ∈ new, n ≤ cur + bytes.length)
        ∧ (bytes.foldl scan_byte (lines, cur, cr)).2.1 ≤ cur + bytes.length := by
  induction bytes with
  | nil => intro lines cur cr; exact ⟨[], by simp, by simp, by simp⟩
  | cons c rest ih =>
    intro lines cur cr
    rw [List.foldl_cons]
    by_cases h : cr = true ∧ c = 10
    · have e : scan_byte (lines, cur, cr) c = (lines ++ [cur - 1], 0, false) := by
        unfold scan_byte; rw [if_pos h]
      rw [e]
      obtain ⟨new, a, b, d⟩ := ih (lines ++ [cur - 1]) 0 false
      refine ⟨(cur - 1) :: new, by rw [a]; simp, ?_, ?_⟩
      · intro n hn
        rw [List.length_cons]
        rcases List.mem_cons.mp hn with hn | hn
        · omega
        · have := b n hn; omega
      · rw [List.length_cons]; omega
    · have e : scan_byte (lines, cur, cr) c = (lines, cur + 1, decide (c = 13)) := by
        unfold scan_byte; rw [if_neg h]
      rw [e]
      obtain ⟨new, a, b, d⟩ := ih lines (cur + 1) (decide (c = 13))
      refine ⟨new, a, ?_, ?_⟩
      · intro n hn
        rw [List.length_cons]
        have := b n hn; omega
      · rw [List.length_cons]; omega

theorem line_inv_token (out tok : List Nat) (L : Nat) (h : line_inv out L)
    (hl : L + tok.length ≤ 72) : line_inv (out ++ tok) (L + tok.length) := by
  unfold line_inv at h ⊢
  rw [List.foldl_append]
  obtain ⟨h1, h2⟩ := h
  generalize out.foldl scan_byte ([], 0, false) = st at h1 h2
  obtain ⟨lines, cur, cr⟩ := st
  obtain ⟨new, a, b, d⟩ := scan_bytes_bound tok lines cur cr
  rw [a]
  refine ⟨?_, by simp only at h2; omega⟩
  intro n hn
  rcases List.mem_append.mp hn with hn | hn
  · exact h1 n hn
  · have := b n hn
    simp only at h2
    omega

theorem line_inv_space (out : List Nat) (L : Nat) (h : line_inv out L) :
    line_inv (out ++ [44, 32]) (L + 2) := by
  unfold line_inv at h ⊢
  rw [List.foldl_append]
  obtain ⟨h1, h2⟩ := h
  generalize out.foldl scan_byte ([], 0, false) = st at h1 h2
  obtain ⟨lines, cur, cr⟩ := st
  simp only at h1 h2
  cases cr <;> simp [scan_byte] <;> exact ⟨h1, by omega⟩

theorem line_inv_break (out : List Nat) (L : Nat) (h : line_inv out L) (hL : L ≤ 71) :
    line_inv (out ++ [44, 13, 10]) 0 := by
  unfold line_inv at h ⊢
  rw [List.foldl_append]
  obtain ⟨h1, h2⟩ := h
  generalize out.foldl scan_byte ([], 0, false) = st at h1 h2
  obtain ⟨lines, cur, cr⟩ := st
  simp only at h1 h2
  cases cr <;> simp [scan_byte] <;>
    (intro n hn
     rcases hn with hn | hn
     · exact h1 n hn
     · omega)

theorem line_inv_end (out : List Nat) (L : Nat) (h : line_inv out L) (hL : L ≤ 71) :
    (∀ n ∈ line_lengths out, n ≤ 72) ∧ ∀ n ∈ line_lengths (out ++ [13, 10]), n ≤ 72 := by
  unfold line_inv at h
  unfold line_lengths
  rw [List.foldl_append]
  obtain ⟨h1, h2⟩ := h
  generalize out.foldl scan_byte ([], 0, false) = st at h1 h2
  obtain ⟨lines, cur, cr⟩ := st
  simp only at h1 h2
  constructor
  · intro n hn
    rcases List.mem_append.mp hn with hn | hn
    · exact h1 n hn
    · rw [List.mem_singleton] at hn
      simp only at hn
      omega
  · cases cr <;> simp [scan_byte] <;>
      (intro n hn
       rcases hn with hn | hn | hn
       · exact h1 n hn
       · omega
       · omega)

/-- One text `ctl_putdata` of a token of at most 71 bytes keeps the lines of
the output within 72 bytes. -/
theorem putdata_lines (env : Env) (s0 s : CtlState) (tok out : List Nat)
    (hb : building s0 s) (ht : tok.length ≤ 71)
    (hst : stream s = stream s0 ++ out)
    (hinv : line_inv out s.datalinelen) (hL : s.datalinelen ≤ 71)
    (hfirst : s.datasent = false → s.datalinelen = 0) :
    building s0 (ctl_putdata env tok false s)
    ∧ stream (ctl_putdata env tok false s)
        = stream s0 ++ (out ++ (separator tok.length s ++ tok))
    ∧ line_inv (out ++ (separator tok.length s ++ tok)) (ctl_putdata env tok false s).datalinelen
    ∧ (ctl_putdata env tok false s).datalinelen ≤ 71
    ∧ (ctl_putdata env tok false s).datasent = true
    ∧ (ctl_putdata env tok false s).datanotbinflag = true := by
  have h32 : (2 : Nat) ^ 32 = 4294967296 := by norm_num
  obtain ⟨b1, b2, b3⟩ := building_putdata env s0 s tok (by omega) hb
  obtain ⟨-, -, -, -, -, f, g⟩ := putdata_uniform env tok false s (by simpa using hb.2.1) (by omega)
  have hg := g rfl
  have hmod : (tok.length + (s.datalinelen + 1) + 1) % 2 ^ 32
      = tok.length + (s.datalinelen + 1) + 1 := Nat.mod_eq_of_lt (by omega)
  rw [hmod] at hg
  refine ⟨b1, by rw [b2, hst, List.append_assoc], ?_, ?_, f, b3⟩
  · unfold separator
    rw [hmod, hg]
    by_cases hd : s.datasent = true
    · rw [if_pos hd, if_pos hd]
      by_cases hc : tok.length + (s.datalinelen + 1) + 1 ≥ MAXDATALINELEN
      · rw [if_pos hc, if_pos hc, ← List.append_assoc]
        exact line_inv_token _ tok 0 (line_inv_break out _ hinv hL) (by omega)
      · rw [if_neg hc, if_neg hc, ← List.append_assoc]
        unfold MAXDATALINELEN at hc
        exact line_inv_token _ tok _ (line_inv_space out _ hinv) (by omega)
    · rw [if_neg hd, if_neg hd, List.nil_append]
      have h0 := hfirst (by simpa using hd)
      exact line_inv_token out tok _ hinv (by omega)
  · rw [hg]
    unfold MAXDATALINELEN
    by_cases hd : s.datasent = true
    · rw [if_pos hd]
      split_ifs <;> omega
    · rw [if_neg hd]
      have h0 := hfirst (by simpa using hd)
      omega

theorem put_calls_lines (env : Env) (s0 : CtlState) :
    ∀ (toks : List (List Nat)) (s : CtlState) (out : List Nat),
      building s0 s → (∀ tok ∈ toks, tok.length ≤ 71) →
      stream s = stream s0 ++ out → line_inv out s.datalinelen → s.datalinelen ≤ 71 →
      (s.datasent = false → s.datalinelen = 0) →
      ∃ out2, building s0 (put_calls env (toks.map (fun t => (t, false))) s)
        ∧ stream (put_calls env (toks.map (fun t => (t, false))) s) = stream s0 ++ out2
        ∧ line_inv out2 (put_calls env (toks.map (fun t => (t, false))) s).datalinelen
        ∧ (put_calls env (toks.map (fun t => (t, false))) s).datalinelen ≤ 71 := by
  intro toks
  induction toks with
  | nil =>
    intro s out hb _ hst hinv hL _
    exact ⟨out, hb, hst, hinv, hL⟩
  | cons tok rest ih =>
    intro s out hb ht hst hinv hL hfirst
    obtain ⟨a1, a2, a3, a4, a5, -⟩ := putdata_lines env s0 s tok out hb
      (ht tok (List.mem_cons_self _ _)) hst hinv hL hfirst
    have hstep : put_calls env ((tok :: rest).map (fun t => (t, false))) s
        = put_calls env (rest.map (fun t => (t, false))) (ctl_putdata env tok false s) := rfl
    rw [hstep]
    exact ih _ _ a1 (fun t h => ht t (List.mem_cons_of_mem _ h)) a2 a3 a4
      (fun h => by rw [a5] at h; exact absurd h (by simp))

/-- The last flush of a response under construction on the output stream. -/
theorem flush_stream_tail (env : Env) (s0 s : CtlState) (h : building s0 s) :
    stream (ctl_flushpkt env 0 s) = stream s
      ∨ stream (ctl_flushpkt env 0 s) = stream s ++ [13, 10] := by
  obtain ⟨d, d1, -, -, -, d5⟩ := flush_last_uniform env s (by have := h.2.1; omega)
  obtain ⟨-, -, -, -, -, -, -, -, hdp, -⟩ := ctl_flushpkt_spec env 0 s
  have hp := h.2.1
  have hb := h.2.2
  have hd := d5 (by omega)
  have hpend : pending (ctl_flushpkt env 0 s) = [] := by
    unfold pending
    rw [hdp, List.take_zero]
  by_cases hc : s.datanotbinflag = true ∧ s.datapt + 2 < CTL_MAX_DATA_LEN
  · right
    rw [if_pos hc] at hd
    refine stream_extend s _ [d] _ d1 ?_
    rw [hpend, List.append_nil]
    simp [hd]
  · left
    rw [if_neg hc, List.append_nil] at hd
    have := stream_extend s _ [d] [] d1 (by rw [hpend, List.append_nil]; simp [hd])
    rw [this, List.append_nil]

/-- Claim C37. If every text token passed to `ctl_putdata` in a response is
at most 71 bytes long, then every line of what the response adds to the output
stream (the data areas of its fragments put end to end), lines being
delimited by CR LF, is at most `MAXDATALINELEN` (72) bytes long, the trailing
comma included. The response starts as `process_control` sets it up: the
cursor at the start of the data area and the line length 0. -/
theorem response_lines_bounded (env : Env) (toks : List (List Nat)) (s : CtlState)
    (hp : s.datapt = 0) (hb : CTL_MAX_DATA_LEN ≤ s.rpkt.data.length)
    (hl : s.datalinelen = 0)
    (ht : ∀ tok ∈ toks, tok.length ≤ 71) :
    ∃ out, stream (respond env (toks.map (fun t => (t, false))) s) = stream s ++ out
      ∧ ∀ n ∈ line_lengths out, n ≤ MAXDATALINELEN := by
  have hbs : building s s := building_start s (by rw [hp]; decide) hb
  have hinv0 : line_inv [] s.datalinelen := by
    unfold line_inv
    simp
  obtain ⟨out, a1, a2, a3, a4⟩ := put_calls_lines env s toks s [] hbs ht
    (by rw [List.append_nil]) hinv0 (by omega) (fun _ => hl)
  obtain ⟨e1, e2⟩ := line_inv_end out _ a3 a4
  unfold respond MAXDATALINELEN
  rcases flush_stream_tail env s _ a1 with h | h
  · exact ⟨out, by rw [h, a2], e1⟩
  · exact ⟨out ++ [13, 10], by rw [h, a2, List.append_assoc], e2⟩

/-- Witness of C37 on two tokens of 71 bytes followed by two short ones: the
lines are 72, 72 and 8 bytes long. -/
theorem response_lines_bounded_witness :
    (∃ out, stream (respond std_env
          ([List.replicate 71 97, List.replicate 71 98, str "c=1", str "d=2"].map
            (fun t => (t, false))) init_state) = stream init_state ++ out
      ∧ ∀ n ∈ line_lengths out, n ≤ MAXDATALINELEN)
    ∧ line_lengths (stream (respond std_env
          ([List.replicate 71 97, List.replicate 71 98, str "c=1", str "d=2"].map
            (fun t => (t, false))) init_state)) = [72, 72, 8, 0] :=
  ⟨response_lines_bounded std_env
    [List.replicate 71 97, List.replicate 71 98, str "c=1", str "d=2"] init_state
    (by decide) (by decide) (by decide) (by decide), by decide⟩

/-! ### Variable tables: `set_var` and `get_ext_sys_var` -/

/-- Bytes of a text at the positions of a name without NUL byte agree with the
name exactly when the name is a prefix of the text. -/
theorem take_eq_iff_getD (name t : List Nat) (h0 : 0 ∉ name) :
    t.take name.length = name ↔ ∀ q, q < name.length → t.getD q 0 = name.getD q 0 := by
  constructor
  · intro h q hq
    have : (t.take name.length)[q]? = t[q]? := by
      rw [List.getElem?_take]; simp [hq]
    rw [List.getD_eq_getElem?_getD, List.getD_eq_getElem?_getD, ← this, h]
  · intro h
    apply List.ext_getElem?
    intro i
    rw [List.getElem?_take]
    by_cases hi : i < name.length
    · simp only [hi, if_true]
      have h1 := h i hi
      rw [List.getD_eq_getElem?_getD, List.getD_eq_getElem?_getD] at h1
      have h2 : name[i]? = some name[i] := List.getElem?_eq_getElem hi
      rw [h2] at h1 ⊢
      have h3 : name[i] ≠ 0 := fun hz => h0 (hz ▸ List.getElem_mem hi)
      cases ht : t[i]? with
      | none => rw [ht] at h1; simp at h1; exact absurd h1.symm h3
      | some x => rw [ht] at h1; simp at h1; rw [h1]
    · simp only [hi, if_false]
      rw [List.getElem?_eq_none (by omega)]

/-- The comparison loop of `set_var` on `name=value` stops within the name or
at its `=`, and the test after it holds exactly for a text that begins with
`name=`. -/
theorem set_var_cmp_name (name value t : List Nat) (hn : 61 ∉ name) (h0 : 0 ∉ name) :
    ∀ (m j fuel : Nat), j + m = name.length → m < fuel →
      (∀ q, q < j → t.getD q 0 = name.getD q 0) →
      ∃ i, set_var_cmp (name ++ 61 :: value) t fuel j = some i ∧
        (((name ++ 61 :: value).getD i 0 = t.getD i 0 ∧ (t.getD i 0 = 61 ∨ t.getD i 0 = 0)) ↔
          ((∀ q, q < name.length → t.getD q 0 = name.getD q 0) ∧
            t.getD name.length 0 = 61)) := by
  have hat : (name ++ 61 :: value).getD name.length 0 = 61 := by
    rw [List.getD_eq_getElem?_getD, List.getElem?_append_right (le_refl _)]; simp
  have hin : ∀ q, q < name.length →
      (name ++ 61 :: value).getD q 0 = name.getD q 0 := by
    intro q hq
    rw [List.getD_eq_getElem?_getD, List.getD_eq_getElem?_getD, List.getElem?_append_left hq]
  have hne : ∀ q, q < name.length → name.getD q 0 ≠ 61 ∧ name.getD q 0 ≠ 0 := by
    intro q hq
    rw [List.getD_eq_getElem?_getD, List.getElem?_eq_getElem hq]
    simp only [Option.getD_some]
    exact ⟨fun hz => hn (hz ▸ List.getElem_mem hq), fun hz => h0 (hz ▸ List.getElem_mem hq)⟩
  intro m
  induction m with
  | zero =>
    intro j fuel hj hf hpre
    have hj' : j = name.length := by omega
    subst hj'
    obtain ⟨f, rfl⟩ : ∃ f, fuel = f + 1 := ⟨fuel - 1, by omega⟩
    refine ⟨name.length, ?_, ?_⟩
    · rw [set_var_cmp, hat]
      have : ¬ (t.getD name.length 0 ≠ 61 ∧ 61 = t.getD name.length 0) := by
        intro h; exact h.1 h.2.symm
      rw [if_neg this]
    · rw [hat]
      constructor
      · intro h; exact ⟨hpre, h.1.symm⟩
      · intro h; exact ⟨h.2.symm, Or.inl h.2⟩
  | succ m ih =>
    intro j fuel hj hf hpre
    have hjl : j < name.length := by omega
    obtain ⟨f, rfl⟩ : ∃ f, fuel = f + 1 := ⟨fuel - 1, by omega⟩
    rw [set_var_cmp, hin j hjl]
    by_cases hc : t.getD j 0 ≠ 61 ∧ name.getD j 0 = t.getD j 0
    · rw [if_pos hc, if_neg (hne j hjl).2]
      apply ih (j + 1) f (by omega) (by omega)
      intro q hq
      by_cases hqj : q = j
      · subst hqj; exact hc.2.symm
      · exact hpre q (by omega)
    · rw [if_neg hc]
      refine ⟨j, rfl, ?_⟩
      rw [hin j hjl]
      constructor
      · intro h
        rcases h.2 with h61 | hz
        · exact absurd (h.1.trans h61) (hne j hjl).1
        · exact absurd (h.1.trans hz) (hne j hjl).2
      · intro h
        exfalso
        apply hc
        have := h.1 j hjl
        exact ⟨fun h61 => (hne j hjl).1 (this ▸ h61), this.symm⟩

/-- The test of `set_var` on an entry with text, for `name=value`. -/
theorem set_var_entry (name value t : List Nat) (hn : 61 ∉ name) (h0 : 0 ∉ name) :
    ∃ i, set_var_cmp (name ++ 61 :: value) t ((name ++ 61 :: value).length + 1) 0 = some i ∧
      (((name ++ 61 :: value).getD i 0 = t.getD i 0 ∧ (t.getD i 0 = 61 ∨ t.getD i 0 = 0)) ↔
        (t.take name.length = name ∧ t.getD name.length 0 = 61)) := by
  obtain ⟨i, h1, h2⟩ := set_var_cmp_name name value t hn h0 name.length 0
    ((name ++ 61 :: value).length + 1) (by omega) (by simp; omega) (by intro q hq; omega)
  exact ⟨i, h1, by rw [h2, take_eq_iff_getD name t h0]⟩

/-- The entry walk of `set_var` on `name=value` reaches the `EOV` entry when
no entry before it begins with `name=`. -/
theorem set_var_walk_none (name value : List Nat) (dflt : var_flags)
    (hn : 61 ∉ name) (h0 : 0 ∉ name) :
    ∀ k : List ctl_var,
      (∀ e ∈ table_entries (some k), e.text ≠ none ∧ begins name e = false) →
      set_var_walk (name ++ 61 :: value) dflt k = .not_found := by
  intro k
  induction k with
  | nil => intro _; rfl
  | cons e rest ih =>
    intro h
    rw [set_var_walk]
    by_cases he : e.flags.eov = true
    · rw [if_pos he]
    · rw [if_neg he]
      have hte : table_entries (some (e :: rest)) = e :: table_entries (some rest) := by
        simp [table_entries, he]
      rw [hte] at h
      have h1 := h e (List.mem_cons_self _ _)
      cases ht : e.text with
      | none => exact absurd ht h1.1
      | some t =>
        simp only []
        obtain ⟨i, hi, hiff⟩ := set_var_entry name value t hn h0
        rw [hi]
        simp only []
        have hb : ¬ (t.take name.length = name ∧ t.getD name.length 0 = 61) := by
          have := h1.2
          simp only [begins, ht, decide_eq_false_iff_not] at this
          exact this
        rw [if_neg (fun hc => hb (hiff.mp hc))]
        rw [ih (fun e' he' => h e' (List.mem_cons_of_mem _ he'))]

/-- The entry walk of `set_var` on `name=value` stores the text and the flags
in the first entry that begins with `name=`. -/
theorem set_var_walk_some (name value : List Nat) (dflt : var_flags)
    (hn : 61 ∉ name) (h0 : 0 ∉ name) :
    ∀ (k : List ctl_var) (i : Nat), i < (table_entries (some k)).length →
      (∀ e ∈ table_entries (some k), e.text ≠ none) →
      begins name ((table_entries (some k)).getD i eol) = true →
      (∀ j, j < i → begins name ((table_entries (some k)).getD j eol) = false) →
      set_var_walk (name ++ 61 :: value) dflt k =
        .stored (k.set i { (k.getD i eol) with
          text := some (name ++ 61 :: value), flags := dflt }) := by
  intro k
  induction k with
  | nil => intro i hi; simp [table_entries] at hi
  | cons e rest ih =>
    intro i hi htx hb hmin
    rw [set_var_walk]
    by_cases he : e.flags.eov = true
    · simp [table_entries, he] at hi
    · rw [if_neg he]
      have hte : table_entries (some (e :: rest)) = e :: table_entries (some rest) := by
        simp [table_entries, he]
      rw [hte] at hi htx hb hmin
      have h1 := htx e (List.mem_cons_self _ _)
      cases ht : e.text with
      | none => exact absurd ht h1
      | some t =>
        simp only []
        obtain ⟨x, hx, hiff⟩ := set_var_entry name value t hn h0
        rw [hx]
        simp only []
        cases i with
        | zero =>
          have hb' : t.take name.length = name ∧ t.getD name.length 0 = 61 := by
            simpa [begins, ht] using hb
          rw [if_pos (hiff.mpr hb')]
          simp
        | succ i =>
          have hb0 := hmin 0 (by omega)
          have hb' : ¬ (t.take name.length = name ∧ t.getD name.length 0 = 61) := by
            simpa [begins, ht] using hb0
          rw [if_neg (fun hc => hb' (hiff.mp hc))]
          rw [ih i (by simpa using hi) (fun e' he' => htx e' (List.mem_cons_of_mem _ he'))
            (by simpa using hb)
            (fun j hj => by simpa using hmin (j + 1) (by omega))]
          simp

/-- The entries of a table are a prefix of it. -/
theorem table_entries_take (k : List ctl_var) :
    k.take (table_entries (some k)).length = table_entries (some k) := by
  induction k with
  | nil => rfl
  | cons e rest ih =>
    by_cases he : e.flags.eov = true
    · simp [table_entries, he]
    · have hte : table_entries (some (e :: rest)) = e :: table_entries (some rest) := by
        simp [table_entries, he]
      rw [hte]
      simp only [List.length_cons, List.take_succ_cons]
      rw [ih]

/-- Entry `i` of a table, for `i` below the number of its entries. -/
theorem table_entries_getD (k : List ctl_var) (i : Nat)
    (hi : i < (table_entries (some k)).length) :
    k.getD i eol = (table_entries (some k)).getD i eol := by
  induction k generalizing i with
  | nil => rfl
  | cons e rest ih =>
    by_cases he : e.flags.eov = true
    · simp [table_entries, he] at hi
    · have hte : table_entries (some (e :: rest)) = e :: table_entries (some rest) := by
        simp [table_entries, he]
      rw [hte] at hi ⊢
      cases i with
      | zero => rfl
      | succ i =>
        simp only [List.getD_cons_succ]
        exact ih i (by simpa using hi)

/-- Replacing an entry by one without the `EOV` flag replaces it among the
entries. -/
theorem table_entries_set (k : List ctl_var) (i : Nat) (e1 : ctl_var)
    (hi : i < (table_entries (some k)).length) (he1 : e1.flags.eov = false) :
    table_entries (some (k.set i e1)) = (table_entries (some k)).set i e1 := by
  induction k generalizing i with
  | nil => rfl
  | cons e rest ih =>
    by_cases he : e.flags.eov = true
    · simp [table_entries, he] at hi
    · have hte : table_entries (some (e :: rest)) = e :: table_entries (some rest) := by
        simp [table_entries, he]
      rw [hte] at hi ⊢
      cases i with
      | zero => simp [table_entries, he1]
      | succ i =>
        have := ih i (by simpa using hi)
        simp only [List.set_cons_succ]
        have hte2 : table_entries (some (e :: rest.set i e1)) =
            e :: table_entries (some (rest.set i e1)) := by
          simp [table_entries, he]
        rw [hte2, this]

/-- No entry of a table has the `EOV` flag. -/
theorem table_entries_flags (kv : Option (List ctl_var)) :
    ∀ e ∈ table_entries kv, e.flags.eov = false := by
  intro e he
  have := List.mem_takeWhile_imp he
  simpa using this

/-- The entries of the table that `add_var` builds: those of the old table and
the new one, whose code is their number. -/
theorem table_entries_add (kv : Option (List ctl_var)) (text : List Nat) (dflt : var_flags)
    (hd : dflt.eov = false) (hlen : (table_entries kv).length < 65536) :
    add_var kv text dflt = table_entries kv ++
        [{ code := (table_entries kv).length, flags := dflt, text := some text },
         { code := 0, flags := EOV, text := none }] ∧
    table_entries (some (add_var kv text dflt)) = table_entries kv ++
        [{ code := (table_entries kv).length, flags := dflt, text := some text }] := by
  have hc : count_var kv = (table_entries kv).length := by
    cases kv with
    | none => rfl
    | some k =>
      simp only [count_var, table_entries, Option.getD_some] at hlen ⊢
      exact Nat.mod_eq_of_lt hlen
  have ht : (kv.getD []).take (table_entries kv).length = table_entries kv := by
    cases kv with
    | none => rfl
    | some k => exact table_entries_take k
  have h1 : add_var kv text dflt = table_entries kv ++
        [{ code := (table_entries kv).length, flags := dflt, text := some text },
         { code := 0, flags := EOV, text := none }] := by
    simp only [add_var, hc, ht]
  refine ⟨h1, ?_⟩
  rw [h1]
  have hfl := table_entries_flags kv
  generalize table_entries kv = l at hfl
  generalize l.length = c
  induction l with
  | nil => simp [table_entries, hd, EOV]
  | cons e rest ih =>
    have he : e.flags.eov = false := hfl e (List.mem_cons_self _ _)
    have := ih (fun e' he' => hfl e' (List.mem_cons_of_mem _ he'))
    simp only [table_entries, Option.getD_some, List.cons_append] at this ⊢
    rw [List.takeWhile_cons]
    simp only [he, Bool.not_false, if_true]
    rw [this]

/-- The search of `get_ext_sys_var` returns the value of the first entry that
begins with `tag=` when no entry before it is the bare `tag`. -/
theorem get_ext_scan_first (tag value : List Nat) :
    ∀ (k : List ctl_var) (i : Nat), i < (table_entries (some k)).length →
      ((table_entries (some k)).getD i eol).text = some (tag ++ 61 :: value) →
      (∀ j, j < i → begins tag ((table_entries (some k)).getD j eol) = false ∧
        bare tag ((table_entries (some k)).getD j eol) = false) →
      get_ext_scan tag k = some value := by
  intro k
  induction k with
  | nil => intro i hi; simp [table_entries] at hi
  | cons e rest ih =>
    intro i hi htx hpre
    by_cases he : e.flags.eov = true
    · simp [table_entries, he] at hi
    · have hte : table_entries (some (e :: rest)) = e :: table_entries (some rest) := by
        simp [table_entries, he]
      rw [hte] at hi htx hpre
      rw [get_ext_scan, if_neg he]
      cases i with
      | zero =>
        simp only [List.getD_cons_zero] at htx
        rw [htx]
        simp only []
        have h1 : (tag ++ 61 :: value).take tag.length = tag := by simp
        have h2 : (tag ++ 61 :: value).getD tag.length 0 = 61 := by
          rw [List.getD_eq_getElem?_getD, List.getElem?_append_right (le_refl _)]; simp
        rw [if_pos h1, if_pos h2]
        simp
      | succ i =>
        have hrec := ih i (by simpa using hi) (by simpa using htx)
          (fun j hj => by simpa using hpre (j + 1) (by omega))
        have h0 := hpre 0 (by omega)
        simp only [List.getD_cons_zero] at h0
        cases ht : e.text with
        | none => simpa using hrec
        | some t =>
          simp only []
          have hb : ¬ (t.take tag.length = tag ∧ t.getD tag.length 0 = 61) := by
            simpa [begins, ht] using h0.1
          have hz : ¬ (t.take tag.length = tag ∧ t.getD tag.length 0 = 0) := by
            simpa [bare, ht] using h0.2
          by_cases hp : t.take tag.length = tag
          · rw [if_pos hp, if_neg (fun h => hb ⟨hp, h⟩), if_neg (fun h => hz ⟨hp, h⟩)]
            exact hrec
          · rw [if_neg hp]; exact hrec

/-- The search of `get_ext_sys_var` returns NULL when no entry begins with
`tag=` or is the bare `tag`. -/
theorem get_ext_scan_none (tag : List Nat) :
    ∀ (k : List ctl_var),
      (∀ e ∈ table_entries (some k), begins tag e = false ∧ bare tag e = false) →
      get_ext_scan tag k = none := by
  intro k
  induction k with
  | nil => intro _; rfl
  | cons e rest ih =>
    intro h
    rw [get_ext_scan]
    by_cases he : e.flags.eov = true
    · rw [if_pos he]
    · rw [if_neg he]
      have hte : table_entries (some (e :: rest)) = e :: table_entries (some rest) := by
        simp [table_entries, he]
      rw [hte] at h
      have hrec := ih (fun e' he' => h e' (List.mem_cons_of_mem _ he'))
      have h0 := h e (List.mem_cons_self _ _)
      cases ht : e.text with
      | none => simpa using hrec
      | some t =>
        simp only []
        have hb : ¬ (t.take tag.length = tag ∧ t.getD tag.length 0 = 61) := by
          simpa [begins, ht] using h0.1
        have hz : ¬ (t.take tag.length = tag ∧ t.getD tag.length 0 = 0) := by
          simpa [bare, ht] using h0.2
        by_cases hp : t.take tag.length = tag
        · rw [if_pos hp, if_neg (fun h => hb ⟨hp, h⟩), if_neg (fun h => hz ⟨hp, h⟩)]
          exact hrec
        · rw [if_neg hp]; exact hrec

/-- The entry with the text `name=value` begins with `name=`. -/
theorem begins_data (name value : List Nat) (c : Nat) (f : var_flags) :
    begins name { code := c, flags := f, text := some (name ++ 61 :: value) } = true := by
  have h1 : (name ++ 61 :: value).take name.length = name := by simp
  have h2 : (name ++ 61 :: value).getD name.length 0 = 61 := by
    rw [List.getD_eq_getElem?_getD, List.getElem?_append_right (le_refl _)]; simp
  simp only [begins, h1, h2, and_self, decide_True]

/-- The table after `set_var` of `name=value`, and what `get_ext_scan` finds
in it. -/
theorem set_var_table (kv : Option (List ctl_var)) (name value : List Nat) (dflt : var_flags)
    (hn : 61 ∉ name) (h0 : 0 ∉ name) (hd : dflt.eov = false)
    (htx : ∀ e ∈ table_entries kv, e.text ≠ none)
    (hlen : (table_entries kv).length < 65536) :
    ∃ k1, set_var_walk (name ++ 61 :: value) dflt (kv.getD []) ≠ .undefined_read ∧
      set_var kv (name ++ 61 :: value) dflt = some k1 ∧
      ((∃ i, i < (table_entries kv).length ∧
          begins name ((table_entries kv).getD i eol) = true ∧
          (∀ j, j < i → begins name ((table_entries kv).getD j eol) = false) ∧
          table_entries (some k1) = (table_entries kv).set i
            { ((table_entries kv).getD i eol) with
              text := some (name ++ 61 :: value), flags := dflt }) ∨
       ((∀ e ∈ table_entries kv, begins name e = false) ∧
          table_entries (some k1) = table_entries kv ++
            [{ code := (table_entries kv).length, flags := dflt,
               text := some (name ++ 61 :: value) }])) ∧
      ((table_entries kv).countP (begins name) ≤ 1 →
        (table_entries (some k1)).countP (begins name) = 1) ∧
      ((∀ e ∈ table_entries kv, bare name e = false) →
        get_ext_scan name k1 = some value) := by
  have hkv : table_entries kv = table_entries (some (kv.getD [])) := by
    cases kv <;> rfl
  by_cases hex : ∃ e ∈ table_entries kv, begins name e = true
  · have hi := List.findIdx_lt_length_of_exists hex
    have hbi : begins name ((table_entries kv).getD ((table_entries kv).findIdx (begins name)) eol)
        = true := by
      rw [List.getD_eq_getElem _ _ hi]
      exact List.findIdx_getElem
    have hmin : ∀ j, j < (table_entries kv).findIdx (begins name) →
        begins name ((table_entries kv).getD j eol) = false := by
      intro j hj
      rw [List.getD_eq_getElem _ _ (by omega)]
      exact List.not_of_lt_findIdx hj
    generalize (table_entries kv).findIdx (begins name) = i at hi hbi hmin
    have hw := set_var_walk_some name value dflt hn h0 (kv.getD []) i (hkv ▸ hi)
      (hkv ▸ htx) (hkv ▸ hbi) (hkv ▸ hmin)
    rw [table_entries_getD _ i (hkv ▸ hi), ← hkv] at hw
    have hset := table_entries_set (kv.getD []) i
      { ((table_entries kv).getD i eol) with text := some (name ++ 61 :: value), flags := dflt }
      (hkv ▸ hi) hd
    rw [← hkv] at hset
    refine ⟨_, (by rw [hw]; exact fun h => by cases h), (by unfold set_var; rw [hw]), Or.inl ⟨i, hi, hbi, hmin, hset⟩, ?_, ?_⟩
    · intro hc
      rw [hset, List.countP_set _ _ _ _ hi]
      have h1 : begins name (table_entries kv)[i] = true := by
        rw [← List.getD_eq_getElem _ eol hi]; exact hbi
      have h2 := List.boole_getElem_le_countP (begins name) (table_entries kv) i hi
      rw [h1] at h2 ⊢
      rw [begins_data]
      simp only [if_true] at h2 ⊢
      omega
    · intro hb
      apply get_ext_scan_first name value _ i
      · rw [hset, List.length_set]; exact hi
      · rw [hset, List.getD_eq_getElem _ _ (by rw [List.length_set]; exact hi)]
        simp
      · intro j hj
        rw [hset, List.getD_eq_getElem _ _ (by rw [List.length_set]; omega),
          List.getElem_set_ne (by omega)]
        have hjl : j < (table_entries kv).length := by omega
        have := hmin j hj
        rw [List.getD_eq_getElem _ _ hjl] at this
        exact ⟨this, hb _ (List.getElem_mem hjl)⟩
  · have hnone : ∀ e ∈ table_entries kv, begins name e = false := by
      intro e he
      cases hbe : begins name e with
      | false => rfl
      | true => exact absurd ⟨e, he, hbe⟩ hex
    have hw := set_var_walk_none name value dflt hn h0 (kv.getD [])
      (fun e he => ⟨htx e (hkv ▸ he), hnone e (hkv ▸ he)⟩)
    obtain ⟨ha1, ha2⟩ := table_entries_add kv (name ++ 61 :: value) dflt hd hlen
    refine ⟨_, (by rw [hw]; exact fun h => by cases h), (by unfold set_var; rw [hw]), Or.inr ⟨hnone, ha2⟩, ?_, ?_⟩
    · intro _
      rw [ha2, List.countP_append]
      have : (table_entries kv).countP (begins name) = 0 := by
        rw [List.countP_eq_zero]
        intro e he
        rw [hnone e he]; simp
      rw [this]
      simp only [List.countP_cons, List.countP_nil, begins_data, if_true]
    · intro hb
      apply get_ext_scan_first name value _ (table_entries kv).length
      · rw [ha2]; simp
      · rw [ha2, List.getD_eq_getElem _ _ (by simp)]
        simp
      · intro j hj
        rw [ha2, List.getD_eq_getElem _ _ (by simp; omega), List.getElem_append_left hj]
        exact ⟨hnone _ (List.getElem_mem hj), hb _ (List.getElem_mem hj)⟩

/-- Claim C33, amended. For a table whose entries all have a text and number fewer
than 65536, a name without `=` and NUL byte and flags without `EOV`,
`set_var` of `name=value` on the system extension table (`set_sys_var`) changes
the table only: it gives the first entry that begins with `name=` the text
`name=value` and the flags, leaving the count and all other entries as they
were, or appends one entry with them when no entry begins with `name=`. A
table with at most one entry for the name then holds exactly one. When no
entry is the bare name, `get_ext_sys_var(name)` afterwards returns `value`;
and for a tag that no entry begins with or equals, it returns NULL. -/
theorem set_var_replaces_or_appends (s : CtlState) (name value : List Nat) (dflt : var_flags)
    (hn : 61 ∉ name) (h0 : 0 ∉ name) (hd : dflt.eov = false)
    (htx : ∀ e ∈ table_entries s.ext_sys_var, e.text ≠ none)
    (hlen : (table_entries s.ext_sys_var).length < 65536) :
    set_sys_var (name ++ 61 :: value) dflt s =
      { s with ext_sys_var := set_var s.ext_sys_var (name ++ 61 :: value) dflt } ∧
    ((∃ i, i < (table_entries s.ext_sys_var).length ∧
        begins name ((table_entries s.ext_sys_var).getD i eol) = true ∧
        (∀ j, j < i → begins name ((table_entries s.ext_sys_var).getD j eol) = false) ∧
        table_entries (set_var s.ext_sys_var (name ++ 61 :: value) dflt) =
          (table_entries s.ext_sys_var).set i
            { ((table_entries s.ext_sys_var).getD i eol) with
              text := some (name ++ 61 :: value), flags := dflt }) ∨
     ((∀ e ∈ table_entries s.ext_sys_var, begins name e = false) ∧
        table_entries (set_var s.ext_sys_var (name ++ 61 :: value) dflt) =
          table_entries s.ext_sys_var ++
            [{ code := (table_entries s.ext_sys_var).length, flags := dflt,
               text := some (name ++ 61 :: value) }])) ∧
    ((table_entries s.ext_sys_var).countP (begins name) ≤ 1 →
      (table_entries (set_var s.ext_sys_var (name ++ 61 :: value) dflt)).countP
        (begins name) = 1) ∧
    ((∀ e ∈ table_entries s.ext_sys_var, bare name e = false) →
      get_ext_sys_var name (set_sys_var (name ++ 61 :: value) dflt s) = some (some value)) ∧
    (∀ tag, (∀ e ∈ table_entries (set_var s.ext_sys_var (name ++ 61 :: value) dflt),
        begins tag e = false ∧ bare tag e = false) →
      get_ext_sys_var tag (set_sys_var (name ++ 61 :: value) dflt s) = some none) := by
  obtain ⟨k1, hw, hk1, hdisj, hcount, hget⟩ :=
    set_var_table s.ext_sys_var name value dflt hn h0 hd htx hlen
  have hsys : set_sys_var (name ++ 61 :: value) dflt s =
      { s with ext_sys_var := set_var s.ext_sys_var (name ++ 61 :: value) dflt } := by
    unfold set_sys_var set_var
    cases hwalk : set_var_walk (name ++ 61 :: value) dflt (s.ext_sys_var.getD []) with
    | stored k => rfl
    | not_found => rfl
    | undefined_read => exact absurd hwalk hw
  rw [hsys, hk1]
  refine ⟨rfl, hdisj, hcount, ?_, ?_⟩
  · intro hb
    simp only [get_ext_sys_var, hget hb]
  · intro tag ht
    simp only [get_ext_sys_var, get_ext_scan_none tag k1 ht]

/-- Witness of the amended C33: on the table with `foo=1` and `bar=2`, `set_var` of `foo=3`
leaves one entry for `foo`, and `get_ext_sys_var` returns `3` for `foo` and
NULL for `baz`. -/
theorem set_var_replaces_or_appends_witness :
    (table_entries (set_var two_vars_state.ext_sys_var (str "foo" ++ 61 :: str "3") RW)).countP
        (begins (str "foo")) = 1 ∧
    get_ext_sys_var (str "foo") (set_sys_var (str "foo" ++ 61 :: str "3") RW two_vars_state)
      = some (some (str "3")) ∧
    get_ext_sys_var (str "baz") (set_sys_var (str "foo" ++ 61 :: str "3") RW two_vars_state)
      = some none :=
  match set_var_replaces_or_appends two_vars_state (str "foo") (str "3") RW
      (by decide) (by decide) (by decide) (by decide) (by decide) with
  | ⟨_, _, h3, h4, h5⟩ => ⟨h3 (by decide), h4 (by decide), h5 (str "baz") (by decide)⟩

/-- Counterexample to claim C33 as stated: on the table that holds the bare name `foo`, `set_var`
of `foo=1` does not take the entry of `foo` but appends a second one, and
`get_ext_sys_var("foo")` afterwards returns the empty string, not `1`. -/
theorem set_var_bare_name :
    table_entries bare_foo_state.ext_sys_var
      = [{ code := 0, flags := RW, text := some (str "foo") }] ∧
    table_entries (set_sys_var (str "foo=1") RW bare_foo_state).ext_sys_var
      = [{ code := 0, flags := RW, text := some (str "foo") },
         { code := 1, flags := RW, text := some (str "foo=1") }] ∧
    get_ext_sys_var (str "foo") (set_sys_var (str "foo=1") RW bare_foo_state)
      = some (some []) := by
  decide

/-! ### Variable tables: codes and indices -/

/-- An entry walk of `set_var` that stores changes the text and the flags of
one entry and nothing else. -/
theorem set_var_walk_shape (data : List Nat) (dflt : var_flags) :
    ∀ (k r : List ctl_var), set_var_walk data dflt k = .stored r →
      ∃ i, i < (table_entries (some k)).length ∧
        r = k.set i { (k.getD i eol) with text := some data, flags := dflt } := by
  intro k
  induction k with
  | nil => intro r h; simp [set_var_walk] at h
  | cons e rest ih =>
    intro r h
    rw [set_var_walk] at h
    by_cases he : e.flags.eov = true
    · rw [if_pos he] at h; cases h
    · rw [if_neg he] at h
      have hte : table_entries (some (e :: rest)) = e :: table_entries (some rest) := by
        simp [table_entries, he]
      rw [hte]
      cases ht : e.text with
      | none =>
        rw [ht] at h
        simp only [set_var_result.stored.injEq] at h
        exact ⟨0, by simp, by rw [← h]; simp⟩
      | some t =>
        rw [ht] at h
        simp only [] at h
        cases hc : set_var_cmp data t (data.length + 1) 0 with
        | none => rw [hc] at h; cases h
        | some x =>
          rw [hc] at h
          simp only [] at h
          split_ifs at h with hcond
          · simp only [set_var_result.stored.injEq] at h
            exact ⟨0, by simp, by rw [← h]; simp⟩
          · cases hw : set_var_walk data dflt rest with
            | stored r1 =>
              rw [hw] at h
              simp only [set_var_result.stored.injEq] at h
              obtain ⟨i, hi, hr⟩ := ih r1 hw
              exact ⟨i + 1, by simpa using hi, by rw [← h, hr]; simp⟩
            | not_found => rw [hw] at h; cases h
            | undefined_read => rw [hw] at h; cases h

/-- Replacing an entry of a table leaves no more entries, each of them the
new one at the index replaced and the old one elsewhere. -/
theorem table_entries_set_any (k : List ctl_var) (i : Nat) (e1 : ctl_var)
    (hi : i < (table_entries (some k)).length) :
    (table_entries (some (k.set i e1))).length ≤ (table_entries (some k)).length ∧
    ∀ j, j < (table_entries (some (k.set i e1))).length →
      (table_entries (some (k.set i e1))).getD j eol =
        if j = i then e1 else (table_entries (some k)).getD j eol := by
  induction k generalizing i with
  | nil => simp [table_entries] at hi
  | cons e rest ih =>
    by_cases he : e.flags.eov = true
    · simp [table_entries, he] at hi
    · have hte : table_entries (some (e :: rest)) = e :: table_entries (some rest) := by
        simp [table_entries, he]
      rw [hte] at hi ⊢
      cases i with
      | zero =>
        simp only [List.set_cons_zero]
        by_cases he1 : e1.flags.eov = true
        · have : table_entries (some (e1 :: rest)) = [] := by simp [table_entries, he1]
          rw [this]
          exact ⟨by simp, fun j hj => by simp at hj⟩
        · have : table_entries (some (e1 :: rest)) = e1 :: table_entries (some rest) := by
            simp [table_entries, he1]
          rw [this]
          refine ⟨by simp, fun j _ => ?_⟩
          cases j with
          | zero => simp
          | succ j => simp
      | succ i =>
        simp only [List.set_cons_succ]
        have hte2 : table_entries (some (e :: rest.set i e1)) =
            e :: table_entries (some (rest.set i e1)) := by
          simp [table_entries, he]
        rw [hte2]
        obtain ⟨h1, h2⟩ := ih i (by simpa using hi)
        refine ⟨by simpa using h1, fun j hj => ?_⟩
        cases j with
        | zero => simp
        | succ j =>
          simp only [List.getD_cons_succ, add_left_inj]
          exact h2 j (by simpa using hj)

/-- The routine `add_var` keeps the invariant of the table. -/
theorem coded_add_var (kv : Option (List ctl_var)) (text : List Nat) (dflt : var_flags)
    (hc : coded kv) (hlen : (table_entries kv).length ≤ 65535) :
    coded (some (add_var kv text dflt)) := by
  have hcount : count_var kv = (table_entries kv).length := by
    cases kv with
    | none => rfl
    | some k =>
      simp only [count_var, table_entries, Option.getD_some] at hlen ⊢
      exact Nat.mod_eq_of_lt (by omega)
  have htake : (kv.getD []).take (table_entries kv).length = table_entries kv := by
    cases kv with
    | none => rfl
    | some k => exact table_entries_take k
  have hcodes : ∀ i, i < (table_entries kv).length →
      ((table_entries kv).getD i eol).code = i := by
    cases kv with
    | none => intro i hi; simp [table_entries] at hi
    | some k => exact hc.2
  have h1 : add_var kv text dflt = table_entries kv ++
        [{ code := (table_entries kv).length, flags := dflt, text := some text },
         { code := 0, flags := EOV, text := none }] := by
    simp only [add_var, hcount, htake]
  have hfl := table_entries_flags kv
  have hpre : ∀ (l tail : List ctl_var), (∀ e ∈ l, e.flags.eov = false) →
      table_entries (some (l ++ tail)) = l ++ table_entries (some tail) := by
    intro l tail hl
    induction l with
    | nil => rfl
    | cons e rest ih =>
      have he : e.flags.eov = false := hl e (List.mem_cons_self _ _)
      have := ih (fun e1 he1 => hl e1 (List.mem_cons_of_mem _ he1))
      simp only [table_entries, Option.getD_some, List.cons_append] at this ⊢
      rw [List.takeWhile_cons]
      simp only [he, Bool.not_false, if_true]
      rw [this]
  have h2 := hpre (table_entries kv)
    [{ code := (table_entries kv).length, flags := dflt, text := some text },
     { code := 0, flags := EOV, text := none }] hfl
  rw [← h1] at h2
  simp only [coded]
  rw [h2]
  have hlenadd : (add_var kv text dflt).length = (table_entries kv).length + 2 := by
    rw [h1]; simp
  rw [hlenadd]
  by_cases hd : dflt.eov = true
  · have h3 : table_entries (some
        [{ code := (table_entries kv).length, flags := dflt, text := some text },
         ({ code := 0, flags := EOV, text := none } : ctl_var)]) = [] := by
      simp [table_entries, hd]
    rw [h3]
    simp only [List.append_nil]
    exact ⟨by omega, hcodes⟩
  · have h3 : table_entries (some
        [{ code := (table_entries kv).length, flags := dflt, text := some text },
         ({ code := 0, flags := EOV, text := none } : ctl_var)]) =
        [{ code := (table_entries kv).length, flags := dflt, text := some text }] := by
      simp [table_entries, hd, EOV]
    rw [h3]
    refine ⟨by simp, ?_⟩
    intro i hi
    simp only [List.length_append, List.length_singleton] at hi
    by_cases hil : i < (table_entries kv).length
    · rw [List.getD_eq_getElem?_getD, List.getElem?_append_left hil,
        ← List.getD_eq_getElem?_getD]
      exact hcodes i hil
    · have : i = (table_entries kv).length := by omega
      subst this
      rw [List.getD_eq_getElem?_getD, List.getElem?_append_right (le_refl _)]
      simp

/-- The routine `set_var` keeps the invariant of the table. -/
theorem coded_set_var (kv : Option (List ctl_var)) (data : List Nat) (dflt : var_flags)
    (hc : coded kv) (hlen : (table_entries kv).length ≤ 65535) :
    coded (set_var kv data dflt) := by
  unfold set_var
  cases hw : set_var_walk data dflt (kv.getD []) with
  | not_found => exact coded_add_var kv data dflt hc hlen
  | undefined_read => exact hc
  | stored r =>
    obtain ⟨i, hi, hr⟩ := set_var_walk_shape data dflt (kv.getD []) r hw
    cases kv with
    | none => simp [table_entries] at hi
    | some k =>
      simp only [Option.getD_some] at hi hr
      generalize hE : ({ (k.getD i eol) with text := some data, flags := dflt } : ctl_var) = e1
        at hr
      have hcode : e1.code = (k.getD i eol).code := by rw [← hE]
      obtain ⟨h1, h2⟩ := table_entries_set_any k i e1 hi
      simp only [coded] at hc ⊢
      rw [hr]
      refine ⟨by rw [List.length_set]; omega, ?_⟩
      intro j hj
      rw [h2 j hj]
      by_cases hji : j = i
      · rw [if_pos hji, hcode, table_entries_getD k i hi, hji]
        exact hc.2 i hi
      · rw [if_neg hji]
        exact hc.2 j (by omega)

/-- Every table built by `add_var` and `set_var` satisfies the invariant. -/
theorem built_is_coded (kv : Option (List ctl_var)) (hb : built kv) : coded kv := by
  induction hb with
  | null => trivial
  | add kv text dflt _ hlen ih => exact coded_add_var kv text dflt ih hlen
  | set kv data dflt _ hlen ih => exact coded_set_var kv data dflt ih hlen

/-- A descriptor without `EOV` flag that the table search returns is one of
the entries before the `EOV` entry. -/
theorem scan_entry (env : Env) (l : List ctl_var) (s : CtlState) (v : ctl_var)
    (h : (ctl_getitem_scan env l s).v = some v) (hv : v.flags.eov = false) :
    v ∈ table_entries (some l) := by
  induction l with
  | nil =>
    rw [ctl_getitem_scan] at h
    simp only [Option.some.injEq] at h
    rw [← h] at hv
    exact absurd hv (by decide)
  | cons u l ih =>
    rw [ctl_getitem_scan_cons] at h
    by_cases he : u.flags.eov = true
    · rw [if_pos he] at h
      simp only [Option.some.injEq] at h
      rw [h] at he
      rw [he] at hv; cases hv
    · rw [if_neg he] at h
      have hte : table_entries (some (u :: l)) = u :: table_entries (some l) := by
        simp [table_entries, he]
      rw [hte]
      cases ho : entry_outcome s.reqdata s.reqend s.reqpt u with
      | no_match =>
        rw [ho] at h
        exact List.mem_cons_of_mem _ (ih h)
      | bare cp =>
        rw [ho] at h
        simp only [item_return, Option.some.injEq] at h
        rw [← h]; exact List.mem_cons_self _ _
      | valued cp val =>
        rw [ho] at h
        simp only [item_return, Option.some.injEq] at h
        rw [← h]; exact List.mem_cons_self _ _
      | too_long =>
        rw [ho] at h
        simp only [item_return] at h
        cases h

/-- The code of an extension variable that `ctl_getitem` returns is below the
number of entries of the table. -/
theorem getitem_ext_code (env : Env) (s : CtlState) (tbl : Option (List ctl_var))
    (hc : coded tbl) (v : ctl_var)
    (h : (ctl_getitem env tbl s).v = some v) (hv : v.flags.eov = false) :
    v.code < (table_entries tbl).length := by
  cases tbl with
  | none =>
    rw [ctl_getitem_none_eq] at h
    by_cases hge : item_start s ≥ s.reqend
    · rw [if_pos hge] at h; cases h
    · rw [if_neg hge] at h
      simp only [Option.some.injEq] at h
      rw [← h] at hv
      exact absurd hv (by decide)
  | some l =>
    rw [ctl_getitem_eq] at h
    by_cases hge : item_start s ≥ s.reqend
    · rw [if_pos hge] at h; cases h
    · rw [if_neg hge] at h
      have hm := scan_entry env l _ v h hv
      obtain ⟨i, hi, hget⟩ := List.getElem_of_mem hm
      have := hc.2 i hi
      rw [List.getD_eq_getElem _ _ hi, hget] at this
      rw [this]; exact hi

/-- The routine `count_var` returns the number of entries of a table with at
most `USHRT_MAX` of them. -/
theorem count_var_entries (kv : Option (List ctl_var))
    (hlen : (table_entries kv).length ≤ 65535) :
    count_var kv = (table_entries kv).length := by
  cases kv with
  | none => rfl
  | some k =>
    simp only [count_var, table_entries, Option.getD_some] at hlen ⊢
    exact Nat.mod_eq_of_lt (by omega)

/-- A fold of steps that keep the globals keeps them. -/
theorem foldl_globals {α : Type} (f : CtlState → α → CtlState)
    (hf : ∀ t a, same_globals (f t a) t) :
    ∀ (l : List α) (s : CtlState), same_globals (l.foldl f s) s := by
  intro l
  induction l with
  | nil => intro s; exact same_globals_refl s
  | cons a rest ih =>
    intro s
    rw [List.foldl_cons]
    exact same_globals_trans (ih (f s a)) (hf s a)

/-- The routine `ctl_putsys` keeps the globals. -/
theorem ctl_putsys_globals (env : Env) (n : Nat) (s : CtlState) :
    same_globals (ctl_putsys env n s) s := by
  unfold ctl_putsys put_tokens
  exact foldl_globals _ (fun t tok => ctl_putdata_globals env tok false t) _ s

/-- The item loop of `read_sysvars` passes both `NTP_INSIST` tests on a table
that satisfies the invariant: it does not abort the run. -/
theorem read_sysvars_items_runs (env : Env) (wc : Nat) :
    ∀ (fuel : Nat) (wants : List Bool) (gotvar : Bool) (s : CtlState),
      coded s.ext_sys_var → (table_entries s.ext_sys_var).length ≤ 65535 →
      wc = CS_MAXCODE + 1 + count_var s.ext_sys_var →
      (read_sysvars_items env wc fuel wants gotvar s).2.aborted = s.aborted
      ∧ (read_sysvars_items env wc fuel wants gotvar s).2.ext_sys_var = s.ext_sys_var := by
  intro fuel
  induction fuel with
  | zero => intro wants gotvar s _ _ _; exact ⟨rfl, rfl⟩
  | succ fuel ih =>
    intro wants gotvar s hc hlen hwc
    obtain ⟨-, -, hx, -, ha, -⟩ := getitem_state env (some sys_var) s
    rw [read_sysvars_items]
    dsimp only
    cases hv : (ctl_getitem env (some sys_var) s).v with
    | none => exact ⟨ha, hx⟩
    | some v =>
      dsimp only
      by_cases he : v.flags.eov = false
      · rw [if_pos he]
        have hcode : v.code < wc := by
          rcases getitem_some env sys_var s v hv with h1 | h1
          · rw [h1.1] at he; cases he
          · have := sys_var_codes v h1.1 he h1.2.1
            omega
        rw [if_pos hcode]
        obtain ⟨i1, i2⟩ := ih (wants.set v.code true) true (ctl_getitem env (some sys_var) s).st
          (hx ▸ hc) (hx ▸ hlen) (hx ▸ hwc)
        exact ⟨i1.trans ha, i2.trans hx⟩
      · rw [if_neg he]
        generalize hr : (ctl_getitem env (some sys_var) s).st = t at hx ha
        obtain ⟨-, -, hx2, -, ha2, -⟩ := getitem_state env t.ext_sys_var t
        cases hv2 : (ctl_getitem env t.ext_sys_var t).v with
        | none =>
          dsimp only
          obtain ⟨-, k2, -, -, -, -, -, -, -, -, -, -, -, k14⟩ :=
            ctl_error_keeps env CERR_BADVALUE (ctl_getitem env t.ext_sys_var t).st
          exact ⟨k14.trans (ha2.trans ha), k2.trans (hx2.trans hx)⟩
        | some v2 =>
          dsimp only
          by_cases he2 : v2.flags.eov = true
          · rw [if_pos he2]
            obtain ⟨-, k2, -, -, -, -, -, -, -, -, -, -, -, k14⟩ :=
              ctl_error_keeps env CERR_UNKNOWNVAR (ctl_getitem env t.ext_sys_var t).st
            exact ⟨k14.trans (ha2.trans ha), k2.trans (hx2.trans hx)⟩
          · rw [if_neg he2]
            have hcode : v2.code + CS_MAXCODE + 1 < wc := by
              have := getitem_ext_code env t t.ext_sys_var (hx ▸ hc) v2 hv2 (by simpa using he2)
              rw [hx] at this
              rw [hwc, count_var_entries _ hlen]
              omega
            rw [if_pos hcode]
            obtain ⟨i1, i2⟩ := ih (wants.set (v2.code + CS_MAXCODE + 1) true) true
              (ctl_getitem env t.ext_sys_var t).st
              ((hx2.trans hx) ▸ hc) ((hx2.trans hx) ▸ hlen) ((hx2.trans hx) ▸ hwc)
            exact ⟨i1.trans (ha2.trans ha), i2.trans (hx2.trans hx)⟩

/-- The routine `read_sysvars` does not abort the run on a table that
satisfies the invariant. -/
theorem read_sysvars_runs (env : Env) (s : CtlState)
    (hc : coded s.ext_sys_var) (hlen : (table_entries s.ext_sys_var).length ≤ 65535) :
    (read_sysvars env s).aborted = s.aborted := by
  unfold read_sysvars
  dsimp only
  generalize hs1 : (if s.res_authokay = true then
      { ({ s with rpkt := { s.rpkt with
          status := env.ctlsysstatus s.ctl_sys_num_events % 65536 } } : CtlState) with
        ctl_sys_num_events := 0 }
    else { s with rpkt := { s.rpkt with
          status := env.ctlsysstatus s.ctl_sys_num_events % 65536 } }) = s1
  have hx1 : s1.ext_sys_var = s.ext_sys_var := by rw [← hs1]; split_ifs <;> rfl
  have ha1 : s1.aborted = s.aborted := by rw [← hs1]; split_ifs <;> rfl
  obtain ⟨i1, -⟩ := read_sysvars_items_runs env (CS_MAXCODE + 1 + count_var s1.ext_sys_var)
    (s1.reqend + 1) (List.replicate (CS_MAXCODE + 1 + count_var s1.ext_sys_var) false) false s1
    (hx1 ▸ hc) (hx1 ▸ hlen) rfl
  generalize read_sysvars_items env (CS_MAXCODE + 1 + count_var s1.ext_sys_var)
    (s1.reqend + 1) (List.replicate (CS_MAXCODE + 1 + count_var s1.ext_sys_var) false) false s1
    = r at i1
  rcases r with ⟨o, t⟩
  cases o with
  | none => exact i1.trans ha1
  | some p =>
    rcases p with ⟨wants, gotvar⟩
    dsimp only at i1 ⊢
    refine Eq.trans (ctl_flushpkt_globals env 0 _).2.2.2.2.2.2.2.2.1 ?_
    refine Eq.trans ?_ (i1.trans ha1)
    cases gotvar with
    | true =>
      simp only [if_true]
      refine Eq.trans (foldl_globals _ (fun t n => ?_) _ _).2.2.2.2.2.2.2.2.1 ?_
      · split_ifs
        · exact ctl_putdata_globals env _ false t
        · exact same_globals_refl t
      · refine (foldl_globals _ (fun t n => ?_) _ _).2.2.2.2.2.2.2.2.1
        split_ifs
        · exact ctl_putsys_globals env n t
        · exact same_globals_refl t
    | false =>
      simp only [Bool.false_eq_true, if_false]
      refine Eq.trans (foldl_globals _ (fun t kv => ?_) _ _).2.2.2.2.2.2.2.2.1 ?_
      · split_ifs
        · exact ctl_putdata_globals env _ false t
        · exact same_globals_refl t
      · exact (foldl_globals _ (fun t cs => ctl_putsys_globals env cs t) _ _).2.2.2.2.2.2.2.2.1

/-- Claim C39. Every variable table built only by `add_var` and `set_var` is NULL or
ends in an `EOV` entry, and the code of its `i`-th entry is `i`; a further
`set_var` call keeps both. Consequently, for a table with at most `USHRT_MAX`
entries, the code of an extension variable found by `ctl_getitem` gives an
index `code + CS_MAXCODE + 1` below the `wants_count` of `read_sysvars`, and
`read_sysvars` never aborts at an `NTP_INSIST`. -/
theorem built_tables_coded (kv : Option (List ctl_var)) (hb : built kv) :
    coded kv ∧
    (∀ data dflt, (table_entries kv).length ≤ 65535 → coded (set_var kv data dflt)) ∧
    (∀ (env : Env) (s : CtlState) (v : ctl_var), s.ext_sys_var = kv →
      (table_entries kv).length ≤ 65535 →
      (ctl_getitem env s.ext_sys_var s).v = some v → v.flags.eov = false →
      v.code + CS_MAXCODE + 1 < CS_MAXCODE + 1 + count_var s.ext_sys_var) ∧
    (∀ (env : Env) (s : CtlState), s.ext_sys_var = kv →
      (table_entries kv).length ≤ 65535 →
      (read_sysvars env s).aborted = s.aborted) := by
  have hc := built_is_coded kv hb
  refine ⟨hc, fun data dflt hlen => coded_set_var kv data dflt hc hlen, ?_, ?_⟩
  · intro env s v hs hlen hv he
    subst hs
    have := getitem_ext_code env s s.ext_sys_var hc v hv he
    rw [count_var_entries _ hlen]
    omega
  · intro env s hs hlen
    subst hs
    exact read_sysvars_runs env s hc hlen

/-- Witness of C39: the table built by `set_var` of `foo=1` and of `bar=2`; the
request item `bar` finds the entry with code 1, below the two entries counted,
and `read_sysvars` does not abort. -/
theorem built_tables_coded_witness :
    (ctl_getitem std_env bar_request_state.ext_sys_var bar_request_state).v
      = some { code := 1, flags := RW, text := some (str "bar=2") } ∧
    1 + CS_MAXCODE + 1 < CS_MAXCODE + 1 + count_var bar_request_state.ext_sys_var ∧
    (read_sysvars std_env bar_request_state).aborted = bar_request_state.aborted :=
  match built_tables_coded bar_request_state.ext_sys_var
      (built.set _ (str "bar=2") RW (built.set none (str "foo=1") RW built.null (by decide))
        (by decide)) with
  | ⟨_, _, h3, h4⟩ =>
    ⟨by decide,
     h3 std_env bar_request_state { code := 1, flags := RW, text := some (str "bar=2") } rfl
       (by decide) (by decide) rfl,
     h4 std_env bar_request_state rfl (by decide)⟩

/-! ### READVAR for a peer: the set of names -/

theorem with_request_put_byte (s : CtlState) (D : List Nat) (p e c : Nat) :
    put_byte (with_request s D p e) c = with_request (put_byte s c) D p e := rfl

theorem with_request_sendpkt (s : CtlState) (D : List Nat) (p e n : Nat) :
    sendpkt (with_request s D p e) n = with_request (sendpkt s n) D p e := rfl

theorem with_request_flush_crlf (s : CtlState) (D : List Nat) (p e m : Nat) :
    flush_crlf m (with_request s D p e) = with_request (flush_crlf m s) D p e := by
  unfold flush_crlf
  by_cases h : m = 0 ∧ s.datanotbinflag = true ∧ s.datapt + 2 < CTL_MAX_DATA_LEN
  · rw [if_pos h, if_pos (by exact h)]; rfl
  · rw [if_neg h, if_neg (by exact h)]

/-- The routine `ctl_flushpkt` neither reads nor writes the request. -/
theorem with_request_flushpkt (env : Env) (s : CtlState) (D : List Nat) (p e m : Nat) :
    ctl_flushpkt env m (with_request s D p e) = with_request (ctl_flushpkt env m s) D p e := by
  unfold ctl_flushpkt
  rw [with_request_flush_crlf]
  generalize flush_crlf m s = t
  by_cases ha : t.res_authenticate = true <;> by_cases hm : m = 0 <;>
    simp [with_request, ha, hm, sendpkt, authencrypt]

theorem with_request_body (env : Env) (dp : List Nat) (s : CtlState) (D : List Nat)
    (p e : Nat) :
    ctl_putdata_body env dp (with_request s D p e)
      = ((ctl_putdata_body env dp s).1, with_request (ctl_putdata_body env dp s).2 D p e) := by
  unfold ctl_putdata_body
  dsimp only
  rw [← with_request_flushpkt]
  rfl

theorem with_request_loop (env : Env) (ov : Nat) (D : List Nat) (p e : Nat) :
    ∀ (fuel : Nat) (dp : List Nat) (s : CtlState),
      ctl_putdata_loop env ov fuel dp (with_request s D p e)
        = ((ctl_putdata_loop env ov fuel dp s).1,
           with_request (ctl_putdata_loop env ov fuel dp s).2 D p e) := by
  intro fuel
  induction fuel with
  | zero => intro dp s; rfl
  | succ fuel ih =>
    intro dp s
    rw [ctl_putdata_loop, ctl_putdata_loop]
    have hd : (with_request s D p e).datapt = s.datapt := rfl
    rw [hd]
    by_cases h : (dp.length + ov) % 2 ^ 32 + s.datapt > CTL_MAX_DATA_LEN
    · rw [if_pos h, if_pos h, with_request_body]
      exact ih _ _
    · rw [if_neg h, if_neg h]

theorem with_request_sep (n : Nat) (s : CtlState) (D : List Nat) (p e : Nat) :
    ctl_putdata_sep n (with_request s D p e) = with_request (ctl_putdata_sep n s) D p e := by
  unfold ctl_putdata_sep
  have hd : (with_request s D p e).datasent = s.datasent := rfl
  rw [hd]
  by_cases h : s.datasent = true
  · rw [if_pos h, if_pos h]
    dsimp only
    have hl : (with_request s D p e).datalinelen = s.datalinelen := rfl
    rw [hl]
    split_ifs <;> rfl
  · rw [if_neg h, if_neg h]

/-- The routine `ctl_putdata` neither reads nor writes the request. -/
theorem with_request_putdata (env : Env) (dp : List Nat) (bin : Bool) (s : CtlState)
    (D : List Nat) (p e : Nat) :
    ctl_putdata env dp bin (with_request s D p e)
      = with_request (ctl_putdata env dp bin s) D p e := by
  unfold ctl_putdata
  dsimp only
  cases bin with
  | true =>
    simp only [if_true]
    rw [with_request_loop]
    rfl
  | false =>
    simp only [Bool.false_eq_true, if_false]
    have : ctl_putdata_sep dp.length { with_request s D p e with datanotbinflag := true }
        = with_request (ctl_putdata_sep dp.length { s with datanotbinflag := true }) D p e :=
      with_request_sep dp.length { s with datanotbinflag := true } D p e
    rw [this, with_request_loop]
    rfl

theorem with_request_put_tokens (env : Env) (D : List Nat) (p e : Nat) :
    ∀ (toks : List (List Nat)) (s : CtlState),
      put_tokens env toks (with_request s D p e) = with_request (put_tokens env toks s) D p e := by
  intro toks
  induction toks with
  | nil => intro s; rfl
  | cons tok rest ih =>
    intro s
    unfold put_tokens at ih ⊢
    rw [List.foldl_cons, List.foldl_cons, with_request_putdata]
    exact ih _

/-- The calls of `ctl_putpeer` for a list of codes neither read nor write the
request. -/
theorem with_request_putpeers (env : Env) (peer : Nat) (D : List Nat) (p e : Nat) :
    ∀ (cs : List Nat) (s : CtlState),
      cs.foldl (fun t i => ctl_putpeer env i peer t) (with_request s D p e)
        = with_request (cs.foldl (fun t i => ctl_putpeer env i peer t) s) D p e := by
  intro cs
  induction cs with
  | nil => intro s; rfl
  | cons c rest ih =>
    intro s
    rw [List.foldl_cons, List.foldl_cons]
    unfold ctl_putpeer at ih ⊢
    rw [with_request_put_tokens]
    exact ih _

/-- A table search that returns a descriptor moves the request cursor and
changes nothing else. -/
theorem scan_only_reqpt (env : Env) (l : List ctl_var) (s : CtlState) (v : ctl_var)
    (h : (ctl_getitem_scan env l s).v = some v) :
    (ctl_getitem_scan env l s).st
      = { s with reqpt := (ctl_getitem_scan env l s).st.reqpt } := by
  induction l with
  | nil => rw [ctl_getitem_scan]
  | cons u l ih =>
    rw [ctl_getitem_scan_cons] at h ⊢
    by_cases he : u.flags.eov = true
    · rw [if_pos he]
    · rw [if_neg he] at h ⊢
      cases ho : entry_outcome s.reqdata s.reqend s.reqpt u with
      | no_match => rw [ho] at h; exact ih h
      | bare cp => rfl
      | valued cp val => rfl
      | too_long =>
        rw [ho] at h
        simp only [item_return] at h
        cases h

/-- A call of `ctl_getitem` that returns a descriptor moves the request cursor
and changes nothing else. -/
theorem getitem_only_reqpt (env : Env) (l : List ctl_var) (s : CtlState) (v : ctl_var)
    (h : (ctl_getitem env (some l) s).v = some v) :
    (ctl_getitem env (some l) s).st
      = { s with reqpt := (ctl_getitem env (some l) s).st.reqpt } := by
  rw [ctl_getitem_eq] at h ⊢
  by_cases hge : item_start s ≥ s.reqend
  · rw [if_pos hge] at h; cases h
  · rw [if_neg hge] at h ⊢
    have := scan_only_reqpt env l { s with reqpt := item_start s } v h
    rw [this]

theorem peer_var_codes :
    ∀ u ∈ peer_var, u.flags.eov = false → u.flags.padding = false →
      1 ≤ u.code ∧ u.code ≤ CP_MAXCODE := by
  decide

/-- The item loop of `read_peervars` on a request whose items are all peer
variables with values that fit: it marks the codes of the items, moves the
request cursor and changes nothing else; with fuel for every byte left it
ends at the end of the data. -/
theorem read_peervars_items_codes (env : Env) :
    ∀ (fuel : Nat) (wants : List Bool) (gotvar : Bool) (s : CtlState) (cs : List Nat),
      peer_item_codes env fuel s = some cs →
      (∀ c ∈ cs, 1 ≤ c ∧ c ≤ CP_MAXCODE) ∧
      ∃ q, read_peervars_items env fuel wants gotvar s
          = (some (cs.foldl (fun w c => w.set c true) wants, gotvar || !cs.isEmpty),
             { s with reqpt := q })
        ∧ (s.reqend < s.reqpt + fuel → item_start { s with reqpt := q } ≥ s.reqend) := by
  intro fuel
  induction fuel with
  | zero =>
    intro wants gotvar s cs h
    simp only [peer_item_codes, Option.some.injEq] at h
    subst h
    refine ⟨by simp, s.reqpt, by simp [read_peervars_items], ?_⟩
    intro hlt
    have := item_start_ge s
    show item_start s ≥ s.reqend
    omega
  | succ fuel ih =>
    intro wants gotvar s cs h
    rw [peer_item_codes] at h
    by_cases hge : item_start s ≥ s.reqend
    · rw [if_pos hge] at h
      simp only [Option.some.injEq] at h
      subst h
      refine ⟨by simp, item_start s, ?_, ?_⟩
      · rw [read_peervars_items, ctl_getitem_eq, if_pos hge]
        simp
      · intro _
        have := item_start_idem s
        rw [this]; exact hge
    · rw [if_neg hge] at h
      cases hv : (ctl_getitem env (some peer_var) s).v with
      | none => rw [hv] at h; cases h
      | some v =>
        rw [hv] at h
        dsimp only at h
        by_cases he : v.flags.eov = true
        · rw [if_pos he] at h; cases h
        · rw [if_neg he] at h
          cases hrec : peer_item_codes env fuel (ctl_getitem env (some peer_var) s).st with
          | none => rw [hrec] at h; cases h
          | some cs1 =>
            rw [hrec] at h
            simp only [Option.map_some', Option.some.injEq] at h
            subst h
            have hst := getitem_only_reqpt env peer_var s v hv
            obtain ⟨-, -, -, -, -, g6⟩ := getitem_state env (some peer_var) s
            have hadv : s.reqpt < (ctl_getitem env (some peer_var) s).st.reqpt := by
              rcases (g6 v hv).2 with h1 | h1
              · exact absurd h1.1 he
              · exact h1.2
            have hcode : 1 ≤ v.code ∧ v.code ≤ CP_MAXCODE := by
              rcases getitem_some env peer_var s v hv with h1 | h1
              · exact absurd h1.1 he
              · exact peer_var_codes v h1.1 (by simpa using he) h1.2.1
            generalize (ctl_getitem env (some peer_var) s).st.reqpt = q1 at hst hadv
            rw [hst] at hrec
            obtain ⟨i1, q, i2, i3⟩ := ih (wants.set v.code true) true
              { s with reqpt := q1 } cs1 hrec
            refine ⟨?_, q, ?_, ?_⟩
            · intro c hc
              rcases List.mem_cons.mp hc with h1 | h1
              · rw [h1]; exact hcode
              · exact i1 c h1
            · rw [read_peervars_items]
              dsimp only
              rw [hv]
              dsimp only
              rw [if_neg he,
                if_pos (by have := hcode.2; simp only [CP_MAXCODE] at this ⊢; omega), hst, i2]
              simp
            · intro hlt
              exact i3 (by show s.reqend < q1 + fuel; omega)

/-- The marks `wants` after the codes `cs` have been marked. -/
theorem wants_marked (cs : List Nat) :
    ∀ (wants : List Bool) (i : Nat),
      (cs.foldl (fun w c => w.set c true) wants).getD i false = true
        ↔ wants.getD i false = true ∨ (i ∈ cs ∧ i < wants.length) := by
  induction cs with
  | nil => intro wants i; simp
  | cons c rest ih =>
    intro wants i
    rw [List.foldl_cons, ih]
    simp only [List.length_set, List.mem_cons]
    rw [List.getD_eq_getElem?_getD, List.getD_eq_getElem?_getD, List.getElem?_set]
    by_cases hci : c = i
    · subst hci
      by_cases hl : c < wants.length
      · simp [hl]
      · have hn : wants[c]? = none := List.getElem?_eq_none (by omega)
        simp [hl, hn]
    · simp only [hci, if_false]
      constructor
      · rintro (h | h)
        · exact Or.inl h
        · exact Or.inr ⟨Or.inr h.1, h.2⟩
      · rintro (h | ⟨h | h, hl⟩)
        · exact Or.inl h
        · exact absurd h.symm hci
        · exact Or.inr ⟨h, hl⟩

/-- A fold that skips the elements without a mark is the fold over the marked
ones. -/
theorem foldl_marked {α : Type} (f : CtlState → α → CtlState) (m : α → Bool) :
    ∀ (l : List α) (s : CtlState),
      l.foldl (fun t i => if m i then f t i else t) s = (l.filter m).foldl f s := by
  intro l
  induction l with
  | nil => intro s; rfl
  | cons a rest ih =>
    intro s
    rw [List.foldl_cons, List.filter_cons]
    by_cases h : m a = true
    · rw [if_pos h, if_pos h, List.foldl_cons]; exact ih _
    · rw [if_neg h, if_neg h]; exact ih _

/-- The descriptor a table search returns, and where it leaves the request
cursor, depend on the request only. -/
theorem scan_request (env : Env) (l : List ctl_var) (a b : CtlState)
    (hD : a.reqdata = b.reqdata) (hP : a.reqpt = b.reqpt) (hE : a.reqend = b.reqend) :
    (ctl_getitem_scan env l a).v = (ctl_getitem_scan env l b).v
    ∧ ((ctl_getitem_scan env l a).v ≠ none →
        (ctl_getitem_scan env l a).st.reqpt = (ctl_getitem_scan env l b).st.reqpt) := by
  induction l with
  | nil =>
    rw [ctl_getitem_scan, ctl_getitem_scan]
    exact ⟨rfl, fun _ => hP⟩
  | cons u l ih =>
    rw [ctl_getitem_scan_cons, ctl_getitem_scan_cons, hD, hP, hE]
    by_cases he : u.flags.eov = true
    · rw [if_pos he, if_pos he]
      exact ⟨rfl, fun _ => hP⟩
    · rw [if_neg he, if_neg he]
      cases ho : entry_outcome b.reqdata b.reqend b.reqpt u with
      | no_match => exact ih
      | bare cp => exact ⟨rfl, fun _ => rfl⟩
      | valued cp val => exact ⟨rfl, fun _ => rfl⟩
      | too_long => simp [item_return]

/-- The descriptor `ctl_getitem` returns, and where it leaves the request
cursor, depend on the request only. -/
theorem getitem_request (env : Env) (l : List ctl_var) (a b : CtlState)
    (hD : a.reqdata = b.reqdata) (hP : a.reqpt = b.reqpt) (hE : a.reqend = b.reqend) :
    item_start a = item_start b
    ∧ (ctl_getitem env (some l) a).v = (ctl_getitem env (some l) b).v
    ∧ ((ctl_getitem env (some l) a).v ≠ none →
        (ctl_getitem env (some l) a).st.reqpt = (ctl_getitem env (some l) b).st.reqpt) := by
  have his : item_start a = item_start b := by
    unfold item_start
    rw [hD, hP, hE]
  refine ⟨his, ?_⟩
  rw [ctl_getitem_eq, ctl_getitem_eq]
  by_cases hge : item_start b ≥ b.reqend
  · rw [if_pos (by rw [his, hE]; exact hge), if_pos hge]
    exact ⟨rfl, fun h => absurd rfl h⟩
  · rw [if_neg (by rw [his, hE]; exact hge), if_neg hge]
    exact scan_request env l { a with reqpt := item_start a } { b with reqpt := item_start b }
      hD his hE

/-- The codes of the items depend on the request only. -/
theorem peer_item_codes_request (env : Env) :
    ∀ (fuel : Nat) (a b : CtlState),
      a.reqdata = b.reqdata → a.reqpt = b.reqpt → a.reqend = b.reqend →
      peer_item_codes env fuel a = peer_item_codes env fuel b := by
  intro fuel
  induction fuel with
  | zero => intro a b _ _ _; rfl
  | succ fuel ih =>
    intro a b hD hP hE
    obtain ⟨his, hv, hq⟩ := getitem_request env peer_var a b hD hP hE
    rw [peer_item_codes, peer_item_codes, his, hE]
    by_cases hge : item_start b ≥ b.reqend
    · rw [if_pos hge, if_pos hge]
    · rw [if_neg hge, if_neg hge, hv]
      cases hvb : (ctl_getitem env (some peer_var) b).v with
      | none => rfl
      | some v =>
        dsimp only
        by_cases he : v.flags.eov = true
        · rw [if_pos he, if_pos he]
        · rw [if_neg he, if_neg he]
          obtain ⟨a1, a2, -⟩ := getitem_state env (some peer_var) a
          obtain ⟨b1, b2, -⟩ := getitem_state env (some peer_var) b
          rw [ih (ctl_getitem env (some peer_var) a).st (ctl_getitem env (some peer_var) b).st
            (by rw [a2, b2, hD]) (hq (by rw [hv, hvb]; simp)) (by rw [a1, b1, hE])]

/-- The run of `read_peervars` on a request whose items are all peer variables
with values that fit: the item loop ends at the end of the data, and the
response is the output of the variables of `peer_codes_out`, then
`ctl_flushpkt(0)`. -/
theorem read_peervars_form (env : Env) (s : CtlState) (peer : Nat) (cs : List Nat)
    (hpeer : env.findpeerbyassoc s.res_associd = some peer)
    (hc : peer_item_codes env (s.reqend + 1) s = some cs) :
    (∀ c ∈ cs, 1 ≤ c ∧ c ≤ CP_MAXCODE) ∧
    ∃ q, item_start { s with reqpt := q } ≥ s.reqend ∧
      read_peervars env s = ctl_flushpkt env 0
        ((peer_codes_out cs).foldl (fun t i => ctl_putpeer env i peer t)
          { read_peervars_start env peer s with reqpt := q }) := by
  have hsP : (read_peervars_start env peer s).reqpt = s.reqpt := by
    unfold read_peervars_start; dsimp only; split_ifs <;> rfl
  have hsD : (read_peervars_start env peer s).reqdata = s.reqdata := by
    unfold read_peervars_start; dsimp only; split_ifs <;> rfl
  have hsE : (read_peervars_start env peer s).reqend = s.reqend := by
    unfold read_peervars_start; dsimp only; split_ifs <;> rfl
  have hc0 : peer_item_codes env ((read_peervars_start env peer s).reqend + 1)
      (read_peervars_start env peer s) = some cs := by
    rw [hsE, peer_item_codes_request env _ _ s hsD hsP hsE]; exact hc
  obtain ⟨hrange, q, hrun, hend⟩ := read_peervars_items_codes env
    ((read_peervars_start env peer s).reqend + 1) (List.replicate (CP_MAXCODE + 1) false) false
    (read_peervars_start env peer s) cs hc0
  refine ⟨hrange, q, ?_, ?_⟩
  · have h1 := hend (by omega)
    have hi : item_start { s with reqpt := q }
        = item_start { read_peervars_start env peer s with reqpt := q } :=
      (getitem_request env [] { s with reqpt := q }
        { read_peervars_start env peer s with reqpt := q } hsD.symm rfl hsE.symm).1
    rw [hi]
    exact Nat.le_trans (Nat.le_of_eq hsE.symm) h1
  · have hunf : read_peervars env s =
        match (read_peervars_items env ((read_peervars_start env peer s).reqend + 1)
          (List.replicate (CP_MAXCODE + 1) false) false (read_peervars_start env peer s)).1 with
        | none => (read_peervars_items env ((read_peervars_start env peer s).reqend + 1)
            (List.replicate (CP_MAXCODE + 1) false) false (read_peervars_start env peer s)).2
        | some (wants, gotvar) =>
          ctl_flushpkt env 0
            (if gotvar then
              (List.range' 1 CP_MAXCODE).foldl
                (fun t i => if wants.getD i false then ctl_putpeer env i peer t else t)
                (read_peervars_items env ((read_peervars_start env peer s).reqend + 1)
                  (List.replicate (CP_MAXCODE + 1) false) false
                  (read_peervars_start env peer s)).2
            else
              def_peer_var.foldl (fun t cp => ctl_putpeer env cp peer t)
                (read_peervars_items env ((read_peervars_start env peer s).reqend + 1)
                  (List.replicate (CP_MAXCODE + 1) false) false
                  (read_peervars_start env peer s)).2) := by
      unfold read_peervars
      rw [hpeer]
      rfl
    rw [hunf, hrun]
    dsimp only
    unfold peer_codes_out
    by_cases hnil : cs = []
    · subst hnil
      simp
    · rw [if_neg hnil]
      have hg : (false || !cs.isEmpty) = true := by
        cases cs with
        | nil => exact absurd rfl hnil
        | cons c r => rfl
      rw [hg]
      simp only [if_true]
      rw [foldl_marked]
      congr 2
      apply List.filter_congr
      intro i hi
      have hi2 : i < CP_MAXCODE + 1 := by
        have := List.mem_range'_1.mp hi
        omega
      have hw := wants_marked cs (List.replicate (CP_MAXCODE + 1) false) i
      have h0 : (List.replicate (CP_MAXCODE + 1) false).getD i false = false := by
        rw [List.getD_eq_getElem?_getD, List.getElem?_replicate]
        split_ifs; rfl
      rw [h0] at hw
      simp only [Bool.false_eq_true, false_or, List.length_replicate] at hw
      by_cases hm : i ∈ cs
      · rw [hw.mpr ⟨hm, hi2⟩]; simp [hm]
      · have : (cs.foldl (fun w c => w.set c true)
            (List.replicate (CP_MAXCODE + 1) false)).getD i false = false := by
          cases hx : (cs.foldl (fun w c => w.set c true)
            (List.replicate (CP_MAXCODE + 1) false)).getD i false with
          | false => rfl
          | true => exact absurd (hw.mp hx).1 hm
        rw [this]; simp [hm]

/-- The variables put out depend on the set of the item codes only. -/
theorem peer_codes_out_set (ca cb : List Nat) (hset : ∀ c, c ∈ ca ↔ c ∈ cb) :
    peer_codes_out ca = peer_codes_out cb := by
  unfold peer_codes_out
  have hnil : ca = [] ↔ cb = [] := by
    constructor
    · intro h
      apply List.eq_nil_iff_forall_not_mem.mpr
      intro c hc
      have := (hset c).mpr hc
      rw [h] at this
      exact absurd this (List.not_mem_nil c)
    · intro h
      apply List.eq_nil_iff_forall_not_mem.mpr
      intro c hc
      have := (hset c).mp hc
      rw [h] at this
      exact absurd this (List.not_mem_nil c)
  by_cases h : ca = []
  · rw [if_pos h, if_pos (hnil.mp h)]
  · rw [if_neg h, if_neg (fun hb => h (hnil.mpr hb))]
    apply List.filter_congr
    intro i _
    simp only [hset i]

/-- The first statements of `read_peervars` neither read nor write the
request. -/
theorem with_request_start (env : Env) (peer : Nat) (s : CtlState) (D : List Nat)
    (p e : Nat) :
    read_peervars_start env peer (with_request s D p e)
      = with_request (read_peervars_start env peer s) D p e := by
  unfold read_peervars_start
  dsimp only
  by_cases h : s.res_authokay = true
  · rw [if_pos (by exact h), if_pos h]; rfl
  · rw [if_neg (by exact h), if_neg h]; rfl

/-- The part of claim C40 that holds. For READVAR with a nonzero association
id of a known peer and items that all name peer variables and carry no value
of 128 bytes or more (`peer_item_codes` gives their codes), the item loop reads the request
to its end and the response is the output of the variables of
`peer_codes_out`, then `ctl_flushpkt(0)`: the default list when there is no
item, else the variables asked for, once each in ascending code order. A
request with the same set of item codes, in another order or with
repetitions, leaves the same state but for the request fields, and so the
same datagrams sent. -/
theorem readvar_peer_set_of_names (env : Env) (rbufp : recvbuf) (mask : Int) (a : CtlState)
    (D : List Nat) (p e peer : Nat) (ca cb : List Nat)
    (hassoc : a.res_associd ≠ 0)
    (hpeer : env.findpeerbyassoc a.res_associd = some peer)
    (ha : peer_item_codes env (a.reqend + 1) a = some ca)
    (hb : peer_item_codes env (e + 1) (with_request a D p e) = some cb)
    (hset : ∀ c, c ∈ ca ↔ c ∈ cb) :
    (∃ q, item_start { a with reqpt := q } ≥ a.reqend ∧
      read_variables env rbufp mask a = ctl_flushpkt env 0
        ((peer_codes_out ca).foldl (fun t i => ctl_putpeer env i peer t)
          { read_peervars_start env peer a with reqpt := q })) ∧
    (∃ q, item_start (with_request a D q e) ≥ e ∧
      read_variables env rbufp mask (with_request a D p e)
        = with_request (read_variables env rbufp mask a) D q e) ∧
    (read_variables env rbufp mask (with_request a D p e)).sent
      = (read_variables env rbufp mask a).sent ∧
    (ca ≠ [] → (peer_codes_out ca).Pairwise (fun x y => x < y)
      ∧ ∀ c, c ∈ peer_codes_out ca ↔ c ∈ ca) := by
  obtain ⟨ra, qa, ea, fa⟩ := read_peervars_form env a peer ca hpeer ha
  obtain ⟨-, qb, eb, fb⟩ := read_peervars_form env (with_request a D p e) peer cb hpeer hb
  have hva : read_variables env rbufp mask a = read_peervars env a := by
    unfold read_variables; rw [if_pos hassoc]
  have hvb : read_variables env rbufp mask (with_request a D p e)
      = read_peervars env (with_request a D p e) := by
    unfold read_variables; rw [if_pos (by exact hassoc)]
  have hrel : read_peervars env (with_request a D p e)
      = with_request (read_peervars env a) D qb e := by
    rw [fb, fa, ← peer_codes_out_set ca cb hset, with_request_start,
      ← with_request_flushpkt, ← with_request_putpeers]
    rfl
  refine ⟨⟨qa, ea, by rw [hva, fa]⟩, ⟨qb, eb, by rw [hvb, hva, hrel]⟩,
    by rw [hvb, hva, hrel]; rfl, ?_⟩
  intro hne
  unfold peer_codes_out
  rw [if_neg hne]
  refine ⟨List.Pairwise.filter _ (List.pairwise_lt_range' 1 CP_MAXCODE), ?_⟩
  intro c
  rw [List.mem_filter]
  constructor
  · intro h; simpa using h.2
  · intro h
    have := ra c h
    exact ⟨List.mem_range'_1.mpr ⟨this.1, by omega⟩, by simpa using h⟩

/-- The theorem `readvar_peer_set_of_names` on the requests `srcadr,dstadr`
and `dstadr, srcadr,dstadr` for
association id 1 are answered with the same datagram, whose data area is the
variable 4 and then the variable 6. -/
theorem readvar_peer_set_of_names_witness :
    (read_variables peer_env peer_request 0
        (with_request (peer_request_state (str "srcadr,dstadr"))
          (str "dstadr, srcadr,dstadr") 0 21)).sent
      = (read_variables peer_env peer_request 0 (peer_request_state (str "srcadr,dstadr"))).sent
    ∧ peer_codes_out [4, 6] = [4, 6]
    ∧ (read_variables peer_env peer_request 0
        (peer_request_state (str "srcadr,dstadr"))).sent.map Datagram.data_area
      = [str "p04, p06" ++ [13, 10]] :=
  ⟨(readvar_peer_set_of_names peer_env peer_request 0 (peer_request_state (str "srcadr,dstadr"))
      (str "dstadr, srcadr,dstadr") 0 21 0 [4, 6] [6, 4, 6]
      (by decide) (by decide) (by decide) (by decide) (by simp)).2.2.1,
   by decide, by decide⟩

/-- Claim C40 fails on this input: the items `srcadr` with a value of 128
bytes and `dstadr`, in both orders, for association id 1. `ctl_getitem`
answers the long value with the BADFMT error response and returns NULL, and
`read_peervars` takes that for the end of the items and goes on to a data
response, where every other error path returns: with the long item first the
data are the 34 default variables (172 bytes), with `dstadr` first they are
the variable 6 alone. -/
theorem readvar_peer_order_matters :
    (read_variables peer_env peer_request 0
        (peer_request_state (long_srcadr ++ str ",dstadr"))).sent.map
      (fun d => (d.r_m_e_op, d.status, d.count))
      = [(CTL_RESPONSE ||| CTL_ERROR ||| 2, CERR_BADFMT * 256, 0),
         (CTL_RESPONSE ||| 2, CERR_BADFMT * 256, 172)]
    ∧ (read_variables peer_env peer_request 0
        (peer_request_state (str "dstadr," ++ long_srcadr))).sent.map
      (fun d => (d.r_m_e_op, d.status, d.data_area))
      = [(CTL_RESPONSE ||| CTL_ERROR ||| 2, CERR_BADFMT * 256, []),
         (CTL_RESPONSE ||| 2, CERR_BADFMT * 256, str "p06" ++ [13, 10])] := by
  decide

end NtpControl
